import Mathlib

/-! # WaterSim: FLIP fluid simulation (3D engine)

A shallow embedding of `3d/FLIP.cpp` and of the grid it works on, with the
properties of the specification proved about it.

Conventions of the embedding.

* `double` is modelled by `ℚ` (exact arithmetic); `unsigned` indices by `ℕ`
  (every `i-1` of the source sits under a guard `i > 0` / `i != 0`).
* A method that can hit an index fault returns `Option`: `none` is the fault.
* A `for (unsigned i = 0; i < n; ++i)` loop is `forLoop n body`.
-/

namespace WaterSim

/-! ## Loops -/

/-- The iterations `i, i+1, ...` of a counting loop, `fuel` of them; a fault in
the body ends the run. -/
def forLoopFrom {σ : Type} (body : ℕ → σ → Option σ) : ℕ → ℕ → σ → Option σ
  | 0, _, s => some s
  | fuel + 1, i, s => (body i s).bind (forLoopFrom body fuel (i + 1))

/-- The loop `for (unsigned i = 0; i < n; ++i) body`. -/
def forLoop {σ : Type} (n : ℕ) (body : ℕ → σ → Option σ) (s : σ) : Option σ :=
  forLoopFrom body n 0 s

/-- The loop nest `for k < nz { for j < ny { for i < nx { body i j k } } }`. -/
def forLoop3 {σ : Type} (nx ny nz : ℕ) (body : ℕ → ℕ → ℕ → σ → Option σ) (s : σ) : Option σ :=
  forLoop nz (fun k => forLoop ny (fun j => forLoop nx (fun i => body i j k))) s

/-- The C++ expression `a && b` where only `b` can fault: `b` is evaluated only when `a` holds. -/
def scAnd (a : Bool) (b : Option Bool) : Option Bool :=
  if a then b else some false

/-- The C++ expression `a || b` where only `b` can fault: `b` is evaluated only when `a` fails. -/
def scOr (a : Bool) (b : Option Bool) : Option Bool :=
  if a then some true else b

/-! ## Data model -/

/-- `Eigen::Triplet<double>`: an entry `(row, col, value)` of a sparse matrix. -/
structure Triplet_t where
  row : ℕ
  col : ℕ
  value : ℚ

/-- `Eigen::Vector3d`, read with `v(0)`, `v(1)`, `v(2)`. -/
structure Vector3d where
  x : ℚ
  y : ℚ
  z : ℚ

/-- Modelled from the spec: the class `Particle` (its source file is not among the
sources). Section 3: a particle has a position, a previous position and a velocity. -/
structure Particle where
  position : Vector3d
  prev_position : Vector3d
  velocity : Vector3d

/-- The accessor `Particle::get_velocity`. -/
def Particle.get_velocity (p : Particle) : Vector3d := p.velocity

/-- Modelled from the spec: the class `Mac3d` (its source file is not among the
sources; the 2D sibling `Mac2d.cpp` is). Section 3: dimensions `N × M × L`, a cell
size per axis, staggered velocity fields `u : (N+1)×M×L`, `v : N×(M+1)×L`,
`w : N×M×(L+1)`, pressure `N×M×L`, one solid and one fluid flag per cell (two flag
arrays, as in `Mac2d`), and the precomputed diagonal value of every cell, addressed
by the linear cell index `i + j*N + k*N*M`.

Fields are addressed by their integer index triple. The spec lists bounds-checked
accessors for the staggered fields and the pressure (sections 4.1 and 7); it does not
say what a classification query outside the `N × M × L` cell shape does, so that is a
parameter of the model: `solid_outside` and `fluid_outside` hold the answer of
`is_solid` and `is_fluid` there (`none`: the query faults on its bounds assertion, as
`Mac2d::is_solid` does; `some b`: it answers `b`).

The weight accumulators of section 3 ("one per velocity-component array, same shape as
that array") are `pweights_u_`, `pweights_v_`, `pweights_w_`; a grid written without
them has them zero. -/
structure Mac3d where
  N_ : ℕ
  M_ : ℕ
  L_ : ℕ
  cell_sizex_ : ℚ
  cell_sizey_ : ℚ
  cell_sizez_ : ℚ
  ppressure_ : ℕ → ℕ → ℕ → ℚ
  pu_ : ℕ → ℕ → ℕ → ℚ
  pv_ : ℕ → ℕ → ℕ → ℚ
  pw_ : ℕ → ℕ → ℕ → ℚ
  psolid_ : ℕ → ℕ → ℕ → Bool
  pfluid_ : ℕ → ℕ → ℕ → Bool
  A_diag_ : ℕ → ℚ
  solid_outside : Option Bool
  fluid_outside : Option Bool
  pweights_u_ : ℕ → ℕ → ℕ → ℚ := fun _ _ _ => 0
  pweights_v_ : ℕ → ℕ → ℕ → ℚ := fun _ _ _ => 0
  pweights_w_ : ℕ → ℕ → ℕ → ℚ := fun _ _ _ => 0

/-- The write `a[i][j][k] = x` on a field addressed by index triples. -/
def write3 {α : Type} (a : ℕ → ℕ → ℕ → α) (i j k : ℕ) (x : α) : ℕ → ℕ → ℕ → α :=
  fun i' j' k' => if i' = i ∧ j' = j ∧ k' = k then x else a i' j' k'

namespace Mac3d

def get_num_cells_x (g : Mac3d) : ℕ := g.N_

def get_num_cells_y (g : Mac3d) : ℕ := g.M_

def get_num_cells_z (g : Mac3d) : ℕ := g.L_

def get_cell_sizex (g : Mac3d) : ℚ := g.cell_sizex_

def get_cell_sizey (g : Mac3d) : ℚ := g.cell_sizey_

def get_cell_sizez (g : Mac3d) : ℚ := g.cell_sizez_

/-- Modelled from the spec: `Mac3d::get_u`, bounds-checked on the shape `(N+1)×M×L`. -/
def get_u (g : Mac3d) (i j k : ℕ) : Option ℚ :=
  if i < g.N_ + 1 ∧ j < g.M_ ∧ k < g.L_ then some (g.pu_ i j k) else none

/-- Modelled from the spec: `Mac3d::get_v`, bounds-checked on the shape `N×(M+1)×L`. -/
def get_v (g : Mac3d) (i j k : ℕ) : Option ℚ :=
  if i < g.N_ ∧ j < g.M_ + 1 ∧ k < g.L_ then some (g.pv_ i j k) else none

/-- Modelled from the spec: `Mac3d::get_w`, bounds-checked on the shape `N×M×(L+1)`. -/
def get_w (g : Mac3d) (i j k : ℕ) : Option ℚ :=
  if i < g.N_ ∧ j < g.M_ ∧ k < g.L_ + 1 then some (g.pw_ i j k) else none

/-- Modelled from the spec: `Mac3d::get_pressure`, bounds-checked on the shape `N×M×L`. -/
def get_pressure (g : Mac3d) (i j k : ℕ) : Option ℚ :=
  if i < g.N_ ∧ j < g.M_ ∧ k < g.L_ then some (g.ppressure_ i j k) else none

/-- Modelled from the spec: `Mac3d::is_solid`; inside the cell shape the stored flag,
outside it the parameter `solid_outside`. -/
def is_solid (g : Mac3d) (i j k : ℕ) : Option Bool :=
  if i < g.N_ ∧ j < g.M_ ∧ k < g.L_ then some (g.psolid_ i j k) else g.solid_outside

/-- Modelled from the spec: `Mac3d::is_fluid`; inside the cell shape the stored flag,
outside it the parameter `fluid_outside`. -/
def is_fluid (g : Mac3d) (i j k : ℕ) : Option Bool :=
  if i < g.N_ ∧ j < g.M_ ∧ k < g.L_ then some (g.pfluid_ i j k) else g.fluid_outside

/-- Modelled from the spec: `Mac3d::get_a_diag()[idx]`. Section 3: one precomputed
value per cell, "used directly as the pressure-matrix diagonal entry", so the triplet
stored for the cell with linear index `idx` is `(idx, idx, value)`; an index past the
last cell is a fault. -/
def get_a_diag (g : Mac3d) (idx : ℕ) : Option Triplet_t :=
  if idx < g.N_ * g.M_ * g.L_ then some ⟨idx, idx, g.A_diag_ idx⟩ else none

/-- Modelled from the spec: `Mac3d::set_u`, bounds-checked on the shape `(N+1)×M×L`. -/
def set_u (g : Mac3d) (i j k : ℕ) (value : ℚ) : Option Mac3d :=
  if i < g.N_ + 1 ∧ j < g.M_ ∧ k < g.L_ then some { g with pu_ := write3 g.pu_ i j k value }
  else none

/-- Modelled from the spec: `Mac3d::set_v`, bounds-checked on the shape `N×(M+1)×L`. -/
def set_v (g : Mac3d) (i j k : ℕ) (value : ℚ) : Option Mac3d :=
  if i < g.N_ ∧ j < g.M_ + 1 ∧ k < g.L_ then some { g with pv_ := write3 g.pv_ i j k value }
  else none

/-- Modelled from the spec: `Mac3d::set_w`, bounds-checked on the shape `N×M×(L+1)`. -/
def set_w (g : Mac3d) (i j k : ℕ) (value : ℚ) : Option Mac3d :=
  if i < g.N_ ∧ j < g.M_ ∧ k < g.L_ + 1 then some { g with pw_ := write3 g.pw_ i j k value }
  else none

/-- Modelled from the spec: `Mac3d::set_pressure(const Eigen::VectorXd&)`, the bulk
assignment of section 4.1 "from a dense vector ordered by `i + j*N + k*N*M`". -/
def set_pressure (g : Mac3d) (p : ℕ → ℚ) : Mac3d :=
  { g with ppressure_ := fun i j k =>
      if i < g.N_ ∧ j < g.M_ ∧ k < g.L_ then p (i + j * g.N_ + k * g.N_ * g.M_)
      else g.ppressure_ i j k }

end Mac3d

/-- The state of a `FLIP` object: the particle array, the grid it points to, the
constants set by the constructor, and the linear system `A_`, `d_`. The sparse
matrix `A_` is kept as the triplets it was set from (`setFromTriplets` adds up the
values of triplets with equal row and column); the vector `d_` by its entries. -/
structure FLIP where
  particles_ : List Particle
  MACGrid_ : Mac3d
  fluid_density_ : ℚ
  gravity_mag_ : ℚ
  alpha_ : ℚ
  A_ : List Triplet_t
  d_ : ℕ → ℚ

/-- The entry `A(r, c)` of the sparse matrix set from the triplet list `T`. -/
def coeff (T : List Triplet_t) (r c : ℕ) : ℚ :=
  (T.map (fun t => if t.row = r ∧ t.col = c then t.value else 0)).sum

/-- The entry `r` of the product `A * p` for an `n × n` matrix set from `T`. -/
def mulVec (T : List Triplet_t) (n : ℕ) (p : ℕ → ℚ) (r : ℕ) : ℚ :=
  ∑ c ∈ Finset.range n, coeff T r c * p c

namespace FLIP

/-! ## Boundary conditions (`FLIP::apply_boundary_conditions`) -/

/-- Body of the solid-wall loop at cell `(i, j, k)`. -/
def bc_solid_cell (i j k : ℕ) (g : Mac3d) : Option Mac3d :=
  (g.is_solid i j k).bind fun ijk_solid =>
  (scOr ijk_solid (g.is_solid (i + 1) j k)).bind fun cu =>
  (if cu then g.set_u (i + 1) j k 0 else some g).bind fun g1 =>
  (scOr ijk_solid (g1.is_solid i (j + 1) k)).bind fun cv =>
  (if cv then g1.set_v i (j + 1) k 0 else some g1).bind fun g2 =>
  (scOr ijk_solid (g2.is_solid i j (k + 1))).bind fun cw =>
  if cw then g2.set_w i j (k + 1) 0 else some g2

/-- Body of the first outer-boundary loop: `set_v(i, 0, k, 0); set_v(i, ny, k, 0)`. -/
def bc_outer_v (ny : ℕ) (i k : ℕ) (g : Mac3d) : Option Mac3d :=
  (g.set_v i 0 k 0).bind fun g1 => g1.set_v i ny k 0

/-- Body of the second outer-boundary loop: `set_u(0, j, k, 0); set_u(nx, j, k, 0)`. -/
def bc_outer_u (nx : ℕ) (j k : ℕ) (g : Mac3d) : Option Mac3d :=
  (g.set_u 0 j k 0).bind fun g1 => g1.set_u nx j k 0

/-- Body of the third outer-boundary loop: `set_w(i, j, 0, 0); set_w(i, j, nz, 0)`. -/
def bc_outer_w (nz : ℕ) (i j : ℕ) (g : Mac3d) : Option Mac3d :=
  (g.set_w i j 0 0).bind fun g1 => g1.set_w i j nz 0

/-- The grid part of `FLIP::apply_boundary_conditions`: the solid-wall loop nest, then
the three outer-boundary loop nests. -/
def apply_boundary_conditions_grid (g : Mac3d) : Option Mac3d :=
  let nx := g.get_num_cells_x
  let ny := g.get_num_cells_y
  let nz := g.get_num_cells_z
  (forLoop3 nx ny nz bc_solid_cell g).bind fun g1 =>
  (forLoop nz (fun k => forLoop nx (fun i => bc_outer_v ny i k)) g1).bind fun g2 =>
  (forLoop nz (fun k => forLoop ny (fun j => bc_outer_u nx j k)) g2).bind fun g3 =>
  forLoop ny (fun j => forLoop nx (fun i => bc_outer_w nz i j)) g3

/-- `FLIP::apply_boundary_conditions`. -/
def apply_boundary_conditions (f : FLIP) : Option FLIP :=
  (apply_boundary_conditions_grid f.MACGrid_).map fun g => { f with MACGrid_ := g }

/-! ## Pressure solve (`FLIP::do_pressures` and its parts) -/

/-- The statement `triplets.push_back(Triplet_t(r, c, -1)); triplets.push_back(Triplet_t(c, r, -1))`
under its guard `b`. -/
def push_pair (b : Bool) (r c : ℕ) (triplets : List Triplet_t) : List Triplet_t :=
  if b then triplets ++ [⟨r, c, -1⟩, ⟨c, r, -1⟩] else triplets

/-- Body of the loop nest of `compute_pressure_matrix` at cell `(i, j, k)`; the state is
the triplet vector and the running counter `cellidx` (incremented by the innermost
`for`). -/
def compute_pressure_matrix_cell (g : Mac3d) (i j k : ℕ) (st : List Triplet_t × ℕ) :
    Option (List Triplet_t × ℕ) :=
  let nx := g.get_num_cells_x
  let ny := g.get_num_cells_y
  let nz := g.get_num_cells_z
  let cellidx := st.2
  (g.get_a_diag (i + j * nx + nx * ny * k)).bind fun diag_e =>
  let t0 := st.1 ++ [diag_e]
  (g.is_fluid i j k).bind fun fl =>
  if fl then
    (scAnd (decide (i + 1 < nx)) (g.is_fluid (i + 1) j k)).bind fun cx =>
    let t1 := push_pair cx cellidx (cellidx + 1) t0
    (scAnd (decide (j + 1 < ny)) (g.is_fluid i (j + 1) k)).bind fun cy =>
    let t2 := push_pair cy cellidx (cellidx + nx) t1
    (scAnd (decide (k + 1 < nz)) (g.is_fluid i j (k + 1))).bind fun cz =>
    let t3 := push_pair cz cellidx (cellidx + nx * ny) t2
    some (t3, cellidx + 1)
  else
    some (t0, cellidx + 1)

/-- `FLIP::compute_pressure_matrix`: collect the triplets cell by cell, then
`A_.setFromTriplets`. -/
def compute_pressure_matrix (f : FLIP) : Option FLIP :=
  let g := f.MACGrid_
  (forLoop3 g.get_num_cells_x g.get_num_cells_y g.get_num_cells_z
      (compute_pressure_matrix_cell g) ([], 0)).map
    fun st => { f with A_ := st.1 }

/-- The statement `if (c) d_ij += x;` where reading `x` can fault. -/
def add_if (c : Bool) (x : Option ℚ) (d_ij : ℚ) : Option ℚ :=
  if c then x.map (fun v => d_ij + v) else some d_ij

/-- The write `d_(idx) = x` on a vector of size `n` (`Eigen` checks the index). -/
def vec_set (n : ℕ) (d : ℕ → ℚ) (idx : ℕ) (x : ℚ) : Option (ℕ → ℚ) :=
  if idx < n then some (fun m => if m = idx then x else d m) else none

/-- The first three statements of the fluid branch of `compute_pressure_rhs`: minus the
sum of the three face differences of cell `(i, j, k)`. -/
def rhs_divergence (g : Mac3d) (i j k : ℕ) : Option ℚ :=
  (g.get_u (i + 1) j k).bind fun (u1 : ℚ) =>
  (g.get_u i j k).bind fun (u0 : ℚ) =>
  (g.get_v i (j + 1) k).bind fun (v1 : ℚ) =>
  (g.get_v i j k).bind fun (v0 : ℚ) =>
  (g.get_w i j (k + 1)).bind fun (w1 : ℚ) =>
  (g.get_w i j k).bind fun (w0 : ℚ) =>
  some (-(u1 - u0) - (v1 - v0) - (w1 - w0))

/-- One of the six statements `if ((inside && is_solid(nb)) || at_border) d_ij += face;`
of `compute_pressure_rhs`: `nb_solid` is the guarded query `inside && is_solid(nb)`. -/
def rhs_correction (nb_solid : Option Bool) (at_border : Bool) (face : Option ℚ) (d_ij : ℚ) :
    Option ℚ :=
  nb_solid.bind fun (c : Bool) => add_if (c || at_border) face d_ij

/-- Body of the loop nest of `compute_pressure_rhs` at cell `(i, j, k)`; the state is
the vector `d_` and the running counter `cellidx`. -/
def compute_pressure_rhs_cell (g : Mac3d) (fluid_density dt : ℚ) (i j k : ℕ)
    (st : (ℕ → ℚ) × ℕ) : Option ((ℕ → ℚ) × ℕ) :=
  let nx := g.get_num_cells_x
  let ny := g.get_num_cells_y
  let nz := g.get_num_cells_z
  let cellidx := st.2
  (g.is_fluid i j k).bind fun (fl : Bool) =>
  if fl then
    (rhs_divergence g i j k).bind fun (d0 : ℚ) =>
    (rhs_correction (scAnd (decide (i < nx - 1)) (g.is_solid (i + 1) j k)) (decide (i = nx - 1))
      (g.get_u (i + 1) j k) d0).bind fun (d1 : ℚ) =>
    (rhs_correction (scAnd (decide (i > 0)) (g.is_solid (i - 1) j k)) (decide (i = 0))
      (g.get_u i j k) d1).bind fun (d2 : ℚ) =>
    (rhs_correction (scAnd (decide (j < ny - 1)) (g.is_solid i (j + 1) k)) (decide (j = ny - 1))
      (g.get_v i (j + 1) k) d2).bind fun (d3 : ℚ) =>
    (rhs_correction (scAnd (decide (j > 0)) (g.is_solid i (j - 1) k)) (decide (j = 0))
      (g.get_v i j k) d3).bind fun (d4 : ℚ) =>
    (rhs_correction (scAnd (decide (k < nz - 1)) (g.is_solid i j (k + 1))) (decide (k = nz - 1))
      (g.get_w i j (k + 1)) d4).bind fun (d5 : ℚ) =>
    (rhs_correction (scAnd (decide (k > 0)) (g.is_solid i j (k - 1))) (decide (k = 0))
      (g.get_w i j k) d5).bind fun (d_ij : ℚ) =>
    (vec_set (nx * ny * nz) st.1 cellidx (fluid_density * g.get_cell_sizex * d_ij / dt)).map
      fun d => (d, cellidx + 1)
  else
    (vec_set (nx * ny * nz) st.1 cellidx 0).map fun d => (d, cellidx + 1)

/-- `FLIP::compute_pressure_rhs`: `d_` is resized, zeroed and filled cell by cell. -/
def compute_pressure_rhs (f : FLIP) (dt : ℚ) : Option FLIP :=
  let g := f.MACGrid_
  (forLoop3 g.get_num_cells_x g.get_num_cells_y g.get_num_cells_z
      (compute_pressure_rhs_cell g f.fluid_density_ dt) (fun _ => 0, 0)).map
    fun st => { f with d_ := st.1 }

/-- Body of the loop nest of `apply_pressure_gradients` at cell `(i, j, k)`; `dx` is
the cell size read before the loops. -/
def apply_pressure_gradients_cell (fluid_density dt dx : ℚ) (i j k : ℕ) (g : Mac3d) :
    Option Mac3d :=
  (if i ≠ 0 then
      (g.get_pressure i j k).bind fun p1 =>
      (g.get_pressure (i - 1) j k).bind fun p0 =>
      let du := (p1 - p0) * (dt / (dx * fluid_density))
      (g.get_u i j k).bind fun u => g.set_u i j k (u - du)
    else some g).bind fun g1 =>
  (if j ≠ 0 then
      (g1.get_pressure i j k).bind fun p1 =>
      (g1.get_pressure i (j - 1) k).bind fun p0 =>
      let dv := (p1 - p0) * (dt / (dx * fluid_density))
      (g1.get_v i j k).bind fun v => g1.set_v i j k (v - dv)
    else some g1).bind fun g2 =>
  if k ≠ 0 then
    (g2.get_pressure i j k).bind fun p1 =>
    (g2.get_pressure i j (k - 1)).bind fun p0 =>
    let dw := (p1 - p0) * (dt / (dx * fluid_density))
    (g2.get_w i j k).bind fun w => g2.set_w i j k (w - dw)
  else some g2

/-- `FLIP::apply_pressure_gradients`. -/
def apply_pressure_gradients (f : FLIP) (dt : ℚ) : Option FLIP :=
  let g := f.MACGrid_
  (forLoop3 g.get_num_cells_x g.get_num_cells_y g.get_num_cells_z
      (apply_pressure_gradients_cell f.fluid_density_ dt g.get_cell_sizex) g).map
    fun g' => { f with MACGrid_ := g' }

/-- `FLIP::do_pressures`. The linear solver (Eigen's preconditioned conjugate gradient)
is a parameter: `solve A n d` is the vector it returns for the `n × n` system
`A p = d`. -/
def do_pressures (solve : List Triplet_t → ℕ → (ℕ → ℚ) → (ℕ → ℚ)) (f : FLIP) (dt : ℚ) :
    Option FLIP :=
  (compute_pressure_matrix f).bind fun f1 =>
  (compute_pressure_rhs f1 dt).bind fun f2 =>
  let g := f2.MACGrid_
  let p := solve f2.A_ (g.get_num_cells_x * g.get_num_cells_y * g.get_num_cells_z) f2.d_
  apply_pressure_gradients { f2 with MACGrid_ := g.set_pressure p } dt

/-! ## Time step (`FLIP::compute_timestep`, step 6 of `FLIP::step_FLIP`) -/

/-- The first loop of `compute_timestep`: per axis, the velocity component of largest
absolute value over the particles (`u_max`, `v_max`, `w_max`, starting from 0). -/
def max_velocities (particles : List Particle) : ℚ × ℚ × ℚ :=
  particles.foldl
    (fun m p =>
      let vel := p.get_velocity
      (if |vel.x| > |m.1| then vel.x else m.1,
       if |vel.y| > |m.2.1| then vel.y else m.2.1,
       if |vel.z| > |m.2.2| then vel.z else m.2.2))
    (0, 0, 0)

/-- `FLIP::compute_timestep`. -/
def compute_timestep (f : FLIP) (dt : ℚ) : ℚ :=
  let m := max_velocities f.particles_
  let u_max := m.1
  let v_max := m.2.1
  let w_max := m.2.2
  let dt_new1 :=
    if u_max = 0 then dt
    else
      let t := |f.MACGrid_.get_cell_sizex / u_max|
      if t > dt then dt else t
  let dt_new2 :=
    if v_max = 0 then dt
    else
      let tmp := |f.MACGrid_.get_cell_sizey / v_max|
      let t := if tmp < dt_new1 then tmp else dt_new1
      if t > dt then dt else t
  let dt_new3 :=
    if w_max = 0 then dt
    else
      let tmp := |f.MACGrid_.get_cell_sizez / w_max|
      let t := if tmp < dt_new2 then tmp else dt_new2
      if t > dt then dt else t
  dt_new3

/-- Step 6 of `FLIP::step_FLIP` (the last lines of the function): the time step is
computed once, then `advance_particles(dt_new, step)` runs for `s = 0, 1, ...` while
`s < num_substeps`, which is `⌈dt / dt_new⌉` times (none if that is not positive).
`advance_particles` is a parameter, acting on any state `σ`. -/
def step_FLIP_advance {σ : Type} (advance_particles : ℚ → ℕ → σ → Option σ)
    (f : FLIP) (dt : ℚ) (step : ℕ) (s : σ) : Option σ :=
  let dt_new := compute_timestep f dt
  let num_substeps : ℤ := ⌈dt / dt_new⌉
  forLoop num_substeps.toNat (fun _ => advance_particles dt_new step) s

/-- The calls `advance_particles(dt_new, step)` made by step 6 of `step_FLIP`, in order,
each given by its two arguments. -/
def step_FLIP_substeps (f : FLIP) (dt : ℚ) (step : ℕ) : Option (List (ℚ × ℕ)) :=
  step_FLIP_advance (fun d st log => some (log ++ [(d, st)])) f dt step []

end FLIP

/-! ## Specification vocabulary: boundary conditions -/

/-- `g'` is `g` with some velocity faces set to zero and nothing else changed. -/
structure ZeroedFrom (g g' : Mac3d) : Prop where
  hN : g'.N_ = g.N_
  hM : g'.M_ = g.M_
  hL : g'.L_ = g.L_
  hsolid : g'.psolid_ = g.psolid_
  hout : g'.solid_outside = g.solid_outside
  hu : ∀ i j k, g'.pu_ i j k = g.pu_ i j k ∨ g'.pu_ i j k = 0
  hv : ∀ i j k, g'.pv_ i j k = g.pv_ i j k ∨ g'.pv_ i j k = 0
  hw : ∀ i j k, g'.pw_ i j k = g.pw_ i j k ∨ g'.pw_ i j k = 0

/-- Cell `(i, j, k)` lies in the grid and carries the solid flag. -/
def solidCell (g : Mac3d) (i j k : ℕ) : Prop :=
  i < g.N_ ∧ j < g.M_ ∧ k < g.L_ ∧ g.psolid_ i j k = true

/-- What the solid-wall loop establishes for cell `(i, j, k)`. -/
def SolidFacesZero (i j k : ℕ) (g : Mac3d) : Prop :=
  ((solidCell g i j k ∨ solidCell g (i + 1) j k) → g.pu_ (i + 1) j k = 0) ∧
  ((solidCell g i j k ∨ solidCell g i (j + 1) k) → g.pv_ i (j + 1) k = 0) ∧
  ((solidCell g i j k ∨ solidCell g i j (k + 1)) → g.pw_ i j (k + 1) = 0)

/-- What `apply_boundary_conditions` leaves behind on the grid. -/
structure BoundaryZero (g : Mac3d) : Prop where
  solid : ∀ k, k < g.L_ → ∀ j, j < g.M_ → ∀ i, i < g.N_ → SolidFacesZero i j k g
  outer_u : ∀ k, k < g.L_ → ∀ j, j < g.M_ → (g.pu_ 0 j k = 0 ∧ g.pu_ g.N_ j k = 0)
  outer_v : ∀ k, k < g.L_ → ∀ i, i < g.N_ → (g.pv_ i 0 k = 0 ∧ g.pv_ i g.M_ k = 0)
  outer_w : ∀ j, j < g.M_ → ∀ i, i < g.N_ → (g.pw_ i j 0 = 0 ∧ g.pw_ i j g.L_ = 0)

/-! ## Boundary conditions: claim C2 (vocabulary) -/

/-- A 2×2×2 grid whose cell `(0, 0, 0)` is solid, every velocity face holding 1; a
classification query outside the grid answers `true`. -/
def cornerWallGrid : Mac3d :=
  { N_ := 2
    M_ := 2
    L_ := 2
    cell_sizex_ := 1
    cell_sizey_ := 1
    cell_sizez_ := 1
    ppressure_ := fun _ _ _ => 0
    pu_ := fun _ _ _ => 1
    pv_ := fun _ _ _ => 1
    pw_ := fun _ _ _ => 1
    psolid_ := fun i j k => decide (i = 0 ∧ j = 0 ∧ k = 0)
    pfluid_ := fun _ _ _ => false
    A_diag_ := fun _ => 0
    solid_outside := some true
    fluid_outside := some false }

/-- A `FLIP` object on `cornerWallGrid`, without particles. -/
def cornerWallFLIP : FLIP :=
  { particles_ := []
    MACGrid_ := cornerWallGrid
    fluid_density_ := 1
    gravity_mag_ := 1
    alpha_ := 0
    A_ := []
    d_ := fun _ => 0 }

/-! ## Time step: claims C4, C5 (vocabulary) -/

/-- A particle at the origin with velocity `(vx, vy, vz)`. -/
def particleWithVelocity (vx vy vz : ℚ) : Particle :=
  { position := ⟨0, 0, 0⟩
    prev_position := ⟨0, 0, 0⟩
    velocity := ⟨vx, vy, vz⟩ }

/-- A 1×1×1 grid of cell size 1 with one fluid cell, whose left `u` face holds 1 and
all other faces 0. -/
def unitGrid : Mac3d :=
  { N_ := 1
    M_ := 1
    L_ := 1
    cell_sizex_ := 1
    cell_sizey_ := 1
    cell_sizez_ := 1
    ppressure_ := fun _ _ _ => 0
    pu_ := fun i _ _ => if i = 0 then 1 else 0
    pv_ := fun _ _ _ => 0
    pw_ := fun _ _ _ => 0
    psolid_ := fun _ _ _ => false
    pfluid_ := fun _ _ _ => true
    A_diag_ := fun _ => 0
    solid_outside := some true
    fluid_outside := some false }

/-- A `FLIP` object on `unitGrid` with the given particles, density 1. -/
def unitFLIP (particles : List Particle) : FLIP :=
  { particles_ := particles
    MACGrid_ := unitGrid
    fluid_density_ := 1
    gravity_mag_ := 1
    alpha_ := 0
    A_ := []
    d_ := fun _ => 0 }

/-- The stable step as the specification words it (section 4.5): the minimum, over the
axes whose maximum is nonzero, of cell size / |maximum|, clamped to at most `dt`. -/
def stable_step_spec (f : FLIP) (dt : ℚ) : ℚ :=
  let m := FLIP.max_velocities f.particles_
  let tx := if m.1 = 0 then dt else min dt (f.MACGrid_.get_cell_sizex / |m.1|)
  let ty := if m.2.1 = 0 then tx else min tx (f.MACGrid_.get_cell_sizey / |m.2.1|)
  if m.2.2 = 0 then ty else min ty (f.MACGrid_.get_cell_sizez / |m.2.2|)

/-! ## Cell index and the loop nest over the cells (vocabulary) -/

/-- The linear index of cell `(i, j, k)` on an `nx × ny × nz` grid, as the source computes
it: `i + j*nx + nx*ny*k`. -/
def cellIndex (nx ny i j k : ℕ) : ℕ := i + j * nx + nx * ny * k

/-! ## Pressure matrix: one cell (vocabulary) -/

/-- The triplets that `compute_pressure_matrix` pushes for cell `(i, j, k)`: the stored
diagonal entry, then, for a fluid cell, one mirrored pair of `-1` entries per fluid
neighbour in the positive x, y and z direction. -/
def cellTriplets (g : Mac3d) (i j k : ℕ) : List Triplet_t :=
  [⟨cellIndex g.N_ g.M_ i j k, cellIndex g.N_ g.M_ i j k, g.A_diag_ (cellIndex g.N_ g.M_ i j k)⟩] ++
  (if g.pfluid_ i j k = true then
    (if i + 1 < g.N_ ∧ g.pfluid_ (i + 1) j k = true then
      [⟨cellIndex g.N_ g.M_ i j k, cellIndex g.N_ g.M_ i j k + 1, -1⟩,
       ⟨cellIndex g.N_ g.M_ i j k + 1, cellIndex g.N_ g.M_ i j k, -1⟩] else []) ++
    (if j + 1 < g.M_ ∧ g.pfluid_ i (j + 1) k = true then
      [⟨cellIndex g.N_ g.M_ i j k, cellIndex g.N_ g.M_ i j k + g.N_, -1⟩,
       ⟨cellIndex g.N_ g.M_ i j k + g.N_, cellIndex g.N_ g.M_ i j k, -1⟩] else []) ++
    (if k + 1 < g.L_ ∧ g.pfluid_ i j (k + 1) = true then
      [⟨cellIndex g.N_ g.M_ i j k, cellIndex g.N_ g.M_ i j k + g.N_ * g.M_, -1⟩,
       ⟨cellIndex g.N_ g.M_ i j k + g.N_ * g.M_, cellIndex g.N_ g.M_ i j k, -1⟩] else [])
  else [])

/-! ## Pressure matrix: sums over the collected triplets (vocabulary) -/

/-- The sum of `φ` over a triplet list. -/
def tripletSum (φ : Triplet_t → ℚ) (T : List Triplet_t) : ℚ := (T.map φ).sum

/-- The sum of `F i j k` over the cells of an `nx × ny × nz` grid. -/
def sum3 (nx ny nz : ℕ) (F : ℕ → ℕ → ℕ → ℚ) : ℚ :=
  ∑ k ∈ Finset.range nz, ∑ j ∈ Finset.range ny, ∑ i ∈ Finset.range nx, F i j k

/-! ## Pressure matrix: rows (vocabulary) -/

/-- The summand that picks the triplets of row `r` and weighs each by `ψ col value`. -/
def rowPhi (r : ℕ) (ψ : ℕ → ℚ → ℚ) (t : Triplet_t) : ℚ :=
  if t.row = r then ψ t.col t.value else 0

/-! ## Pressure matrix: off-diagonal entries (vocabulary) -/

/-- Cells `(i, j, k)` and `(i', j', k')` are axis-adjacent: they differ by one step along
exactly one axis. -/
def axisAdjacent (i j k i' j' k' : ℕ) : Prop :=
  (j' = j ∧ k' = k ∧ (i' = i + 1 ∨ i = i' + 1)) ∨
  (i' = i ∧ k' = k ∧ (j' = j + 1 ∨ j = j' + 1)) ∨
  (i' = i ∧ j' = j ∧ (k' = k + 1 ∨ k = k' + 1))

instance (i j k i' j' k' : ℕ) : Decidable (axisAdjacent i j k i' j' k') := by
  unfold axisAdjacent
  infer_instance

/-! ## Pressure matrix: claim C8 (vocabulary) -/

/-- A 2×1×1 grid whose two cells are fluid, diagonal values 1. -/
def pairGrid : Mac3d :=
  { N_ := 2
    M_ := 1
    L_ := 1
    cell_sizex_ := 1
    cell_sizey_ := 1
    cell_sizez_ := 1
    ppressure_ := fun _ _ _ => 0
    pu_ := fun _ _ _ => 0
    pv_ := fun _ _ _ => 0
    pw_ := fun _ _ _ => 0
    psolid_ := fun _ _ _ => false
    pfluid_ := fun _ _ _ => true
    A_diag_ := fun _ => 1
    solid_outside := some true
    fluid_outside := some false }

/-- A `FLIP` object on `pairGrid`, without particles. -/
def pairFLIP : FLIP :=
  { particles_ := []
    MACGrid_ := pairGrid
    fluid_density_ := 1
    gravity_mag_ := 1
    alpha_ := 0
    A_ := []
    d_ := fun _ => 0 }

/-! ## Pressure matrix: diagonal (vocabulary) -/

/-- The number of axis neighbours of cell `(i, j, k)` that lie in the grid and are not
solid (section 3: the value precomputed for the diagonal of the pressure matrix). -/
def nonSolidNeighbours (g : Mac3d) (i j k : ℕ) : ℕ :=
  (if i + 1 < g.N_ ∧ g.psolid_ (i + 1) j k = false then 1 else 0)
  + (if 1 ≤ i ∧ g.psolid_ (i - 1) j k = false then 1 else 0)
  + (if j + 1 < g.M_ ∧ g.psolid_ i (j + 1) k = false then 1 else 0)
  + (if 1 ≤ j ∧ g.psolid_ i (j - 1) k = false then 1 else 0)
  + (if k + 1 < g.L_ ∧ g.psolid_ i j (k + 1) = false then 1 else 0)
  + (if 1 ≤ k ∧ g.psolid_ i j (k - 1) = false then 1 else 0)

/-- The classification is a partition: no cell of the grid is both solid and fluid
(section 3, invariants). -/
def NoSolidFluid (g : Mac3d) : Prop :=
  ∀ i j k, i < g.N_ → j < g.M_ → k < g.L_ →
    ¬(g.psolid_ i j k = true ∧ g.pfluid_ i j k = true)

/-! ## Right-hand side of the pressure equations (vocabulary) -/

/-- What `compute_pressure_rhs` stores for cell `(i, j, k)`: for a fluid cell, minus the
sum of the three face differences, plus the face value of every side on which the
neighbour is solid or missing, scaled by `fluid_density * cell_sizex / dt`; for any other
cell 0. -/
def rhsValue (g : Mac3d) (fluid_density dt : ℚ) (i j k : ℕ) : ℚ :=
  if g.pfluid_ i j k = true then
    fluid_density * g.cell_sizex_ *
      (-(g.pu_ (i + 1) j k - g.pu_ i j k) - (g.pv_ i (j + 1) k - g.pv_ i j k)
        - (g.pw_ i j (k + 1) - g.pw_ i j k)
        + (if (i < g.N_ - 1 ∧ g.psolid_ (i + 1) j k = true) ∨ i = g.N_ - 1
            then g.pu_ (i + 1) j k else 0)
        + (if (i > 0 ∧ g.psolid_ (i - 1) j k = true) ∨ i = 0 then g.pu_ i j k else 0)
        + (if (j < g.M_ - 1 ∧ g.psolid_ i (j + 1) k = true) ∨ j = g.M_ - 1
            then g.pv_ i (j + 1) k else 0)
        + (if (j > 0 ∧ g.psolid_ i (j - 1) k = true) ∨ j = 0 then g.pv_ i j k else 0)
        + (if (k < g.L_ - 1 ∧ g.psolid_ i j (k + 1) = true) ∨ k = g.L_ - 1
            then g.pw_ i j (k + 1) else 0)
        + (if (k > 0 ∧ g.psolid_ i j (k - 1) = true) ∨ k = 0 then g.pw_ i j k else 0)) / dt
  else 0

/-! ## Right-hand side: claim C10 (vocabulary) -/

/-- The first statement of the body of the loop nest of `apply_pressure_gradients` at cell
`(i, j, k)`: unless `i = 0`, the pressure difference across the lower x face of the cell,
times `dt / (dx * fluid_density)`, is subtracted from `u(i, j, k)`. -/
def gradU (rho dt dx : ℚ) (i j k : ℕ) (g : Mac3d) : Mac3d :=
  if i ≠ 0 then
    { g with
      pu_ := write3 g.pu_ i j k
        (g.pu_ i j k - (g.ppressure_ i j k - g.ppressure_ (i - 1) j k) * (dt / (dx * rho))) }
  else g

/-- The second statement of that body: the same for `v(i, j, k)`, unless `j = 0`. -/
def gradV (rho dt dx : ℚ) (i j k : ℕ) (g : Mac3d) : Mac3d :=
  if j ≠ 0 then
    { g with
      pv_ := write3 g.pv_ i j k
        (g.pv_ i j k - (g.ppressure_ i j k - g.ppressure_ i (j - 1) k) * (dt / (dx * rho))) }
  else g

/-- The third statement of that body: the same for `w(i, j, k)`, unless `k = 0`. -/
def gradW (rho dt dx : ℚ) (i j k : ℕ) (g : Mac3d) : Mac3d :=
  if k ≠ 0 then
    { g with
      pw_ := write3 g.pw_ i j k
        (g.pw_ i j k - (g.ppressure_ i j k - g.ppressure_ i j (k - 1)) * (dt / (dx * rho))) }
  else g

/-! ## Pressure gradients: progress (vocabulary) -/

/-- The value `apply_pressure_gradients` gives to `u(a, b, e)` on an inner face:
`u - dt/(ρ·h) · (p(a, b, e) − p(a−1, b, e))`, written as the source computes it. -/
def uCorrected (g : Mac3d) (rho dt : ℚ) (a b e : ℕ) : ℚ :=
  g.pu_ a b e - (g.ppressure_ a b e - g.ppressure_ (a - 1) b e) * (dt / (g.cell_sizex_ * rho))

/-- The value `apply_pressure_gradients` gives to `v(a, b, e)` on an inner face. -/
def vCorrected (g : Mac3d) (rho dt : ℚ) (a b e : ℕ) : ℚ :=
  g.pv_ a b e - (g.ppressure_ a b e - g.ppressure_ a (b - 1) e) * (dt / (g.cell_sizex_ * rho))

/-- The value `apply_pressure_gradients` gives to `w(a, b, e)` on an inner face. -/
def wCorrected (g : Mac3d) (rho dt : ℚ) (a b e : ℕ) : ℚ :=
  g.pw_ a b e - (g.ppressure_ a b e - g.ppressure_ a b (e - 1)) * (dt / (g.cell_sizex_ * rho))

/-- State of the grid after `apply_pressure_gradients` has handled the cells of linear
index below `c`: the lower faces of those cells are corrected (except on the first index
of their axis), everything else is as in the starting grid `g`. -/
structure GradProgress (g : Mac3d) (rho dt : ℚ) (c : ℕ) (s : Mac3d) : Prop where
  hN : s.N_ = g.N_
  hM : s.M_ = g.M_
  hL : s.L_ = g.L_
  hp : s.ppressure_ = g.ppressure_
  hsx : s.cell_sizex_ = g.cell_sizex_
  hsolid : s.psolid_ = g.psolid_
  hfluid : s.pfluid_ = g.pfluid_
  hu : ∀ a b e, s.pu_ a b e =
    if 1 ≤ a ∧ a < g.N_ ∧ b < g.M_ ∧ e < g.L_ ∧ cellIndex g.N_ g.M_ a b e < c
    then uCorrected g rho dt a b e else g.pu_ a b e
  hv : ∀ a b e, s.pv_ a b e =
    if 1 ≤ b ∧ a < g.N_ ∧ b < g.M_ ∧ e < g.L_ ∧ cellIndex g.N_ g.M_ a b e < c
    then vCorrected g rho dt a b e else g.pv_ a b e
  hw : ∀ a b e, s.pw_ a b e =
    if 1 ≤ e ∧ a < g.N_ ∧ b < g.M_ ∧ e < g.L_ ∧ cellIndex g.N_ g.M_ a b e < c
    then wCorrected g rho dt a b e else g.pw_ a b e

/-! ## Pressure gradients: the whole loop nest (vocabulary) -/

/-- The discrete divergence of the velocity field at cell `(i, j, k)`:
`u(i+1,j,k) − u(i,j,k) + v(i,j+1,k) − v(i,j,k) + w(i,j,k+1) − w(i,j,k)`. -/
def divergence (g : Mac3d) (i j k : ℕ) : ℚ :=
  g.pu_ (i + 1) j k - g.pu_ i j k + g.pv_ i (j + 1) k - g.pv_ i j k
    + g.pw_ i j (k + 1) - g.pw_ i j k

/-! ## Pressure solve: a concrete system (vocabulary) -/

/-- A 3×3×3 grid without solid cells, cell size 1, whose fluid cells are the centre cell
`(1, 1, 1)` and its six axis neighbours. The six faces of the centre cell carry an inflow
of 1 each (discrete divergence −6); every other face is 0. The diagonal value of a cell is
the number of its axis neighbours inside the grid. -/
def crossGrid : Mac3d :=
  { N_ := 3
    M_ := 3
    L_ := 3
    cell_sizex_ := 1
    cell_sizey_ := 1
    cell_sizez_ := 1
    ppressure_ := fun _ _ _ => 0
    pu_ := fun i j k =>
      if j = 1 ∧ k = 1 then (if i = 1 then 1 else if i = 2 then -1 else 0) else 0
    pv_ := fun i j k =>
      if i = 1 ∧ k = 1 then (if j = 1 then 1 else if j = 2 then -1 else 0) else 0
    pw_ := fun i j k =>
      if i = 1 ∧ j = 1 then (if k = 1 then 1 else if k = 2 then -1 else 0) else 0
    psolid_ := fun _ _ _ => false
    pfluid_ := fun i j k => decide ((i = 1 ∧ j = 1) ∨ (i = 1 ∧ k = 1) ∨ (j = 1 ∧ k = 1))
    A_diag_ := fun c =>
      (if c % 3 = 1 then 2 else 1) + (if c / 3 % 3 = 1 then 2 else 1)
        + (if c / 9 = 1 then 2 else 1)
    solid_outside := some true
    fluid_outside := some false }

/-- A `FLIP` object on `crossGrid`, without particles, density 1. -/
def crossFLIP : FLIP :=
  { particles_ := []
    MACGrid_ := crossGrid
    fluid_density_ := 1
    gravity_mag_ := 1
    alpha_ := 0
    A_ := []
    d_ := fun _ => 0 }

/-- The pressure field that is 1 in the centre cell of `crossGrid` (linear index 13) and 0
elsewhere. -/
def crossPressure (c : ℕ) : ℚ := if c = 13 then 1 else 0

/-- A solver that answers `crossPressure` whatever the system. -/
def crossSolve : List Triplet_t → ℕ → (ℕ → ℚ) → (ℕ → ℚ) := fun _ _ _ => crossPressure

/-! ## Pressure gradients: claim C11 (vocabulary) -/

/-- The `FLIP` object `crossFLIP` with the pressure field `crossPressure` stored in its
grid: pressure 1 in the centre cell, 0 elsewhere. -/
def crossPressureFLIP : FLIP :=
  { crossFLIP with MACGrid_ := crossGrid.set_pressure crossPressure }

/-! ## Boundary conditions: claim C12 (vocabulary) -/

/-- Two grids with the same dimensions and the same solid classification (inside the
cell shape and outside it). -/
structure SameWalls (g g' : Mac3d) : Prop where
  hN : g'.N_ = g.N_
  hM : g'.M_ = g.M_
  hL : g'.L_ = g.L_
  hsolid : g'.psolid_ = g.psolid_
  hout : g'.solid_outside = g.solid_outside

/-- The u-face `(a, j, k)` lies on the outer boundary or next to a solid cell. -/
def uWall (g : Mac3d) (a j k : ℕ) : Prop :=
  a ≤ g.N_ ∧ j < g.M_ ∧ k < g.L_ ∧
    (a = 0 ∨ a = g.N_ ∨ g.psolid_ (a - 1) j k = true ∨ g.psolid_ a j k = true)

/-- The v-face `(i, b, k)` lies on the outer boundary or next to a solid cell. -/
def vWall (g : Mac3d) (i b k : ℕ) : Prop :=
  i < g.N_ ∧ b ≤ g.M_ ∧ k < g.L_ ∧
    (b = 0 ∨ b = g.M_ ∨ g.psolid_ i (b - 1) k = true ∨ g.psolid_ i b k = true)

/-- The w-face `(i, j, c)` lies on the outer boundary or next to a solid cell. -/
def wWall (g : Mac3d) (i j c : ℕ) : Prop :=
  i < g.N_ ∧ j < g.M_ ∧ c ≤ g.L_ ∧
    (c = 0 ∨ c = g.L_ ∨ g.psolid_ i j (c - 1) = true ∨ g.psolid_ i j c = true)

/-- `g'` is `g` with some wall faces set to zero and no other velocity face changed. -/
structure ZeroedWithin (g g' : Mac3d) : Prop where
  walls : SameWalls g g'
  hu : ∀ i j k, g'.pu_ i j k = g.pu_ i j k ∨ (g'.pu_ i j k = 0 ∧ uWall g i j k)
  hv : ∀ i j k, g'.pv_ i j k = g.pv_ i j k ∨ (g'.pv_ i j k = 0 ∧ vWall g i j k)
  hw : ∀ i j k, g'.pw_ i j k = g.pw_ i j k ∨ (g'.pw_ i j k = 0 ∧ wWall g i j k)

/-! ## The 2D grid: claims C19, C20 (vocabulary) -/

/-- The class `Mac2d` (`2d/Mac2d.h`, `2d/Mac2d.cpp`): cell counts `N_`, `M_` (`const int`),
the domain size and the cell size per axis, and the arrays behind the pointers
`ppressure_`, `pu_`, `pv_`, `psolid_`, `pfluid_`, `pweights_u_`, `pweights_v_`, each
addressed by the linear offset that the accessors compute (`(N_+1)*j + i` for `u`,
`N_*j + i` for the others), and the vector `A_diag_`. The arrays `pu_star_`, `pv_star_`
hold the snapshot that `get_u_star`, `get_v_star` read. -/
structure Mac2d where
  N_ : ℤ
  M_ : ℤ
  sizex_ : ℚ
  sizey_ : ℚ
  cell_sizex_ : ℚ
  cell_sizey_ : ℚ
  ppressure_ : ℤ → ℚ
  pu_ : ℤ → ℚ
  pv_ : ℤ → ℚ
  psolid_ : ℤ → Bool
  pfluid_ : ℤ → Bool
  pweights_u_ : ℤ → ℚ
  pweights_v_ : ℤ → ℚ
  A_diag_ : List Triplet_t
  pu_star_ : ℤ → ℚ := fun _ => 0
  pv_star_ : ℤ → ℚ := fun _ => 0

/-- The conversion `int(x)` of a `double`: truncation toward zero. (A value outside the
range of `int` is undefined behaviour in the source and is not modelled.) -/
def double_to_int (x : ℚ) : ℤ := if 0 ≤ x then ⌊x⌋ else ⌈x⌉

/-- The value of the `return` statement of `Mac2d::index_from_coord`:
`Pair_t(int(x), int(y))`. -/
def Mac2d.index_from_coord_pair (x y : ℚ) : ℤ × ℤ := (double_to_int x, double_to_int y)

/-- `Mac2d::index_from_coord`: the assertion
`assert((x > sizex_ || y > sizey_ || x < 0 || y < 0) && "Attention: out of the grid!")`,
then the `return` statement; `none` is the failed assertion. -/
def Mac2d.index_from_coord (g : Mac2d) (x y : ℚ) : Option (ℤ × ℤ) :=
  if x > g.sizex_ ∨ y > g.sizey_ ∨ x < 0 ∨ y < 0 then some (Mac2d.index_from_coord_pair x y)
  else none

/-- A 4×4 grid on the domain `[0, 2] × [0, 2]`: cell size 1/2 on both axes; all fields
zero, no solid and no fluid cell. -/
def halfCellGrid2d : Mac2d :=
  { N_ := 4
    M_ := 4
    sizex_ := 2
    sizey_ := 2
    cell_sizex_ := 1 / 2
    cell_sizey_ := 1 / 2
    ppressure_ := fun _ => 0
    pu_ := fun _ => 0
    pv_ := fun _ => 0
    psolid_ := fun _ => false
    pfluid_ := fun _ => false
    pweights_u_ := fun _ => 0
    pweights_v_ := fun _ => 0
    A_diag_ := [] }

/-! ## Grid to particle: claims C15, C16 (vocabulary) -/

/-- The sum `a + b` of two `Eigen::Vector3d`. -/
def Vector3d.add (a b : Vector3d) : Vector3d := ⟨a.x + b.x, a.y + b.y, a.z + b.z⟩

/-- The difference `a - b` of two `Eigen::Vector3d`. -/
def Vector3d.sub (a b : Vector3d) : Vector3d := ⟨a.x - b.x, a.y - b.y, a.z - b.z⟩

/-- The product `a * c` of an `Eigen::Vector3d` and a scalar. -/
def Vector3d.scale (a : Vector3d) (c : ℚ) : Vector3d := ⟨a.x * c, a.y * c, a.z * c⟩

/-- The accessor `Particle::get_position`. -/
def Particle.get_position (p : Particle) : Vector3d := p.position

/-- Modelled from the spec: `Particle::set_velocity`, the write access to the velocity of
a particle (section 6). -/
def Particle.set_velocity (p : Particle) (v : Vector3d) : Particle := { p with velocity := v }

/-- Modelled from the spec: `Particle::set_position`, the write access to the position of
a particle (section 6). -/
def Particle.set_position (p : Particle) (x : Vector3d) : Particle := { p with position := x }

/-- Modelled from the spec: `Mac3d::get_grid_size`. Section 3: the cell size of an axis is
the domain size of that axis divided by its cell count, so the domain size is the cell
count times the cell size. -/
def Mac3d.get_grid_size (g : Mac3d) : Vector3d :=
  ⟨g.N_ * g.cell_sizex_, g.M_ * g.cell_sizey_, g.L_ * g.cell_sizez_⟩

/-- Modelled from the spec: `Mac3d::index_from_coord`, the "coordinate-to-cell-index
mapping that truncates a continuous position to its containing cell (fails/asserts if the
position lies outside the domain)" of section 4.1. The geometry is the one `3d/FLIP.cpp`
uses: the centre of cell `(i, j, k)` is `(i·dx, j·dy, k·dz)` (the `u` face `(i, j, k)`
sits at `((i − 0.5)·dx, j·dy, k·dz)` in `compute_velocity_field`), and the domain is
`−0.5·cell < c < size − 0.5·cell` on every axis (the test of `advance_particles`). So
the cell index along an axis is `int(c / cell + 0.5)`. `none` is the failed assertion. -/
def Mac3d.index_from_coord (g : Mac3d) (x y z : ℚ) : Option (ℕ × ℕ × ℕ) :=
  if -(1 / 2) * g.cell_sizex_ < x ∧ x < g.get_grid_size.x - 1 / 2 * g.cell_sizex_ ∧
      -(1 / 2) * g.cell_sizey_ < y ∧ y < g.get_grid_size.y - 1 / 2 * g.cell_sizey_ ∧
      -(1 / 2) * g.cell_sizez_ < z ∧ z < g.get_grid_size.z - 1 / 2 * g.cell_sizez_ then
    some ((double_to_int (x / g.cell_sizex_ + 1 / 2)).toNat,
      (double_to_int (y / g.cell_sizey_ + 1 / 2)).toNat,
      (double_to_int (z / g.cell_sizez_ + 1 / 2)).toNat)
  else none

/-- Modelled from the spec: `Mac3d::get_interp_u`, `get_interp_v`, `get_interp_w`, the
"trilinear interpolation of any staggered field at an arbitrary point, with a selector
choosing between the current field and the star field" of section 4.1. The spec gives no
formula, so the three functions are parameters: `get_interp_u g x y z use_star` is the
value interpolated on grid `g` at `(x, y, z)`, `none` a fault. -/
structure Interpolation where
  get_interp_u : Mac3d → ℚ → ℚ → ℚ → Bool → Option ℚ
  get_interp_v : Mac3d → ℚ → ℚ → ℚ → Bool → Option ℚ
  get_interp_w : Mac3d → ℚ → ℚ → ℚ → Bool → Option ℚ

/-- A loop `for (n = 0; n < num_particles_; ++n)` whose body reads and writes particle
`n` only: the body is applied to the particles in order; a fault ends the run. -/
def forParticles (body : Particle → Option Particle) : List Particle → Option (List Particle)
  | [] => some []
  | p :: ps => (body p).bind fun p' => (forParticles body ps).map fun ps' => p' :: ps'

/-- The test of `grid_to_particle` "use PIC on boundary": the cell index is 0 or
`count - 1` along some axis (`nx`, `ny`, `nz` are `int` in the source). -/
def FLIP.on_boundary (nx ny nz : ℤ) (idx : ℕ × ℕ × ℕ) : Bool :=
  decide ((idx.1 : ℤ) = 0 ∨ (idx.1 : ℤ) = nx - 1 ∨ (idx.2.1 : ℤ) = 0 ∨ (idx.2.1 : ℤ) = ny - 1
    ∨ (idx.2.2 : ℤ) = 0 ∨ (idx.2.2 : ℤ) = nz - 1)

/-- Body of the loop of `FLIP::grid_to_particle` for one particle. -/
def FLIP.grid_to_particle_body (I : Interpolation) (g : Mac3d) (alpha : ℚ) (p : Particle) :
    Option Particle :=
  let nx : ℤ := g.get_num_cells_x
  let ny : ℤ := g.get_num_cells_y
  let nz : ℤ := g.get_num_cells_z
  let initial_position := p.get_position
  let initial_velocity := p.get_velocity
  (g.index_from_coord initial_position.x initial_position.y initial_position.z).bind
    fun initial_idx =>
  let x := initial_position.x
  let y := initial_position.y
  let z := initial_position.z
  (I.get_interp_u g x y z true).bind fun (su : ℚ) =>
  (I.get_interp_u g x y z false).bind fun (nu : ℚ) =>
  (I.get_interp_v g x y z true).bind fun (sv : ℚ) =>
  (I.get_interp_v g x y z false).bind fun (nv : ℚ) =>
  (I.get_interp_w g x y z true).bind fun (sw : ℚ) =>
  (I.get_interp_w g x y z false).bind fun (nw : ℚ) =>
  let interp_u_star : Vector3d := ⟨su, sv, sw⟩
  let interp_u_n1 : Vector3d := ⟨nu, nv, nw⟩
  let u_update :=
    if FLIP.on_boundary nx ny nz initial_idx then
      ((initial_velocity.scale (1 - min 1 (2 * alpha))).add interp_u_n1).sub
        (interp_u_star.scale (1 - min 1 (2 * alpha)))
    else
      ((initial_velocity.scale (1 - alpha)).add interp_u_n1).sub
        (interp_u_star.scale (1 - alpha))
  some (p.set_velocity u_update)

/-- `FLIP::grid_to_particle`. -/
def FLIP.grid_to_particle (I : Interpolation) (f : FLIP) : Option FLIP :=
  (forParticles (FLIP.grid_to_particle_body I f.MACGrid_ f.alpha_) f.particles_).map
    fun ps => { f with particles_ := ps }

/-- The three interpolated components at the point `x`, as one vector. -/
def Interpolation.velocity (I : Interpolation) (g : Mac3d) (x : Vector3d) (use_star : Bool) :
    Option Vector3d :=
  (I.get_interp_u g x.x x.y x.z use_star).bind fun u =>
  (I.get_interp_v g x.x x.y x.z use_star).bind fun v =>
  (I.get_interp_w g x.x x.y x.z use_star).map fun w => ⟨u, v, w⟩

/-- The blend of section 4.6: `v·(1−β) + n − s·(1−β)`, per component. -/
def blend (v s n : Vector3d) (β : ℚ) : Vector3d :=
  ⟨v.x * (1 - β) + n.x - s.x * (1 - β), v.y * (1 - β) + n.y - s.y * (1 - β),
    v.z * (1 - β) + n.z - s.z * (1 - β)⟩

/-- The blend factor of section 4.6: `min(1, 2α)` in a cell whose index is 0 or
`count − 1` along some axis, `α` in every other cell. -/
def blendFactor (g : Mac3d) (alpha : ℚ) (idx : ℕ × ℕ × ℕ) : ℚ :=
  if idx.1 = 0 ∨ idx.1 + 1 = g.N_ ∨ idx.2.1 = 0 ∨ idx.2.1 + 1 = g.M_ ∨ idx.2.2 = 0
      ∨ idx.2.2 + 1 = g.L_ then min 1 (2 * alpha)
  else alpha

/-- An interpolation that answers `s` on the star field and `n` on the current field, for
every component and every point. -/
def constInterpolation (s n : ℚ) : Interpolation :=
  { get_interp_u := fun _ _ _ _ b => some (if b then s else n)
    get_interp_v := fun _ _ _ _ b => some (if b then s else n)
    get_interp_w := fun _ _ _ _ b => some (if b then s else n) }

/-- A `FLIP` object on `crossGrid` with `α = 1/4` and two particles: one in the interior
cell `(1, 1, 1)` with velocity `(4, 0, 0)`, one in the corner cell `(0, 0, 0)` with
velocity `(4, 0, 0)`. -/
def blendFLIP : FLIP :=
  { particles_ := [⟨⟨1, 1, 1⟩, ⟨1, 1, 1⟩, ⟨4, 0, 0⟩⟩, ⟨⟨0, 0, 0⟩, ⟨0, 0, 0⟩, ⟨4, 0, 0⟩⟩]
    MACGrid_ := crossGrid
    fluid_density_ := 1
    gravity_mag_ := 1
    alpha_ := 1 / 4
    A_ := []
    d_ := fun _ => 0 }

/-- The object `blendFLIP` with `α = 1` (pure PIC). -/
def picFLIP : FLIP := { blendFLIP with alpha_ := 1 }

/-! ## Advection: claims C17, C18 (vocabulary) -/

/-- The two tests "check if the particle exits the grid" of `advance_particles` on one
axis, for the coordinate `c` of the RK2 estimate: `if (c <= -0.5*cell) pos = 0;` then
`if (c >= size - 0.5*cell) pos = size - cell;`. -/
def FLIP.clamp_axis (c cell size : ℚ) : ℚ :=
  let pos := if c ≤ -(1 / 2) * cell then 0 else c
  if c ≥ size - 1 / 2 * cell then size - cell else pos

/-- The pull-back of `advance_particles` on one axis: `if (prev > new) pos = (prev -
0.25) * s; else if (prev < new) pos = (prev + 0.25) * s;`. -/
def FLIP.pull_back (prev new : ℕ) (s pos : ℚ) : ℚ :=
  if prev > new then ((prev : ℚ) - 1 / 4) * s
  else if prev < new then ((prev : ℚ) + 1 / 4) * s
  else pos

/-- The last part of the body of the loop of `advance_particles`: "check if the particle
enters in a solid". The new cell is looked up at `(pos_next(0), pos_next(1),
pos_curr(2))`. -/
def FLIP.advance_solid_check (g : Mac3d) (pos_curr pos_next : Vector3d) : Option Vector3d :=
  (g.index_from_coord pos_curr.x pos_curr.y pos_curr.z).bind
    fun (prev_indices : ℕ × ℕ × ℕ) =>
  (g.index_from_coord pos_next.x pos_next.y pos_curr.z).bind
    fun (new_indices : ℕ × ℕ × ℕ) =>
  let sx := g.get_cell_sizex
  let sy := g.get_cell_sizey
  let sz := g.get_cell_sizez
  (g.is_solid new_indices.1 new_indices.2.1 new_indices.2.2).bind fun (solid : Bool) =>
  if solid then
    some ⟨FLIP.pull_back prev_indices.1 new_indices.1 sx pos_next.x,
      FLIP.pull_back prev_indices.2.1 new_indices.2.1 sy pos_next.y,
      FLIP.pull_back prev_indices.2.2 new_indices.2.2 sz pos_next.z⟩
  else some pos_next

/-- The test "check if pos_half is out of the grid" of `advance_particles`. -/
def FLIP.half_step_outside (g : Mac3d) (pos_half : Vector3d) : Bool :=
  decide (pos_half.x ≤ -(1 / 2) * g.get_cell_sizex
    ∨ pos_half.x ≥ g.get_grid_size.x - 1 / 2 * g.get_cell_sizex
    ∨ pos_half.y ≤ -(1 / 2) * g.get_cell_sizey
    ∨ pos_half.y ≥ g.get_grid_size.y - 1 / 2 * g.get_cell_sizey
    ∨ pos_half.z ≤ -(1 / 2) * g.get_cell_sizez
    ∨ pos_half.z ≥ g.get_grid_size.z - 1 / 2 * g.get_cell_sizez)

/-- Body of the loop of `FLIP::advance_particles` for one particle. -/
def FLIP.advance_particles_body (I : Interpolation) (g : Mac3d) (dt : ℚ) (p : Particle) :
    Option Particle :=
  let pos_curr := p.get_position
  let vel := p.get_velocity
  let pos_half := pos_curr.add (vel.scale (1 / 2 * dt))
  if FLIP.half_step_outside g pos_half then some p
  else
    (I.get_interp_u g pos_half.x pos_half.y pos_half.z false).bind fun (iu : ℚ) =>
    (I.get_interp_v g pos_half.x pos_half.y pos_half.z false).bind fun (iv : ℚ) =>
    (I.get_interp_w g pos_half.x pos_half.y pos_half.z false).bind fun (iw : ℚ) =>
    let x := pos_curr.x + dt * iu
    let y := pos_curr.y + dt * iv
    let z := pos_curr.z + dt * iw
    let pos_next : Vector3d :=
      ⟨FLIP.clamp_axis x g.get_cell_sizex g.get_grid_size.x,
        FLIP.clamp_axis y g.get_cell_sizey g.get_grid_size.y,
        FLIP.clamp_axis z g.get_cell_sizez g.get_grid_size.z⟩
    (FLIP.advance_solid_check g pos_curr pos_next).map fun pos => p.set_position pos

/-- `FLIP::advance_particles` (the parameter `step` is not used by the 3D code). -/
def FLIP.advance_particles (I : Interpolation) (dt : ℚ) (_step : ℕ) (f : FLIP) : Option FLIP :=
  (forParticles (FLIP.advance_particles_body I f.MACGrid_ dt) f.particles_).map
    fun ps => { f with particles_ := ps }

/-- A column of two cells, `1×1×2`, cell size 1: the floor cell `(0, 0, 0)` is solid, the
cell `(0, 0, 1)` above it is not; every `w` face holds −1. -/
def floorGrid : Mac3d :=
  { N_ := 1
    M_ := 1
    L_ := 2
    cell_sizex_ := 1
    cell_sizey_ := 1
    cell_sizez_ := 1
    ppressure_ := fun _ _ _ => 0
    pu_ := fun _ _ _ => 0
    pv_ := fun _ _ _ => 0
    pw_ := fun _ _ _ => -1
    psolid_ := fun _ _ k => decide (k = 0)
    pfluid_ := fun _ _ k => decide (k = 1)
    A_diag_ := fun _ => 1
    solid_outside := some true
    fluid_outside := some false }

/-- A `FLIP` object on `floorGrid` with one particle at the centre `(0, 0, 1)` of the
upper cell, moving down with velocity `(0, 0, −1)`. -/
def floorFLIP : FLIP :=
  { particles_ := [⟨⟨0, 0, 1⟩, ⟨0, 0, 1⟩, ⟨0, 0, -1⟩⟩]
    MACGrid_ := floorGrid
    fluid_density_ := 1
    gravity_mag_ := 1
    alpha_ := 0
    A_ := []
    d_ := fun _ => 0 }

/-- The interpolation of the uniform field `u = v = 0`, `w = −1`. -/
def fallInterpolation : Interpolation :=
  { get_interp_u := fun _ _ _ _ _ => some 0
    get_interp_v := fun _ _ _ _ _ => some 0
    get_interp_w := fun _ _ _ _ _ => some (-1) }

/-- The position `x` lies strictly inside the domain that `advance_particles` tests:
`−0.5·cell < c < size − 0.5·cell` on each axis, with `size = count · cell`. -/
def Mac3d.inside (g : Mac3d) (x : Vector3d) : Prop :=
  -(1 / 2) * g.cell_sizex_ < x.x ∧ x.x < g.get_grid_size.x - 1 / 2 * g.cell_sizex_ ∧
  -(1 / 2) * g.cell_sizey_ < x.y ∧ x.y < g.get_grid_size.y - 1 / 2 * g.cell_sizey_ ∧
  -(1 / 2) * g.cell_sizez_ < x.z ∧ x.z < g.get_grid_size.z - 1 / 2 * g.cell_sizez_

instance (g : Mac3d) (x : Vector3d) : Decidable (g.inside x) := by
  unfold Mac3d.inside
  infer_instance

/-! ## Particle to grid: claims C13, C14 (vocabulary) -/

/-- Modelled from the spec: `Mac3d::get_weights_u`, bounds-checked on the shape of `u`. -/
def Mac3d.get_weights_u (g : Mac3d) (i j k : ℕ) : Option ℚ :=
  if i < g.N_ + 1 ∧ j < g.M_ ∧ k < g.L_ then some (g.pweights_u_ i j k) else none

/-- Modelled from the spec: `Mac3d::get_weights_v`, bounds-checked on the shape of `v`. -/
def Mac3d.get_weights_v (g : Mac3d) (i j k : ℕ) : Option ℚ :=
  if i < g.N_ ∧ j < g.M_ + 1 ∧ k < g.L_ then some (g.pweights_v_ i j k) else none

/-- Modelled from the spec: `Mac3d::get_weights_w`, bounds-checked on the shape of `w`. -/
def Mac3d.get_weights_w (g : Mac3d) (i j k : ℕ) : Option ℚ :=
  if i < g.N_ ∧ j < g.M_ ∧ k < g.L_ + 1 then some (g.pweights_w_ i j k) else none

/-- Modelled from the spec: `Mac3d::set_weights_u`, bounds-checked on the shape of `u`. -/
def Mac3d.set_weights_u (g : Mac3d) (i j k : ℕ) (value : ℚ) : Option Mac3d :=
  if i < g.N_ + 1 ∧ j < g.M_ ∧ k < g.L_ then
    some { g with pweights_u_ := write3 g.pweights_u_ i j k value }
  else none

/-- Modelled from the spec: `Mac3d::set_weights_v`, bounds-checked on the shape of `v`. -/
def Mac3d.set_weights_v (g : Mac3d) (i j k : ℕ) (value : ℚ) : Option Mac3d :=
  if i < g.N_ ∧ j < g.M_ + 1 ∧ k < g.L_ then
    some { g with pweights_v_ := write3 g.pweights_v_ i j k value }
  else none

/-- Modelled from the spec: `Mac3d::set_weights_w`, bounds-checked on the shape of `w`. -/
def Mac3d.set_weights_w (g : Mac3d) (i j k : ℕ) (value : ℚ) : Option Mac3d :=
  if i < g.N_ ∧ j < g.M_ ∧ k < g.L_ + 1 then
    some { g with pweights_w_ := write3 g.pweights_w_ i j k value }
  else none

/-- Modelled from the spec: `Mac3d::set_velocities_to_zero`, the bulk operation "zero all
velocities" of section 4.1: every face of the three staggered shapes is set to 0. -/
def Mac3d.set_velocities_to_zero (g : Mac3d) : Mac3d :=
  { g with
    pu_ := fun i j k => if i < g.N_ + 1 ∧ j < g.M_ ∧ k < g.L_ then 0 else g.pu_ i j k
    pv_ := fun i j k => if i < g.N_ ∧ j < g.M_ + 1 ∧ k < g.L_ then 0 else g.pv_ i j k
    pw_ := fun i j k => if i < g.N_ ∧ j < g.M_ ∧ k < g.L_ + 1 then 0 else g.pw_ i j k }

/-- Modelled from the spec: `Mac3d::set_weights_to_zero`, the bulk operation "zero all
weights" of section 4.1: every weight accumulator of the three staggered shapes is set
to 0. -/
def Mac3d.set_weights_to_zero (g : Mac3d) : Mac3d :=
  { g with
    pweights_u_ := fun i j k =>
      if i < g.N_ + 1 ∧ j < g.M_ ∧ k < g.L_ then 0 else g.pweights_u_ i j k
    pweights_v_ := fun i j k =>
      if i < g.N_ ∧ j < g.M_ + 1 ∧ k < g.L_ then 0 else g.pweights_v_ i j k
    pweights_w_ := fun i j k =>
      if i < g.N_ ∧ j < g.M_ ∧ k < g.L_ + 1 then 0 else g.pweights_w_ i j k }

/-- Modelled from the spec: `Mac3d::reset_fluid`; as `Mac2d::reset_fluid`, the fluid flag
of every cell of the grid is cleared. -/
def Mac3d.reset_fluid (g : Mac3d) : Mac3d :=
  { g with
    pfluid_ := fun i j k => if i < g.N_ ∧ j < g.M_ ∧ k < g.L_ then false else g.pfluid_ i j k }

/-- Modelled from the spec: `Mac3d::set_fluid`; as `Mac2d::set_fluid`, bounds-checked on
the cell shape, sets the fluid flag of one cell. -/
def Mac3d.set_fluid (g : Mac3d) (i j k : ℕ) : Option Mac3d :=
  if i < g.N_ ∧ j < g.M_ ∧ k < g.L_ then some { g with pfluid_ := write3 g.pfluid_ i j k true }
  else none

/-- The constant `M_PI` of `<cmath>`: the `double` nearest to π,
`884279719003555 / 2^48`. -/
def M_PI : ℚ := 884279719003555 / 281474976710656

/-- The squared Euclidean norm of `a - b`. -/
def Vector3d.dist_sq (a b : Vector3d) : ℚ :=
  (a.x - b.x) ^ 2 + (a.y - b.y) ^ 2 + (a.z - b.z) ^ 2

/-- `FLIP::check_threshold`: `(particle_coord - grid_coord).norm() <= h`. In exact
arithmetic the norm is the square root of `dist_sq`, and `sqrt(d) <= h` is
`0 <= h` and `d <= h^2`. -/
def FLIP.check_threshold (particle_coord grid_coord : Vector3d) (h : ℚ) : Bool :=
  decide (0 ≤ h ∧ particle_coord.dist_sq grid_coord ≤ h ^ 2)

/-- `FLIP::compute_weight`: with `r` the norm of `particle_coord - grid_coord`,
`(315 / (64 * M_PI * h^9)) * (h^2 - r^2)^3`; in exact arithmetic `r^2` is `dist_sq`. -/
def FLIP.compute_weight (particle_coord grid_coord : Vector3d) (h : ℚ) : ℚ :=
  let diff := h ^ 2 - particle_coord.dist_sq grid_coord
  315 / (64 * M_PI * h ^ 9) * diff ^ 3

/-- `FLIP::accumulate_u`. The `int` indices are handed to the accessors of the grid; the
call site guarantees that they are not negative. -/
def FLIP.accumulate_u (pos vel grid_coord : Vector3d) (h : ℚ) (i j k : ℤ) (g : Mac3d) :
    Option Mac3d :=
  if FLIP.check_threshold pos grid_coord h then
    (g.get_u i.toNat j.toNat k.toNat).bind fun (u_prev : ℚ) =>
    let W_u := FLIP.compute_weight pos grid_coord h
    let u_curr := u_prev + W_u * vel.x
    (g.set_u i.toNat j.toNat k.toNat u_curr).bind fun (g1 : Mac3d) =>
    (g1.get_weights_u i.toNat j.toNat k.toNat).bind fun (W_u_prev : ℚ) =>
    let W_u_curr := W_u_prev + W_u
    g1.set_weights_u i.toNat j.toNat k.toNat W_u_curr
  else some g

/-- `FLIP::accumulate_v`. -/
def FLIP.accumulate_v (pos vel grid_coord : Vector3d) (h : ℚ) (i j k : ℤ) (g : Mac3d) :
    Option Mac3d :=
  if FLIP.check_threshold pos grid_coord h then
    (g.get_v i.toNat j.toNat k.toNat).bind fun (v_prev : ℚ) =>
    let W_v := FLIP.compute_weight pos grid_coord h
    let v_curr := v_prev + W_v * vel.y
    (g.set_v i.toNat j.toNat k.toNat v_curr).bind fun (g1 : Mac3d) =>
    (g1.get_weights_v i.toNat j.toNat k.toNat).bind fun (W_v_prev : ℚ) =>
    let W_v_curr := W_v_prev + W_v
    g1.set_weights_v i.toNat j.toNat k.toNat W_v_curr
  else some g

/-- `FLIP::accumulate_w`. -/
def FLIP.accumulate_w (pos vel grid_coord : Vector3d) (h : ℚ) (i j k : ℤ) (g : Mac3d) :
    Option Mac3d :=
  if FLIP.check_threshold pos grid_coord h then
    (g.get_w i.toNat j.toNat k.toNat).bind fun (w_prev : ℚ) =>
    let W_w := FLIP.compute_weight pos grid_coord h
    let w_curr := w_prev + W_w * vel.z
    (g.set_w i.toNat j.toNat k.toNat w_curr).bind fun (g1 : Mac3d) =>
    (g1.get_weights_w i.toNat j.toNat k.toNat).bind fun (W_w_prev : ℚ) =>
    let W_w_curr := W_w_prev + W_w
    g1.set_weights_w i.toNat j.toNat k.toNat W_w_curr
  else some g

/-- The loop `for (int i = lo; i <= hi; ++i) body`. -/
def forRange {σ : Type} (lo hi : ℤ) (body : ℤ → σ → Option σ) (s : σ) : Option σ :=
  forLoop (hi + 1 - lo).toNat (fun t => body (lo + t)) s

/-- A loop `for (n = 0; n < num_particles_; ++n)` whose body reads particle `n` and
updates a state: the body is run for the particles in order; a fault ends the run. -/
def forEachParticle {σ : Type} (body : Particle → σ → Option σ) : List Particle → σ → Option σ
  | [], s => some s
  | p :: ps, s => (body p s).bind (forEachParticle body ps)

/-- Body of the innermost loop of the particle loop of `compute_velocity_field`, at the
grid point `(i, j, k)`: the three accumulations, each under its bounds test. -/
def FLIP.transfer_point (pos vel : Vector3d) (h : ℚ) (i j k : ℤ) (g : Mac3d) : Option Mac3d :=
  let cell_sizex := g.get_cell_sizex
  let cell_sizey := g.get_cell_sizey
  let cell_sizez := g.get_cell_sizez
  let nx : ℤ := g.get_num_cells_x
  let ny : ℤ := g.get_num_cells_y
  let nz : ℤ := g.get_num_cells_z
  if i ≥ 0 ∧ j ≥ 0 ∧ k ≥ 0 then
    (if i ≤ nx ∧ j < ny ∧ k < nz then
        FLIP.accumulate_u pos vel ⟨(i - 1 / 2) * cell_sizex, j * cell_sizey, k * cell_sizez⟩
          h i j k g
      else some g).bind fun (g1 : Mac3d) =>
    (if i < nx ∧ j ≤ ny ∧ k < nz then
        FLIP.accumulate_v pos vel ⟨i * cell_sizex, (j - 1 / 2) * cell_sizey, k * cell_sizez⟩
          h i j k g1
      else some g1).bind fun (g2 : Mac3d) =>
    if i < nx ∧ j < ny ∧ k ≤ nz then
      FLIP.accumulate_w pos vel ⟨i * cell_sizex, j * cell_sizey, (k - 1 / 2) * cell_sizez⟩
        h i j k g2
    else some g2
  else some g

/-- The statement "set the cell of the current particle to a fluid-cell" of
`compute_velocity_field`: `if (!is_fluid(c) and !is_solid(c)) set_fluid(c)`. -/
def FLIP.mark_fluid (cell_coord : ℕ × ℕ × ℕ) (g : Mac3d) : Option Mac3d :=
  (g.is_fluid cell_coord.1 cell_coord.2.1 cell_coord.2.2).bind fun (fl : Bool) =>
  (scAnd (!fl) ((g.is_solid cell_coord.1 cell_coord.2.1 cell_coord.2.2).map fun b => !b)).bind
    fun (c : Bool) =>
  if c then g.set_fluid cell_coord.1 cell_coord.2.1 cell_coord.2.2 else some g

/-- Body of the particle loop of `compute_velocity_field` for one particle. -/
def FLIP.transfer_particle (h : ℚ) (h_scaledx h_scaledy h_scaledz : ℤ) (p : Particle)
    (g : Mac3d) : Option Mac3d :=
  let pos := p.get_position
  let vel := p.get_velocity
  (g.index_from_coord pos.x pos.y pos.z).bind fun (cell_coord : ℕ × ℕ × ℕ) =>
  (FLIP.mark_fluid cell_coord g).bind fun (g1 : Mac3d) =>
  forRange (cell_coord.2.2 - h_scaledz) (cell_coord.2.2 + h_scaledz + 1)
    (fun k => forRange (cell_coord.2.1 - h_scaledy) (cell_coord.2.1 + h_scaledy + 1)
      (fun j => forRange (cell_coord.1 - h_scaledx) (cell_coord.1 + h_scaledx + 1)
        (fun i => FLIP.transfer_point pos vel h i j k))) g1

/-- Body of the loop nest of `normalize_accumulated_u` at the face `(i, j, k)`; the state
is the grid and the array `visited_u`. -/
def FLIP.normalize_u_face (N M : ℕ) (i j k : ℕ) (s : Mac3d × (ℕ → Bool)) :
    Option (Mac3d × (ℕ → Bool)) :=
  (s.1.get_weights_u i j k).bind fun (W_u : ℚ) =>
  if W_u ≠ 0 then
    (s.1.get_u i j k).bind fun (u_prev : ℚ) =>
    let u_curr := u_prev / W_u
    (s.1.set_u i j k u_curr).map fun g =>
      (g, Function.update s.2 ((N + 1) * j + i + (N + 1) * M * k) true)
  else some s

/-- Body of the loop nest of `normalize_accumulated_v` at the face `(i, j, k)`. -/
def FLIP.normalize_v_face (N M : ℕ) (i j k : ℕ) (s : Mac3d × (ℕ → Bool)) :
    Option (Mac3d × (ℕ → Bool)) :=
  (s.1.get_weights_v i j k).bind fun (W_v : ℚ) =>
  if W_v ≠ 0 then
    (s.1.get_v i j k).bind fun (v_prev : ℚ) =>
    let v_curr := v_prev / W_v
    (s.1.set_v i j k v_curr).map fun g =>
      (g, Function.update s.2 (N * j + i + N * (M + 1) * k) true)
  else some s

/-- Body of the loop nest of `normalize_accumulated_w` at the face `(i, j, k)`. -/
def FLIP.normalize_w_face (N M : ℕ) (i j k : ℕ) (s : Mac3d × (ℕ → Bool)) :
    Option (Mac3d × (ℕ → Bool)) :=
  (s.1.get_weights_w i j k).bind fun (W_w : ℚ) =>
  if W_w ≠ 0 then
    (s.1.get_w i j k).bind fun (w_prev : ℚ) =>
    let w_curr := w_prev / W_w
    (s.1.set_w i j k w_curr).map fun g =>
      (g, Function.update s.2 (N * j + i + N * M * k) true)
  else some s

/-- `FLIP::normalize_accumulated_u`. -/
def FLIP.normalize_accumulated_u (s : Mac3d × (ℕ → Bool)) : Option (Mac3d × (ℕ → Bool)) :=
  let N := s.1.get_num_cells_x
  let M := s.1.get_num_cells_y
  let L := s.1.get_num_cells_z
  forLoop3 (N + 1) M L (FLIP.normalize_u_face N M) s

/-- `FLIP::normalize_accumulated_v`. -/
def FLIP.normalize_accumulated_v (s : Mac3d × (ℕ → Bool)) : Option (Mac3d × (ℕ → Bool)) :=
  let N := s.1.get_num_cells_x
  let M := s.1.get_num_cells_y
  let L := s.1.get_num_cells_z
  forLoop3 N (M + 1) L (FLIP.normalize_v_face N M) s

/-- `FLIP::normalize_accumulated_w`. -/
def FLIP.normalize_accumulated_w (s : Mac3d × (ℕ → Bool)) : Option (Mac3d × (ℕ → Bool)) :=
  let N := s.1.get_num_cells_x
  let M := s.1.get_num_cells_y
  let L := s.1.get_num_cells_z
  forLoop3 N M (L + 1) (FLIP.normalize_w_face N M) s

/-- One propagation of `extrapolate_u`: the value of the visited face `(i, j, k)` is
folded into the running average kept in the face `(i', j', k')`, whose offset in the array
`counter` is `idx`. -/
def FLIP.extrapolate_u_step (i j k i' j' k' idx : ℕ) (s : Mac3d × (ℕ → ℕ)) :
    Option (Mac3d × (ℕ → ℕ)) :=
  (s.1.get_u i' j' k').bind fun (old : ℚ) =>
  let tmp := old * (s.2 idx : ℚ)
  let counter := Function.update s.2 idx (s.2 idx + 1)
  (s.1.get_u i j k).bind fun (src : ℚ) =>
  (s.1.set_u i' j' k' ((tmp + src) / (counter idx : ℚ))).map fun g => (g, counter)

/-- Body of the loop nest of `extrapolate_u` at the face `(i, j, k)`; the state is the grid
and the array `counter`. -/
def FLIP.extrapolate_u_face (visited_u : ℕ → Bool) (N M L : ℕ) (i j k : ℕ)
    (s : Mac3d × (ℕ → ℕ)) : Option (Mac3d × (ℕ → ℕ)) :=
  if visited_u ((N + 1) * j + i + (N + 1) * M * k) then
    (if i ≠ 0 ∧ !visited_u ((N + 1) * j + (i - 1) + (N + 1) * M * k) then
        FLIP.extrapolate_u_step i j k (i - 1) j k ((N + 1) * j + (i - 1) + (N + 1) * M * k) s
      else some s).bind fun (s1 : Mac3d × (ℕ → ℕ)) =>
    (if j ≠ 0 ∧ !visited_u ((N + 1) * (j - 1) + i + (N + 1) * M * k) then
        FLIP.extrapolate_u_step i j k i (j - 1) k ((N + 1) * (j - 1) + i + (N + 1) * M * k) s1
      else some s1).bind fun (s2 : Mac3d × (ℕ → ℕ)) =>
    (if k ≠ 0 ∧ !visited_u ((N + 1) * j + i + (N + 1) * M * (k - 1)) then
        FLIP.extrapolate_u_step i j k i j (k - 1) ((N + 1) * j + i + (N + 1) * M * (k - 1)) s2
      else some s2).bind fun (s3 : Mac3d × (ℕ → ℕ)) =>
    (if i ≠ N ∧ !visited_u ((N + 1) * j + (i + 1) + (N + 1) * M * k) then
        FLIP.extrapolate_u_step i j k (i + 1) j k ((N + 1) * j + (i + 1) + (N + 1) * M * k) s3
      else some s3).bind fun (s4 : Mac3d × (ℕ → ℕ)) =>
    (if j ≠ M - 1 ∧ !visited_u ((N + 1) * (j + 1) + i + (N + 1) * M * k) then
        FLIP.extrapolate_u_step i j k i (j + 1) k ((N + 1) * (j + 1) + i + (N + 1) * M * k) s4
      else some s4).bind fun (s5 : Mac3d × (ℕ → ℕ)) =>
    if k ≠ L - 1 ∧ !visited_u ((N + 1) * j + i + (N + 1) * M * (k + 1)) then
      FLIP.extrapolate_u_step i j k i j (k + 1) ((N + 1) * j + i + (N + 1) * M * (k + 1)) s5
    else some s5
  else some s

/-- `FLIP::extrapolate_u`; the array `counter` starts at 0 and is dropped at the end. -/
def FLIP.extrapolate_u (visited_u : ℕ → Bool) (g : Mac3d) : Option Mac3d :=
  let M := g.get_num_cells_y
  let N := g.get_num_cells_x
  let L := g.get_num_cells_z
  (forLoop3 (N + 1) M L (FLIP.extrapolate_u_face visited_u N M L)
    (g, fun _ => 0)).map fun s => s.1

/-- One propagation of `extrapolate_v`: the value of the visited face `(i, j, k)` is
folded into the running average kept in the face `(i', j', k')`, whose offset in the array
`counter` is `idx`. -/
def FLIP.extrapolate_v_step (i j k i' j' k' idx : ℕ) (s : Mac3d × (ℕ → ℕ)) :
    Option (Mac3d × (ℕ → ℕ)) :=
  (s.1.get_v i' j' k').bind fun (old : ℚ) =>
  let tmp := old * (s.2 idx : ℚ)
  let counter := Function.update s.2 idx (s.2 idx + 1)
  (s.1.get_v i j k).bind fun (src : ℚ) =>
  (s.1.set_v i' j' k' ((tmp + src) / (counter idx : ℚ))).map fun g => (g, counter)

/-- Body of the loop nest of `extrapolate_v` at the face `(i, j, k)`; the state is the grid
and the array `counter`. -/
def FLIP.extrapolate_v_face (visited_v : ℕ → Bool) (N M L : ℕ) (i j k : ℕ)
    (s : Mac3d × (ℕ → ℕ)) : Option (Mac3d × (ℕ → ℕ)) :=
  if visited_v (N * j + i + N * (M + 1) * k) then
    (if i ≠ 0 ∧ !visited_v (N * j + (i - 1) + N * (M + 1) * k) then
        FLIP.extrapolate_v_step i j k (i - 1) j k (N * j + (i - 1) + N * (M + 1) * k) s
      else some s).bind fun (s1 : Mac3d × (ℕ → ℕ)) =>
    (if j ≠ 0 ∧ !visited_v (N * (j - 1) + i + N * (M + 1) * k) then
        FLIP.extrapolate_v_step i j k i (j - 1) k (N * (j - 1) + i + N * (M + 1) * k) s1
      else some s1).bind fun (s2 : Mac3d × (ℕ → ℕ)) =>
    (if k ≠ 0 ∧ !visited_v (N * j + i + N * (M + 1) * (k - 1)) then
        FLIP.extrapolate_v_step i j k i j (k - 1) (N * j + i + N * (M + 1) * (k - 1)) s2
      else some s2).bind fun (s3 : Mac3d × (ℕ → ℕ)) =>
    (if i ≠ N - 1 ∧ !visited_v (N * j + (i + 1) + N * (M + 1) * k) then
        FLIP.extrapolate_v_step i j k (i + 1) j k (N * j + (i + 1) + N * (M + 1) * k) s3
      else some s3).bind fun (s4 : Mac3d × (ℕ → ℕ)) =>
    (if j ≠ M ∧ !visited_v (N * (j + 1) + i + N * (M + 1) * k) then
        FLIP.extrapolate_v_step i j k i (j + 1) k (N * (j + 1) + i + N * (M + 1) * k) s4
      else some s4).bind fun (s5 : Mac3d × (ℕ → ℕ)) =>
    if k ≠ L - 1 ∧ !visited_v (N * j + i + N * (M + 1) * (k + 1)) then
      FLIP.extrapolate_v_step i j k i j (k + 1) (N * j + i + N * (M + 1) * (k + 1)) s5
    else some s5
  else some s

/-- `FLIP::extrapolate_v`; the array `counter` starts at 0 and is dropped at the end. -/
def FLIP.extrapolate_v (visited_v : ℕ → Bool) (g : Mac3d) : Option Mac3d :=
  let M := g.get_num_cells_y
  let N := g.get_num_cells_x
  let L := g.get_num_cells_z
  (forLoop3 N (M + 1) L (FLIP.extrapolate_v_face visited_v N M L)
    (g, fun _ => 0)).map fun s => s.1

/-- One propagation of `extrapolate_w`: the value of the visited face `(i, j, k)` is
folded into the running average kept in the face `(i', j', k')`, whose offset in the array
`counter` is `idx`. -/
def FLIP.extrapolate_w_step (i j k i' j' k' idx : ℕ) (s : Mac3d × (ℕ → ℕ)) :
    Option (Mac3d × (ℕ → ℕ)) :=
  (s.1.get_w i' j' k').bind fun (old : ℚ) =>
  let tmp := old * (s.2 idx : ℚ)
  let counter := Function.update s.2 idx (s.2 idx + 1)
  (s.1.get_w i j k).bind fun (src : ℚ) =>
  (s.1.set_w i' j' k' ((tmp + src) / (counter idx : ℚ))).map fun g => (g, counter)

/-- Body of the loop nest of `extrapolate_w` at the face `(i, j, k)`; the state is the grid
and the array `counter`. -/
def FLIP.extrapolate_w_face (visited_w : ℕ → Bool) (N M L : ℕ) (i j k : ℕ)
    (s : Mac3d × (ℕ → ℕ)) : Option (Mac3d × (ℕ → ℕ)) :=
  if visited_w (N * j + i + N * M * k) then
    (if i ≠ 0 ∧ !visited_w (N * j + (i - 1) + N * M * k) then
        FLIP.extrapolate_w_step i j k (i - 1) j k (N * j + (i - 1) + N * M * k) s
      else some s).bind fun (s1 : Mac3d × (ℕ → ℕ)) =>
    (if j ≠ 0 ∧ !visited_w (N * (j - 1) + i + N * M * k) then
        FLIP.extrapolate_w_step i j k i (j - 1) k (N * (j - 1) + i + N * M * k) s1
      else some s1).bind fun (s2 : Mac3d × (ℕ → ℕ)) =>
    (if k ≠ 0 ∧ !visited_w (N * j + i + N * M * (k - 1)) then
        FLIP.extrapolate_w_step i j k i j (k - 1) (N * j + i + N * M * (k - 1)) s2
      else some s2).bind fun (s3 : Mac3d × (ℕ → ℕ)) =>
    (if i ≠ N - 1 ∧ !visited_w (N * j + (i + 1) + N * M * k) then
        FLIP.extrapolate_w_step i j k (i + 1) j k (N * j + (i + 1) + N * M * k) s3
      else some s3).bind fun (s4 : Mac3d × (ℕ → ℕ)) =>
    (if j ≠ M - 1 ∧ !visited_w (N * (j + 1) + i + N * M * k) then
        FLIP.extrapolate_w_step i j k i (j + 1) k (N * (j + 1) + i + N * M * k) s4
      else some s4).bind fun (s5 : Mac3d × (ℕ → ℕ)) =>
    if k ≠ L ∧ !visited_w (N * j + i + N * M * (k + 1)) then
      FLIP.extrapolate_w_step i j k i j (k + 1) (N * j + i + N * M * (k + 1)) s5
    else some s5
  else some s

/-- `FLIP::extrapolate_w`; the array `counter` starts at 0 and is dropped at the end. -/
def FLIP.extrapolate_w (visited_w : ℕ → Bool) (g : Mac3d) : Option Mac3d :=
  let M := g.get_num_cells_y
  let N := g.get_num_cells_x
  let L := g.get_num_cells_z
  (forLoop3 N M (L + 1) (FLIP.extrapolate_w_face visited_w N M L)
    (g, fun _ => 0)).map fun s => s.1

/-- The first part of `FLIP::compute_velocity_field`: the particle-to-grid transfer up to
and including the three normalisation passes. The result is the grid and the arrays
`visited_u`, `visited_v`, `visited_w`. -/
def FLIP.transfer_normalized (f : FLIP) :
    Option (Mac3d × (ℕ → Bool) × (ℕ → Bool) × (ℕ → Bool)) :=
  let g0 := f.MACGrid_.set_velocities_to_zero.set_weights_to_zero
  let cell_sizex := g0.get_cell_sizex
  let cell_sizey := g0.get_cell_sizey
  let cell_sizez := g0.get_cell_sizez
  let h := 2 * cell_sizex
  let h_scaledx : ℤ := ⌈h / cell_sizex⌉
  let h_scaledy : ℤ := ⌈h / cell_sizey⌉
  let h_scaledz : ℤ := ⌈h / cell_sizez⌉
  let visited_u : ℕ → Bool := fun _ => false
  let visited_v : ℕ → Bool := fun _ => false
  let visited_w : ℕ → Bool := fun _ => false
  let g1 := g0.reset_fluid
  (forEachParticle (FLIP.transfer_particle h h_scaledx h_scaledy h_scaledz) f.particles_
    g1).bind fun (g2 : Mac3d) =>
  (FLIP.normalize_accumulated_u (g2, visited_u)).bind fun (su : Mac3d × (ℕ → Bool)) =>
  (FLIP.normalize_accumulated_v (su.1, visited_v)).bind fun (sv : Mac3d × (ℕ → Bool)) =>
  (FLIP.normalize_accumulated_w (sv.1, visited_w)).map fun (sw : Mac3d × (ℕ → Bool)) =>
  (sw.1, su.2, sv.2, sw.2)

/-- `FLIP::compute_velocity_field`: the transfer and normalisation, then the three
extrapolation passes. -/
def FLIP.compute_velocity_field (f : FLIP) : Option FLIP :=
  f.transfer_normalized.bind fun (t : Mac3d × (ℕ → Bool) × (ℕ → Bool) × (ℕ → Bool)) =>
  (FLIP.extrapolate_u t.2.1 t.1).bind fun (g1 : Mac3d) =>
  (FLIP.extrapolate_v t.2.2.1 g1).bind fun (g2 : Mac3d) =>
  (FLIP.extrapolate_w t.2.2.2 g2).map fun (g3 : Mac3d) => { f with MACGrid_ := g3 }

/-- The position of the `u` sample `(i, j, k)`, as `compute_velocity_field` computes it:
`((i − 0.5)·dx, j·dy, k·dz)`. -/
def FLIP.u_coord (g : Mac3d) (i j k : ℤ) : Vector3d :=
  ⟨(i - 1 / 2) * g.get_cell_sizex, j * g.get_cell_sizey, k * g.get_cell_sizez⟩

/-- The position of the `v` sample `(i, j, k)`: `(i·dx, (j − 0.5)·dy, k·dz)`. -/
def FLIP.v_coord (g : Mac3d) (i j k : ℤ) : Vector3d :=
  ⟨i * g.get_cell_sizex, (j - 1 / 2) * g.get_cell_sizey, k * g.get_cell_sizez⟩

/-- The position of the `w` sample `(i, j, k)`: `(i·dx, j·dy, (k − 0.5)·dz)`. -/
def FLIP.w_coord (g : Mac3d) (i j k : ℤ) : Vector3d :=
  ⟨i * g.get_cell_sizex, j * g.get_cell_sizey, (k - 1 / 2) * g.get_cell_sizez⟩

/-- The weight that the body of the innermost loop of the particle loop, run at the grid
point `(i, j, k)`, adds to the weight accumulator of the `u` face `(a, b, e)`: the kernel
weight if the point passes the tests of the loop and of `accumulate_u` and is that face,
0 otherwise. -/
def FLIP.point_weight_u (g : Mac3d) (pos : Vector3d) (h : ℚ) (i j k : ℤ) (a b e : ℕ) : ℚ :=
  if (i ≥ 0 ∧ j ≥ 0 ∧ k ≥ 0) ∧ (i ≤ (g.N_ : ℤ) ∧ j < (g.M_ : ℤ) ∧ k < (g.L_ : ℤ)) ∧
      FLIP.check_threshold pos (FLIP.u_coord g i j k) h = true ∧
      (a = i.toNat ∧ b = j.toNat ∧ e = k.toNat) then
    FLIP.compute_weight pos (FLIP.u_coord g i j k) h
  else 0

/-- The same for the `v` face `(a, b, e)`. -/
def FLIP.point_weight_v (g : Mac3d) (pos : Vector3d) (h : ℚ) (i j k : ℤ) (a b e : ℕ) : ℚ :=
  if (i ≥ 0 ∧ j ≥ 0 ∧ k ≥ 0) ∧ (i < (g.N_ : ℤ) ∧ j ≤ (g.M_ : ℤ) ∧ k < (g.L_ : ℤ)) ∧
      FLIP.check_threshold pos (FLIP.v_coord g i j k) h = true ∧
      (a = i.toNat ∧ b = j.toNat ∧ e = k.toNat) then
    FLIP.compute_weight pos (FLIP.v_coord g i j k) h
  else 0

/-- The same for the `w` face `(a, b, e)`. -/
def FLIP.point_weight_w (g : Mac3d) (pos : Vector3d) (h : ℚ) (i j k : ℤ) (a b e : ℕ) : ℚ :=
  if (i ≥ 0 ∧ j ≥ 0 ∧ k ≥ 0) ∧ (i < (g.N_ : ℤ) ∧ j < (g.M_ : ℤ) ∧ k ≤ (g.L_ : ℤ)) ∧
      FLIP.check_threshold pos (FLIP.w_coord g i j k) h = true ∧
      (a = i.toNat ∧ b = j.toNat ∧ e = k.toNat) then
    FLIP.compute_weight pos (FLIP.w_coord g i j k) h
  else 0

/-- The grid `g` after weights `du`, `dv`, `dw` of a particle of velocity `vel` have been
accumulated: `weight · velocity component` is added to the velocity faces, `weight` to
the weight accumulators. -/
def Mac3d.accumulated (g : Mac3d) (vel : Vector3d) (du dv dw : ℕ → ℕ → ℕ → ℚ) : Mac3d :=
  { g with
    pu_ := fun a b e => g.pu_ a b e + du a b e * vel.x
    pv_ := fun a b e => g.pv_ a b e + dv a b e * vel.y
    pw_ := fun a b e => g.pw_ a b e + dw a b e * vel.z
    pweights_u_ := fun a b e => g.pweights_u_ a b e + du a b e
    pweights_v_ := fun a b e => g.pweights_v_ a b e + dv a b e
    pweights_w_ := fun a b e => g.pweights_w_ a b e + dw a b e }

/-- The weight that the three nested loops around a particle, run over the index window
`lo .. lo + w - 1` on each axis, add to the `u` face `(a, b, e)`. -/
def FLIP.window_weight_u (g : Mac3d) (pos : Vector3d) (h : ℚ) (lo_i lo_j lo_k : ℤ)
    (wi wj wk : ℕ) (a b e : ℕ) : ℚ :=
  sum3 wi wj wk (fun ti tj tk =>
    FLIP.point_weight_u g pos h (lo_i + ti) (lo_j + tj) (lo_k + tk) a b e)

/-- The same for the `v` face `(a, b, e)`. -/
def FLIP.window_weight_v (g : Mac3d) (pos : Vector3d) (h : ℚ) (lo_i lo_j lo_k : ℤ)
    (wi wj wk : ℕ) (a b e : ℕ) : ℚ :=
  sum3 wi wj wk (fun ti tj tk =>
    FLIP.point_weight_v g pos h (lo_i + ti) (lo_j + tj) (lo_k + tk) a b e)

/-- The same for the `w` face `(a, b, e)`. -/
def FLIP.window_weight_w (g : Mac3d) (pos : Vector3d) (h : ℚ) (lo_i lo_j lo_k : ℤ)
    (wi wj wk : ℕ) (a b e : ℕ) : ℚ :=
  sum3 wi wj wk (fun ti tj tk =>
    FLIP.point_weight_w g pos h (lo_i + ti) (lo_j + tj) (lo_k + tk) a b e)

/-- Particle `p` contributes to the `u` face `(a, b, e)`: the face lies in the index
window of the loops around the cell of the particle (`cell − h_scaled .. cell + h_scaled +
1` on each axis), in the shape of `u`, and `check_threshold` accepts it. -/
def FLIP.contributes_u (g : Mac3d) (h : ℚ) (hsx hsy hsz : ℤ) (p : Particle) (a b e : ℕ) : Bool :=
  match g.index_from_coord p.position.x p.position.y p.position.z with
  | none => false
  | some cell =>
    decide (((cell.1 - hsx ≤ a ∧ (a : ℤ) ≤ cell.1 + hsx + 1) ∧
        (cell.2.1 - hsy ≤ b ∧ (b : ℤ) ≤ cell.2.1 + hsy + 1) ∧
        (cell.2.2 - hsz ≤ e ∧ (e : ℤ) ≤ cell.2.2 + hsz + 1)) ∧
      (a ≤ g.N_ ∧ b < g.M_ ∧ e < g.L_) ∧
      FLIP.check_threshold p.position (FLIP.u_coord g a b e) h = true)

/-- The weight with which particle `p` enters the `u` face `(a, b, e)`. -/
def FLIP.weight_u (g : Mac3d) (h : ℚ) (hsx hsy hsz : ℤ) (p : Particle) (a b e : ℕ) : ℚ :=
  if FLIP.contributes_u g h hsx hsy hsz p a b e = true then
    FLIP.compute_weight p.position (FLIP.u_coord g a b e) h
  else 0

/-- Particle `p` contributes to the `v` face `(a, b, e)`: the face lies in the index
window of the loops around the cell of the particle (`cell − h_scaled .. cell + h_scaled +
1` on each axis), in the shape of `v`, and `check_threshold` accepts it. -/
def FLIP.contributes_v (g : Mac3d) (h : ℚ) (hsx hsy hsz : ℤ) (p : Particle) (a b e : ℕ) : Bool :=
  match g.index_from_coord p.position.x p.position.y p.position.z with
  | none => false
  | some cell =>
    decide (((cell.1 - hsx ≤ a ∧ (a : ℤ) ≤ cell.1 + hsx + 1) ∧
        (cell.2.1 - hsy ≤ b ∧ (b : ℤ) ≤ cell.2.1 + hsy + 1) ∧
        (cell.2.2 - hsz ≤ e ∧ (e : ℤ) ≤ cell.2.2 + hsz + 1)) ∧
      (a < g.N_ ∧ b ≤ g.M_ ∧ e < g.L_) ∧
      FLIP.check_threshold p.position (FLIP.v_coord g a b e) h = true)

/-- The weight with which particle `p` enters the `v` face `(a, b, e)`. -/
def FLIP.weight_v (g : Mac3d) (h : ℚ) (hsx hsy hsz : ℤ) (p : Particle) (a b e : ℕ) : ℚ :=
  if FLIP.contributes_v g h hsx hsy hsz p a b e = true then
    FLIP.compute_weight p.position (FLIP.v_coord g a b e) h
  else 0

/-- Particle `p` contributes to the `w` face `(a, b, e)`: the face lies in the index
window of the loops around the cell of the particle (`cell − h_scaled .. cell + h_scaled +
1` on each axis), in the shape of `w`, and `check_threshold` accepts it. -/
def FLIP.contributes_w (g : Mac3d) (h : ℚ) (hsx hsy hsz : ℤ) (p : Particle) (a b e : ℕ) : Bool :=
  match g.index_from_coord p.position.x p.position.y p.position.z with
  | none => false
  | some cell =>
    decide (((cell.1 - hsx ≤ a ∧ (a : ℤ) ≤ cell.1 + hsx + 1) ∧
        (cell.2.1 - hsy ≤ b ∧ (b : ℤ) ≤ cell.2.1 + hsy + 1) ∧
        (cell.2.2 - hsz ≤ e ∧ (e : ℤ) ≤ cell.2.2 + hsz + 1)) ∧
      (a < g.N_ ∧ b < g.M_ ∧ e ≤ g.L_) ∧
      FLIP.check_threshold p.position (FLIP.w_coord g a b e) h = true)

/-- The weight with which particle `p` enters the `w` face `(a, b, e)`. -/
def FLIP.weight_w (g : Mac3d) (h : ℚ) (hsx hsy hsz : ℤ) (p : Particle) (a b e : ℕ) : ℚ :=
  if FLIP.contributes_w g h hsx hsy hsz p a b e = true then
    FLIP.compute_weight p.position (FLIP.w_coord g a b e) h
  else 0

/-- The grid `g` after `mark_fluid` for the cell `cell`: the fluid flag of that cell is
set unless the cell is solid. -/
def Mac3d.marked (g : Mac3d) (cell : ℕ × ℕ × ℕ) : Mac3d :=
  { g with
    pfluid_ := fun a b e =>
      g.pfluid_ a b e || (decide (a = cell.1 ∧ b = cell.2.1 ∧ e = cell.2.2) && !g.psolid_ a b e) }

/-- The weights of a particle depend on the grid only through its dimensions and cell
sizes. -/
structure SameGeometry (g g' : Mac3d) : Prop where
  hN : g'.N_ = g.N_
  hM : g'.M_ = g.M_
  hL : g'.L_ = g.L_
  hx : g'.cell_sizex_ = g.cell_sizex_
  hy : g'.cell_sizey_ = g.cell_sizey_
  hz : g'.cell_sizez_ = g.cell_sizez_

/-- The grid `g` after the particle loop of `compute_velocity_field` has handled the
particles `ps`: the fluid flag is set in every non-solid cell that holds a particle, and
every face has received `weight · velocity component`, every weight accumulator `weight`,
from every particle. -/
def Mac3d.transferred (g : Mac3d) (h : ℚ) (hsx hsy hsz : ℤ) (ps : List Particle) : Mac3d :=
  { g with
    pfluid_ := fun a b e => g.pfluid_ a b e || (!g.psolid_ a b e &&
      ps.any (fun p =>
        decide (g.index_from_coord p.position.x p.position.y p.position.z = some (a, b, e))))
    pu_ := fun a b e => g.pu_ a b e
      + (ps.map (fun p => FLIP.weight_u g h hsx hsy hsz p a b e * p.velocity.x)).sum
    pv_ := fun a b e => g.pv_ a b e
      + (ps.map (fun p => FLIP.weight_v g h hsx hsy hsz p a b e * p.velocity.y)).sum
    pw_ := fun a b e => g.pw_ a b e
      + (ps.map (fun p => FLIP.weight_w g h hsx hsy hsz p a b e * p.velocity.z)).sum
    pweights_u_ := fun a b e => g.pweights_u_ a b e
      + (ps.map (fun p => FLIP.weight_u g h hsx hsy hsz p a b e)).sum
    pweights_v_ := fun a b e => g.pweights_v_ a b e
      + (ps.map (fun p => FLIP.weight_v g h hsx hsy hsz p a b e)).sum
    pweights_w_ := fun a b e => g.pweights_w_ a b e
      + (ps.map (fun p => FLIP.weight_w g h hsx hsy hsz p a b e)).sum }

/-- The grid `g` after `normalize_accumulated_u`: every `u` face with a nonzero weight
accumulator holds its accumulated value divided by the accumulated weight. -/
def Mac3d.normalized_u (g : Mac3d) : Mac3d :=
  { g with
    pu_ := fun a b e =>
      if g.pweights_u_ a b e ≠ 0 ∧ a < g.N_ + 1 ∧ b < g.M_ ∧ e < g.L_ then
        g.pu_ a b e / g.pweights_u_ a b e
      else g.pu_ a b e }

/-- The grid `g` after `normalize_accumulated_u` has handled the faces of linear index
below `c`. -/
def Mac3d.normalized_u_below (g : Mac3d) (c : ℕ) : Mac3d :=
  { g with
    pu_ := fun a b e =>
      if g.pweights_u_ a b e ≠ 0 ∧ a < g.N_ + 1 ∧ b < g.M_ ∧ e < g.L_ ∧
          cellIndex (g.N_ + 1) g.M_ a b e < c then
        g.pu_ a b e / g.pweights_u_ a b e
      else g.pu_ a b e }

/-- The grid `g` after `normalize_accumulated_v`: every `v` face with a nonzero weight
accumulator holds its accumulated value divided by the accumulated weight. -/
def Mac3d.normalized_v (g : Mac3d) : Mac3d :=
  { g with
    pv_ := fun a b e =>
      if g.pweights_v_ a b e ≠ 0 ∧ a < g.N_ ∧ b < g.M_ + 1 ∧ e < g.L_ then
        g.pv_ a b e / g.pweights_v_ a b e
      else g.pv_ a b e }

/-- The grid `g` after `normalize_accumulated_v` has handled the faces of linear index
below `c`. -/
def Mac3d.normalized_v_below (g : Mac3d) (c : ℕ) : Mac3d :=
  { g with
    pv_ := fun a b e =>
      if g.pweights_v_ a b e ≠ 0 ∧ a < g.N_ ∧ b < g.M_ + 1 ∧ e < g.L_ ∧
          cellIndex g.N_ (g.M_ + 1) a b e < c then
        g.pv_ a b e / g.pweights_v_ a b e
      else g.pv_ a b e }

/-- The grid `g` after `normalize_accumulated_w`: every `w` face with a nonzero weight
accumulator holds its accumulated value divided by the accumulated weight. -/
def Mac3d.normalized_w (g : Mac3d) : Mac3d :=
  { g with
    pw_ := fun a b e =>
      if g.pweights_w_ a b e ≠ 0 ∧ a < g.N_ ∧ b < g.M_ ∧ e < g.L_ + 1 then
        g.pw_ a b e / g.pweights_w_ a b e
      else g.pw_ a b e }

/-- The grid `g` after `normalize_accumulated_w` has handled the faces of linear index
below `c`. -/
def Mac3d.normalized_w_below (g : Mac3d) (c : ℕ) : Mac3d :=
  { g with
    pw_ := fun a b e =>
      if g.pweights_w_ a b e ≠ 0 ∧ a < g.N_ ∧ b < g.M_ ∧ e < g.L_ + 1 ∧
          cellIndex g.N_ g.M_ a b e < c then
        g.pw_ a b e / g.pweights_w_ a b e
      else g.pw_ a b e }

/-- The kernel radius of `compute_velocity_field`: `h = 2 * cell_sizex`. -/
def FLIP.kernel_radius (f : FLIP) : ℚ := 2 * f.MACGrid_.get_cell_sizex

/-- The half-width of the index window on the x axis: `ceil(h / cell_sizex)`. -/
def FLIP.h_scaledx (f : FLIP) : ℤ := ⌈f.kernel_radius / f.MACGrid_.get_cell_sizex⌉

/-- The half-width of the index window on the y axis: `ceil(h / cell_sizey)`. -/
def FLIP.h_scaledy (f : FLIP) : ℤ := ⌈f.kernel_radius / f.MACGrid_.get_cell_sizey⌉

/-- The half-width of the index window on the z axis: `ceil(h / cell_sizez)`. -/
def FLIP.h_scaledz (f : FLIP) : ℤ := ⌈f.kernel_radius / f.MACGrid_.get_cell_sizez⌉

/-- The grid on which the particle loop of `compute_velocity_field` starts: velocities
and weights zeroed, fluid flags cleared. -/
def FLIP.transfer_start (f : FLIP) : Mac3d :=
  f.MACGrid_.set_velocities_to_zero.set_weights_to_zero.reset_fluid

/-- The grid after the transfer and the three normalisation passes. -/
def FLIP.normalized_grid (f : FLIP) : Mac3d :=
  ((f.transfer_start.transferred f.kernel_radius f.h_scaledx f.h_scaledy f.h_scaledz
    f.particles_).normalized_u.normalized_v).normalized_w

/-- Particle `p` contributed to the `u` face `(a, b, e)` in the transfer of `f`:
`accumulate_u` was called for that face and particle and its threshold test passed. -/
def FLIP.contributed_u (f : FLIP) (p : Particle) (a b e : ℕ) : Bool :=
  FLIP.contributes_u f.MACGrid_ f.kernel_radius f.h_scaledx f.h_scaledy f.h_scaledz p a b e

/-- The same for the `v` face `(a, b, e)`. -/
def FLIP.contributed_v (f : FLIP) (p : Particle) (a b e : ℕ) : Bool :=
  FLIP.contributes_v f.MACGrid_ f.kernel_radius f.h_scaledx f.h_scaledy f.h_scaledz p a b e

/-- The same for the `w` face `(a, b, e)`. -/
def FLIP.contributed_w (f : FLIP) (p : Particle) (a b e : ℕ) : Bool :=
  FLIP.contributes_w f.MACGrid_ f.kernel_radius f.h_scaledx f.h_scaledy f.h_scaledz p a b e

/-- The weight `w_p` of particle `p` on the `u` face `(a, b, e)` in the transfer of `f`:
the value of `compute_weight` if the particle contributed, 0 otherwise. -/
def FLIP.face_weight_u (f : FLIP) (p : Particle) (a b e : ℕ) : ℚ :=
  FLIP.weight_u f.MACGrid_ f.kernel_radius f.h_scaledx f.h_scaledy f.h_scaledz p a b e

/-- The same for the `v` face `(a, b, e)`. -/
def FLIP.face_weight_v (f : FLIP) (p : Particle) (a b e : ℕ) : ℚ :=
  FLIP.weight_v f.MACGrid_ f.kernel_radius f.h_scaledx f.h_scaledy f.h_scaledz p a b e

/-- The same for the `w` face `(a, b, e)`. -/
def FLIP.face_weight_w (f : FLIP) (p : Particle) (a b e : ℕ) : ℚ :=
  FLIP.weight_w f.MACGrid_ f.kernel_radius f.h_scaledx f.h_scaledy f.h_scaledz p a b e

/-- The sum of the weights `w_p` over a list of particles. -/
def weightSum (w : Particle → ℚ) (ps : List Particle) : ℚ := (ps.map w).sum

/-- The sum of `w_p * c_p` over a list of particles, `c_p` a velocity component. -/
def weightedSum (w c : Particle → ℚ) (ps : List Particle) : ℚ :=
  (ps.map (fun p => w p * c p)).sum

/-- The face value `value` with weight accumulator `acc` is the weighted average of the
component `c` over the particles `ps` with weights `w`, where `contributed` tells which
particles contributed: the accumulator is the sum of the weights, and if it is not 0 the
value is `sum (w_p * c_p) / sum w_p`, lies between any two bounds of the component over the
contributing particles, and is the component of the particle if only one contributed. -/
def IsWeightedAverage (value acc : ℚ) (w c : Particle → ℚ) (contributed : Particle → Bool)
    (ps : List Particle) : Prop :=
  acc = weightSum w ps ∧
  (acc ≠ 0 →
    value = weightedSum w c ps / weightSum w ps ∧
    (∀ lo hi : ℚ, (∀ p, p ∈ ps → contributed p = true → lo ≤ c p ∧ c p ≤ hi) →
      lo ≤ value ∧ value ≤ hi) ∧
    (∀ p : Particle, (∀ q, q ∈ ps → contributed q = true → q = p) → value = c p))

/-- One particle with velocity `(1, 0, 0)` at the centre of cell `(1, 1, 1)` of
`crossGrid`. -/
def singleFLIP : FLIP :=
  { particles_ := [⟨⟨1, 1, 1⟩, ⟨1, 1, 1⟩, ⟨1, 0, 0⟩⟩]
    MACGrid_ := crossGrid
    fluid_density_ := 1
    gravity_mag_ := 1
    alpha_ := 0
    A_ := []
    d_ := fun _ => 0 }

/-- The grid `g'` has the dimensions, the solid flags and the fluid flags of `g`. -/
structure SameCells (g g' : Mac3d) : Prop where
  hN : g'.N_ = g.N_
  hM : g'.M_ = g.M_
  hL : g'.L_ = g.L_
  hsolid : g'.psolid_ = g.psolid_
  hfluid : g'.pfluid_ = g.pfluid_

/-! ## The 2D grid: claims C21 to C27 (vocabulary) -/

/-- `Mac2d::get_u`: `assert(i < (N_+1) && j < (M_))`, then the read at offset
`(N_+1)*j + i`; `none` is the failed assertion. -/
def Mac2d.get_u (g : Mac2d) (i j : ℤ) : Option ℚ :=
  if i < g.N_ + 1 ∧ j < g.M_ then some (g.pu_ ((g.N_ + 1) * j + i)) else none

/-- `Mac2d::get_v`: `assert(i < (N_) && j < (M_+1))`, then the read at offset `N_*j + i`. -/
def Mac2d.get_v (g : Mac2d) (i j : ℤ) : Option ℚ :=
  if i < g.N_ ∧ j < g.M_ + 1 then some (g.pv_ (g.N_ * j + i)) else none

/-- `Mac2d::get_pressure`: `assert(i < N_ && j < M_)`, then the read at offset
`N_*j + i`. -/
def Mac2d.get_pressure (g : Mac2d) (i j : ℤ) : Option ℚ :=
  if i < g.N_ ∧ j < g.M_ then some (g.ppressure_ (g.N_ * j + i)) else none

/-- `Mac2d::is_solid`: `assert(i < N_ && j < M_)`, then the read at offset `N_*j + i`. -/
def Mac2d.is_solid (g : Mac2d) (i j : ℤ) : Option Bool :=
  if i < g.N_ ∧ j < g.M_ then some (g.psolid_ (g.N_ * j + i)) else none

/-- `Mac2d::is_fluid`: `assert(i < N_ && j < M_)`, then the read at offset `N_*j + i`. -/
def Mac2d.is_fluid (g : Mac2d) (i j : ℤ) : Option Bool :=
  if i < g.N_ ∧ j < g.M_ then some (g.pfluid_ (g.N_ * j + i)) else none

/-- `Mac2d::get_weights_u`: `assert(i < (N_+1) && j < (M_))`, then the read at offset
`(N_+1)*j + i`. -/
def Mac2d.get_weights_u (g : Mac2d) (i j : ℤ) : Option ℚ :=
  if i < g.N_ + 1 ∧ j < g.M_ then some (g.pweights_u_ ((g.N_ + 1) * j + i)) else none

/-- `Mac2d::get_weights_v`: `assert(i < (N_) && j < (M_+1))`, then the read at offset
`N_*j + i`. -/
def Mac2d.get_weights_v (g : Mac2d) (i j : ℤ) : Option ℚ :=
  if i < g.N_ ∧ j < g.M_ + 1 then some (g.pweights_v_ (g.N_ * j + i)) else none

/-- `Mac2d::set_u`: `assert(i < (N_+1) && j < (M_))`, then the write at offset
`(N_+1)*j + i`. -/
def Mac2d.set_u (g : Mac2d) (i j : ℤ) (value : ℚ) : Option Mac2d :=
  if i < g.N_ + 1 ∧ j < g.M_ then
    some { g with pu_ := Function.update g.pu_ ((g.N_ + 1) * j + i) value }
  else none

/-- `Mac2d::set_v`: `assert(i < (N_) && j < (M_+1))`, then the write at offset
`N_*j + i`. -/
def Mac2d.set_v (g : Mac2d) (i j : ℤ) (value : ℚ) : Option Mac2d :=
  if i < g.N_ ∧ j < g.M_ + 1 then
    some { g with pv_ := Function.update g.pv_ (g.N_ * j + i) value }
  else none

/-- `Mac2d::set_pressure(const int i, const int j, double value)`:
`assert(i < N_ && j < M_)`, then the write at offset `N_*j + i`. -/
def Mac2d.set_pressure_ij (g : Mac2d) (i j : ℤ) (value : ℚ) : Option Mac2d :=
  if i < g.N_ ∧ j < g.M_ then
    some { g with ppressure_ := Function.update g.ppressure_ (g.N_ * j + i) value }
  else none

/-- `Mac2d::set_weights_u`: `assert(i < (N_+1) && j < (M_))`, then the write at offset
`(N_+1)*j + i`. -/
def Mac2d.set_weights_u (g : Mac2d) (i j : ℤ) (value : ℚ) : Option Mac2d :=
  if i < g.N_ + 1 ∧ j < g.M_ then
    some { g with pweights_u_ := Function.update g.pweights_u_ ((g.N_ + 1) * j + i) value }
  else none

/-- `Mac2d::set_weights_v`: `assert(i < (N_) && j < (M_+1))`, then the write at offset
`N_*j + i`. -/
def Mac2d.set_weights_v (g : Mac2d) (i j : ℤ) (value : ℚ) : Option Mac2d :=
  if i < g.N_ ∧ j < g.M_ + 1 then
    some { g with pweights_v_ := Function.update g.pweights_v_ (g.N_ * j + i) value }
  else none

/-- `Mac2d::set_velocities_to_zero`: the loops `for (int j = 0; j < M_; ++j)`,
`for (int i = 0; i < N_; ++i)` around `set_u(i, j, 0.); set_v(i, j, 0.);`. -/
def Mac2d.set_velocities_to_zero (g : Mac2d) : Option Mac2d :=
  forLoop g.M_.toNat (fun j =>
    forLoop g.N_.toNat (fun i (s : Mac2d) =>
      (s.set_u i j 0).bind fun (s1 : Mac2d) => s1.set_v i j 0)) g

/-- `Mac2d::set_weights_to_zero`: the loops `for (int j = 0; j < M_+1; ++j)`,
`for (int i = 0; i < N_+1; ++i)` around
`set_weights_u(i, j, 0.); set_weights_v(i, j, 0.);`. -/
def Mac2d.set_weights_to_zero (g : Mac2d) : Option Mac2d :=
  forLoop (g.M_ + 1).toNat (fun j =>
    forLoop (g.N_ + 1).toNat (fun i (s : Mac2d) =>
      (s.set_weights_u i j 0).bind fun (s1 : Mac2d) => s1.set_weights_v i j 0)) g

/-- `Mac2d::set_pressure(const Eigen::VectorXd& p)`:
`std::copy(p.data(), p.data()+p.size(), ppressure_)`, which writes `p[c]` at offset `c` for
every `c < p.size()`. The array `ppressure_` has `N_*M_` elements; copying a longer vector
runs past its end (undefined behaviour), modelled as the fault `none`. -/
def Mac2d.set_pressure (g : Mac2d) (p : List ℚ) : Option Mac2d :=
  if (p.length : ℤ) ≤ g.N_ * g.M_ then
    some { g with ppressure_ := fun c =>
      if 0 ≤ c ∧ c < p.length then p.getD c.toNat 0 else g.ppressure_ c }
  else none

/-- The loop skeleton `unsigned cellidx = 0; for (j < ny) for (i < nx; i++, cellidx++)` of
the 2D `compute_pressure_matrix` and `compute_pressure_rhs`, with the body replaced by a
record of `(i, j, cellidx)`: the state is the counter and the list of the records. -/
def cellidxTrace (nx ny : ℕ) : Option (ℕ × List (ℕ × ℕ × ℕ)) :=
  forLoop ny (fun j =>
    forLoop nx (fun i (s : ℕ × List (ℕ × ℕ × ℕ)) => some (s.1 + 1, s.2 ++ [(i, j, s.1)])))
    (0, [])

/-- The summand `!is_solid(i, j)` of the constructor of `Mac2d`: the `bool` converted to
`int`. -/
def Mac2d.not_solid (g : Mac2d) (i j : ℤ) : Option ℤ :=
  (g.is_solid i j).map fun b => if b then 0 else 1

/-- The value `count` that the constructor of `Mac2d` computes for `index`. -/
def Mac2d.diag_count (g : Mac2d) (min_dimension index : ℤ) : Option ℤ :=
  if index = 0 then
    (g.not_solid index (index + 1)).bind fun a =>
    (g.not_solid (index + 1) index).map fun b => a + b
  else if index = min_dimension - 1 then
    (g.not_solid index (index - 1)).bind fun a =>
    (g.not_solid (index - 1) index).map fun b => a + b
  else
    (g.not_solid index (index + 1)).bind fun a =>
    (g.not_solid (index + 1) index).bind fun b =>
    (g.not_solid index (index - 1)).bind fun c =>
    (g.not_solid (index - 1) index).map fun d => a + b + c + d

/-- The constructor `Mac2d::Mac2d(const int n, const int m, const double dx, const double
dy)` of `Mac2d.h`. The member initialisers are
`N_(n), M_(m), sizex_(dx), sizey_(dy), cell_sizex_(sizex_/(1.*N_)),
cell_sizey_(sizex_/(1.*N_))`; the arrays are allocated with `new` and not initialised, so
their contents are those of the parameter `raw`; then the loop
`for (index = 0; index < min(N_, M_); ++index)` pushes `Triplet_t(index, index, count)`
onto `A_diag_`. `none` is a failed assertion of `is_solid`. -/
def Mac2d.construct (n m : ℤ) (dx dy : ℚ) (raw : Mac2d) : Option Mac2d :=
  let g0 : Mac2d :=
    { raw with
      N_ := n
      M_ := m
      sizex_ := dx
      sizey_ := dy
      cell_sizex_ := dx / (1 * n)
      cell_sizey_ := dx / (1 * n)
      A_diag_ := [] }
  let min_dimension := min g0.N_ g0.M_
  forLoop min_dimension.toNat (fun index (g : Mac2d) =>
    (g.diag_count min_dimension index).map fun (count : ℤ) =>
      { g with A_diag_ := g.A_diag_ ++ [⟨index, index, count⟩] }) g0

/-- The lookup `get_a_diag()[idx]` of `std::vector`: `none` past the end. -/
def Mac2d.get_a_diag (g : Mac2d) (idx : ℕ) : Option Triplet_t := g.A_diag_[idx]?

/-- A 1×1 grid on `[0, 1] × [0, 1]` whose velocity arrays hold 1 everywhere. -/
def onesGrid2d : Mac2d :=
  { N_ := 1
    M_ := 1
    sizex_ := 1
    sizey_ := 1
    cell_sizex_ := 1
    cell_sizey_ := 1
    ppressure_ := fun _ => 0
    pu_ := fun _ => 1
    pv_ := fun _ => 1
    psolid_ := fun _ => false
    pfluid_ := fun _ => false
    pweights_u_ := fun _ => 1
    pweights_v_ := fun _ => 1
    A_diag_ := [] }

/-- A 2×2 grid on `[0, 2] × [0, 2]` whose arrays hold their own offset: the `u` face at
offset `c` holds `c`, and so on. -/
def offsetGrid2d : Mac2d :=
  { N_ := 2
    M_ := 2
    sizex_ := 2
    sizey_ := 2
    cell_sizex_ := 1
    cell_sizey_ := 1
    ppressure_ := fun c => c
    pu_ := fun c => c
    pv_ := fun c => c
    psolid_ := fun c => decide (c = 1)
    pfluid_ := fun c => decide (c = 1)
    pweights_u_ := fun _ => 0
    pweights_v_ := fun _ => 0
    A_diag_ := [] }

/-- The grid `g'` differs from `g` at most in the `u` faces `(i, j)` and the `v` faces
`(i, j)` with `0 ≤ i < N_`, `0 ≤ j < M_`: the faces that `set_velocities_to_zero`
writes. -/
structure InnerFacesOnly (g g' : Mac2d) : Prop where
  hN : g'.N_ = g.N_
  hM : g'.M_ = g.M_
  hu : ∀ off, g'.pu_ off = g.pu_ off ∨
    ∃ i j : ℕ, (i : ℤ) < g.N_ ∧ (j : ℤ) < g.M_ ∧ off = (g.N_ + 1) * j + i
  hv : ∀ off, g'.pv_ off = g.pv_ off ∨
    ∃ i j : ℕ, (i : ℤ) < g.N_ ∧ (j : ℤ) < g.M_ ∧ off = g.N_ * j + i

/-- Modelled from the spec: the diagonal value of the cell `(i, j)` as section 3 words it,
"the count of non-solid adjacent cells", the adjacent cells being those inside the
grid. -/
def Mac2d.spec_diag_count (g : Mac2d) (i j : ℤ) : ℕ :=
  (if i + 1 < g.N_ ∧ g.psolid_ (g.N_ * j + (i + 1)) = false then 1 else 0)
  + (if 0 ≤ i - 1 ∧ g.psolid_ (g.N_ * j + (i - 1)) = false then 1 else 0)
  + (if j + 1 < g.M_ ∧ g.psolid_ (g.N_ * (j + 1) + i) = false then 1 else 0)
  + (if 0 ≤ j - 1 ∧ g.psolid_ (g.N_ * (j - 1) + i) = false then 1 else 0)

/-- `Mac2d::get_cell_sizex`. -/
def Mac2d.get_cell_sizex (g : Mac2d) : ℚ := g.cell_sizex_

/-- `Mac2d::get_cell_sizey`. -/
def Mac2d.get_cell_sizey (g : Mac2d) : ℚ := g.cell_sizey_

/-- Modelled from the spec: `Mac2d::get_u_star` (called by `2d/FLIP.cpp`, not defined in
`Mac2d.cpp`), the read of the "star" snapshot of `u` of section 4.1; as `get_u`, with the
same assertion and the same offset. -/
def Mac2d.get_u_star (g : Mac2d) (i j : ℤ) : Option ℚ :=
  if i < g.N_ + 1 ∧ j < g.M_ then some (g.pu_star_ ((g.N_ + 1) * j + i)) else none

/-- Modelled from the spec: `Mac2d::get_v_star`; as `get_v`, on the snapshot of `v`. -/
def Mac2d.get_v_star (g : Mac2d) (i j : ℤ) : Option ℚ :=
  if i < g.N_ ∧ j < g.M_ + 1 then some (g.pv_star_ (g.N_ * j + i)) else none

/-- The bilinear formula of the 2D `grid_to_particle`:
`1/((x2 - x1)*(y2-y1))*(f11*(x2 - x)*(y2-y) + f21*(x - x1)*(y2-y) + f12*(x2 - x)*(y-y1)
+ f22*(x - x1)*(y-y1))`. -/
def FLIP2d.bilinear (x y x1 x2 y1 y2 f11 f12 f21 f22 : ℚ) : ℚ :=
  1 / ((x2 - x1) * (y2 - y1)) * (f11 * (x2 - x) * (y2 - y) + f21 * (x - x1) * (y2 - y)
    + f12 * (x2 - x) * (y - y1) + f22 * (x - x1) * (y - y1))

/-- One bilinear interpolation of the 2D `grid_to_particle`: the four reads
`f11 = get(ix1, iy1)`, `f12 = get(ix1, iy2)`, `f21 = get(ix2, iy1)`, `f22 = get(ix2, iy2)`
through the accessor `get`, then the formula with `x1 = ix1 * sx`, `x2 = ix2 * sx`,
`y1 = iy1 * sy`, `y2 = iy2 * sy`. -/
def FLIP2d.interpolate_field (get : ℤ → ℤ → Option ℚ) (ix1 ix2 iy1 iy2 : ℤ)
    (sx sy x y : ℚ) : Option ℚ :=
  (get ix1 iy1).bind fun (f11 : ℚ) =>
  (get ix1 iy2).bind fun (f12 : ℚ) =>
  (get ix2 iy1).bind fun (f21 : ℚ) =>
  (get ix2 iy2).map fun (f22 : ℚ) =>
  FLIP2d.bilinear x y (ix1 * sx) (ix2 * sx) (iy1 * sy) (iy2 * sy) f11 f12 f21 f22

/-- The four bilinear interpolations of the 2D `grid_to_particle` for a particle at
`(x, y)`, from the index pair `indices` on: `u` (snapshot, then current) on the columns
`indices.first`, `indices.first + 1` and the two rows chosen by the test on `y`, then `v`
(snapshot, then current) on the rows `indices.second`, `indices.second + 1` and the two
columns chosen by the test on `x`. The result is the pair `(interp_u_star, interp_u_n1)`.
Note `sy = get_cell_sizex()`, as in the source. -/
def FLIP2d.interpolate_at (g : Mac2d) (indices : ℤ × ℤ) (x y : ℚ) :
    Option (Vector3d × Vector3d) :=
  let sx := g.get_cell_sizex
  let sy := g.get_cell_sizex
  let uy1 := if y > (indices.2 + 1 / 2) * sy then indices.2 else indices.2 - 1
  let uy2 := if y > (indices.2 + 1 / 2) * sy then indices.2 + 1 else indices.2
  let vx1 := if x > (indices.1 + 1 / 2) * sx then indices.1 else indices.1 - 1
  let vx2 := if x > (indices.1 + 1 / 2) * sx then indices.1 + 1 else indices.1
  (FLIP2d.interpolate_field g.get_u_star indices.1 (indices.1 + 1) uy1 uy2 sx sy x y).bind
    fun (interp_u_star0 : ℚ) =>
  (FLIP2d.interpolate_field g.get_u indices.1 (indices.1 + 1) uy1 uy2 sx sy x y).bind
    fun (interp_u_n10 : ℚ) =>
  (FLIP2d.interpolate_field g.get_v_star vx1 vx2 indices.2 (indices.2 + 1) sx sy x y).bind
    fun (interp_u_star1 : ℚ) =>
  (FLIP2d.interpolate_field g.get_v vx1 vx2 indices.2 (indices.2 + 1) sx sy x y).map
    fun (interp_u_n11 : ℚ) =>
  ((⟨interp_u_star0, interp_u_star1, 0⟩ : Vector3d),
    (⟨interp_u_n10, interp_u_n11, 0⟩ : Vector3d))

/-- The interpolation part of the body of the particle loop of the 2D `grid_to_particle`:
`index_from_coord(x, y)`, then the four bilinear interpolations. -/
def FLIP2d.interpolate (g : Mac2d) (x y : ℚ) : Option (Vector3d × Vector3d) :=
  (g.index_from_coord x y).bind fun (indices : ℤ × ℤ) => FLIP2d.interpolate_at g indices x y

/-- Body of the particle loop of the 2D `FLIP::grid_to_particle`, with `alpha = 0.05`. -/
def FLIP2d.grid_to_particle_body (g : Mac2d) (p : Particle) : Option Particle :=
  let alpha : ℚ := 5 / 100
  let initial_position := p.get_position
  let initial_velocity := p.get_velocity
  (FLIP2d.interpolate g initial_position.x initial_position.y).map
    fun (r : Vector3d × Vector3d) =>
      p.set_velocity (((initial_velocity.scale (1 - alpha)).add r.2).add
        (r.1.scale (alpha - 1)))

/-- The 2D `FLIP::grid_to_particle` on the particle array `ps` and the grid `g`. -/
def FLIP2d.grid_to_particle (g : Mac2d) (ps : List Particle) : Option (List Particle) :=
  forParticles (FLIP2d.grid_to_particle_body g) ps

/-- A 2×2 grid on `[0, 2] × [0, 2]` (cell size 1) with uniform fields: each of the 6 faces
of `u` and of the snapshot of `u` holds 4, each of the 6 faces of `v` and of the snapshot
of `v` holds 8; the memory outside the arrays reads 0. -/
def uniformGrid2d : Mac2d :=
  { N_ := 2
    M_ := 2
    sizex_ := 2
    sizey_ := 2
    cell_sizex_ := 1
    cell_sizey_ := 1
    ppressure_ := fun _ => 0
    pu_ := fun c => if 0 ≤ c ∧ c < 6 then 4 else 0
    pv_ := fun c => if 0 ≤ c ∧ c < 6 then 8 else 0
    psolid_ := fun _ => false
    pfluid_ := fun _ => false
    pweights_u_ := fun _ => 0
    pweights_v_ := fun _ => 0
    A_diag_ := []
    pu_star_ := fun c => if 0 ≤ c ∧ c < 6 then 4 else 0
    pv_star_ := fun c => if 0 ≤ c ∧ c < 6 then 8 else 0 }

/-! ## Advection, forces, boundary corrections: claims C31, C37 to C40 (vocabulary) -/

/-- The Euler half step of `advance_particles`: `pos_curr + 0.5*dt*vel`, with `vel` the
velocity stored in the particle. -/
def FLIP.pos_half (dt : ℚ) (p : Particle) : Vector3d :=
  p.get_position.add (p.get_velocity.scale (1 / 2 * dt))

/-- The midpoint as claim C31 words it: `pos + 0.5*dt*U(pos)`, with `U(pos)` the grid
velocity interpolated at the position of the particle. -/
def midpoint_spec (I : Interpolation) (g : Mac3d) (dt : ℚ) (p : Particle) : Option Vector3d :=
  (I.velocity g p.position false).map fun U => p.position.add (U.scale (1 / 2 * dt))

/-- The unclamped new position as claim C31 words it: `pos + dt*U(midpoint)` with the
midpoint of `midpoint_spec`. -/
def rk2_spec (I : Interpolation) (g : Mac3d) (dt : ℚ) (p : Particle) : Option Vector3d :=
  (midpoint_spec I g dt p).bind fun m =>
  (I.velocity g m false).map fun U => p.position.add (U.scale dt)

/-- An interpolation of the shear field `u(x, y, z) = x`, `v = w = 0`. -/
def shearInterpolation : Interpolation :=
  { get_interp_u := fun _ x _ _ _ => some x
    get_interp_v := fun _ _ _ _ _ => some 0
    get_interp_w := fun _ _ _ _ _ => some 0 }

/-- A particle at the centre `(1, 1, 1)` of `crossGrid` with velocity `(2, 0, 0)`. -/
def shearParticle : Particle := ⟨⟨1, 1, 1⟩, ⟨1, 1, 1⟩, ⟨2, 0, 0⟩⟩

/-- A `FLIP` object on `blendFLIP` with `α = 0` (pure FLIP). -/
def pureFLIP : FLIP := { blendFLIP with alpha_ := 0 }

/-- `FLIP::apply_forces` (3D): the loops `k < L`, `j <= M`, `i < N` around
`set_v(i, j, k, get_v(i,j,k) - dt*gravity_mag_)`. -/
def FLIP.apply_forces (f : FLIP) (dt : ℚ) : Option FLIP :=
  let N := f.MACGrid_.get_num_cells_x
  let M := f.MACGrid_.get_num_cells_y
  let L := f.MACGrid_.get_num_cells_z
  (forLoop3 N (M + 1) L (fun i j k (g : Mac3d) =>
    (g.get_v i j k).bind fun (v : ℚ) => g.set_v i j k (v - dt * f.gravity_mag_))
    f.MACGrid_).map fun g => { f with MACGrid_ := g }

/-- The grid `g` after `apply_forces` has handled the `v` faces of linear index below
`c`. -/
def Mac3d.forced_below (g : Mac3d) (dt gravity : ℚ) (c : ℕ) : Mac3d :=
  { g with
    pv_ := fun a b e =>
      if True ∧ a < g.N_ ∧ b < g.M_ + 1 ∧ e < g.L_ ∧ cellIndex g.N_ (g.M_ + 1) a b e < c then
        g.pv_ a b e - dt * gravity
      else g.pv_ a b e }

/-- The grid of `f` after `apply_forces(dt)`. -/
def FLIP.forced (f : FLIP) (dt : ℚ) : Mac3d :=
  f.MACGrid_.forced_below dt f.gravity_mag_
    (f.MACGrid_.N_ * (f.MACGrid_.M_ + 1) * f.MACGrid_.L_)

/-- A 1×1×1 grid whose `v` faces hold 5 and 7 and whose other fields hold 1. -/
def columnGrid : Mac3d :=
  { N_ := 1
    M_ := 1
    L_ := 1
    cell_sizex_ := 1
    cell_sizey_ := 1
    cell_sizez_ := 1
    ppressure_ := fun _ _ _ => 1
    pu_ := fun _ _ _ => 1
    pv_ := fun _ j _ => if j = 0 then 5 else 7
    pw_ := fun _ _ _ => 1
    psolid_ := fun _ _ _ => false
    pfluid_ := fun _ _ _ => true
    A_diag_ := fun _ => 0
    solid_outside := some true
    fluid_outside := some false }

/-- A `FLIP` object on `columnGrid` with gravity 10. -/
def columnFLIP : FLIP :=
  { particles_ := []
    MACGrid_ := columnGrid
    fluid_density_ := 1
    gravity_mag_ := 10
    alpha_ := 0
    A_ := []
    d_ := fun _ => 0 }

/-! ## The 2D solver steps: claims C32 to C36 (vocabulary) -/

/-- The value of an `int` converted to `unsigned` (32 bits): reduction modulo `2^32`. -/
def to_unsigned (x : ℤ) : ℕ := (x % 2 ^ 32).toNat

/-- The value of an `unsigned` (32 bits) converted to `int`: values from `2^31` on wrap to
the negative numbers (the conversion that an `unsigned` argument undergoes when passed to
a `const int` parameter). -/
def to_int (x : ℕ) : ℤ :=
  if x % 2 ^ 32 < 2 ^ 31 then ((x % 2 ^ 32 : ℕ) : ℤ) else ((x % 2 ^ 32 : ℕ) : ℤ) - 2 ^ 32

/-- The `unsigned` difference `a - b`. -/
def unsigned_sub (a b : ℕ) : ℕ := (a + 2 ^ 32 - b % 2 ^ 32) % 2 ^ 32

/-- `Mac2d::get_num_cells_x`: `return N_;` in a function that returns `unsigned`. -/
def Mac2d.get_num_cells_x (g : Mac2d) : ℕ := to_unsigned g.N_

/-- `Mac2d::get_num_cells_y`: `return M_;` in a function that returns `unsigned`. -/
def Mac2d.get_num_cells_y (g : Mac2d) : ℕ := to_unsigned g.M_

/-- Modelled from the spec: `Particle::get_prev_position`, the read access to the
previous position of a particle (section 3). -/
def Particle.get_prev_position (p : Particle) : Vector3d := p.prev_position

/-- The first part of the body of the 2D `advance_particles`: the estimate `pos_next`,
`pos_curr + dt*vel` ("Euler") if `step == 0`, `pos_prev + 2*dt*vel` ("Leapfrog")
otherwise. -/
def FLIP2d.advance_seed (dt : ℚ) (step : ℕ) (p : Particle) : Vector3d :=
  let pos_prev := p.get_prev_position
  let pos_curr := p.get_position
  let vel := p.get_velocity
  if step = 0 then pos_curr.add (vel.scale dt) else pos_prev.add (vel.scale (2 * dt))

/-- The four tests "check if the particle exits the grid" of the 2D `advance_particles`,
made on the coordinates `x`, `y` of the estimate: `x < 0` gives `0.25 * cell_sizex`,
`x > size_x` gives `size_x - 0.25 * cell_sizex`, and the same on `y`. -/
def FLIP2d.clamp_position (g : Mac2d) (pos_next : Vector3d) : Vector3d :=
  let x := pos_next.x
  let y := pos_next.y
  let size_x := g.get_cell_sizex * g.get_num_cells_x
  let size_y := g.get_cell_sizey * g.get_num_cells_y
  let px := if x < 0 then g.get_cell_sizex * (1 / 4) else pos_next.x
  let px := if x > size_x then size_x - g.get_cell_sizex * (1 / 4) else px
  let py := if y < 0 then g.get_cell_sizey * (1 / 4) else pos_next.y
  let py := if y > size_y then size_y - g.get_cell_sizey * (1 / 4) else py
  ⟨px, py, pos_next.z⟩

/-- The accessors of `Particle` that the 2D `advance_particles` calls. -/
inductive ParticleAccess where
  | get_prev_position
  | get_position
  | get_velocity
  | set_position
deriving DecidableEq

/-- The body of the loop of the 2D `advance_particles` for one particle, with the
sequence of accessor calls it makes on the particle:
`pos_prev = get_prev_position(); pos_curr = get_position(); vel = get_velocity();`
come first, before `step` is tested; then the estimate, the four tests and
`set_position(pos_next)`. -/
def FLIP2d.advance_particle (g : Mac2d) (dt : ℚ) (step : ℕ) (p : Particle) :
    List ParticleAccess × Particle :=
  let pos_prev := p.get_prev_position
  let log := [ParticleAccess.get_prev_position]
  let pos_curr := p.get_position
  let log := log ++ [ParticleAccess.get_position]
  let vel := p.get_velocity
  let log := log ++ [ParticleAccess.get_velocity]
  let pos_next :=
    if step = 0 then pos_curr.add (vel.scale dt) else pos_prev.add (vel.scale (2 * dt))
  let pos_next := FLIP2d.clamp_position g pos_next
  (log ++ [ParticleAccess.set_position], p.set_position pos_next)

/-- The 2D `FLIP::advance_particles(dt, step)` on the particle array `ps`. -/
def FLIP2d.advance_particles (g : Mac2d) (dt : ℚ) (step : ℕ) (ps : List Particle) :
    List Particle :=
  ps.map fun p => (FLIP2d.advance_particle g dt step p).2

/-- Body of the loops of the 2D `compute_pressure_matrix` at the cell `(i, j)`; the state
is the vector `triplets` and the counter `cellidx`. -/
def FLIP2d.compute_pressure_matrix_cell (g : Mac2d) (nx ny i j : ℕ)
    (s : List Triplet_t × ℕ) : Option (List Triplet_t × ℕ) :=
  let cellidx := s.2
  (g.is_fluid (to_int i) (to_int j)).bind fun (fl : Bool) =>
  if fl then
    (g.get_a_diag ((i + j * nx) % 2 ^ 32)).bind fun (diag_e : Triplet_t) =>
    let t1 := s.1 ++ [diag_e]
    (scAnd (decide ((i + 1) % 2 ^ 32 < nx))
      (g.is_fluid (to_int (i + 1)) (to_int j))).bind fun (cx : Bool) =>
    let t2 := FLIP.push_pair cx cellidx ((cellidx + 1) % 2 ^ 32) t1
    (scAnd (decide ((j + ny) % 2 ^ 32 < ny))
      (g.is_fluid (to_int i) (to_int (j + 1)))).bind fun (cy : Bool) =>
    let t3 := FLIP.push_pair cy cellidx ((cellidx + ny) % 2 ^ 32) t2
    some (t3, (cellidx + 1) % 2 ^ 32)
  else some (s.1, (cellidx + 1) % 2 ^ 32)

/-- The 2D `FLIP::compute_pressure_matrix`: the triplets from which `A_` is set. -/
def FLIP2d.compute_pressure_matrix (g : Mac2d) : Option (List Triplet_t) :=
  let nx := g.get_num_cells_x
  let ny := g.get_num_cells_y
  (forLoop ny (fun j => forLoop nx (fun i => FLIP2d.compute_pressure_matrix_cell g nx ny i j))
    ([], 0)).map fun s => s.1

/-- Body of the solid-wall loop of the 2D `apply_boundary_conditions` at the cell
`(i, j)`. -/
def FLIP2d.bc_solid_cell (i j : ℕ) (g : Mac2d) : Option Mac2d :=
  (g.is_solid (to_int i) (to_int j)).bind fun (ij_solid : Bool) =>
  (scOr ij_solid (g.is_solid (to_int (i + 1)) (to_int j))).bind fun (cu : Bool) =>
  (if cu then g.set_u (to_int (i + 1)) (to_int j) 0 else some g).bind fun (g1 : Mac2d) =>
  (scOr ij_solid (g1.is_solid (to_int i) (to_int (j + 1)))).bind fun (cv : Bool) =>
  if cv then g1.set_v (to_int i) (to_int (j + 1)) 0 else some g1

/-- The 2D `FLIP::apply_boundary_conditions`: the solid-wall loop nest, then the loop
`set_v(i, 0, 0); set_v(i, nx*(ny-1), 0);` over `i < nx` and the loop
`set_u(0, j, 0); set_u(nx-1, j, 0);` over `j < ny`. -/
def FLIP2d.apply_boundary_conditions (g : Mac2d) : Option Mac2d :=
  let nx := g.get_num_cells_x
  let ny := g.get_num_cells_y
  (forLoop ny (fun j => forLoop nx (fun i => FLIP2d.bc_solid_cell i j)) g).bind
    fun (g1 : Mac2d) =>
  (forLoop nx (fun i (s : Mac2d) =>
    (s.set_v (to_int i) 0 0).bind fun (s1 : Mac2d) =>
      s1.set_v (to_int i) (to_int (nx * unsigned_sub ny 1)) 0) g1).bind fun (g2 : Mac2d) =>
  forLoop ny (fun j (s : Mac2d) =>
    (s.set_u 0 (to_int j) 0).bind fun (s1 : Mac2d) =>
      s1.set_u (to_int (unsigned_sub nx 1)) (to_int j) 0) g2

/-- The statement `if (c) d_ij += face;` of the 2D `compute_pressure_rhs`, where the
condition `c` can fault and `face` is read only if it holds. -/
def FLIP2d.add_if (c : Option Bool) (face : Option ℚ) (d_ij : ℚ) : Option ℚ :=
  c.bind fun (b : Bool) => if b then face.map fun x => d_ij + x else some d_ij

/-- The value `d_ij` that the 2D `compute_pressure_rhs` computes for the fluid cell
`(i, j)` before scaling: minus the two face differences, then the four statements
`d_ij += g->get_u(i+1,j)`, `d_ij += g->get_u(i-1,j)`, `d_ij += g->get_v(i,j+1)`,
`d_ij += g->get_v(i,j-1)` under their conditions. -/
def FLIP2d.rhs_cell (g : Mac2d) (nx ny i j : ℕ) : Option ℚ :=
  (g.get_u (to_int (i + 1)) (to_int j)).bind fun (u1 : ℚ) =>
  (g.get_u (to_int i) (to_int j)).bind fun (u0 : ℚ) =>
  (g.get_v (to_int i) (to_int (j + 1))).bind fun (v1 : ℚ) =>
  (g.get_v (to_int i) (to_int j)).bind fun (v0 : ℚ) =>
  let d_ij := -(u1 - u0) - (v1 - v0)
  (FLIP2d.add_if
    (scOr (decide (i = unsigned_sub nx 1))
      (scAnd (decide (i < unsigned_sub nx 1)) (g.is_solid (to_int (i + 1)) (to_int j))))
    (g.get_u (to_int (i + 1)) (to_int j)) d_ij).bind fun (d1 : ℚ) =>
  (FLIP2d.add_if
    (scOr (decide (i = 0))
      (scAnd (decide (i > 0)) (g.is_solid (to_int (unsigned_sub i 1)) (to_int j))))
    (g.get_u (to_int (unsigned_sub i 1)) (to_int j)) d1).bind fun (d2 : ℚ) =>
  (FLIP2d.add_if
    (scOr (decide (j = unsigned_sub ny 1))
      (scAnd (decide (j < unsigned_sub ny 1)) (g.is_solid (to_int i) (to_int (j + 1)))))
    (g.get_v (to_int i) (to_int (j + 1))) d2).bind fun (d3 : ℚ) =>
  FLIP2d.add_if
    (scOr (decide (j = 0))
      (scAnd (decide (j > 0)) (g.is_solid (to_int i) (to_int (unsigned_sub j 1)))))
    (g.get_v (to_int i) (to_int (unsigned_sub j 1))) d3

/-- The 2D `FLIP::compute_pressure_rhs(dt)`: the vector `d_`, of which entry `cellidx` is
`fluid_density_ * get_cell_sizex() * d_ij / dt` for a fluid cell and 0 for another cell.
The state of the loops is the vector and the counter `cellidx`. -/
def FLIP2d.compute_pressure_rhs (g : Mac2d) (fluid_density dt : ℚ) : Option (ℕ → ℚ) :=
  let nx := g.get_num_cells_x
  let ny := g.get_num_cells_y
  (forLoop ny (fun j => forLoop nx (fun i (s : (ℕ → ℚ) × ℕ) =>
    (g.is_fluid (to_int i) (to_int j)).bind fun (fl : Bool) =>
    if fl then
      (FLIP2d.rhs_cell g nx ny i j).map fun (d_ij : ℚ) =>
        (Function.update s.1 s.2 (fluid_density * g.get_cell_sizex * d_ij / dt), s.2 + 1)
    else some (Function.update s.1 s.2 0, s.2 + 1)))
    (fun _ => 0, 0)).map fun s => s.1

/-- The triplets that the 2D `compute_pressure_matrix` pushes: a copy of an entry of
`A_diag_`, or a value `-1` at `(cellidx, cellidx+1)` or `(cellidx+1, cellidx)`. -/
def XCouplingOnly (g : Mac2d) (t : Triplet_t) : Prop :=
  t ∈ g.A_diag_ ∨ (t.value = -1 ∧ (t.col = (t.row + 1) % 2 ^ 32 ∨ t.row = (t.col + 1) % 2 ^ 32))

/-- A 2×2 grid on `[0, 2] × [0, 2]`, all four cells fluid and none solid, with one diagonal
triplet per cell. -/
def fluidGrid2d : Mac2d :=
  { N_ := 2
    M_ := 2
    sizex_ := 2
    sizey_ := 2
    cell_sizex_ := 1
    cell_sizey_ := 1
    ppressure_ := fun _ => 0
    pu_ := fun c => c
    pv_ := fun c => c
    psolid_ := fun _ => false
    pfluid_ := fun _ => true
    pweights_u_ := fun _ => 0
    pweights_v_ := fun _ => 0
    A_diag_ := [⟨0, 0, 2⟩, ⟨1, 1, 2⟩, ⟨2, 2, 2⟩, ⟨3, 3, 2⟩] }

/-- The grid `s` has the dimensions and the solid flags of `g`. -/
def SameShape2d (g s : Mac2d) : Prop :=
  s.N_ = g.N_ ∧ s.M_ = g.M_ ∧ s.psolid_ = g.psolid_

/-- A 1×1×1 grid with a non-solid cell whose `is_solid` asserts its bounds, as
`Mac2d::is_solid` does. -/
def assertingGrid : Mac3d := { unitGrid with solid_outside := none }

/-- A 2×2 grid of cell size 1: cells `(0, 0)` and `(1, 1)` are fluid, cell `(0, 1)` (the
left neighbour of `(1, 1)`) is solid. The `u` array holds `b` at offset 3, the face
`u(0, 1)`, and its own offset elsewhere (`u(1, 1) = 4`, `u(2, 1) = 5`); the memory just
before the `u` array (offset `-1`) holds `a`; the `v` array holds ten times the offset. -/
def wallGrid2d (a b : ℚ) : Mac2d :=
  { N_ := 2
    M_ := 2
    sizex_ := 2
    sizey_ := 2
    cell_sizex_ := 1
    cell_sizey_ := 1
    ppressure_ := fun _ => 0
    pu_ := fun c => if c = -1 then a else if c = 3 then b else c
    pv_ := fun c => 10 * c
    psolid_ := fun c => decide (c = 2)
    pfluid_ := fun c => decide (c = 0 ∨ c = 3)
    pweights_u_ := fun _ => 0
    pweights_v_ := fun _ => 0
    A_diag_ := [] }

/-- A particle at `(1/2, 1/2)` with previous position `(1, 1)` and velocity `(1, 0)`. -/
def seedParticle : Particle := ⟨⟨1 / 2, 1 / 2, 0⟩, ⟨1, 1, 0⟩, ⟨1, 0, 0⟩⟩

/-! ## Extrapolation of the velocity field: claims C28, C29 (vocabulary) -/

/-- The offset of the face `(i, j, k)` in the arrays `visited` and `counter` of an
extrapolation over the shape `nx × ny × nz`, as the source computes it:
`nx*j + i + nx*ny*k`. -/
def faceOffset (nx ny i j k : ℕ) : ℕ := nx * j + i + nx * ny * k

/-- The face on which propagation number `d` from the face `(i, j, k)` lands, in the order
of the six `if` statements of an extrapolation over the shape `nx × ny × nz`:
`i != 0` to `(i-1, j, k)`, `j != 0` to `(i, j-1, k)`, `k != 0` to `(i, j, k-1)`, then
`i != nx-1` to `(i+1, j, k)`, `j != ny-1` to `(i, j+1, k)`, `k != nz-1` to `(i, j, k+1)`;
`none` if the test on the index fails. -/
def propagationTarget (nx ny nz d i j k : ℕ) : Option (ℕ × ℕ × ℕ) :=
  match d with
  | 0 => if i ≠ 0 then some (i - 1, j, k) else none
  | 1 => if j ≠ 0 then some (i, j - 1, k) else none
  | 2 => if k ≠ 0 then some (i, j, k - 1) else none
  | 3 => if i ≠ nx - 1 then some (i + 1, j, k) else none
  | 4 => if j ≠ ny - 1 then some (i, j + 1, k) else none
  | 5 => if k ≠ nz - 1 then some (i, j, k + 1) else none
  | _ => none

/-- The face of the shape `nx × ny × nz` whose propagation number `d` lands on the face
`(a, b, e)`: the neighbour on the opposite side. -/
def propagationSource (nx ny nz d a b e : ℕ) : Option (ℕ × ℕ × ℕ) :=
  match d with
  | 0 => if a + 1 < nx then some (a + 1, b, e) else none
  | 1 => if b + 1 < ny then some (a, b + 1, e) else none
  | 2 => if e + 1 < nz then some (a, b, e + 1) else none
  | 3 => if 1 ≤ a then some (a - 1, b, e) else none
  | 4 => if 1 ≤ b then some (a, b - 1, e) else none
  | 5 => if 1 ≤ e then some (a, b, e - 1) else none
  | _ => none

/-- The axis-aligned neighbours of the face `(a, b, e)` within the shape
`nx × ny × nz`. -/
def axisNeighbours (nx ny nz a b e : ℕ) : List (ℕ × ℕ × ℕ) :=
  (if a + 1 < nx then [(a + 1, b, e)] else []) ++
  (if b + 1 < ny then [(a, b + 1, e)] else []) ++
  (if e + 1 < nz then [(a, b, e + 1)] else []) ++
  (if 1 ≤ a then [(a - 1, b, e)] else []) ++
  (if 1 ≤ b then [(a, b - 1, e)] else []) ++
  (if 1 ≤ e then [(a, b, e - 1)] else [])

/-- The axis-aligned neighbours of the face `(a, b, e)` within the shape whose flag in the
array `visited` is set. -/
def visitedNeighbours (visited : ℕ → Bool) (nx ny nz a b e : ℕ) : List (ℕ × ℕ × ℕ) :=
  (axisNeighbours nx ny nz a b e).filter
    (fun n => visited (faceOffset nx ny n.1 n.2.1 n.2.2))

/-- The arithmetic mean of the values `val` of the faces of a list. -/
def faceMean (val : ℕ → ℕ → ℕ → ℚ) (faces : List (ℕ × ℕ × ℕ)) : ℚ :=
  (faces.map (fun n => val n.1 n.2.1 n.2.2)).sum / faces.length

/-- The contribution of propagation number `d` to the face `(a, b, e)` once the loop nest
has made `p` steps, a step being one of the six `if` statements at one face (step number
`6 * c + d` is statement `d` at the face of linear index `c`): the value `val` of the
source face if that face is visited and its statement `d` has been passed, 0 otherwise. -/
def neighbourTerm (visited : ℕ → Bool) (nx ny nz : ℕ) (val : ℕ → ℕ → ℕ → ℚ) (p d a b e : ℕ) :
    ℚ :=
  match propagationSource nx ny nz d a b e with
  | some n =>
    if visited (faceOffset nx ny n.1 n.2.1 n.2.2) = true ∧
        6 * cellIndex nx ny n.1 n.2.1 n.2.2 + d < p then val n.1 n.2.1 n.2.2
    else 0
  | none => 0

/-- The sum of the six contributions to the face `(a, b, e)` after `p` steps. -/
def neighbourSum (visited : ℕ → Bool) (nx ny nz : ℕ) (val : ℕ → ℕ → ℕ → ℚ) (p a b e : ℕ) : ℚ :=
  neighbourTerm visited nx ny nz val p 0 a b e + neighbourTerm visited nx ny nz val p 1 a b e
  + neighbourTerm visited nx ny nz val p 2 a b e + neighbourTerm visited nx ny nz val p 3 a b e
  + neighbourTerm visited nx ny nz val p 4 a b e + neighbourTerm visited nx ny nz val p 5 a b e

/-- The state `(f, counter)` of an extrapolation of the field `f0` over the shape
`nx × ny × nz` after `p` steps: visited faces hold their first value; for an unvisited face
the counter is the number of propagations received, the value times the counter is the sum
of the values received, and a face that has received nothing holds its first value. -/
structure ExtrapolationInv (visited : ℕ → Bool) (nx ny nz : ℕ) (f0 : ℕ → ℕ → ℕ → ℚ) (p : ℕ)
    (f : ℕ → ℕ → ℕ → ℚ) (counter : ℕ → ℕ) : Prop where
  kept : ∀ a b e, a < nx → b < ny → e < nz → visited (faceOffset nx ny a b e) = true →
    f a b e = f0 a b e
  count : ∀ a b e, a < nx → b < ny → e < nz → visited (faceOffset nx ny a b e) = false →
    (counter (faceOffset nx ny a b e) : ℚ)
      = neighbourSum visited nx ny nz (fun _ _ _ => 1) p a b e
  total : ∀ a b e, a < nx → b < ny → e < nz → visited (faceOffset nx ny a b e) = false →
    f a b e * neighbourSum visited nx ny nz (fun _ _ _ => 1) p a b e
      = neighbourSum visited nx ny nz f0 p a b e
  fresh : ∀ a b e, a < nx → b < ny → e < nz → visited (faceOffset nx ny a b e) = false →
    neighbourSum visited nx ny nz (fun _ _ _ => 1) p a b e = 0 → f a b e = f0 a b e

/-- The state `s` of an extrapolation has the dimensions `N`, `M`, `L`. -/
def HasDims (N M L : ℕ) (s : Mac3d × (ℕ → ℕ)) : Prop :=
  s.1.N_ = N ∧ s.1.M_ = M ∧ s.1.L_ = L

/-- A 2×1×1 grid of cell size 1 with distinct values on its faces: `u` holds 6, 100, 2 on
the faces `i = 0, 1, 2`; `v(i, j, k) = 3 + i + 2j`; `w(i, j, k) = 7 + i + 2k`. -/
def stripGrid : Mac3d :=
  { unitGrid with
    N_ := 2
    pu_ := fun i _ _ => if i = 0 then 6 else if i = 1 then 100 else 2
    pv_ := fun i j _ => 3 + i + 2 * j
    pw_ := fun i _ k => 7 + i + 2 * k }

/-- The array `visited` in which only the face at offset 0, the face `(0, 0, 0)`, carries
the flag. -/
def firstFaceVisited : ℕ → Bool := fun idx => decide (idx = 0)

/-! ## Right-hand side on the states the program reaches, FLIP consistency in double: claims C10, C38 (vocabulary) -/

/-- Rounding of a rational to the nearest integer, ties to the even one. -/
def roundHalfEven (m : ℚ) : ℤ :=
  let f : ℤ := ⌊m⌋
  let r : ℚ := m - f
  if r < 1 / 2 then f else if 1 / 2 < r then f + 1 else if f % 2 = 0 then f else f + 1

/-- The `double` nearest to the real number `x` (IEEE 754 binary64, round to nearest, ties
to even): with `2^e ≤ |x| < 2^(e+1)` the spacing of the doubles around `x` is `2^(e-52)`,
and `x` is rounded to a multiple of it. The exponent range is not modelled (no overflow to
infinity, no coarser spacing of the subnormal numbers). -/
def binary64 (x : ℚ) : ℚ :=
  if x = 0 then 0
  else
    let ulp : ℚ := 2 ^ (Int.log 2 |x| - 52)
    roundHalfEven (x / ulp) * ulp

/-- One component of the update of `grid_to_particle` as the source evaluates it in
`double`: `v*t + n - s*t`, that is `((v*t) + n) - (s*t)`, every operation rounded. -/
def FLIP.update_binary64 (t v s n : ℚ) : ℚ :=
  binary64 (binary64 (binary64 (v * t) + n) - binary64 (s * t))

/-- Body of the loop of `FLIP::grid_to_particle` for one particle with the arithmetic of
the update in `double`: the factors `1 - std::min(1., 2*alpha)` and `1 - alpha` and the
three components of `initial_velocity*t + interp_u_n1 - interp_u_star*t` are rounded at
every operation. The values read (velocity, `alpha_`, the interpolated values) are taken
as they are. -/
def FLIP.grid_to_particle_body_binary64 (I : Interpolation) (g : Mac3d) (alpha : ℚ)
    (p : Particle) : Option Particle :=
  let nx : ℤ := g.get_num_cells_x
  let ny : ℤ := g.get_num_cells_y
  let nz : ℤ := g.get_num_cells_z
  let initial_position := p.get_position
  let initial_velocity := p.get_velocity
  (g.index_from_coord initial_position.x initial_position.y initial_position.z).bind
    fun initial_idx =>
  let x := initial_position.x
  let y := initial_position.y
  let z := initial_position.z
  (I.get_interp_u g x y z true).bind fun (su : ℚ) =>
  (I.get_interp_u g x y z false).bind fun (nu : ℚ) =>
  (I.get_interp_v g x y z true).bind fun (sv : ℚ) =>
  (I.get_interp_v g x y z false).bind fun (nv : ℚ) =>
  (I.get_interp_w g x y z true).bind fun (sw : ℚ) =>
  (I.get_interp_w g x y z false).bind fun (nw : ℚ) =>
  let t : ℚ :=
    if FLIP.on_boundary nx ny nz initial_idx then binary64 (1 - min 1 (binary64 (2 * alpha)))
    else binary64 (1 - alpha)
  let u_update : Vector3d :=
    ⟨FLIP.update_binary64 t initial_velocity.x su nu,
      FLIP.update_binary64 t initial_velocity.y sv nv,
      FLIP.update_binary64 t initial_velocity.z sw nw⟩
  some (p.set_velocity u_update)

/-- `FLIP::grid_to_particle` with the arithmetic of the update in `double`. -/
def FLIP.grid_to_particle_binary64 (I : Interpolation) (f : FLIP) : Option FLIP :=
  (forParticles (FLIP.grid_to_particle_body_binary64 I f.MACGrid_ f.alpha_) f.particles_).map
    fun ps => { f with particles_ := ps }

/-- The three components of a vector are doubles. -/
def Vector3d.isBinary64 (v : Vector3d) : Prop :=
  binary64 v.x = v.x ∧ binary64 v.y = v.y ∧ binary64 v.z = v.z

/-- What the update in `double` makes of the component `v` when `α = 0` and the two
interpolated values are both `n`: the rounded sum `v + n`, minus `n`, rounded. -/
def FLIP.round_trip (v n : ℚ) : ℚ := binary64 (binary64 (v + n) - n)

/-- The `FLIP` object `pureFLIP` (`α = 0`) with one particle, in the interior cell
`(1, 1, 1)`, whose velocity is `(2^-60, 0, 0)`. -/
def tinyFLIP : FLIP :=
  { pureFLIP with particles_ := [⟨⟨1, 1, 1⟩, ⟨1, 1, 1⟩, ⟨1 / 2 ^ 60, 0, 0⟩⟩] }

/-! ## Loop rules -/

theorem forLoopFrom_rel {σ : Type} (rel : σ → σ → Prop) (hrefl : ∀ s, rel s s)
    (htrans : ∀ a b c, rel a b → rel b c → rel a c) (body : ℕ → σ → Option σ) (n : ℕ) :
    ∀ (a : ℕ) (s s' : σ),
      (∀ i, a ≤ i → i < a + n → ∀ t t', body i t = some t' → rel t t') →
      forLoopFrom body n a s = some s' → rel s s' := by
  induction n with
  | zero =>
    intro a s s' _ h
    simp only [forLoopFrom, Option.some.injEq] at h
    subst h
    exact hrefl s
  | succ n ih =>
    intro a s s' hstep h
    simp only [forLoopFrom, Option.bind_eq_some] at h
    obtain ⟨t, ht, hrest⟩ := h
    have h1 : rel s t := hstep a (le_refl a) (by omega) s t ht
    have h2 : rel t s' :=
      ih (a + 1) t s' (fun i hi1 hi2 => hstep i (by omega) (by omega)) hrest
    exact htrans _ _ _ h1 h2

theorem forLoop_rel {σ : Type} (rel : σ → σ → Prop) (hrefl : ∀ s, rel s s)
    (htrans : ∀ a b c, rel a b → rel b c → rel a c) (body : ℕ → σ → Option σ) (n : ℕ)
    (hstep : ∀ i, i < n → ∀ t t', body i t = some t' → rel t t')
    (s s' : σ) (h : forLoop n body s = some s') : rel s s' :=
  forLoopFrom_rel rel hrefl htrans body n 0 s s'
    (fun i _ hi => hstep i (by omega)) h

theorem forLoopFrom_establish {σ : Type} (rel : σ → σ → Prop) (hrefl : ∀ s, rel s s)
    (htrans : ∀ a b c, rel a b → rel b c → rel a c) (Q : ℕ → σ → Prop)
    (hmono : ∀ i s s', rel s s' → Q i s → Q i s')
    (body : ℕ → σ → Option σ) (n : ℕ) :
    ∀ (a : ℕ) (s s' : σ),
      (∀ i, a ≤ i → i < a + n → ∀ t t', body i t = some t' → rel t t' ∧ Q i t') →
      forLoopFrom body n a s = some s' → ∀ i, a ≤ i → i < a + n → Q i s' := by
  induction n with
  | zero =>
    intro a s s' _ _ i h1 h2
    omega
  | succ n ih =>
    intro a s s' hstep h i hi1 hi2
    simp only [forLoopFrom, Option.bind_eq_some] at h
    obtain ⟨t, ht, hrest⟩ := h
    have hstep' : ∀ i, a + 1 ≤ i → i < a + 1 + n → ∀ t t', body i t = some t' →
        rel t t' ∧ Q i t' := fun i h1 h2 => hstep i (by omega) (by omega)
    rcases Nat.eq_or_lt_of_le hi1 with heq | hlt
    · subst heq
      have hq : Q a t := (hstep a (le_refl a) (by omega) s t ht).2
      have hr : rel t s' := forLoopFrom_rel rel hrefl htrans body n (a + 1) t s'
        (fun i h1 h2 u u' hu => (hstep' i h1 h2 u u' hu).1) hrest
      exact hmono a t s' hr hq
    · exact ih (a + 1) t s' hstep' hrest i (by omega) (by omega)

theorem forLoop_establish {σ : Type} (rel : σ → σ → Prop) (hrefl : ∀ s, rel s s)
    (htrans : ∀ a b c, rel a b → rel b c → rel a c) (Q : ℕ → σ → Prop)
    (hmono : ∀ i s s', rel s s' → Q i s → Q i s')
    (body : ℕ → σ → Option σ) (n : ℕ)
    (hstep : ∀ i, i < n → ∀ t t', body i t = some t' → rel t t' ∧ Q i t')
    (s s' : σ) (h : forLoop n body s = some s') : ∀ i, i < n → Q i s' :=
  fun i hi => forLoopFrom_establish rel hrefl htrans Q hmono body n 0 s s'
    (fun i _ hi => hstep i (by omega)) h i (Nat.zero_le i) (by omega)

theorem forLoopFrom_isSome {σ : Type} (rel : σ → σ → Prop) (hrefl : ∀ s, rel s s)
    (htrans : ∀ a b c, rel a b → rel b c → rel a c) (body : ℕ → σ → Option σ) (n : ℕ)
    (s0 : σ) :
    ∀ (a : ℕ) (s : σ), rel s0 s →
      (∀ i, a ≤ i → i < a + n → ∀ t, rel s0 t → ∃ t', body i t = some t' ∧ rel t t') →
      ∃ s', forLoopFrom body n a s = some s' ∧ rel s s' := by
  induction n with
  | zero =>
    intro a s _ _
    exact ⟨s, rfl, hrefl s⟩
  | succ n ih =>
    intro a s hs hstep
    obtain ⟨t, ht, hst⟩ := hstep a (le_refl a) (by omega) s hs
    obtain ⟨s', hs', hts'⟩ := ih (a + 1) t (htrans _ _ _ hs hst)
      (fun i h1 h2 => hstep i (by omega) (by omega))
    refine ⟨s', ?_, htrans _ _ _ hst hts'⟩
    simp only [forLoopFrom, ht, Option.some_bind, hs']

theorem forLoop_isSome {σ : Type} (rel : σ → σ → Prop) (hrefl : ∀ s, rel s s)
    (htrans : ∀ a b c, rel a b → rel b c → rel a c) (body : ℕ → σ → Option σ) (n : ℕ)
    (s0 s : σ) (hs : rel s0 s)
    (hstep : ∀ i, i < n → ∀ t, rel s0 t → ∃ t', body i t = some t' ∧ rel t t') :
    ∃ s', forLoop n body s = some s' ∧ rel s s' :=
  forLoopFrom_isSome rel hrefl htrans body n s0 0 s hs (fun i _ hi => hstep i (by omega))

theorem ZeroedFrom.refl (g : Mac3d) : ZeroedFrom g g :=
  ⟨rfl, rfl, rfl, rfl, rfl, fun _ _ _ => Or.inl rfl, fun _ _ _ => Or.inl rfl,
    fun _ _ _ => Or.inl rfl⟩

theorem ZeroedFrom.trans (a b c : Mac3d) (h1 : ZeroedFrom a b) (h2 : ZeroedFrom b c) :
    ZeroedFrom a c := by
  refine ⟨h2.hN.trans h1.hN, h2.hM.trans h1.hM, h2.hL.trans h1.hL, h2.hsolid.trans h1.hsolid,
    h2.hout.trans h1.hout, ?_, ?_, ?_⟩
  · intro i j k
    rcases h2.hu i j k with h | h
    · rw [h]; exact h1.hu i j k
    · exact Or.inr h
  · intro i j k
    rcases h2.hv i j k with h | h
    · rw [h]; exact h1.hv i j k
    · exact Or.inr h
  · intro i j k
    rcases h2.hw i j k with h | h
    · rw [h]; exact h1.hw i j k
    · exact Or.inr h

theorem set_u_zero_spec (g g' : Mac3d) (i j k : ℕ) (h : g.set_u i j k 0 = some g') :
    ZeroedFrom g g' ∧ g'.pu_ i j k = 0 ∧ i < g.N_ + 1 ∧ j < g.M_ ∧ k < g.L_ := by
  unfold Mac3d.set_u at h
  split at h
  · rename_i hb
    simp only [Option.some.injEq] at h
    subst h
    refine ⟨⟨rfl, rfl, rfl, rfl, rfl, ?_, fun _ _ _ => Or.inl rfl, fun _ _ _ => Or.inl rfl⟩,
      ?_, hb⟩
    · intro a b c
      simp only [write3]
      split
      · exact Or.inr rfl
      · exact Or.inl rfl
    · simp [write3]
  · exact absurd h (by simp)

theorem set_v_zero_spec (g g' : Mac3d) (i j k : ℕ) (h : g.set_v i j k 0 = some g') :
    ZeroedFrom g g' ∧ g'.pv_ i j k = 0 ∧ i < g.N_ ∧ j < g.M_ + 1 ∧ k < g.L_ := by
  unfold Mac3d.set_v at h
  split at h
  · rename_i hb
    simp only [Option.some.injEq] at h
    subst h
    refine ⟨⟨rfl, rfl, rfl, rfl, rfl, fun _ _ _ => Or.inl rfl, ?_, fun _ _ _ => Or.inl rfl⟩,
      ?_, hb⟩
    · intro a b c
      simp only [write3]
      split
      · exact Or.inr rfl
      · exact Or.inl rfl
    · simp [write3]
  · exact absurd h (by simp)

theorem set_w_zero_spec (g g' : Mac3d) (i j k : ℕ) (h : g.set_w i j k 0 = some g') :
    ZeroedFrom g g' ∧ g'.pw_ i j k = 0 ∧ i < g.N_ ∧ j < g.M_ ∧ k < g.L_ + 1 := by
  unfold Mac3d.set_w at h
  split at h
  · rename_i hb
    simp only [Option.some.injEq] at h
    subst h
    refine ⟨⟨rfl, rfl, rfl, rfl, rfl, fun _ _ _ => Or.inl rfl, fun _ _ _ => Or.inl rfl, ?_⟩,
      ?_, hb⟩
    · intro a b c
      simp only [write3]
      split
      · exact Or.inr rfl
      · exact Or.inl rfl
    · simp [write3]
  · exact absurd h (by simp)

/-- The conditional write of the solid-wall loop: `if (c) set_u(i, j, k, 0)`. -/
theorem cond_set_u_spec (g g' : Mac3d) (c : Bool) (i j k : ℕ)
    (h : (if c then g.set_u i j k 0 else some g) = some g') :
    ZeroedFrom g g' ∧ (c = true → g'.pu_ i j k = 0) := by
  cases c with
  | false =>
    simp only [Bool.false_eq_true, if_false, Option.some.injEq] at h
    subst h
    exact ⟨ZeroedFrom.refl g, fun hc => absurd hc (by simp)⟩
  | true =>
    simp only [if_true] at h
    exact ⟨(set_u_zero_spec g g' i j k h).1, fun _ => (set_u_zero_spec g g' i j k h).2.1⟩

theorem cond_set_v_spec (g g' : Mac3d) (c : Bool) (i j k : ℕ)
    (h : (if c then g.set_v i j k 0 else some g) = some g') :
    ZeroedFrom g g' ∧ (c = true → g'.pv_ i j k = 0) := by
  cases c with
  | false =>
    simp only [Bool.false_eq_true, if_false, Option.some.injEq] at h
    subst h
    exact ⟨ZeroedFrom.refl g, fun hc => absurd hc (by simp)⟩
  | true =>
    simp only [if_true] at h
    exact ⟨(set_v_zero_spec g g' i j k h).1, fun _ => (set_v_zero_spec g g' i j k h).2.1⟩

theorem cond_set_w_spec (g g' : Mac3d) (c : Bool) (i j k : ℕ)
    (h : (if c then g.set_w i j k 0 else some g) = some g') :
    ZeroedFrom g g' ∧ (c = true → g'.pw_ i j k = 0) := by
  cases c with
  | false =>
    simp only [Bool.false_eq_true, if_false, Option.some.injEq] at h
    subst h
    exact ⟨ZeroedFrom.refl g, fun hc => absurd hc (by simp)⟩
  | true =>
    simp only [if_true] at h
    exact ⟨(set_w_zero_spec g g' i j k h).1, fun _ => (set_w_zero_spec g g' i j k h).2.1⟩

theorem solidCell_of_zeroed (g g' : Mac3d) (h : ZeroedFrom g g') (i j k : ℕ) :
    solidCell g' i j k ↔ solidCell g i j k := by
  simp only [solidCell, h.hN, h.hM, h.hL, h.hsolid]

/-- The answer of a successful `is_solid` query is `true` on a solid cell. -/
theorem is_solid_of_solidCell (g : Mac3d) (i j k : ℕ) (b : Bool)
    (hq : g.is_solid i j k = some b) (hs : solidCell g i j k) : b = true := by
  obtain ⟨h1, h2, h3, h4⟩ := hs
  simp only [Mac3d.is_solid, h1, h2, h3, and_self, if_true, Option.some.injEq] at hq
  rw [← hq, h4]

theorem scOr_spec (a : Bool) (b : Option Bool) (c : Bool) (h : scOr a b = some c) :
    (a = true → c = true) ∧ (a = false → b = some c) := by
  cases a with
  | true =>
    simp only [scOr, if_true, Option.some.injEq] at h
    exact ⟨fun _ => h.symm, fun hc => absurd hc (by simp)⟩
  | false =>
    simp only [scOr, Bool.false_eq_true, if_false] at h
    exact ⟨fun hc => absurd hc (by simp), fun _ => h⟩

theorem SolidFacesZero.mono (i j k : ℕ) (g g' : Mac3d) (h : ZeroedFrom g g')
    (hq : SolidFacesZero i j k g) : SolidFacesZero i j k g' := by
  obtain ⟨h1, h2, h3⟩ := hq
  simp only [SolidFacesZero, solidCell_of_zeroed g g' h]
  refine ⟨fun hc => ?_, fun hc => ?_, fun hc => ?_⟩
  · rcases h.hu (i + 1) j k with e | e
    · rw [e]; exact h1 hc
    · exact e
  · rcases h.hv i (j + 1) k with e | e
    · rw [e]; exact h2 hc
    · exact e
  · rcases h.hw i j (k + 1) with e | e
    · rw [e]; exact h3 hc
    · exact e

theorem scOr_solid (g : Mac3d) (b : Bool) (i j k i' j' k' : ℕ) (c : Bool)
    (hb : g.is_solid i j k = some b)
    (hc : scOr b (g.is_solid i' j' k') = some c)
    (hs : solidCell g i j k ∨ solidCell g i' j' k') : c = true := by
  obtain ⟨h1, h2⟩ := scOr_spec _ _ _ hc
  cases b with
  | true => exact h1 rfl
  | false =>
    rcases hs with hs | hs
    · exact absurd (is_solid_of_solidCell g i j k false hb hs) (by simp)
    · exact is_solid_of_solidCell g i' j' k' c (h2 rfl) hs

theorem is_solid_of_zeroed (g g' : Mac3d) (h : ZeroedFrom g g') (i j k : ℕ) :
    g'.is_solid i j k = g.is_solid i j k := by
  simp only [Mac3d.is_solid, h.hN, h.hM, h.hL, h.hsolid, h.hout]

theorem bc_solid_cell_spec (i j k : ℕ) (g g' : Mac3d)
    (h : FLIP.bc_solid_cell i j k g = some g') :
    ZeroedFrom g g' ∧ SolidFacesZero i j k g' := by
  simp only [FLIP.bc_solid_cell, Option.bind_eq_some] at h
  obtain ⟨b, hb, cu, hcu, g1, hg1, cv, hcv, g2, hg2, cw, hcw, hg3⟩ := h
  obtain ⟨z1, e1⟩ := cond_set_u_spec g g1 cu _ _ _ hg1
  obtain ⟨z2, e2⟩ := cond_set_v_spec g1 g2 cv _ _ _ hg2
  obtain ⟨z3, e3⟩ := cond_set_w_spec g2 g' cw _ _ _ hg3
  have z12 := ZeroedFrom.trans _ _ _ z1 z2
  have z13 := ZeroedFrom.trans _ _ _ z12 z3
  have z23 := ZeroedFrom.trans _ _ _ z2 z3
  refine ⟨z13, ?_, ?_, ?_⟩
  · intro hs
    simp only [solidCell_of_zeroed g g' z13] at hs
    have hz : g1.pu_ (i + 1) j k = 0 := e1 (scOr_solid g b _ _ _ _ _ _ cu hb hcu hs)
    rcases z23.hu (i + 1) j k with e | e
    · rw [e]; exact hz
    · exact e
  · intro hs
    simp only [solidCell_of_zeroed g g' z13, ← solidCell_of_zeroed g g1 z1] at hs
    rw [← is_solid_of_zeroed g g1 z1] at hb
    have hz : g2.pv_ i (j + 1) k = 0 := e2 (scOr_solid g1 b _ _ _ _ _ _ cv hb hcv hs)
    rcases z3.hv i (j + 1) k with e | e
    · rw [e]; exact hz
    · exact e
  · intro hs
    simp only [solidCell_of_zeroed g g' z13, ← solidCell_of_zeroed g g2 z12] at hs
    rw [← is_solid_of_zeroed g g2 z12] at hb
    exact e3 (scOr_solid g2 b _ _ _ _ _ _ cw hb hcw hs)

/-- One level of a loop nest: what every iteration establishes holds after the loop. -/
theorem forLoop_level {σ : Type} (rel : σ → σ → Prop) (hrefl : ∀ s, rel s s)
    (htrans : ∀ a b c, rel a b → rel b c → rel a c) (Q : ℕ → σ → Prop)
    (hmono : ∀ i s s', rel s s' → Q i s → Q i s')
    (body : ℕ → σ → Option σ) (n : ℕ)
    (hstep : ∀ i, i < n → ∀ t t', body i t = some t' → rel t t' ∧ Q i t')
    (s s' : σ) (h : forLoop n body s = some s') : rel s s' ∧ ∀ i, i < n → Q i s' :=
  ⟨forLoop_rel rel hrefl htrans body n (fun i hi t t' ht => (hstep i hi t t' ht).1) s s' h,
    forLoop_establish rel hrefl htrans Q hmono body n hstep s s' h⟩

theorem is_solid_isSome (g : Mac3d) (h : g.solid_outside.isSome = true) (i j k : ℕ) :
    ∃ b, g.is_solid i j k = some b := by
  unfold Mac3d.is_solid
  split
  · exact ⟨_, rfl⟩
  · exact Option.isSome_iff_exists.mp h

theorem scOr_isSome (a : Bool) (b : Option Bool) (h : ∃ c, b = some c) :
    ∃ c, scOr a b = some c := by
  cases a with
  | true => exact ⟨true, rfl⟩
  | false => exact h

theorem cond_set_u_isSome (g : Mac3d) (c : Bool) (i j k : ℕ)
    (h : i < g.N_ + 1 ∧ j < g.M_ ∧ k < g.L_) :
    ∃ g', (if c then g.set_u i j k 0 else some g) = some g' := by
  cases c with
  | false => exact ⟨g, rfl⟩
  | true =>
    exact ⟨{ g with pu_ := write3 g.pu_ i j k 0 },
      by simp only [if_true, Mac3d.set_u, h, and_self]⟩

theorem cond_set_v_isSome (g : Mac3d) (c : Bool) (i j k : ℕ)
    (h : i < g.N_ ∧ j < g.M_ + 1 ∧ k < g.L_) :
    ∃ g', (if c then g.set_v i j k 0 else some g) = some g' := by
  cases c with
  | false => exact ⟨g, rfl⟩
  | true =>
    exact ⟨{ g with pv_ := write3 g.pv_ i j k 0 },
      by simp only [if_true, Mac3d.set_v, h, and_self]⟩

theorem cond_set_w_isSome (g : Mac3d) (c : Bool) (i j k : ℕ)
    (h : i < g.N_ ∧ j < g.M_ ∧ k < g.L_ + 1) :
    ∃ g', (if c then g.set_w i j k 0 else some g) = some g' := by
  cases c with
  | false => exact ⟨g, rfl⟩
  | true =>
    exact ⟨{ g with pw_ := write3 g.pw_ i j k 0 },
      by simp only [if_true, Mac3d.set_w, h, and_self]⟩

theorem bc_solid_cell_isSome (i j k : ℕ) (g : Mac3d) (ho : g.solid_outside.isSome = true)
    (hi : i < g.N_) (hj : j < g.M_) (hk : k < g.L_) :
    ∃ g', FLIP.bc_solid_cell i j k g = some g' := by
  obtain ⟨b, hb⟩ := is_solid_isSome g ho i j k
  obtain ⟨cu, hcu⟩ := scOr_isSome b _ (is_solid_isSome g ho (i + 1) j k)
  obtain ⟨g1, hg1⟩ := cond_set_u_isSome g cu (i + 1) j k ⟨by omega, hj, hk⟩
  have z1 := (cond_set_u_spec g g1 cu _ _ _ hg1).1
  obtain ⟨cv, hcv⟩ := scOr_isSome b _ (is_solid_isSome g1 (by rw [z1.hout]; exact ho) i (j + 1) k)
  obtain ⟨g2, hg2⟩ := cond_set_v_isSome g1 cv i (j + 1) k
    ⟨by rw [z1.hN]; exact hi, by rw [z1.hM]; omega, by rw [z1.hL]; exact hk⟩
  have z2 := ZeroedFrom.trans _ _ _ z1 (cond_set_v_spec g1 g2 cv _ _ _ hg2).1
  obtain ⟨cw, hcw⟩ := scOr_isSome b _ (is_solid_isSome g2 (by rw [z2.hout]; exact ho) i j (k + 1))
  obtain ⟨g3, hg3⟩ := cond_set_w_isSome g2 cw i j (k + 1)
    ⟨by rw [z2.hN]; exact hi, by rw [z2.hM]; exact hj, by rw [z2.hL]; omega⟩
  exact ⟨g3, by simp only [FLIP.bc_solid_cell, hb, Option.some_bind, hcu, hg1, hcv, hg2, hcw, hg3]⟩

/-- The solid-wall loop nest: partial correctness. -/
theorem bc_solid_loop_spec (g g' : Mac3d)
    (h : forLoop3 g.N_ g.M_ g.L_ FLIP.bc_solid_cell g = some g') :
    ZeroedFrom g g' ∧ ∀ k, k < g.L_ → ∀ j, j < g.M_ → ∀ i, i < g.N_ → SolidFacesZero i j k g' := by
  refine forLoop_level ZeroedFrom ZeroedFrom.refl ZeroedFrom.trans
    (fun k s => ∀ j, j < g.M_ → ∀ i, i < g.N_ → SolidFacesZero i j k s)
    (fun k s s' hr hq j hj i hi => SolidFacesZero.mono i j k s s' hr (hq j hj i hi))
    _ g.L_ ?_ g g' h
  intro k _ t t' ht
  refine forLoop_level ZeroedFrom ZeroedFrom.refl ZeroedFrom.trans
    (fun j s => ∀ i, i < g.N_ → SolidFacesZero i j k s)
    (fun j s s' hr hq i hi => SolidFacesZero.mono i j k s s' hr (hq i hi))
    _ g.M_ ?_ t t' ht
  intro j _ t t' ht
  refine forLoop_level ZeroedFrom ZeroedFrom.refl ZeroedFrom.trans
    (fun i s => SolidFacesZero i j k s)
    (fun i s s' hr hq => SolidFacesZero.mono i j k s s' hr hq)
    _ g.N_ ?_ t t' ht
  intro i _ t t' ht
  exact bc_solid_cell_spec i j k t t' ht

/-- The solid-wall loop nest completes when `is_solid` does not fault. -/
theorem bc_solid_loop_isSome (g : Mac3d) (ho : g.solid_outside.isSome = true) :
    ∃ g', forLoop3 g.N_ g.M_ g.L_ FLIP.bc_solid_cell g = some g' ∧ ZeroedFrom g g' := by
  refine forLoop_isSome ZeroedFrom ZeroedFrom.refl ZeroedFrom.trans _ g.L_ g g
    (ZeroedFrom.refl g) ?_
  intro k hk t ht
  refine forLoop_isSome ZeroedFrom ZeroedFrom.refl ZeroedFrom.trans _ g.M_ g t ht ?_
  intro j hj t ht
  refine forLoop_isSome ZeroedFrom ZeroedFrom.refl ZeroedFrom.trans _ g.N_ g t ht ?_
  intro i hi t ht
  obtain ⟨t', ht'⟩ := bc_solid_cell_isSome i j k t (by rw [ht.hout]; exact ho)
    (by rw [ht.hN]; exact hi) (by rw [ht.hM]; exact hj) (by rw [ht.hL]; exact hk)
  exact ⟨t', ht', (bc_solid_cell_spec i j k t t' ht').1⟩

theorem zero_u_mono (a b c : ℕ) (g g' : Mac3d) (h : ZeroedFrom g g') (hz : g.pu_ a b c = 0) :
    g'.pu_ a b c = 0 := by
  rcases h.hu a b c with e | e
  · rw [e]; exact hz
  · exact e

theorem zero_v_mono (a b c : ℕ) (g g' : Mac3d) (h : ZeroedFrom g g') (hz : g.pv_ a b c = 0) :
    g'.pv_ a b c = 0 := by
  rcases h.hv a b c with e | e
  · rw [e]; exact hz
  · exact e

theorem zero_w_mono (a b c : ℕ) (g g' : Mac3d) (h : ZeroedFrom g g') (hz : g.pw_ a b c = 0) :
    g'.pw_ a b c = 0 := by
  rcases h.hw a b c with e | e
  · rw [e]; exact hz
  · exact e

theorem bc_outer_v_spec (ny i k : ℕ) (g g' : Mac3d) (h : FLIP.bc_outer_v ny i k g = some g') :
    ZeroedFrom g g' ∧ (g'.pv_ i 0 k = 0 ∧ g'.pv_ i ny k = 0) := by
  simp only [FLIP.bc_outer_v, Option.bind_eq_some] at h
  obtain ⟨g1, h1, h2⟩ := h
  obtain ⟨z1, e1, _⟩ := set_v_zero_spec g g1 _ _ _ h1
  obtain ⟨z2, e2, _⟩ := set_v_zero_spec g1 g' _ _ _ h2
  exact ⟨ZeroedFrom.trans _ _ _ z1 z2, zero_v_mono _ _ _ g1 g' z2 e1, e2⟩

theorem bc_outer_u_spec (nx j k : ℕ) (g g' : Mac3d) (h : FLIP.bc_outer_u nx j k g = some g') :
    ZeroedFrom g g' ∧ (g'.pu_ 0 j k = 0 ∧ g'.pu_ nx j k = 0) := by
  simp only [FLIP.bc_outer_u, Option.bind_eq_some] at h
  obtain ⟨g1, h1, h2⟩ := h
  obtain ⟨z1, e1, _⟩ := set_u_zero_spec g g1 _ _ _ h1
  obtain ⟨z2, e2, _⟩ := set_u_zero_spec g1 g' _ _ _ h2
  exact ⟨ZeroedFrom.trans _ _ _ z1 z2, zero_u_mono _ _ _ g1 g' z2 e1, e2⟩

theorem bc_outer_w_spec (nz i j : ℕ) (g g' : Mac3d) (h : FLIP.bc_outer_w nz i j g = some g') :
    ZeroedFrom g g' ∧ (g'.pw_ i j 0 = 0 ∧ g'.pw_ i j nz = 0) := by
  simp only [FLIP.bc_outer_w, Option.bind_eq_some] at h
  obtain ⟨g1, h1, h2⟩ := h
  obtain ⟨z1, e1, _⟩ := set_w_zero_spec g g1 _ _ _ h1
  obtain ⟨z2, e2, _⟩ := set_w_zero_spec g1 g' _ _ _ h2
  exact ⟨ZeroedFrom.trans _ _ _ z1 z2, zero_w_mono _ _ _ g1 g' z2 e1, e2⟩

theorem set_u_eq (g : Mac3d) (i j k : ℕ) (x : ℚ) (h : i < g.N_ + 1 ∧ j < g.M_ ∧ k < g.L_) :
    g.set_u i j k x = some { g with pu_ := write3 g.pu_ i j k x } := by
  simp only [Mac3d.set_u, h, and_self, if_true]

theorem set_v_eq (g : Mac3d) (i j k : ℕ) (x : ℚ) (h : i < g.N_ ∧ j < g.M_ + 1 ∧ k < g.L_) :
    g.set_v i j k x = some { g with pv_ := write3 g.pv_ i j k x } := by
  simp only [Mac3d.set_v, h, and_self, if_true]

theorem set_w_eq (g : Mac3d) (i j k : ℕ) (x : ℚ) (h : i < g.N_ ∧ j < g.M_ ∧ k < g.L_ + 1) :
    g.set_w i j k x = some { g with pw_ := write3 g.pw_ i j k x } := by
  simp only [Mac3d.set_w, h, and_self, if_true]

theorem bc_outer_v_isSome (i k : ℕ) (g : Mac3d) (hi : i < g.N_) (hk : k < g.L_) :
    ∃ g', FLIP.bc_outer_v g.M_ i k g = some g' := by
  rw [FLIP.bc_outer_v, set_v_eq g i 0 k 0 ⟨hi, Nat.succ_pos _, hk⟩, Option.some_bind,
    set_v_eq { g with pv_ := write3 g.pv_ i 0 k 0 } i g.M_ k 0 ⟨hi, Nat.lt_succ_self _, hk⟩]
  exact ⟨_, rfl⟩

theorem bc_outer_u_isSome (j k : ℕ) (g : Mac3d) (hj : j < g.M_) (hk : k < g.L_) :
    ∃ g', FLIP.bc_outer_u g.N_ j k g = some g' := by
  rw [FLIP.bc_outer_u, set_u_eq g 0 j k 0 ⟨Nat.succ_pos _, hj, hk⟩, Option.some_bind,
    set_u_eq { g with pu_ := write3 g.pu_ 0 j k 0 } g.N_ j k 0 ⟨Nat.lt_succ_self _, hj, hk⟩]
  exact ⟨_, rfl⟩

theorem bc_outer_w_isSome (i j : ℕ) (g : Mac3d) (hi : i < g.N_) (hj : j < g.M_) :
    ∃ g', FLIP.bc_outer_w g.L_ i j g = some g' := by
  rw [FLIP.bc_outer_w, set_w_eq g i j 0 0 ⟨hi, hj, Nat.succ_pos _⟩, Option.some_bind,
    set_w_eq { g with pw_ := write3 g.pw_ i j 0 0 } i j g.L_ 0 ⟨hi, hj, Nat.lt_succ_self _⟩]
  exact ⟨_, rfl⟩

theorem bc_outer_v_loop_spec (nx ny nz : ℕ) (g g' : Mac3d)
    (h : forLoop nz (fun k => forLoop nx (fun i => FLIP.bc_outer_v ny i k)) g = some g') :
    ZeroedFrom g g' ∧
      ∀ k, k < nz → ∀ i, i < nx → (g'.pv_ i 0 k = 0 ∧ g'.pv_ i ny k = 0) := by
  refine forLoop_level ZeroedFrom ZeroedFrom.refl ZeroedFrom.trans
    (fun k s => ∀ i, i < nx → (s.pv_ i 0 k = 0 ∧ s.pv_ i ny k = 0))
    (fun k s s' hr hq i hi =>
      ⟨zero_v_mono _ _ _ s s' hr (hq i hi).1, zero_v_mono _ _ _ s s' hr (hq i hi).2⟩)
    _ nz ?_ g g' h
  intro k _ t t' ht
  refine forLoop_level ZeroedFrom ZeroedFrom.refl ZeroedFrom.trans
    (fun i s => s.pv_ i 0 k = 0 ∧ s.pv_ i ny k = 0)
    (fun i s s' hr hq =>
      ⟨zero_v_mono _ _ _ s s' hr hq.1, zero_v_mono _ _ _ s s' hr hq.2⟩)
    _ nx ?_ t t' ht
  intro i _ t t' ht
  exact bc_outer_v_spec ny i k t t' ht

theorem bc_outer_u_loop_spec (nx ny nz : ℕ) (g g' : Mac3d)
    (h : forLoop nz (fun k => forLoop ny (fun j => FLIP.bc_outer_u nx j k)) g = some g') :
    ZeroedFrom g g' ∧
      ∀ k, k < nz → ∀ j, j < ny → (g'.pu_ 0 j k = 0 ∧ g'.pu_ nx j k = 0) := by
  refine forLoop_level ZeroedFrom ZeroedFrom.refl ZeroedFrom.trans
    (fun k s => ∀ j, j < ny → (s.pu_ 0 j k = 0 ∧ s.pu_ nx j k = 0))
    (fun k s s' hr hq j hj =>
      ⟨zero_u_mono _ _ _ s s' hr (hq j hj).1, zero_u_mono _ _ _ s s' hr (hq j hj).2⟩)
    _ nz ?_ g g' h
  intro k _ t t' ht
  refine forLoop_level ZeroedFrom ZeroedFrom.refl ZeroedFrom.trans
    (fun j s => s.pu_ 0 j k = 0 ∧ s.pu_ nx j k = 0)
    (fun j s s' hr hq =>
      ⟨zero_u_mono _ _ _ s s' hr hq.1, zero_u_mono _ _ _ s s' hr hq.2⟩)
    _ ny ?_ t t' ht
  intro j _ t t' ht
  exact bc_outer_u_spec nx j k t t' ht

theorem bc_outer_w_loop_spec (nx ny nz : ℕ) (g g' : Mac3d)
    (h : forLoop ny (fun j => forLoop nx (fun i => FLIP.bc_outer_w nz i j)) g = some g') :
    ZeroedFrom g g' ∧
      ∀ j, j < ny → ∀ i, i < nx → (g'.pw_ i j 0 = 0 ∧ g'.pw_ i j nz = 0) := by
  refine forLoop_level ZeroedFrom ZeroedFrom.refl ZeroedFrom.trans
    (fun j s => ∀ i, i < nx → (s.pw_ i j 0 = 0 ∧ s.pw_ i j nz = 0))
    (fun j s s' hr hq i hi =>
      ⟨zero_w_mono _ _ _ s s' hr (hq i hi).1, zero_w_mono _ _ _ s s' hr (hq i hi).2⟩)
    _ ny ?_ g g' h
  intro j _ t t' ht
  refine forLoop_level ZeroedFrom ZeroedFrom.refl ZeroedFrom.trans
    (fun i s => s.pw_ i j 0 = 0 ∧ s.pw_ i j nz = 0)
    (fun i s s' hr hq =>
      ⟨zero_w_mono _ _ _ s s' hr hq.1, zero_w_mono _ _ _ s s' hr hq.2⟩)
    _ nx ?_ t t' ht
  intro i _ t t' ht
  exact bc_outer_w_spec nz i j t t' ht

/-- The three outer-boundary loop nests never fault. -/
theorem bc_outer_loops_isSome (g g1 : Mac3d) (z : ZeroedFrom g g1) :
    ∃ g4, ((forLoop g.L_ (fun k => forLoop g.N_ (fun i => FLIP.bc_outer_v g.M_ i k)) g1).bind
      fun g2 => (forLoop g.L_ (fun k => forLoop g.M_ (fun j => FLIP.bc_outer_u g.N_ j k)) g2).bind
      fun g3 => forLoop g.M_ (fun j => forLoop g.N_ (fun i => FLIP.bc_outer_w g.L_ i j)) g3)
      = some g4 := by
  have hv : ∃ g2, forLoop g.L_ (fun k => forLoop g.N_ (fun i => FLIP.bc_outer_v g.M_ i k)) g1
      = some g2 ∧ ZeroedFrom g1 g2 := by
    refine forLoop_isSome ZeroedFrom ZeroedFrom.refl ZeroedFrom.trans _ g.L_ g g1 z ?_
    intro k hk t ht
    refine forLoop_isSome ZeroedFrom ZeroedFrom.refl ZeroedFrom.trans _ g.N_ g t ht ?_
    intro i hi t ht
    obtain ⟨t', ht'⟩ := bc_outer_v_isSome i k t (by rw [ht.hN]; exact hi) (by rw [ht.hL]; exact hk)
    rw [ht.hM] at ht'
    exact ⟨t', ht', (bc_outer_v_spec _ i k t t' ht').1⟩
  obtain ⟨g2, h2, z2⟩ := hv
  have z02 := ZeroedFrom.trans _ _ _ z z2
  have hu : ∃ g3, forLoop g.L_ (fun k => forLoop g.M_ (fun j => FLIP.bc_outer_u g.N_ j k)) g2
      = some g3 ∧ ZeroedFrom g2 g3 := by
    refine forLoop_isSome ZeroedFrom ZeroedFrom.refl ZeroedFrom.trans _ g.L_ g g2 z02 ?_
    intro k hk t ht
    refine forLoop_isSome ZeroedFrom ZeroedFrom.refl ZeroedFrom.trans _ g.M_ g t ht ?_
    intro j hj t ht
    obtain ⟨t', ht'⟩ := bc_outer_u_isSome j k t (by rw [ht.hM]; exact hj) (by rw [ht.hL]; exact hk)
    rw [ht.hN] at ht'
    exact ⟨t', ht', (bc_outer_u_spec _ j k t t' ht').1⟩
  obtain ⟨g3, h3, z3⟩ := hu
  have z03 := ZeroedFrom.trans _ _ _ z02 z3
  have hw : ∃ g4, forLoop g.M_ (fun j => forLoop g.N_ (fun i => FLIP.bc_outer_w g.L_ i j)) g3
      = some g4 ∧ ZeroedFrom g3 g4 := by
    refine forLoop_isSome ZeroedFrom ZeroedFrom.refl ZeroedFrom.trans _ g.M_ g g3 z03 ?_
    intro j hj t ht
    refine forLoop_isSome ZeroedFrom ZeroedFrom.refl ZeroedFrom.trans _ g.N_ g t ht ?_
    intro i hi t ht
    obtain ⟨t', ht'⟩ := bc_outer_w_isSome i j t (by rw [ht.hN]; exact hi) (by rw [ht.hM]; exact hj)
    rw [ht.hL] at ht'
    exact ⟨t', ht', (bc_outer_w_spec _ i j t t' ht').1⟩
  obtain ⟨g4, h4, _⟩ := hw
  exact ⟨g4, by simp only [h2, Option.some_bind, h3, h4]⟩

theorem apply_boundary_conditions_grid_spec (g g' : Mac3d)
    (h : FLIP.apply_boundary_conditions_grid g = some g') :
    ZeroedFrom g g' ∧ BoundaryZero g' := by
  simp only [FLIP.apply_boundary_conditions_grid, Mac3d.get_num_cells_x, Mac3d.get_num_cells_y,
    Mac3d.get_num_cells_z, Option.bind_eq_some] at h
  obtain ⟨g1, h1, g2, h2, g3, h3, h4⟩ := h
  obtain ⟨z1, q1⟩ := bc_solid_loop_spec g g1 h1
  obtain ⟨z2, q2⟩ := bc_outer_v_loop_spec _ _ _ g1 g2 h2
  obtain ⟨z3, q3⟩ := bc_outer_u_loop_spec _ _ _ g2 g3 h3
  obtain ⟨z4, q4⟩ := bc_outer_w_loop_spec _ _ _ g3 g' h4
  have z34 := ZeroedFrom.trans _ _ _ z3 z4
  have z24 := ZeroedFrom.trans _ _ _ z2 z34
  have z04 := ZeroedFrom.trans _ _ _ z1 z24
  refine ⟨z04, ?_, ?_, ?_, ?_⟩
  · intro k hk j hj i hi
    rw [z04.hL] at hk; rw [z04.hM] at hj; rw [z04.hN] at hi
    exact SolidFacesZero.mono i j k g1 g' z24 (q1 k hk j hj i hi)
  · intro k hk j hj
    rw [z04.hL] at hk; rw [z04.hM] at hj
    rw [z04.hN]
    exact ⟨zero_u_mono _ _ _ g3 g' z4 (q3 k hk j hj).1, zero_u_mono _ _ _ g3 g' z4 (q3 k hk j hj).2⟩
  · intro k hk i hi
    rw [z04.hL] at hk; rw [z04.hN] at hi
    rw [z04.hM]
    exact ⟨zero_v_mono _ _ _ g2 g' z34 (q2 k hk i hi).1,
      zero_v_mono _ _ _ g2 g' z34 (q2 k hk i hi).2⟩
  · intro j hj i hi
    rw [z04.hM] at hj; rw [z04.hN] at hi
    rw [z04.hL]
    exact q4 j hj i hi

theorem apply_boundary_conditions_grid_isSome (g : Mac3d) (ho : g.solid_outside.isSome = true) :
    ∃ g', FLIP.apply_boundary_conditions_grid g = some g' := by
  obtain ⟨g1, h1, z1⟩ := bc_solid_loop_isSome g ho
  obtain ⟨g4, h4⟩ := bc_outer_loops_isSome g g1 z1
  refine ⟨g4, ?_⟩
  simp only [FLIP.apply_boundary_conditions_grid, Mac3d.get_num_cells_x, Mac3d.get_num_cells_y,
    Mac3d.get_num_cells_z, h1, Option.some_bind]
  exact h4

/-! ## Boundary conditions: claim C2 -/

theorem get_u_eq (g : Mac3d) (i j k : ℕ) (h : i < g.N_ + 1 ∧ j < g.M_ ∧ k < g.L_) :
    g.get_u i j k = some (g.pu_ i j k) := by
  simp only [Mac3d.get_u, h, and_self, if_true]

theorem get_v_eq (g : Mac3d) (i j k : ℕ) (h : i < g.N_ ∧ j < g.M_ + 1 ∧ k < g.L_) :
    g.get_v i j k = some (g.pv_ i j k) := by
  simp only [Mac3d.get_v, h, and_self, if_true]

theorem get_w_eq (g : Mac3d) (i j k : ℕ) (h : i < g.N_ ∧ j < g.M_ ∧ k < g.L_ + 1) :
    g.get_w i j k = some (g.pw_ i j k) := by
  simp only [Mac3d.get_w, h, and_self, if_true]

theorem is_solid_eq (g : Mac3d) (i j k : ℕ) (h : i < g.N_ ∧ j < g.M_ ∧ k < g.L_) :
    g.is_solid i j k = some (g.psolid_ i j k) := by
  simp only [Mac3d.is_solid, h, and_self, if_true]

theorem is_fluid_eq (g : Mac3d) (i j k : ℕ) (h : i < g.N_ ∧ j < g.M_ ∧ k < g.L_) :
    g.is_fluid i j k = some (g.pfluid_ i j k) := by
  simp only [Mac3d.is_fluid, h, and_self, if_true]

theorem get_pressure_eq (g : Mac3d) (i j k : ℕ) (h : i < g.N_ ∧ j < g.M_ ∧ k < g.L_) :
    g.get_pressure i j k = some (g.ppressure_ i j k) := by
  simp only [Mac3d.get_pressure, h, and_self, if_true]

/-- A successful in-grid `is_solid` query that answers `true` means a solid cell. -/
theorem solidCell_of_is_solid (g : Mac3d) (i j k : ℕ) (hi : i < g.N_) (hj : j < g.M_)
    (hk : k < g.L_) (h : g.is_solid i j k = some true) : solidCell g i j k := by
  rw [is_solid_eq g i j k ⟨hi, hj, hk⟩] at h
  exact ⟨hi, hj, hk, Option.some.inj h⟩

/-- C2. After `apply_boundary_conditions` every face between two cells of which one is
solid holds 0, and so does every face on the outer boundary of the domain (first and
last index along each axis). The call changes neither the grid dimensions nor the solid
flags; it completes on every grid for which `is_solid` does not fault outside the cell
shape, and the postcondition holds whenever it completes. -/
theorem apply_boundary_conditions_faces_zero (f : FLIP) :
    (f.MACGrid_.solid_outside.isSome = true → ∃ f', f.apply_boundary_conditions = some f') ∧
    ∀ f', f.apply_boundary_conditions = some f' →
      (f'.MACGrid_.N_ = f.MACGrid_.N_ ∧ f'.MACGrid_.M_ = f.MACGrid_.M_ ∧
        f'.MACGrid_.L_ = f.MACGrid_.L_ ∧ f'.MACGrid_.psolid_ = f.MACGrid_.psolid_) ∧
      (∀ i j k, i < f'.MACGrid_.get_num_cells_x → j < f'.MACGrid_.get_num_cells_y →
        k < f'.MACGrid_.get_num_cells_z →
        ((f'.MACGrid_.is_solid i j k = some true ∨ f'.MACGrid_.is_solid (i + 1) j k = some true) →
          f'.MACGrid_.get_u (i + 1) j k = some 0) ∧
        ((f'.MACGrid_.is_solid i j k = some true ∨ f'.MACGrid_.is_solid i (j + 1) k = some true) →
          f'.MACGrid_.get_v i (j + 1) k = some 0) ∧
        ((f'.MACGrid_.is_solid i j k = some true ∨ f'.MACGrid_.is_solid i j (k + 1) = some true) →
          f'.MACGrid_.get_w i j (k + 1) = some 0)) ∧
      (∀ j k, j < f'.MACGrid_.get_num_cells_y → k < f'.MACGrid_.get_num_cells_z →
        f'.MACGrid_.get_u 0 j k = some 0 ∧
        f'.MACGrid_.get_u f'.MACGrid_.get_num_cells_x j k = some 0) ∧
      (∀ i k, i < f'.MACGrid_.get_num_cells_x → k < f'.MACGrid_.get_num_cells_z →
        f'.MACGrid_.get_v i 0 k = some 0 ∧
        f'.MACGrid_.get_v i f'.MACGrid_.get_num_cells_y k = some 0) ∧
      (∀ i j, i < f'.MACGrid_.get_num_cells_x → j < f'.MACGrid_.get_num_cells_y →
        f'.MACGrid_.get_w i j 0 = some 0 ∧
        f'.MACGrid_.get_w i j f'.MACGrid_.get_num_cells_z = some 0) := by
  constructor
  · intro ho
    obtain ⟨g', hg'⟩ := apply_boundary_conditions_grid_isSome f.MACGrid_ ho
    exact ⟨{ f with MACGrid_ := g' },
      by simp only [FLIP.apply_boundary_conditions, hg', Option.map_some']⟩
  · intro f' hf'
    simp only [FLIP.apply_boundary_conditions, Option.map_eq_some'] at hf'
    obtain ⟨g', hg', rfl⟩ := hf'
    obtain ⟨z, q⟩ := apply_boundary_conditions_grid_spec f.MACGrid_ g' hg'
    simp only [Mac3d.get_num_cells_x, Mac3d.get_num_cells_y, Mac3d.get_num_cells_z]
    refine ⟨⟨z.hN, z.hM, z.hL, z.hsolid⟩, ?_, ?_, ?_, ?_⟩
    · intro i j k hi hj hk
      obtain ⟨qu, qv, qw⟩ := q.solid k hk j hj i hi
      refine ⟨fun h => ?_, fun h => ?_, fun h => ?_⟩
      · rw [get_u_eq g' (i + 1) j k ⟨by omega, hj, hk⟩]
        congr 1
        rcases Nat.lt_or_ge (i + 1) g'.N_ with hlt | hge
        · apply qu
          rcases h with h | h
          · exact Or.inl (solidCell_of_is_solid g' i j k hi hj hk h)
          · exact Or.inr (solidCell_of_is_solid g' (i + 1) j k hlt hj hk h)
        · have e : i + 1 = g'.N_ := by omega
          rw [e]
          exact (q.outer_u k hk j hj).2
      · rw [get_v_eq g' i (j + 1) k ⟨hi, by omega, hk⟩]
        congr 1
        rcases Nat.lt_or_ge (j + 1) g'.M_ with hlt | hge
        · apply qv
          rcases h with h | h
          · exact Or.inl (solidCell_of_is_solid g' i j k hi hj hk h)
          · exact Or.inr (solidCell_of_is_solid g' i (j + 1) k hi hlt hk h)
        · have e : j + 1 = g'.M_ := by omega
          rw [e]
          exact (q.outer_v k hk i hi).2
      · rw [get_w_eq g' i j (k + 1) ⟨hi, hj, by omega⟩]
        congr 1
        rcases Nat.lt_or_ge (k + 1) g'.L_ with hlt | hge
        · apply qw
          rcases h with h | h
          · exact Or.inl (solidCell_of_is_solid g' i j k hi hj hk h)
          · exact Or.inr (solidCell_of_is_solid g' i j (k + 1) hi hj hlt h)
        · have e : k + 1 = g'.L_ := by omega
          rw [e]
          exact (q.outer_w j hj i hi).2
    · intro j k hj hk
      rw [get_u_eq g' 0 j k ⟨by omega, hj, hk⟩, get_u_eq g' g'.N_ j k ⟨by omega, hj, hk⟩]
      exact ⟨congrArg some (q.outer_u k hk j hj).1, congrArg some (q.outer_u k hk j hj).2⟩
    · intro i k hi hk
      rw [get_v_eq g' i 0 k ⟨hi, by omega, hk⟩, get_v_eq g' i g'.M_ k ⟨hi, by omega, hk⟩]
      exact ⟨congrArg some (q.outer_v k hk i hi).1, congrArg some (q.outer_v k hk i hi).2⟩
    · intro i j hi hj
      rw [get_w_eq g' i j 0 ⟨hi, hj, by omega⟩, get_w_eq g' i j g'.L_ ⟨hi, hj, by omega⟩]
      exact ⟨congrArg some (q.outer_w j hj i hi).1, congrArg some (q.outer_w j hj i hi).2⟩

theorem apply_boundary_conditions_faces_zero_witness :
    ∃ f', cornerWallFLIP.apply_boundary_conditions = some f' ∧
      f'.MACGrid_.get_u 1 0 0 = some 0 ∧ f'.MACGrid_.get_u 0 1 1 = some 0 ∧
      f'.MACGrid_.get_u 2 1 1 = some 0 := by
  obtain ⟨f', hf'⟩ := (apply_boundary_conditions_faces_zero cornerWallFLIP).1 rfl
  obtain ⟨⟨hN, hM, hL, hs⟩, hsolid, hu, _, _⟩ :=
    (apply_boundary_conditions_faces_zero cornerWallFLIP).2 f' hf'
  have hN2 : f'.MACGrid_.N_ = 2 := hN
  have hM2 : f'.MACGrid_.M_ = 2 := hM
  have hL2 : f'.MACGrid_.L_ = 2 := hL
  have hq : f'.MACGrid_.is_solid 0 0 0 = some true := by
    simp [Mac3d.is_solid, hN2, hM2, hL2, hs, cornerWallFLIP, cornerWallGrid]
  have h1 := (hsolid 0 0 0 (by simp [Mac3d.get_num_cells_x, hN2])
    (by simp [Mac3d.get_num_cells_y, hM2]) (by simp [Mac3d.get_num_cells_z, hL2])).1 (Or.inl hq)
  have h2 := hu 1 1 (by simp [Mac3d.get_num_cells_y, hM2]) (by simp [Mac3d.get_num_cells_z, hL2])
  simp only [Mac3d.get_num_cells_x, hN2] at h2
  exact ⟨f', hf', h1, h2.1, h2.2⟩

/-! ## Time step: claims C4, C5 -/

theorem max_velocities_zero (ps : List Particle)
    (h : ∀ p ∈ ps, p.get_velocity.x = 0 ∧ p.get_velocity.y = 0 ∧ p.get_velocity.z = 0) :
    FLIP.max_velocities ps = (0, 0, 0) := by
  unfold FLIP.max_velocities
  induction ps with
  | nil => rfl
  | cons p ps ih =>
    obtain ⟨hx, hy, hz⟩ := h p (List.mem_cons_self p ps)
    simp only [List.foldl_cons, hx, hy, hz, abs_zero, gt_iff_lt, lt_self_iff_false, if_false]
    exact ih (fun q hq => h q (List.mem_cons_of_mem p hq))

theorem forLoop_one {σ : Type} (body : ℕ → σ → Option σ) (s : σ) :
    forLoop 1 body s = body 0 s := by
  simp only [forLoop, forLoopFrom]
  cases body 0 s <;> rfl

/-- The clamp at the end of each stage of `compute_timestep`. -/
theorem clamp_pos_le (dt t : ℚ) (hdt : 0 < dt) (ht : 0 < t) :
    0 < (if t > dt then dt else t) ∧ (if t > dt then dt else t) ≤ dt := by
  split
  · exact ⟨hdt, le_refl dt⟩
  · rename_i h
    exact ⟨ht, not_lt.mp h⟩

theorem stage_pos_le (dt prev c m : ℚ) (hdt : 0 < dt) (hprev : 0 < prev) (hc : 0 < c) :
    0 < (if m = 0 then dt else
          if (if |c / m| < prev then |c / m| else prev) > dt then dt
          else (if |c / m| < prev then |c / m| else prev)) ∧
    (if m = 0 then dt else
          if (if |c / m| < prev then |c / m| else prev) > dt then dt
          else (if |c / m| < prev then |c / m| else prev)) ≤ dt := by
  by_cases hm : m = 0
  · simp only [hm, if_true]
    exact ⟨hdt, le_refl dt⟩
  · simp only [hm, if_false]
    have ht : 0 < |c / m| := abs_pos.mpr (div_ne_zero hc.ne' hm)
    have hmin : 0 < (if |c / m| < prev then |c / m| else prev) := by
      split
      · exact ht
      · exact hprev
    exact clamp_pos_le dt _ hdt hmin

theorem compute_timestep_pos_le (f : FLIP) (dt : ℚ) (hdt : 0 < dt)
    (hx : 0 < f.MACGrid_.get_cell_sizex) (hy : 0 < f.MACGrid_.get_cell_sizey)
    (hz : 0 < f.MACGrid_.get_cell_sizez) :
    0 < f.compute_timestep dt ∧ f.compute_timestep dt ≤ dt := by
  have h1 : 0 < (if (FLIP.max_velocities f.particles_).1 = 0 then dt else
      if |f.MACGrid_.get_cell_sizex / (FLIP.max_velocities f.particles_).1| > dt then dt
      else |f.MACGrid_.get_cell_sizex / (FLIP.max_velocities f.particles_).1|) := by
    by_cases hm : (FLIP.max_velocities f.particles_).1 = 0
    · simp only [hm, if_true]
      exact hdt
    · simp only [hm, if_false]
      exact (clamp_pos_le dt _ hdt (abs_pos.mpr (div_ne_zero hx.ne' hm))).1
  have h2 := stage_pos_le dt _ f.MACGrid_.get_cell_sizey
    (FLIP.max_velocities f.particles_).2.1 hdt h1 hy
  exact stage_pos_le dt _ f.MACGrid_.get_cell_sizez
    (FLIP.max_velocities f.particles_).2.2 hdt h2.1 hz

/-- C5. For `dt > 0` and positive cell sizes the step returned by `compute_timestep`
is positive and at most `dt`, so the substep count `ceil(dt / result)` is at least 1. -/
theorem compute_timestep_clamped (f : FLIP) (dt : ℚ) (hdt : 0 < dt)
    (hx : 0 < f.MACGrid_.get_cell_sizex) (hy : 0 < f.MACGrid_.get_cell_sizey)
    (hz : 0 < f.MACGrid_.get_cell_sizez) :
    0 < f.compute_timestep dt ∧ f.compute_timestep dt ≤ dt ∧
      1 ≤ ⌈dt / f.compute_timestep dt⌉ := by
  obtain ⟨h1, h2⟩ := compute_timestep_pos_le f dt hdt hx hy hz
  exact ⟨h1, h2, Int.one_le_ceil_iff.mpr (div_pos hdt h1)⟩

theorem compute_timestep_clamped_witness :
    0 < (unitFLIP [particleWithVelocity 3 (-4) 0]).compute_timestep 2 ∧
      (unitFLIP [particleWithVelocity 3 (-4) 0]).compute_timestep 2 ≤ 2 ∧
      1 ≤ ⌈(2 : ℚ) / (unitFLIP [particleWithVelocity 3 (-4) 0]).compute_timestep 2⌉ :=
  compute_timestep_clamped (unitFLIP [particleWithVelocity 3 (-4) 0]) 2 (by norm_num)
    (by simp [unitFLIP, unitGrid, Mac3d.get_cell_sizex])
    (by simp [unitFLIP, unitGrid, Mac3d.get_cell_sizey])
    (by simp [unitFLIP, unitGrid, Mac3d.get_cell_sizez])

theorem compute_timestep_of_zero (f : FLIP) (dt : ℚ)
    (h : ∀ p ∈ f.particles_, p.get_velocity.x = 0 ∧ p.get_velocity.y = 0 ∧ p.get_velocity.z = 0) :
    f.compute_timestep dt = dt := by
  simp only [FLIP.compute_timestep, max_velocities_zero f.particles_ h, if_true]

/-- C4. When every particle velocity is `(0, 0, 0)`, `compute_timestep(dt)` returns `dt`
and step 6 of `step_FLIP` makes exactly one call `advance_particles(dt, step)`, for every
`dt > 0`. -/
theorem step_FLIP_single_substep (f : FLIP) (dt : ℚ) (step : ℕ) (hdt : 0 < dt)
    (h : ∀ p ∈ f.particles_, p.get_velocity.x = 0 ∧ p.get_velocity.y = 0 ∧ p.get_velocity.z = 0) :
    f.compute_timestep dt = dt ∧
      ⌈dt / f.compute_timestep dt⌉ = 1 ∧
      f.step_FLIP_substeps dt step = some [(dt, step)] ∧
      ∀ (σ : Type) (advance_particles : ℚ → ℕ → σ → Option σ) (s : σ),
        f.step_FLIP_advance advance_particles dt step s = advance_particles dt step s := by
  have h1 := compute_timestep_of_zero f dt h
  have h2 : ⌈dt / dt⌉ = 1 := by rw [div_self hdt.ne', Int.ceil_one]
  refine ⟨h1, by rw [h1]; exact h2, ?_, ?_⟩
  · simp only [FLIP.step_FLIP_substeps, FLIP.step_FLIP_advance, h1, h2, Int.toNat_one, forLoop_one,
      List.nil_append]
  · intro σ adv s
    simp only [FLIP.step_FLIP_advance, h1, h2, Int.toNat_one, forLoop_one]

theorem step_FLIP_single_substep_witness :
    (unitFLIP [particleWithVelocity 0 0 0]).compute_timestep (1 / 100) = 1 / 100 ∧
      (unitFLIP [particleWithVelocity 0 0 0]).step_FLIP_substeps (1 / 100) 5
        = some [(1 / 100, 5)] := by
  have h := step_FLIP_single_substep (unitFLIP [particleWithVelocity 0 0 0]) (1 / 100) 5
    (by norm_num) (by simp [unitFLIP, particleWithVelocity, Particle.get_velocity])
  exact ⟨h.1, h.2.2.1⟩

/-! ## Time step: claims C3, C6 -/

/-- Whenever no particle moves along z, `compute_timestep` returns `dt`, whatever the
velocities along x and y. -/
theorem compute_timestep_of_w_max_zero (f : FLIP) (dt : ℚ)
    (h : (FLIP.max_velocities f.particles_).2.2 = 0) : f.compute_timestep dt = dt := by
  simp only [FLIP.compute_timestep, h, if_true]

/-- C3 (the code at the failing input). One particle of velocity `(10, 0, 0)`, cell size 1,
`dt = 1`: the x axis allows a step of `1/10`, which is what the specified minimum gives,
but `compute_timestep` returns `1`. -/
theorem compute_timestep_drops_u_limit :
    (FLIP.max_velocities (unitFLIP [particleWithVelocity 10 0 0]).particles_) = (10, 0, 0) ∧
      (unitFLIP [particleWithVelocity 10 0 0]).compute_timestep 1 = 1 ∧
      stable_step_spec (unitFLIP [particleWithVelocity 10 0 0]) 1 = 1 / 10 := by
  have hm : FLIP.max_velocities (unitFLIP [particleWithVelocity 10 0 0]).particles_
      = (10, 0, 0) := by
    simp [FLIP.max_velocities, unitFLIP, particleWithVelocity, Particle.get_velocity]
  refine ⟨hm, ?_, ?_⟩
  · exact compute_timestep_of_w_max_zero _ 1 (by rw [hm])
  · simp only [stable_step_spec, hm]
    norm_num [unitFLIP, unitGrid, Mac3d.get_cell_sizex]

theorem forLoopFrom_log {α : Type} (x : α) (n : ℕ) :
    ∀ (a : ℕ) (log : List α),
      forLoopFrom (fun _ l => some (l ++ [x])) n a log = some (log ++ List.replicate n x) := by
  induction n with
  | zero =>
    intro a log
    simp [forLoopFrom]
  | succ n ih =>
    intro a log
    simp only [forLoopFrom, Option.some_bind, ih, List.replicate_succ, List.append_assoc,
      List.singleton_append]

/-- Step 6 of `step_FLIP` calls `advance_particles` `⌈dt / dt_new⌉` times, each time with
the substep length `dt_new = compute_timestep(dt)`. -/
theorem step_FLIP_substeps_eq (f : FLIP) (dt : ℚ) (step : ℕ) :
    f.step_FLIP_substeps dt step
      = some (List.replicate ⌈dt / f.compute_timestep dt⌉.toNat (f.compute_timestep dt, step)) := by
  simp only [FLIP.step_FLIP_substeps, FLIP.step_FLIP_advance, forLoop, forLoopFrom_log,
    List.nil_append]

/-- C6 (the code at the failing input). One particle of velocity `(3/2, 3/2, 3/2)`, cell
size 1, `dt = 1`: the stable step is `2/3`, so `n = 2`, and `advance_particles` is called
twice with substep length `2/3` (not `dt/n = 1/2`): the substeps add up to `4/3`, not to
the frame's `dt = 1`. -/
theorem step_FLIP_substeps_overshoot :
    (unitFLIP [particleWithVelocity (3 / 2) (3 / 2) (3 / 2)]).compute_timestep 1 = 2 / 3 ∧
      ⌈(1 : ℚ) / (unitFLIP [particleWithVelocity (3 / 2) (3 / 2) (3 / 2)]).compute_timestep 1⌉ = 2 ∧
      (unitFLIP [particleWithVelocity (3 / 2) (3 / 2) (3 / 2)]).step_FLIP_substeps 1 0
        = some [(2 / 3, 0), (2 / 3, 0)] ∧
      ((2 / 3 + 2 / 3 : ℚ) ≠ 1) := by
  have hm : FLIP.max_velocities
      (unitFLIP [particleWithVelocity (3 / 2) (3 / 2) (3 / 2)]).particles_
      = (3 / 2, 3 / 2, 3 / 2) := by
    simp [FLIP.max_velocities, unitFLIP, particleWithVelocity, Particle.get_velocity]
  have ht : (unitFLIP [particleWithVelocity (3 / 2) (3 / 2) (3 / 2)]).compute_timestep 1
      = 2 / 3 := by
    simp only [FLIP.compute_timestep, hm]
    norm_num [unitFLIP, unitGrid, Mac3d.get_cell_sizex, Mac3d.get_cell_sizey,
      Mac3d.get_cell_sizez, abs_of_pos]
  have hc : ⌈(1 : ℚ) / (2 / 3)⌉ = 2 := by
    rw [Int.ceil_eq_iff]
    norm_num
  refine ⟨ht, by rw [ht]; exact hc, ?_, by norm_num⟩
  rw [step_FLIP_substeps_eq, ht, hc]
  rfl

/-! ## Cell index and the loop nest over the cells -/

theorem cellIndex_lt (nx ny nz i j k : ℕ) (hi : i < nx) (hj : j < ny) (hk : k < nz) :
    cellIndex nx ny i j k < nx * ny * nz := by
  unfold cellIndex
  have h1 : i + j * nx < nx * ny := by
    calc i + j * nx < nx + j * nx := by omega
      _ = nx * (j + 1) := by ring
      _ ≤ nx * ny := Nat.mul_le_mul_left nx hj
  calc i + j * nx + nx * ny * k < nx * ny + nx * ny * k := by omega
    _ = nx * ny * (k + 1) := by ring
    _ ≤ nx * ny * nz := Nat.mul_le_mul_left (nx * ny) hk

theorem cellIndex_mod (nx ny i j k : ℕ) (hi : i < nx) : cellIndex nx ny i j k % nx = i := by
  have e : cellIndex nx ny i j k = i + nx * (j + ny * k) := by unfold cellIndex; ring
  rw [e, Nat.add_mul_mod_self_left, Nat.mod_eq_of_lt hi]

theorem cellIndex_div (nx ny i j k : ℕ) (hi : i < nx) :
    cellIndex nx ny i j k / nx = j + ny * k := by
  have e : cellIndex nx ny i j k = i + nx * (j + ny * k) := by unfold cellIndex; ring
  have hnx : 0 < nx := by omega
  rw [e, Nat.add_mul_div_left _ _ hnx, Nat.div_eq_of_lt hi, Nat.zero_add]

theorem cellIndex_inj (nx ny i j k i' j' k' : ℕ) (hi : i < nx) (hj : j < ny)
    (hi' : i' < nx) (hj' : j' < ny)
    (h : cellIndex nx ny i j k = cellIndex nx ny i' j' k') : i = i' ∧ j = j' ∧ k = k' := by
  have h1 : i = i' := by
    have := congrArg (· % nx) h
    simp only [cellIndex_mod nx ny i j k hi, cellIndex_mod nx ny i' j' k' hi'] at this
    exact this
  have h2 : j + ny * k = j' + ny * k' := by
    have := congrArg (· / nx) h
    simp only [cellIndex_div nx ny i j k hi, cellIndex_div nx ny i' j' k' hi'] at this
    exact this
  have hny : 0 < ny := by omega
  have h3 : j = j' := by
    have := congrArg (· % ny) h2
    simp only [Nat.add_mul_mod_self_left, Nat.mod_eq_of_lt hj, Nat.mod_eq_of_lt hj'] at this
    exact this
  have h4 : k = k' := by
    have := congrArg (· / ny) h2
    simp only [Nat.add_mul_div_left _ _ hny, Nat.div_eq_of_lt hj, Nat.div_eq_of_lt hj',
      Nat.zero_add] at this
    exact this
  exact ⟨h1, h3, h4⟩

theorem cellIndex_surj (nx ny nz c : ℕ) (hc : c < nx * ny * nz) :
    ∃ i j k, i < nx ∧ j < ny ∧ k < nz ∧ c = cellIndex nx ny i j k := by
  have hnx : 0 < nx := by
    rcases Nat.eq_zero_or_pos nx with h | h
    · rw [h] at hc; simp at hc
    · exact h
  have hny : 0 < ny := by
    rcases Nat.eq_zero_or_pos ny with h | h
    · rw [h] at hc; simp at hc
    · exact h
  refine ⟨c % nx, (c / nx) % ny, c / nx / ny, Nat.mod_lt _ hnx, Nat.mod_lt _ hny, ?_, ?_⟩
  · rw [Nat.div_div_eq_div_mul, Nat.div_lt_iff_lt_mul (Nat.mul_pos hnx hny)]
    calc c < nx * ny * nz := hc
      _ = nz * (nx * ny) := by ring
  · have e1 := Nat.mod_add_div c nx
    have e2 := Nat.mod_add_div (c / nx) ny
    unfold cellIndex
    calc c = c % nx + nx * (c / nx) := e1.symm
      _ = c % nx + nx * ((c / nx) % ny + ny * (c / nx / ny)) := by rw [e2]
      _ = c % nx + (c / nx) % ny * nx + nx * ny * (c / nx / ny) := by ring

theorem forLoopFrom_inv {σ : Type} (body : ℕ → σ → Option σ) (I : ℕ → σ → Prop) (n : ℕ) :
    ∀ (a : ℕ) (s : σ), I a s →
      (∀ i, a ≤ i → i < a + n → ∀ t, I i t → ∃ t', body i t = some t' ∧ I (i + 1) t') →
      ∃ s', forLoopFrom body n a s = some s' ∧ I (a + n) s' := by
  induction n with
  | zero =>
    intro a s h0 _
    exact ⟨s, rfl, h0⟩
  | succ n ih =>
    intro a s h0 hstep
    obtain ⟨t, ht, hIt⟩ := hstep a (le_refl a) (by omega) s h0
    obtain ⟨s', hs', hI⟩ := ih (a + 1) t hIt (fun i h1 h2 => hstep i (by omega) (by omega))
    refine ⟨s', ?_, ?_⟩
    · simp only [forLoopFrom, ht, Option.some_bind, hs']
    · have e : a + (n + 1) = a + 1 + n := by omega
      rw [e]
      exact hI

/-- Invariant rule for a counting loop that cannot fault. -/
theorem forLoop_inv {σ : Type} (n : ℕ) (body : ℕ → σ → Option σ) (I : ℕ → σ → Prop) (s : σ)
    (h0 : I 0 s)
    (hstep : ∀ i, i < n → ∀ t, I i t → ∃ t', body i t = some t' ∧ I (i + 1) t') :
    ∃ s', forLoop n body s = some s' ∧ I n s' := by
  obtain ⟨s', h1, h2⟩ := forLoopFrom_inv body I n 0 s h0 (fun i _ hi => hstep i (by omega))
  rw [Nat.zero_add] at h2
  exact ⟨s', h1, h2⟩

/-- Invariant rule for the loop nest over the cells: `Inv c s` says that `s` is the state
after the first `c` cells (in the order of the loops, which is the order of the linear
cell index) have been handled. -/
theorem forLoop3_progress {σ : Type} (nx ny nz : ℕ) (body : ℕ → ℕ → ℕ → σ → Option σ)
    (Inv : ℕ → σ → Prop)
    (hstep : ∀ i j k, i < nx → j < ny → k < nz → ∀ s, Inv (cellIndex nx ny i j k) s →
      ∃ s', body i j k s = some s' ∧ Inv (cellIndex nx ny i j k + 1) s')
    (s0 : σ) (h0 : Inv 0 s0) :
    ∃ s', forLoop3 nx ny nz body s0 = some s' ∧ Inv (nx * ny * nz) s' := by
  unfold forLoop3
  refine forLoop_inv nz _ (fun k s => Inv (nx * ny * k) s) s0 (by simpa using h0) ?_
  intro k hk t ht
  have hmid := forLoop_inv ny (fun j => forLoop nx (fun i => body i j k))
    (fun j s => Inv (nx * ny * k + nx * j) s) t (by simpa using ht) ?_
  · obtain ⟨t', h1, h2⟩ := hmid
    refine ⟨t', h1, ?_⟩
    have e : nx * ny * k + nx * ny = nx * ny * (k + 1) := by ring
    show Inv (nx * ny * (k + 1)) t'
    rw [← e]
    exact h2
  · intro j hj u hu
    have hin := forLoop_inv nx (fun i => body i j k)
      (fun i s => Inv (nx * ny * k + nx * j + i) s) u (by simpa using hu) ?_
    · obtain ⟨u', h1, h2⟩ := hin
      refine ⟨u', h1, ?_⟩
      have e : nx * ny * k + nx * j + nx = nx * ny * k + nx * (j + 1) := by ring
      show Inv (nx * ny * k + nx * (j + 1)) u'
      rw [← e]
      exact h2
    · intro i hi v hv
      have e : nx * ny * k + nx * j + i = cellIndex nx ny i j k := by unfold cellIndex; ring
      rw [e] at hv
      obtain ⟨v', h1, h2⟩ := hstep i j k hi hj hk v hv
      refine ⟨v', h1, ?_⟩
      have e' : nx * ny * k + nx * j + (i + 1) = cellIndex nx ny i j k + 1 := by
        unfold cellIndex; ring
      show Inv (nx * ny * k + nx * j + (i + 1)) v'
      rw [e']
      exact h2

/-! ## Pressure matrix: one cell -/

theorem scAnd_is_fluid (g : Mac3d) (b : Prop) [Decidable b] (i j k : ℕ)
    (h : b → i < g.N_ ∧ j < g.M_ ∧ k < g.L_) :
    scAnd (decide b) (g.is_fluid i j k) = some (decide (b ∧ g.pfluid_ i j k = true)) := by
  by_cases hb : b
  · simp only [scAnd, hb, decide_True, if_true, is_fluid_eq g i j k (h hb), true_and,
      Bool.decide_eq_true]
  · simp only [scAnd, hb, decide_False, Bool.false_eq_true, if_false, false_and]

theorem push_pair_eq (b : Prop) [Decidable b] (r c : ℕ) (T : List Triplet_t) :
    FLIP.push_pair (decide b) r c T = T ++ (if b then [⟨r, c, -1⟩, ⟨c, r, -1⟩] else []) := by
  by_cases hb : b
  · simp only [FLIP.push_pair, hb, decide_True, if_true]
  · simp only [FLIP.push_pair, hb, decide_False, Bool.false_eq_true, if_false, List.append_nil]

theorem compute_pressure_matrix_cell_eq (g : Mac3d) (i j k : ℕ) (hi : i < g.N_)
    (hj : j < g.M_) (hk : k < g.L_) (T : List Triplet_t) :
    FLIP.compute_pressure_matrix_cell g i j k (T, cellIndex g.N_ g.M_ i j k)
      = some (T ++ cellTriplets g i j k, cellIndex g.N_ g.M_ i j k + 1) := by
  have hd : g.get_a_diag (i + j * g.N_ + g.N_ * g.M_ * k)
      = some ⟨cellIndex g.N_ g.M_ i j k, cellIndex g.N_ g.M_ i j k,
          g.A_diag_ (cellIndex g.N_ g.M_ i j k)⟩ := by
    have hlt := cellIndex_lt g.N_ g.M_ g.L_ i j k hi hj hk
    unfold cellIndex at hlt
    simp only [Mac3d.get_a_diag, hlt, if_true, cellIndex]
  simp only [FLIP.compute_pressure_matrix_cell, Mac3d.get_num_cells_x, Mac3d.get_num_cells_y,
    Mac3d.get_num_cells_z, hd, Option.some_bind, is_fluid_eq g i j k ⟨hi, hj, hk⟩,
    scAnd_is_fluid g (i + 1 < g.N_) (i + 1) j k (fun h => ⟨h, hj, hk⟩),
    scAnd_is_fluid g (j + 1 < g.M_) i (j + 1) k (fun h => ⟨hi, h, hk⟩),
    scAnd_is_fluid g (k + 1 < g.L_) i j (k + 1) (fun h => ⟨hi, hj, h⟩), push_pair_eq,
    cellTriplets]
  by_cases hf : g.pfluid_ i j k = true
  · simp only [hf, if_true, List.append_assoc]
  · simp only [hf, Bool.false_eq_true, if_false, List.append_nil]

/-! ## Pressure matrix: sums over the collected triplets -/

theorem tripletSum_append (φ : Triplet_t → ℚ) (S T : List Triplet_t) :
    tripletSum φ (S ++ T) = tripletSum φ S + tripletSum φ T := by
  simp only [tripletSum, List.map_append, List.sum_append]

theorem sum3_congr (nx ny nz : ℕ) (F G : ℕ → ℕ → ℕ → ℚ)
    (h : ∀ i j k, i < nx → j < ny → k < nz → F i j k = G i j k) :
    sum3 nx ny nz F = sum3 nx ny nz G := by
  unfold sum3
  refine Finset.sum_congr rfl (fun k hk => ?_)
  refine Finset.sum_congr rfl (fun j hj => ?_)
  refine Finset.sum_congr rfl (fun i hi => ?_)
  exact h i j k (Finset.mem_range.mp hi) (Finset.mem_range.mp hj) (Finset.mem_range.mp hk)

theorem sum3_add (nx ny nz : ℕ) (F G : ℕ → ℕ → ℕ → ℚ) :
    sum3 nx ny nz (fun i j k => F i j k + G i j k) = sum3 nx ny nz F + sum3 nx ny nz G := by
  simp only [sum3, Finset.sum_add_distrib]

theorem sum3_zero (nx ny nz : ℕ) (F : ℕ → ℕ → ℕ → ℚ)
    (h : ∀ i j k, i < nx → j < ny → k < nz → F i j k = 0) : sum3 nx ny nz F = 0 := by
  rw [sum3_congr nx ny nz F (fun _ _ _ => 0) h]
  simp only [sum3, Finset.sum_const_zero]

/-- A sum over the cells whose terms vanish away from one cell is the term of that cell. -/
theorem sum3_single (nx ny nz : ℕ) (F : ℕ → ℕ → ℕ → ℚ) (i0 j0 k0 : ℕ) (hi : i0 < nx)
    (hj : j0 < ny) (hk : k0 < nz)
    (h : ∀ i j k, i < nx → j < ny → k < nz → ¬(i = i0 ∧ j = j0 ∧ k = k0) → F i j k = 0) :
    sum3 nx ny nz F = F i0 j0 k0 := by
  unfold sum3
  rw [Finset.sum_eq_single k0, Finset.sum_eq_single j0, Finset.sum_eq_single i0]
  · intro i hi' hne
    exact h i j0 k0 (Finset.mem_range.mp hi') hj hk (fun hc => hne hc.1)
  · intro hc
    exact absurd (Finset.mem_range.mpr hi) hc
  · intro j hj' hne
    refine Finset.sum_eq_zero (fun i hi' => ?_)
    exact h i j k0 (Finset.mem_range.mp hi') (Finset.mem_range.mp hj') hk (fun hc => hne hc.2.1)
  · intro hc
    exact absurd (Finset.mem_range.mpr hj) hc
  · intro k hk' hne
    refine Finset.sum_eq_zero (fun j hj' => ?_)
    refine Finset.sum_eq_zero (fun i hi' => ?_)
    exact h i j k (Finset.mem_range.mp hi') (Finset.mem_range.mp hj') (Finset.mem_range.mp hk')
      (fun hc => hne hc.2.2)
  · intro hc
    exact absurd (Finset.mem_range.mpr hk) hc

/-- Extending the sum over the cells of linear index below `c` by the cell of index `c`. -/
theorem sum3_below_succ (nx ny nz : ℕ) (W : ℕ → ℕ → ℕ → ℚ) (i0 j0 k0 : ℕ) (hi : i0 < nx)
    (hj : j0 < ny) (hk : k0 < nz) :
    sum3 nx ny nz (fun i j k =>
        if cellIndex nx ny i j k < cellIndex nx ny i0 j0 k0 + 1 then W i j k else 0)
      = sum3 nx ny nz (fun i j k =>
          if cellIndex nx ny i j k < cellIndex nx ny i0 j0 k0 then W i j k else 0)
        + W i0 j0 k0 := by
  have hs : sum3 nx ny nz (fun i j k =>
      if i = i0 ∧ j = j0 ∧ k = k0 then W i j k else 0) = W i0 j0 k0 := by
    rw [sum3_single nx ny nz _ i0 j0 k0 hi hj hk]
    · simp only [and_self, if_true]
    · intro i j k _ _ _ hne
      simp only [hne, if_false]
  rw [← hs, ← sum3_add]
  refine sum3_congr nx ny nz _ _ (fun i j k hi' hj' _ => ?_)
  by_cases he : i = i0 ∧ j = j0 ∧ k = k0
  · obtain ⟨e1, e2, e3⟩ := he
    subst e1 e2 e3
    simp only [Nat.lt_succ_self, if_true, lt_self_iff_false, if_false, and_self, zero_add]
  · have hne : cellIndex nx ny i j k ≠ cellIndex nx ny i0 j0 k0 :=
      fun hc => he (cellIndex_inj nx ny i j k i0 j0 k0 hi' hj' hi hj hc)
    have hiff : cellIndex nx ny i j k < cellIndex nx ny i0 j0 k0 + 1 ↔
        cellIndex nx ny i j k < cellIndex nx ny i0 j0 k0 := by omega
    simp only [hiff, he, if_false, add_zero]

/-- The sum over the cells of linear index below the number of cells is the whole sum. -/
theorem sum3_below_all (nx ny nz : ℕ) (W : ℕ → ℕ → ℕ → ℚ) :
    sum3 nx ny nz (fun i j k => if cellIndex nx ny i j k < nx * ny * nz then W i j k else 0)
      = sum3 nx ny nz W := by
  refine sum3_congr nx ny nz _ _ (fun i j k hi hj hk => ?_)
  simp only [cellIndex_lt nx ny nz i j k hi hj hk, if_true]

/-- The triplets collected by the loop nest of `compute_pressure_matrix`: the loop never
faults, and any sum over the collected triplets is the sum over the cells of the sum over
the triplets of the cell. -/
theorem compute_pressure_matrix_loop (g : Mac3d) :
    ∃ T, forLoop3 g.N_ g.M_ g.L_ (FLIP.compute_pressure_matrix_cell g) ([], 0)
        = some (T, g.N_ * g.M_ * g.L_) ∧
      ∀ φ : Triplet_t → ℚ, tripletSum φ T
        = sum3 g.N_ g.M_ g.L_ (fun i j k => tripletSum φ (cellTriplets g i j k)) := by
  have h := forLoop3_progress g.N_ g.M_ g.L_ (FLIP.compute_pressure_matrix_cell g)
    (fun c st => st.2 = c ∧ ∀ φ : Triplet_t → ℚ, tripletSum φ st.1
      = sum3 g.N_ g.M_ g.L_ (fun i j k =>
          if cellIndex g.N_ g.M_ i j k < c then tripletSum φ (cellTriplets g i j k) else 0))
    ?_ ([], 0) ?_
  · obtain ⟨⟨T, c⟩, h1, h2, h3⟩ := h
    simp only at h2 h3
    subst h2
    refine ⟨T, h1, fun φ => ?_⟩
    rw [h3 φ, sum3_below_all]
  · intro i j k hi hj hk st hst
    obtain ⟨T, c⟩ := st
    obtain ⟨hc, hsum⟩ := hst
    simp only at hc hsum
    subst hc
    refine ⟨_, compute_pressure_matrix_cell_eq g i j k hi hj hk T, rfl, fun φ => ?_⟩
    simp only
    rw [tripletSum_append, hsum φ,
      sum3_below_succ g.N_ g.M_ g.L_ (fun i j k => tripletSum φ (cellTriplets g i j k))
        i j k hi hj hk]
  · refine ⟨rfl, fun φ => ?_⟩
    simp only [Nat.not_lt_zero, if_false]
    rw [sum3_zero _ _ _ _ (fun _ _ _ _ _ _ => rfl)]
    rfl

/-! ## Pressure matrix: rows -/

theorem tripletSum_nil (φ : Triplet_t → ℚ) : tripletSum φ [] = 0 := rfl

theorem tripletSum_single (φ : Triplet_t → ℚ) (t : Triplet_t) : tripletSum φ [t] = φ t := by
  simp only [tripletSum, List.map_cons, List.map_nil, List.sum_cons, List.sum_nil, add_zero]

theorem tripletSum_pair (φ : Triplet_t → ℚ) (s t : Triplet_t) :
    tripletSum φ [s, t] = φ s + φ t := by
  simp only [tripletSum, List.map_cons, List.map_nil, List.sum_cons, List.sum_nil, add_zero]

theorem tripletSum_ite (φ : Triplet_t → ℚ) (b : Prop) [Decidable b] (T : List Triplet_t) :
    tripletSum φ (if b then T else []) = if b then tripletSum φ T else 0 := by
  split <;> rfl

/-- The sum of `φ` over the triplets of one cell. -/
theorem tripletSum_cellTriplets (φ : Triplet_t → ℚ) (g : Mac3d) (i j k : ℕ) :
    tripletSum φ (cellTriplets g i j k)
      = φ ⟨cellIndex g.N_ g.M_ i j k, cellIndex g.N_ g.M_ i j k,
            g.A_diag_ (cellIndex g.N_ g.M_ i j k)⟩
        + (if g.pfluid_ i j k = true then
            (if i + 1 < g.N_ ∧ g.pfluid_ (i + 1) j k = true then
              φ ⟨cellIndex g.N_ g.M_ i j k, cellIndex g.N_ g.M_ i j k + 1, -1⟩
              + φ ⟨cellIndex g.N_ g.M_ i j k + 1, cellIndex g.N_ g.M_ i j k, -1⟩ else 0)
            + (if j + 1 < g.M_ ∧ g.pfluid_ i (j + 1) k = true then
              φ ⟨cellIndex g.N_ g.M_ i j k, cellIndex g.N_ g.M_ i j k + g.N_, -1⟩
              + φ ⟨cellIndex g.N_ g.M_ i j k + g.N_, cellIndex g.N_ g.M_ i j k, -1⟩ else 0)
            + (if k + 1 < g.L_ ∧ g.pfluid_ i j (k + 1) = true then
              φ ⟨cellIndex g.N_ g.M_ i j k, cellIndex g.N_ g.M_ i j k + g.N_ * g.M_, -1⟩
              + φ ⟨cellIndex g.N_ g.M_ i j k + g.N_ * g.M_, cellIndex g.N_ g.M_ i j k, -1⟩
              else 0)
          else 0) := by
  simp only [cellTriplets, tripletSum_append, tripletSum_single, tripletSum_ite,
    tripletSum_pair]

theorem cellIndex_succ_x (nx ny i j k : ℕ) :
    cellIndex nx ny i j k + 1 = cellIndex nx ny (i + 1) j k := by
  unfold cellIndex; ring

theorem cellIndex_succ_y (nx ny i j k : ℕ) :
    cellIndex nx ny i j k + nx = cellIndex nx ny i (j + 1) k := by
  unfold cellIndex; ring

theorem cellIndex_succ_z (nx ny i j k : ℕ) :
    cellIndex nx ny i j k + nx * ny = cellIndex nx ny i j (k + 1) := by
  unfold cellIndex; ring

/-- A sum over the cells whose terms vanish away from the cell `(i0-di, j0-dj, k0-dk)`. -/
theorem sum3_shifted_single (nx ny nz di dj dk : ℕ) (F : ℕ → ℕ → ℕ → ℚ) (i0 j0 k0 : ℕ)
    (hi : i0 < nx) (hj : j0 < ny) (hk : k0 < nz)
    (hF : ∀ i j k, i < nx → j < ny → k < nz → F i j k ≠ 0 →
      i + di = i0 ∧ j + dj = j0 ∧ k + dk = k0) :
    sum3 nx ny nz F
      = if di ≤ i0 ∧ dj ≤ j0 ∧ dk ≤ k0 then F (i0 - di) (j0 - dj) (k0 - dk) else 0 := by
  by_cases hc : di ≤ i0 ∧ dj ≤ j0 ∧ dk ≤ k0
  · simp only [hc, and_self, if_true]
    refine sum3_single nx ny nz F _ _ _ (by omega) (by omega) (by omega) ?_
    intro i j k hi' hj' hk' hne
    by_contra hnz
    obtain ⟨e1, e2, e3⟩ := hF i j k hi' hj' hk' hnz
    exact hne ⟨by omega, by omega, by omega⟩
  · simp only [hc, if_false]
    refine sum3_zero nx ny nz F ?_
    intro i j k hi' hj' hk'
    by_contra hnz
    obtain ⟨e1, e2, e3⟩ := hF i j k hi' hj' hk' hnz
    exact hc ⟨by omega, by omega, by omega⟩

/-- Over all cells, the triplets whose row is a cell's own index `r` and that were pushed
for that very cell. -/
theorem sum3_own (nx ny nz : ℕ) (P : ℕ → ℕ → ℕ → Prop) [∀ i j k, Decidable (P i j k)]
    (H : ℕ → ℕ → ℕ → ℚ) (i0 j0 k0 : ℕ) (hi : i0 < nx) (hj : j0 < ny) (hk : k0 < nz) :
    sum3 nx ny nz (fun i j k =>
        if P i j k ∧ cellIndex nx ny i j k = cellIndex nx ny i0 j0 k0 then H i j k else 0)
      = if P i0 j0 k0 then H i0 j0 k0 else 0 := by
  rw [sum3_shifted_single nx ny nz 0 0 0 _ i0 j0 k0 hi hj hk]
  · simp only [Nat.zero_le, and_self, if_true, Nat.sub_zero, and_true]
  · intro i j k hi' hj' _ hne
    by_cases hc : P i j k ∧ cellIndex nx ny i j k = cellIndex nx ny i0 j0 k0
    · obtain ⟨e1, e2, e3⟩ := cellIndex_inj nx ny i j k i0 j0 k0 hi' hj' hi hj hc.2
      exact ⟨by omega, by omega, by omega⟩
    · simp only [hc, if_false, ne_eq, not_true_eq_false] at hne

/-- Over all cells, the mirrored triplets pushed for the lower x-neighbour of cell
`(i0, j0, k0)`. -/
theorem sum3_mirror_x (nx ny nz : ℕ) (P : ℕ → ℕ → ℕ → Prop) [∀ i j k, Decidable (P i j k)]
    (H : ℕ → ℕ → ℕ → ℚ) (i0 j0 k0 : ℕ) (hi : i0 < nx) (hj : j0 < ny) (hk : k0 < nz) :
    sum3 nx ny nz (fun i j k =>
        if (i + 1 < nx ∧ P i j k) ∧ cellIndex nx ny i j k + 1 = cellIndex nx ny i0 j0 k0
        then H i j k else 0)
      = if 1 ≤ i0 ∧ P (i0 - 1) j0 k0 then H (i0 - 1) j0 k0 else 0 := by
  rw [sum3_shifted_single nx ny nz 1 0 0 _ i0 j0 k0 hi hj hk]
  · by_cases h1 : 1 ≤ i0
    · have e : i0 - 1 + 1 = i0 := Nat.sub_add_cancel h1
      simp only [h1, Nat.zero_le, and_self, if_true, Nat.sub_zero, cellIndex_succ_x, e, hi,
        true_and, and_true]
    · simp only [h1, false_and, if_false]
  · intro i j k _ hj' _ hne
    by_cases hc : (i + 1 < nx ∧ P i j k) ∧ cellIndex nx ny i j k + 1 = cellIndex nx ny i0 j0 k0
    · have h2 := hc.2
      rw [cellIndex_succ_x] at h2
      obtain ⟨e1, e2, e3⟩ := cellIndex_inj nx ny (i + 1) j k i0 j0 k0 hc.1.1 hj' hi hj h2
      exact ⟨e1, by omega, by omega⟩
    · simp only [hc, if_false, ne_eq, not_true_eq_false] at hne

/-- Over all cells, the mirrored triplets pushed for the lower y-neighbour. -/
theorem sum3_mirror_y (nx ny nz : ℕ) (P : ℕ → ℕ → ℕ → Prop) [∀ i j k, Decidable (P i j k)]
    (H : ℕ → ℕ → ℕ → ℚ) (i0 j0 k0 : ℕ) (hi : i0 < nx) (hj : j0 < ny) (hk : k0 < nz) :
    sum3 nx ny nz (fun i j k =>
        if (j + 1 < ny ∧ P i j k) ∧ cellIndex nx ny i j k + nx = cellIndex nx ny i0 j0 k0
        then H i j k else 0)
      = if 1 ≤ j0 ∧ P i0 (j0 - 1) k0 then H i0 (j0 - 1) k0 else 0 := by
  rw [sum3_shifted_single nx ny nz 0 1 0 _ i0 j0 k0 hi hj hk]
  · by_cases h1 : 1 ≤ j0
    · have e : j0 - 1 + 1 = j0 := Nat.sub_add_cancel h1
      simp only [h1, Nat.zero_le, and_self, if_true, Nat.sub_zero, cellIndex_succ_y, e, hj,
        true_and, and_true]
    · simp only [h1, false_and, and_false, if_false]
  · intro i j k hi' _ _ hne
    by_cases hc : (j + 1 < ny ∧ P i j k) ∧ cellIndex nx ny i j k + nx = cellIndex nx ny i0 j0 k0
    · have h2 := hc.2
      rw [cellIndex_succ_y] at h2
      obtain ⟨e1, e2, e3⟩ := cellIndex_inj nx ny i (j + 1) k i0 j0 k0 hi' hc.1.1 hi hj h2
      exact ⟨by omega, e2, by omega⟩
    · simp only [hc, if_false, ne_eq, not_true_eq_false] at hne

/-- Over all cells, the mirrored triplets pushed for the lower z-neighbour. -/
theorem sum3_mirror_z (nx ny nz : ℕ) (P : ℕ → ℕ → ℕ → Prop) [∀ i j k, Decidable (P i j k)]
    (H : ℕ → ℕ → ℕ → ℚ) (i0 j0 k0 : ℕ) (hi : i0 < nx) (hj : j0 < ny) (hk : k0 < nz) :
    sum3 nx ny nz (fun i j k =>
        if (k + 1 < nz ∧ P i j k) ∧ cellIndex nx ny i j k + nx * ny = cellIndex nx ny i0 j0 k0
        then H i j k else 0)
      = if 1 ≤ k0 ∧ P i0 j0 (k0 - 1) then H i0 j0 (k0 - 1) else 0 := by
  rw [sum3_shifted_single nx ny nz 0 0 1 _ i0 j0 k0 hi hj hk]
  · by_cases h1 : 1 ≤ k0
    · have e : k0 - 1 + 1 = k0 := Nat.sub_add_cancel h1
      simp only [h1, Nat.zero_le, and_self, if_true, Nat.sub_zero, cellIndex_succ_z, e, hk,
        true_and, and_true]
    · simp only [h1, false_and, and_false, if_false]
  · intro i j k hi' hj' _ hne
    by_cases hc : (k + 1 < nz ∧ P i j k) ∧
        cellIndex nx ny i j k + nx * ny = cellIndex nx ny i0 j0 k0
    · have h2 := hc.2
      rw [cellIndex_succ_z] at h2
      obtain ⟨e1, e2, e3⟩ := cellIndex_inj nx ny i j (k + 1) i0 j0 k0 hi' hj' hi hj h2
      exact ⟨by omega, by omega, e3⟩
    · simp only [hc, if_false, ne_eq, not_true_eq_false] at hne

theorem cell_row_split (g : Mac3d) (ψ : ℕ → ℚ → ℚ) (r i j k : ℕ) :
    tripletSum (rowPhi r ψ) (cellTriplets g i j k)
      = (if True ∧ cellIndex g.N_ g.M_ i j k = r then
            ψ (cellIndex g.N_ g.M_ i j k) (g.A_diag_ (cellIndex g.N_ g.M_ i j k)) else 0)
        + (if (g.pfluid_ i j k = true ∧ i + 1 < g.N_ ∧ g.pfluid_ (i + 1) j k = true) ∧
              cellIndex g.N_ g.M_ i j k = r then ψ (cellIndex g.N_ g.M_ (i + 1) j k) (-1) else 0)
        + (if (i + 1 < g.N_ ∧ g.pfluid_ i j k = true ∧ g.pfluid_ (i + 1) j k = true) ∧
              cellIndex g.N_ g.M_ i j k + 1 = r then ψ (cellIndex g.N_ g.M_ i j k) (-1) else 0)
        + (if (g.pfluid_ i j k = true ∧ j + 1 < g.M_ ∧ g.pfluid_ i (j + 1) k = true) ∧
              cellIndex g.N_ g.M_ i j k = r then ψ (cellIndex g.N_ g.M_ i (j + 1) k) (-1) else 0)
        + (if (j + 1 < g.M_ ∧ g.pfluid_ i j k = true ∧ g.pfluid_ i (j + 1) k = true) ∧
              cellIndex g.N_ g.M_ i j k + g.N_ = r then ψ (cellIndex g.N_ g.M_ i j k) (-1)
            else 0)
        + (if (g.pfluid_ i j k = true ∧ k + 1 < g.L_ ∧ g.pfluid_ i j (k + 1) = true) ∧
              cellIndex g.N_ g.M_ i j k = r then ψ (cellIndex g.N_ g.M_ i j (k + 1)) (-1) else 0)
        + (if (k + 1 < g.L_ ∧ g.pfluid_ i j k = true ∧ g.pfluid_ i j (k + 1) = true) ∧
              cellIndex g.N_ g.M_ i j k + g.N_ * g.M_ = r then ψ (cellIndex g.N_ g.M_ i j k) (-1)
            else 0) := by
  rw [tripletSum_cellTriplets]
  simp only [rowPhi, true_and, ← cellIndex_succ_x, ← cellIndex_succ_y, ← cellIndex_succ_z]
  by_cases hf : g.pfluid_ i j k = true
  · by_cases hx : i + 1 < g.N_ ∧ g.pfluid_ (i + 1) j k = true
    · by_cases hy : j + 1 < g.M_ ∧ g.pfluid_ i (j + 1) k = true
      · by_cases hz : k + 1 < g.L_ ∧ g.pfluid_ i j (k + 1) = true
        · simp only [hf, hx, hy, hz, and_self, true_and, if_true]
          ring
        · simp only [hf, hx, hy, hz, and_self, true_and, if_true, if_false, false_and, and_false]
          ring
      · by_cases hz : k + 1 < g.L_ ∧ g.pfluid_ i j (k + 1) = true
        · simp only [hf, hx, hy, hz, and_self, true_and, if_true, if_false, false_and, and_false]
          ring
        · simp only [hf, hx, hy, hz, and_self, true_and, if_true, if_false, false_and, and_false]
          ring
    · by_cases hy : j + 1 < g.M_ ∧ g.pfluid_ i (j + 1) k = true
      · by_cases hz : k + 1 < g.L_ ∧ g.pfluid_ i j (k + 1) = true
        · simp only [hf, hx, hy, hz, and_self, true_and, if_true, if_false, false_and, and_false]
          ring
        · simp only [hf, hx, hy, hz, and_self, true_and, if_true, if_false, false_and, and_false]
          ring
      · by_cases hz : k + 1 < g.L_ ∧ g.pfluid_ i j (k + 1) = true
        · simp only [hf, hx, hy, hz, and_self, true_and, if_true, if_false, false_and, and_false]
          ring
        · simp only [hf, hx, hy, hz, and_self, true_and, if_true, if_false, false_and, and_false]
          ring
  · simp only [hf, Bool.false_eq_true, if_false, false_and, and_false, add_zero]

/-- Row `r = cellIndex (i0, j0, k0)` of the assembled matrix: summing `ψ col value` over
the triplets of that row gives the diagonal term plus one term per fluid neighbour of a
fluid cell. -/
theorem matrix_row_sum (g : Mac3d) (ψ : ℕ → ℚ → ℚ) (i0 j0 k0 : ℕ) (hi : i0 < g.N_)
    (hj : j0 < g.M_) (hk : k0 < g.L_) :
    sum3 g.N_ g.M_ g.L_ (fun i j k =>
        tripletSum (rowPhi (cellIndex g.N_ g.M_ i0 j0 k0) ψ) (cellTriplets g i j k))
      = ψ (cellIndex g.N_ g.M_ i0 j0 k0) (g.A_diag_ (cellIndex g.N_ g.M_ i0 j0 k0))
        + (if g.pfluid_ i0 j0 k0 = true ∧ i0 + 1 < g.N_ ∧ g.pfluid_ (i0 + 1) j0 k0 = true
            then ψ (cellIndex g.N_ g.M_ (i0 + 1) j0 k0) (-1) else 0)
        + (if 1 ≤ i0 ∧ g.pfluid_ (i0 - 1) j0 k0 = true ∧ g.pfluid_ i0 j0 k0 = true
            then ψ (cellIndex g.N_ g.M_ (i0 - 1) j0 k0) (-1) else 0)
        + (if g.pfluid_ i0 j0 k0 = true ∧ j0 + 1 < g.M_ ∧ g.pfluid_ i0 (j0 + 1) k0 = true
            then ψ (cellIndex g.N_ g.M_ i0 (j0 + 1) k0) (-1) else 0)
        + (if 1 ≤ j0 ∧ g.pfluid_ i0 (j0 - 1) k0 = true ∧ g.pfluid_ i0 j0 k0 = true
            then ψ (cellIndex g.N_ g.M_ i0 (j0 - 1) k0) (-1) else 0)
        + (if g.pfluid_ i0 j0 k0 = true ∧ k0 + 1 < g.L_ ∧ g.pfluid_ i0 j0 (k0 + 1) = true
            then ψ (cellIndex g.N_ g.M_ i0 j0 (k0 + 1)) (-1) else 0)
        + (if 1 ≤ k0 ∧ g.pfluid_ i0 j0 (k0 - 1) = true ∧ g.pfluid_ i0 j0 k0 = true
            then ψ (cellIndex g.N_ g.M_ i0 j0 (k0 - 1)) (-1) else 0) := by
  have hsplit := fun i j k => cell_row_split g ψ (cellIndex g.N_ g.M_ i0 j0 k0) i j k
  simp only [hsplit, sum3_add]
  rw [sum3_own g.N_ g.M_ g.L_ (fun _ _ _ => True) _ i0 j0 k0 hi hj hk,
    sum3_own g.N_ g.M_ g.L_
      (fun i j k => g.pfluid_ i j k = true ∧ i + 1 < g.N_ ∧ g.pfluid_ (i + 1) j k = true)
      _ i0 j0 k0 hi hj hk,
    sum3_mirror_x g.N_ g.M_ g.L_
      (fun i j k => g.pfluid_ i j k = true ∧ g.pfluid_ (i + 1) j k = true)
      _ i0 j0 k0 hi hj hk,
    sum3_own g.N_ g.M_ g.L_
      (fun i j k => g.pfluid_ i j k = true ∧ j + 1 < g.M_ ∧ g.pfluid_ i (j + 1) k = true)
      _ i0 j0 k0 hi hj hk,
    sum3_mirror_y g.N_ g.M_ g.L_
      (fun i j k => g.pfluid_ i j k = true ∧ g.pfluid_ i (j + 1) k = true)
      _ i0 j0 k0 hi hj hk,
    sum3_own g.N_ g.M_ g.L_
      (fun i j k => g.pfluid_ i j k = true ∧ k + 1 < g.L_ ∧ g.pfluid_ i j (k + 1) = true)
      _ i0 j0 k0 hi hj hk,
    sum3_mirror_z g.N_ g.M_ g.L_
      (fun i j k => g.pfluid_ i j k = true ∧ g.pfluid_ i j (k + 1) = true)
      _ i0 j0 k0 hi hj hk]
  have ex : ∀ (h : 1 ≤ i0), i0 - 1 + 1 = i0 := fun h => Nat.sub_add_cancel h
  have ey : ∀ (h : 1 ≤ j0), j0 - 1 + 1 = j0 := fun h => Nat.sub_add_cancel h
  have ez : ∀ (h : 1 ≤ k0), k0 - 1 + 1 = k0 := fun h => Nat.sub_add_cancel h
  have cx : (1 ≤ i0 ∧ g.pfluid_ (i0 - 1) j0 k0 = true ∧ g.pfluid_ (i0 - 1 + 1) j0 k0 = true) ↔
      (1 ≤ i0 ∧ g.pfluid_ (i0 - 1) j0 k0 = true ∧ g.pfluid_ i0 j0 k0 = true) := by
    constructor
    · rintro ⟨h1, h2, h3⟩
      rw [ex h1] at h3
      exact ⟨h1, h2, h3⟩
    · rintro ⟨h1, h2, h3⟩
      rw [← ex h1] at h3
      exact ⟨h1, h2, h3⟩
  have cy : (1 ≤ j0 ∧ g.pfluid_ i0 (j0 - 1) k0 = true ∧ g.pfluid_ i0 (j0 - 1 + 1) k0 = true) ↔
      (1 ≤ j0 ∧ g.pfluid_ i0 (j0 - 1) k0 = true ∧ g.pfluid_ i0 j0 k0 = true) := by
    constructor
    · rintro ⟨h1, h2, h3⟩
      rw [ey h1] at h3
      exact ⟨h1, h2, h3⟩
    · rintro ⟨h1, h2, h3⟩
      rw [← ey h1] at h3
      exact ⟨h1, h2, h3⟩
  have cz : (1 ≤ k0 ∧ g.pfluid_ i0 j0 (k0 - 1) = true ∧ g.pfluid_ i0 j0 (k0 - 1 + 1) = true) ↔
      (1 ≤ k0 ∧ g.pfluid_ i0 j0 (k0 - 1) = true ∧ g.pfluid_ i0 j0 k0 = true) := by
    constructor
    · rintro ⟨h1, h2, h3⟩
      rw [ez h1] at h3
      exact ⟨h1, h2, h3⟩
    · rintro ⟨h1, h2, h3⟩
      rw [← ez h1] at h3
      exact ⟨h1, h2, h3⟩
  simp only [if_true, cx, cy, cz]

/-! ## Pressure matrix: claim C7 -/

/-- `compute_pressure_matrix` never faults and touches only `A_`; any sum over the
triplets of `A_` is the sum over the cells of the sum over the triplets of each cell. -/
theorem compute_pressure_matrix_spec (f : FLIP) :
    ∃ T, f.compute_pressure_matrix = some { f with A_ := T } ∧
      ∀ φ : Triplet_t → ℚ, tripletSum φ T
        = sum3 f.MACGrid_.N_ f.MACGrid_.M_ f.MACGrid_.L_
            (fun i j k => tripletSum φ (cellTriplets f.MACGrid_ i j k)) := by
  obtain ⟨T, h1, h2⟩ := compute_pressure_matrix_loop f.MACGrid_
  refine ⟨T, ?_, h2⟩
  simp only [FLIP.compute_pressure_matrix, Mac3d.get_num_cells_x, Mac3d.get_num_cells_y,
    Mac3d.get_num_cells_z, h1, Option.map_some']

theorem coeff_eq_tripletSum (T : List Triplet_t) (r c : ℕ) :
    coeff T r c = tripletSum (fun t => if t.row = r ∧ t.col = c then t.value else 0) T := rfl

theorem coeff_eq_rowPhi (T : List Triplet_t) (r c : ℕ) :
    coeff T r c = tripletSum (rowPhi r (fun col v => if col = c then v else 0)) T := by
  rw [coeff_eq_tripletSum]
  congr 1
  funext t
  simp only [rowPhi, ite_and]

theorem coeff_summand_pair (r c a b : ℕ) (v : ℚ) :
    (if a = r ∧ b = c then v else 0) + (if b = r ∧ a = c then v else 0)
      = (if a = c ∧ b = r then v else 0) + (if b = c ∧ a = r then v else 0) := by
  rw [add_comm]
  simp only [and_comm]

/-- C7. The matrix assembled by `compute_pressure_matrix` is symmetric, for every grid
state: `A(r, c) = A(c, r)` for all indices `r`, `c`. -/
theorem compute_pressure_matrix_symmetric (f : FLIP) :
    ∃ f', f.compute_pressure_matrix = some f' ∧
      ∀ r c, coeff f'.A_ r c = coeff f'.A_ c r := by
  obtain ⟨T, h1, h2⟩ := compute_pressure_matrix_spec f
  refine ⟨_, h1, fun r c => ?_⟩
  simp only [coeff_eq_tripletSum]
  rw [h2, h2]
  refine sum3_congr _ _ _ _ _ (fun i j k _ _ _ => ?_)
  simp only [tripletSum_cellTriplets, coeff_summand_pair r c]
  simp only [and_comm]

/-! ## Pressure matrix: off-diagonal entries -/

theorem cellIndex_eq_iff (nx ny i j k i' j' k' : ℕ) (hi : i < nx) (hj : j < ny)
    (hi' : i' < nx) (hj' : j' < ny) :
    cellIndex nx ny i j k = cellIndex nx ny i' j' k' ↔ (i = i' ∧ j = j' ∧ k = k') := by
  constructor
  · exact cellIndex_inj nx ny i j k i' j' k' hi hj hi' hj'
  · rintro ⟨rfl, rfl, rfl⟩
    rfl

/-- At most one of the six neighbour relations holds, and one holds exactly for
axis-adjacent cells. -/
theorem neighbour_terms_sum (i j k i' j' k' : ℕ) :
    (if i + 1 = i' ∧ j = j' ∧ k = k' then (-1 : ℚ) else 0)
      + (if i = i' + 1 ∧ j = j' ∧ k = k' then (-1 : ℚ) else 0)
      + (if j + 1 = j' ∧ i = i' ∧ k = k' then (-1 : ℚ) else 0)
      + (if j = j' + 1 ∧ i = i' ∧ k = k' then (-1 : ℚ) else 0)
      + (if k + 1 = k' ∧ i = i' ∧ j = j' then (-1 : ℚ) else 0)
      + (if k = k' + 1 ∧ i = i' ∧ j = j' then (-1 : ℚ) else 0)
      = if axisAdjacent i j k i' j' k' then -1 else 0 := by
  unfold axisAdjacent
  split_ifs <;> first | omega | norm_num

theorem upper_term (n a a' : ℕ) (R : Prop) [Decidable R]
    (E : Prop) [Decidable E] (ha' : a' < n) (x y : Bool)
    (hE : a + 1 < n → (E ↔ (a + 1 = a' ∧ R)))
    (hxy : a + 1 = a' ∧ R → x = y) :
    (if a + 1 < n ∧ x = true then (if E then (-1 : ℚ) else 0) else 0)
      = if (a + 1 = a' ∧ R) ∧ y = true then -1 else 0 := by
  by_cases hP : a + 1 = a' ∧ R
  · obtain ⟨e, hR⟩ := hP
    subst e
    have hEt : E := (hE ha').mpr ⟨rfl, hR⟩
    have hx : x = y := hxy ⟨rfl, hR⟩
    simp only [ha', hEt, hR, hx, true_and, and_self, if_true]
  · by_cases hlt : a + 1 < n
    · simp only [hlt, true_and, (hE hlt), hP, if_false, false_and, ite_self]
    · simp only [hlt, false_and, if_false, hP]

theorem lower_term (a a' : ℕ) (R : Prop) [Decidable R] (x y : Bool)
    (hxy : a = a' + 1 ∧ R → x = y) :
    (if 1 ≤ a ∧ x = true then (if a - 1 = a' ∧ R then (-1 : ℚ) else 0) else 0)
      = if (a = a' + 1 ∧ R) ∧ y = true then -1 else 0 := by
  by_cases hP : a = a' + 1 ∧ R
  · obtain ⟨e, hR⟩ := hP
    subst e
    have hx : x = y := hxy ⟨rfl, hR⟩
    simp only [Nat.le_add_left, Nat.add_sub_cancel, hR, hx, true_and, and_self, if_true]
  · have hn : ¬(1 ≤ a ∧ (a - 1 = a' ∧ R)) := by
      rintro ⟨h1, h2, h3⟩
      exact hP ⟨by omega, h3⟩
    by_cases h1 : 1 ≤ a
    · have hn' : ¬(a - 1 = a' ∧ R) := fun h => hn ⟨h1, h⟩
      simp only [hn', if_false, ite_self, hP, false_and]
    · simp only [h1, false_and, if_false, hP]

/-- The off-diagonal entry of the assembled matrix between two distinct cells. -/
theorem matrix_off_diagonal (g : Mac3d) (i j k i' j' k' : ℕ) (hi : i < g.N_) (hj : j < g.M_)
    (hk : k < g.L_) (hi' : i' < g.N_) (hj' : j' < g.M_) (hk' : k' < g.L_)
    (hne : ¬(i = i' ∧ j = j' ∧ k = k')) :
    sum3 g.N_ g.M_ g.L_ (fun a b c =>
        tripletSum (rowPhi (cellIndex g.N_ g.M_ i j k)
          (fun col v => if col = cellIndex g.N_ g.M_ i' j' k' then v else 0))
          (cellTriplets g a b c))
      = if axisAdjacent i j k i' j' k' ∧ g.pfluid_ i j k = true ∧ g.pfluid_ i' j' k' = true
        then -1 else 0 := by
  rw [matrix_row_sum g _ i j k hi hj hk]
  have e0 : ¬(cellIndex g.N_ g.M_ i j k = cellIndex g.N_ g.M_ i' j' k') := by
    rw [cellIndex_eq_iff _ _ _ _ _ _ _ _ hi hj hi' hj']
    exact hne
  have e1 : i + 1 < g.N_ → (cellIndex g.N_ g.M_ (i + 1) j k = cellIndex g.N_ g.M_ i' j' k'
      ↔ (i + 1 = i' ∧ j = j' ∧ k = k')) :=
    fun h => cellIndex_eq_iff _ _ _ _ _ _ _ _ h hj hi' hj'
  have e2 : (cellIndex g.N_ g.M_ (i - 1) j k = cellIndex g.N_ g.M_ i' j' k'
      ↔ (i - 1 = i' ∧ j = j' ∧ k = k')) :=
    cellIndex_eq_iff _ _ _ _ _ _ _ _ (by omega) hj hi' hj'
  have e3 : j + 1 < g.M_ → (cellIndex g.N_ g.M_ i (j + 1) k = cellIndex g.N_ g.M_ i' j' k'
      ↔ (j + 1 = j' ∧ i = i' ∧ k = k')) := by
    intro h
    rw [cellIndex_eq_iff _ _ _ _ _ _ _ _ hi h hi' hj']
    exact and_left_comm
  have e4 : (cellIndex g.N_ g.M_ i (j - 1) k = cellIndex g.N_ g.M_ i' j' k'
      ↔ (j - 1 = j' ∧ i = i' ∧ k = k')) := by
    rw [cellIndex_eq_iff _ _ _ _ _ _ _ _ hi (by omega) hi' hj']
    exact and_left_comm
  have e5 : k + 1 < g.L_ → (cellIndex g.N_ g.M_ i j (k + 1) = cellIndex g.N_ g.M_ i' j' k'
      ↔ (k + 1 = k' ∧ i = i' ∧ j = j')) := by
    intro _
    rw [cellIndex_eq_iff _ _ _ _ _ _ _ _ hi hj hi' hj']
    constructor
    · rintro ⟨h1, h2, h3⟩
      exact ⟨h3, h1, h2⟩
    · rintro ⟨h1, h2, h3⟩
      exact ⟨h2, h3, h1⟩
  have e6 : (cellIndex g.N_ g.M_ i j (k - 1) = cellIndex g.N_ g.M_ i' j' k'
      ↔ (k - 1 = k' ∧ i = i' ∧ j = j')) := by
    rw [cellIndex_eq_iff _ _ _ _ _ _ _ _ hi hj hi' hj']
    constructor
    · rintro ⟨h1, h2, h3⟩
      exact ⟨h3, h1, h2⟩
    · rintro ⟨h1, h2, h3⟩
      exact ⟨h2, h3, h1⟩
  by_cases hf : g.pfluid_ i j k = true
  swap
  · simp only [hf, e0, Bool.false_eq_true, false_and, and_false, if_false, add_zero]
  simp only [hf, true_and, and_true, e0, if_false, zero_add, e2, e4, e6]
  rw [upper_term g.N_ i i' (j = j' ∧ k = k') _ hi' (g.pfluid_ (i + 1) j k) (g.pfluid_ i' j' k')
      e1 (by rintro ⟨rfl, rfl, rfl⟩; rfl),
    lower_term i i' (j = j' ∧ k = k') (g.pfluid_ (i - 1) j k) (g.pfluid_ i' j' k')
      (by rintro ⟨rfl, rfl, rfl⟩; rfl),
    upper_term g.M_ j j' (i = i' ∧ k = k') _ hj' (g.pfluid_ i (j + 1) k) (g.pfluid_ i' j' k')
      e3 (by rintro ⟨rfl, rfl, rfl⟩; rfl),
    lower_term j j' (i = i' ∧ k = k') (g.pfluid_ i (j - 1) k) (g.pfluid_ i' j' k')
      (by rintro ⟨rfl, rfl, rfl⟩; rfl),
    upper_term g.L_ k k' (i = i' ∧ j = j') _ hk' (g.pfluid_ i j (k + 1)) (g.pfluid_ i' j' k')
      e5 (by rintro ⟨rfl, rfl, rfl⟩; rfl),
    lower_term k k' (i = i' ∧ j = j') (g.pfluid_ i j (k - 1)) (g.pfluid_ i' j' k')
      (by rintro ⟨rfl, rfl, rfl⟩; rfl)]
  by_cases hf' : g.pfluid_ i' j' k' = true
  · simp only [hf', and_true]
    exact neighbour_terms_sum i j k i' j' k'
  · simp only [hf', Bool.false_eq_true, and_false, if_false, add_zero]

/-! ## Pressure matrix: claim C8 -/

/-- C8. Off-diagonal entries of the matrix assembled by `compute_pressure_matrix` (after
summing duplicate triplets): between two distinct cells the entry is `-1` exactly when the
cells are axis-adjacent and both fluid, and `0` otherwise; so the row and the column of a
non-fluid cell hold nothing off the diagonal. Rows and columns are addressed by the linear
cell index, and every index below the number of cells is the index of a cell. -/
theorem compute_pressure_matrix_off_diagonal (f : FLIP) :
    ∃ f', f.compute_pressure_matrix = some f' ∧
      (∀ i j k i' j' k', i < f.MACGrid_.N_ → j < f.MACGrid_.M_ → k < f.MACGrid_.L_ →
        i' < f.MACGrid_.N_ → j' < f.MACGrid_.M_ → k' < f.MACGrid_.L_ →
        ¬(i = i' ∧ j = j' ∧ k = k') →
        cellIndex f.MACGrid_.N_ f.MACGrid_.M_ i j k ≠ cellIndex f.MACGrid_.N_ f.MACGrid_.M_ i' j' k' ∧
        coeff f'.A_ (cellIndex f.MACGrid_.N_ f.MACGrid_.M_ i j k)
            (cellIndex f.MACGrid_.N_ f.MACGrid_.M_ i' j' k')
          = (if axisAdjacent i j k i' j' k' ∧ f.MACGrid_.pfluid_ i j k = true ∧
                f.MACGrid_.pfluid_ i' j' k' = true then -1 else 0) ∧
        (f.MACGrid_.pfluid_ i j k = false →
          coeff f'.A_ (cellIndex f.MACGrid_.N_ f.MACGrid_.M_ i j k)
              (cellIndex f.MACGrid_.N_ f.MACGrid_.M_ i' j' k') = 0 ∧
          coeff f'.A_ (cellIndex f.MACGrid_.N_ f.MACGrid_.M_ i' j' k')
              (cellIndex f.MACGrid_.N_ f.MACGrid_.M_ i j k) = 0)) ∧
      (∀ r, r < f.MACGrid_.N_ * f.MACGrid_.M_ * f.MACGrid_.L_ →
        ∃ i j k, i < f.MACGrid_.N_ ∧ j < f.MACGrid_.M_ ∧ k < f.MACGrid_.L_ ∧
          r = cellIndex f.MACGrid_.N_ f.MACGrid_.M_ i j k) := by
  obtain ⟨T, h1, h2⟩ := compute_pressure_matrix_spec f
  have key : ∀ i j k i' j' k', i < f.MACGrid_.N_ → j < f.MACGrid_.M_ → k < f.MACGrid_.L_ →
      i' < f.MACGrid_.N_ → j' < f.MACGrid_.M_ → k' < f.MACGrid_.L_ →
      ¬(i = i' ∧ j = j' ∧ k = k') →
      coeff T (cellIndex f.MACGrid_.N_ f.MACGrid_.M_ i j k)
          (cellIndex f.MACGrid_.N_ f.MACGrid_.M_ i' j' k')
        = (if axisAdjacent i j k i' j' k' ∧ f.MACGrid_.pfluid_ i j k = true ∧
              f.MACGrid_.pfluid_ i' j' k' = true then -1 else 0) := by
    intro i j k i' j' k' hi hj hk hi' hj' hk' hne
    rw [coeff_eq_rowPhi, h2]
    exact matrix_off_diagonal f.MACGrid_ i j k i' j' k' hi hj hk hi' hj' hk' hne
  refine ⟨_, h1, ?_, fun r hr => cellIndex_surj _ _ _ r hr⟩
  intro i j k i' j' k' hi hj hk hi' hj' hk' hne
  refine ⟨fun hc => hne (cellIndex_inj _ _ _ _ _ _ _ _ hi hj hi' hj' hc),
    key i j k i' j' k' hi hj hk hi' hj' hk' hne, fun hnf => ⟨?_, ?_⟩⟩
  · show coeff T _ _ = 0
    rw [key i j k i' j' k' hi hj hk hi' hj' hk' hne]
    simp only [hnf, Bool.false_eq_true, false_and, and_false, if_false]
  · show coeff T _ _ = 0
    rw [key i' j' k' i j k hi' hj' hk' hi hj hk (fun h => hne ⟨h.1.symm, h.2.1.symm, h.2.2.symm⟩)]
    simp only [hnf, Bool.false_eq_true, false_and, and_false, if_false]

theorem compute_pressure_matrix_off_diagonal_witness :
    ∃ f', pairFLIP.compute_pressure_matrix = some f' ∧ coeff f'.A_ 0 1 = -1 := by
  obtain ⟨f', h1, h2, _⟩ := compute_pressure_matrix_off_diagonal pairFLIP
  refine ⟨f', h1, ?_⟩
  have h := (h2 0 0 0 1 0 0 (by decide) (by decide) (by decide) (by decide) (by decide)
    (by decide) (by decide)).2.1
  have hadj : axisAdjacent 0 0 0 1 0 0 := Or.inl ⟨rfl, rfl, Or.inl rfl⟩
  simpa [pairFLIP, pairGrid, cellIndex, hadj] using h

/-! ## Pressure matrix: products and row sums -/

theorem coeff_nil (r c : ℕ) : coeff [] r c = 0 := rfl

theorem coeff_cons (t : Triplet_t) (T : List Triplet_t) (r c : ℕ) :
    coeff (t :: T) r c = (if t.row = r ∧ t.col = c then t.value else 0) + coeff T r c := by
  simp only [coeff, List.map_cons, List.sum_cons]

theorem tripletSum_cons (φ : Triplet_t → ℚ) (t : Triplet_t) (T : List Triplet_t) :
    tripletSum φ (t :: T) = φ t + tripletSum φ T := by
  simp only [tripletSum, List.map_cons, List.sum_cons]

/-- The product `A * p` read off the triplets: row `r` sums `value * p col` over the
triplets of that row. -/
theorem mulVec_eq_rowPhi (T : List Triplet_t) (n : ℕ) (p : ℕ → ℚ) (r : ℕ) :
    mulVec T n p r
      = tripletSum (rowPhi r (fun col v => if col < n then v * p col else 0)) T := by
  unfold mulVec
  induction T with
  | nil => simp only [coeff_nil, zero_mul, Finset.sum_const_zero, tripletSum_nil]
  | cons t T ih =>
    simp only [coeff_cons, add_mul, Finset.sum_add_distrib, ih, tripletSum_cons]
    congr 1
    by_cases hr : t.row = r
    · simp only [rowPhi, hr, true_and, if_true, ite_mul, zero_mul, Finset.sum_ite_eq,
        Finset.mem_range]
    · simp only [rowPhi, hr, false_and, if_false, zero_mul, Finset.sum_const_zero]

/-- The off-diagonal absolute row sum is bounded by the sum of the absolute values of the
off-diagonal triplets of the row. -/
theorem abs_row_sum_le (T : List Triplet_t) (n r : ℕ) :
    ∑ c ∈ (Finset.range n).erase r, |coeff T r c|
      ≤ tripletSum (rowPhi r (fun col v => if col < n ∧ col ≠ r then |v| else 0)) T := by
  induction T with
  | nil => simp only [coeff_nil, abs_zero, Finset.sum_const_zero, tripletSum_nil, le_refl]
  | cons t T ih =>
    rw [tripletSum_cons]
    have h1 : ∑ c ∈ (Finset.range n).erase r, |coeff (t :: T) r c|
        ≤ ∑ c ∈ (Finset.range n).erase r,
            (|if t.row = r ∧ t.col = c then t.value else 0| + |coeff T r c|) := by
      refine Finset.sum_le_sum (fun c _ => ?_)
      rw [coeff_cons]
      exact abs_add _ _
    have h2 : ∑ c ∈ (Finset.range n).erase r, |if t.row = r ∧ t.col = c then t.value else 0|
        = rowPhi r (fun col v => if col < n ∧ col ≠ r then |v| else 0) t := by
      by_cases hr : t.row = r
      · have e : ∀ c, |if t.row = r ∧ t.col = c then t.value else 0|
            = if t.col = c then |t.value| else 0 := by
          intro c
          by_cases hc : t.col = c
          · simp only [hr, hc, and_self, if_true]
          · simp only [hc, and_false, if_false, abs_zero]
        rw [Finset.sum_congr rfl (fun c _ => e c), Finset.sum_ite_eq]
        simp only [Finset.mem_erase, Finset.mem_range, rowPhi, hr, if_true, ne_eq]
        by_cases hm : ¬t.col = r ∧ t.col < n
        · have hm' : t.col < n ∧ ¬t.col = r := ⟨hm.2, hm.1⟩
          rw [if_pos hm, if_pos hm']
        · have hm' : ¬(t.col < n ∧ ¬t.col = r) := fun h => hm ⟨h.2, h.1⟩
          rw [if_neg hm, if_neg hm']
      · simp only [hr, false_and, if_false, abs_zero, Finset.sum_const_zero, rowPhi]
    rw [Finset.sum_add_distrib, h2] at h1
    linarith

/-! ## Pressure matrix: diagonal -/

theorem ite_eq_zero_of (C : Prop) [Decidable C] (x : ℚ) (h : C → x = 0) :
    (if C then x else 0) = 0 := by
  split
  · rename_i hc
    exact h hc
  · rfl

/-- The diagonal entry of the assembled matrix is the stored diagonal value. -/
theorem matrix_diagonal (g : Mac3d) (i j k : ℕ) (hi : i < g.N_) (hj : j < g.M_)
    (hk : k < g.L_) :
    sum3 g.N_ g.M_ g.L_ (fun a b c =>
        tripletSum (rowPhi (cellIndex g.N_ g.M_ i j k)
          (fun col v => if col = cellIndex g.N_ g.M_ i j k then v else 0))
          (cellTriplets g a b c))
      = g.A_diag_ (cellIndex g.N_ g.M_ i j k) := by
  rw [matrix_row_sum g _ i j k hi hj hk]
  have hnx : 0 < g.N_ := by omega
  have hny : 0 < g.M_ := by omega
  have hxy : 0 < g.N_ * g.M_ := Nat.mul_pos hnx hny
  have n1 : ¬(cellIndex g.N_ g.M_ (i + 1) j k = cellIndex g.N_ g.M_ i j k) := by
    rw [← cellIndex_succ_x]; omega
  have n2 : 1 ≤ i → ¬(cellIndex g.N_ g.M_ (i - 1) j k = cellIndex g.N_ g.M_ i j k) := by
    intro h
    have e := cellIndex_succ_x g.N_ g.M_ (i - 1) j k
    rw [Nat.sub_add_cancel h] at e
    omega
  have n3 : ¬(cellIndex g.N_ g.M_ i (j + 1) k = cellIndex g.N_ g.M_ i j k) := by
    rw [← cellIndex_succ_y]; omega
  have n4 : 1 ≤ j → ¬(cellIndex g.N_ g.M_ i (j - 1) k = cellIndex g.N_ g.M_ i j k) := by
    intro h
    have e := cellIndex_succ_y g.N_ g.M_ i (j - 1) k
    rw [Nat.sub_add_cancel h] at e
    omega
  have n5 : ¬(cellIndex g.N_ g.M_ i j (k + 1) = cellIndex g.N_ g.M_ i j k) := by
    rw [← cellIndex_succ_z]; omega
  have n6 : 1 ≤ k → ¬(cellIndex g.N_ g.M_ i j (k - 1) = cellIndex g.N_ g.M_ i j k) := by
    intro h
    have e := cellIndex_succ_z g.N_ g.M_ i j (k - 1)
    rw [Nat.sub_add_cancel h] at e
    omega
  simp only [if_true, n1, n3, n5, if_false, ite_self, add_zero]
  rw [ite_eq_zero_of _ _ (fun h => if_neg (n2 h.1)), ite_eq_zero_of _ _ (fun h => if_neg (n4 h.1)),
    ite_eq_zero_of _ _ (fun h => if_neg (n6 h.1))]
  simp only [add_zero]

/-! ## Pressure matrix: claim C9 -/

theorem abs_weight_le_one (n r x : ℕ) :
    (if x < n ∧ x ≠ r then |(-1 : ℚ)| else 0) ≤ 1 := by
  split <;> norm_num

theorem neighbour_term_le (C D : Prop) [Decidable C] [Decidable D] (x : ℚ) (hx : x ≤ 1)
    (h : C → D) : (if C then x else 0) ≤ (if D then (1 : ℚ) else 0) := by
  by_cases hc : C
  · rw [if_pos hc, if_pos (h hc)]
    exact hx
  · rw [if_neg hc]
    split <;> norm_num

theorem not_solid_of_fluid (g : Mac3d) (hp : NoSolidFluid g) (i j k : ℕ) (hi : i < g.N_)
    (hj : j < g.M_) (hk : k < g.L_) (hf : g.pfluid_ i j k = true) : g.psolid_ i j k = false := by
  cases hs : g.psolid_ i j k with
  | false => rfl
  | true => exact absurd ⟨hs, hf⟩ (hp i j k hi hj hk)

/-- C9. Diagonal dominance of the matrix assembled by `compute_pressure_matrix`: on a grid
where no cell is both solid and fluid and where the precomputed diagonal of every cell is
its number of in-grid non-solid axis neighbours, every row `r` satisfies
`A(r, r) ≥ Σ_{c ≠ r} |A(r, c)|`. -/
theorem compute_pressure_matrix_diag_dominant (f : FLIP) (hp : NoSolidFluid f.MACGrid_)
    (hd : ∀ i j k, i < f.MACGrid_.N_ → j < f.MACGrid_.M_ → k < f.MACGrid_.L_ →
      f.MACGrid_.A_diag_ (cellIndex f.MACGrid_.N_ f.MACGrid_.M_ i j k)
        = (nonSolidNeighbours f.MACGrid_ i j k : ℚ)) :
    ∃ f', f.compute_pressure_matrix = some f' ∧
      ∀ r, r < f.MACGrid_.N_ * f.MACGrid_.M_ * f.MACGrid_.L_ →
        ∑ c ∈ (Finset.range (f.MACGrid_.N_ * f.MACGrid_.M_ * f.MACGrid_.L_)).erase r,
            |coeff f'.A_ r c|
          ≤ coeff f'.A_ r r := by
  obtain ⟨T, h1, h2⟩ := compute_pressure_matrix_spec f
  refine ⟨_, h1, fun r hr => ?_⟩
  show ∑ c ∈ (Finset.range (f.MACGrid_.N_ * f.MACGrid_.M_ * f.MACGrid_.L_)).erase r,
      |coeff T r c| ≤ coeff T r r
  obtain ⟨i, j, k, hi, hj, hk, rfl⟩ := cellIndex_surj _ _ _ r hr
  have hdiag : coeff T (cellIndex f.MACGrid_.N_ f.MACGrid_.M_ i j k)
      (cellIndex f.MACGrid_.N_ f.MACGrid_.M_ i j k)
      = (nonSolidNeighbours f.MACGrid_ i j k : ℚ) := by
    rw [coeff_eq_rowPhi, h2, matrix_diagonal f.MACGrid_ i j k hi hj hk, hd i j k hi hj hk]
  refine le_trans (abs_row_sum_le T _ _) ?_
  rw [h2, matrix_row_sum f.MACGrid_ _ i j k hi hj hk, hdiag]
  have h0 : (if cellIndex f.MACGrid_.N_ f.MACGrid_.M_ i j k
        < f.MACGrid_.N_ * f.MACGrid_.M_ * f.MACGrid_.L_ ∧
      cellIndex f.MACGrid_.N_ f.MACGrid_.M_ i j k ≠ cellIndex f.MACGrid_.N_ f.MACGrid_.M_ i j k
      then |f.MACGrid_.A_diag_ (cellIndex f.MACGrid_.N_ f.MACGrid_.M_ i j k)| else 0)
      = (0 : ℚ) := by
    simp only [ne_eq, not_true_eq_false, and_false, if_false]
  have t1 := neighbour_term_le
    (f.MACGrid_.pfluid_ i j k = true ∧ i + 1 < f.MACGrid_.N_ ∧
      f.MACGrid_.pfluid_ (i + 1) j k = true)
    (i + 1 < f.MACGrid_.N_ ∧ f.MACGrid_.psolid_ (i + 1) j k = false) _
    (abs_weight_le_one (f.MACGrid_.N_ * f.MACGrid_.M_ * f.MACGrid_.L_)
      (cellIndex f.MACGrid_.N_ f.MACGrid_.M_ i j k)
      (cellIndex f.MACGrid_.N_ f.MACGrid_.M_ (i + 1) j k))
    (fun h => ⟨h.2.1, not_solid_of_fluid _ hp _ _ _ h.2.1 hj hk h.2.2⟩)
  have t2 := neighbour_term_le
    (1 ≤ i ∧ f.MACGrid_.pfluid_ (i - 1) j k = true ∧ f.MACGrid_.pfluid_ i j k = true)
    (1 ≤ i ∧ f.MACGrid_.psolid_ (i - 1) j k = false) _
    (abs_weight_le_one (f.MACGrid_.N_ * f.MACGrid_.M_ * f.MACGrid_.L_)
      (cellIndex f.MACGrid_.N_ f.MACGrid_.M_ i j k)
      (cellIndex f.MACGrid_.N_ f.MACGrid_.M_ (i - 1) j k))
    (fun h => ⟨h.1, not_solid_of_fluid _ hp _ _ _ (by omega) hj hk h.2.1⟩)
  have t3 := neighbour_term_le
    (f.MACGrid_.pfluid_ i j k = true ∧ j + 1 < f.MACGrid_.M_ ∧
      f.MACGrid_.pfluid_ i (j + 1) k = true)
    (j + 1 < f.MACGrid_.M_ ∧ f.MACGrid_.psolid_ i (j + 1) k = false) _
    (abs_weight_le_one (f.MACGrid_.N_ * f.MACGrid_.M_ * f.MACGrid_.L_)
      (cellIndex f.MACGrid_.N_ f.MACGrid_.M_ i j k)
      (cellIndex f.MACGrid_.N_ f.MACGrid_.M_ i (j + 1) k))
    (fun h => ⟨h.2.1, not_solid_of_fluid _ hp _ _ _ hi h.2.1 hk h.2.2⟩)
  have t4 := neighbour_term_le
    (1 ≤ j ∧ f.MACGrid_.pfluid_ i (j - 1) k = true ∧ f.MACGrid_.pfluid_ i j k = true)
    (1 ≤ j ∧ f.MACGrid_.psolid_ i (j - 1) k = false) _
    (abs_weight_le_one (f.MACGrid_.N_ * f.MACGrid_.M_ * f.MACGrid_.L_)
      (cellIndex f.MACGrid_.N_ f.MACGrid_.M_ i j k)
      (cellIndex f.MACGrid_.N_ f.MACGrid_.M_ i (j - 1) k))
    (fun h => ⟨h.1, not_solid_of_fluid _ hp _ _ _ hi (by omega) hk h.2.1⟩)
  have t5 := neighbour_term_le
    (f.MACGrid_.pfluid_ i j k = true ∧ k + 1 < f.MACGrid_.L_ ∧
      f.MACGrid_.pfluid_ i j (k + 1) = true)
    (k + 1 < f.MACGrid_.L_ ∧ f.MACGrid_.psolid_ i j (k + 1) = false) _
    (abs_weight_le_one (f.MACGrid_.N_ * f.MACGrid_.M_ * f.MACGrid_.L_)
      (cellIndex f.MACGrid_.N_ f.MACGrid_.M_ i j k)
      (cellIndex f.MACGrid_.N_ f.MACGrid_.M_ i j (k + 1)))
    (fun h => ⟨h.2.1, not_solid_of_fluid _ hp _ _ _ hi hj h.2.1 h.2.2⟩)
  have t6 := neighbour_term_le
    (1 ≤ k ∧ f.MACGrid_.pfluid_ i j (k - 1) = true ∧ f.MACGrid_.pfluid_ i j k = true)
    (1 ≤ k ∧ f.MACGrid_.psolid_ i j (k - 1) = false) _
    (abs_weight_le_one (f.MACGrid_.N_ * f.MACGrid_.M_ * f.MACGrid_.L_)
      (cellIndex f.MACGrid_.N_ f.MACGrid_.M_ i j k)
      (cellIndex f.MACGrid_.N_ f.MACGrid_.M_ i j (k - 1)))
    (fun h => ⟨h.1, not_solid_of_fluid _ hp _ _ _ hi hj (by omega) h.2.1⟩)
  rw [h0]
  simp only [nonSolidNeighbours, Nat.cast_add, Nat.cast_ite, Nat.cast_one, Nat.cast_zero]
  linarith

theorem compute_pressure_matrix_diag_dominant_witness :
    ∃ f', pairFLIP.compute_pressure_matrix = some f' ∧
      ∀ r, r < 2 * 1 * 1 →
        ∑ c ∈ (Finset.range (2 * 1 * 1)).erase r, |coeff f'.A_ r c| ≤ coeff f'.A_ r r :=
  compute_pressure_matrix_diag_dominant pairFLIP
    (fun i j k _ _ _ h => by simp [pairFLIP, pairGrid] at h)
    (fun i j k hi hj hk => by
      have hi' : i < 2 := hi
      have hj' : j < 1 := hj
      have hk' : k < 1 := hk
      interval_cases i <;> interval_cases j <;> interval_cases k <;>
        simp [pairFLIP, pairGrid, nonSolidNeighbours])

/-! ## Right-hand side of the pressure equations -/

theorem rhs_divergence_eq (g : Mac3d) (i j k : ℕ) (hi : i < g.N_) (hj : j < g.M_)
    (hk : k < g.L_) :
    FLIP.rhs_divergence g i j k
      = some (-(g.pu_ (i + 1) j k - g.pu_ i j k) - (g.pv_ i (j + 1) k - g.pv_ i j k)
          - (g.pw_ i j (k + 1) - g.pw_ i j k)) := by
  simp only [FLIP.rhs_divergence, get_u_eq g (i + 1) j k ⟨by omega, hj, hk⟩,
    get_u_eq g i j k ⟨by omega, hj, hk⟩, get_v_eq g i (j + 1) k ⟨hi, by omega, hk⟩,
    get_v_eq g i j k ⟨hi, by omega, hk⟩, get_w_eq g i j (k + 1) ⟨hi, hj, by omega⟩,
    get_w_eq g i j k ⟨hi, hj, by omega⟩, Option.some_bind]

/-- One boundary correction of `compute_pressure_rhs`, when the guarded neighbour query
stays inside the grid and the face read is inside its shape. -/
theorem rhs_correction_eq (g : Mac3d) (b c : Prop) [Decidable b] [Decidable c]
    (i j k : ℕ) (h : b → i < g.N_ ∧ j < g.M_ ∧ k < g.L_) (x d : ℚ) :
    FLIP.rhs_correction (scAnd (decide b) (g.is_solid i j k)) (decide c) (some x) d
      = some (d + (if (b ∧ g.psolid_ i j k = true) ∨ c then x else 0)) := by
  by_cases hb : b
  · simp only [FLIP.rhs_correction, scAnd, hb, decide_True, if_true, is_solid_eq g i j k (h hb),
      Option.some_bind, FLIP.add_if, Bool.or_eq_true, decide_eq_true_eq, Option.map_some',
      true_and]
    split
    · rfl
    · simp only [add_zero]
  · simp only [FLIP.rhs_correction, scAnd, hb, decide_False, Bool.false_eq_true, if_false,
      Option.some_bind, FLIP.add_if, Bool.false_or, decide_eq_true_eq, Option.map_some',
      false_and, false_or]
    split
    · rfl
    · simp only [add_zero]

theorem vec_set_eq (n : ℕ) (d : ℕ → ℚ) (idx : ℕ) (x : ℚ) (h : idx < n) :
    FLIP.vec_set n d idx x = some (fun m => if m = idx then x else d m) := by
  simp only [FLIP.vec_set, h, if_true]

theorem compute_pressure_rhs_cell_eq (g : Mac3d) (rho dt : ℚ) (i j k : ℕ) (hi : i < g.N_)
    (hj : j < g.M_) (hk : k < g.L_) (d : ℕ → ℚ) :
    FLIP.compute_pressure_rhs_cell g rho dt i j k (d, cellIndex g.N_ g.M_ i j k)
      = some (fun m => if m = cellIndex g.N_ g.M_ i j k then rhsValue g rho dt i j k else d m,
          cellIndex g.N_ g.M_ i j k + 1) := by
  have hlt := cellIndex_lt g.N_ g.M_ g.L_ i j k hi hj hk
  simp only [FLIP.compute_pressure_rhs_cell, Mac3d.get_num_cells_x, Mac3d.get_num_cells_y,
    Mac3d.get_num_cells_z, Mac3d.get_cell_sizex, is_fluid_eq g i j k ⟨hi, hj, hk⟩,
    Option.some_bind, rhs_divergence_eq g i j k hi hj hk,
    get_u_eq g (i + 1) j k ⟨by omega, hj, hk⟩,
    get_u_eq g i j k ⟨by omega, hj, hk⟩, get_v_eq g i (j + 1) k ⟨hi, by omega, hk⟩,
    get_v_eq g i j k ⟨hi, by omega, hk⟩, get_w_eq g i j (k + 1) ⟨hi, hj, by omega⟩,
    get_w_eq g i j k ⟨hi, hj, by omega⟩,
    rhs_correction_eq g (i < g.N_ - 1) (i = g.N_ - 1) (i + 1) j k (fun h => ⟨by omega, hj, hk⟩),
    rhs_correction_eq g (i > 0) (i = 0) (i - 1) j k (fun h => ⟨by omega, hj, hk⟩),
    rhs_correction_eq g (j < g.M_ - 1) (j = g.M_ - 1) i (j + 1) k (fun h => ⟨hi, by omega, hk⟩),
    rhs_correction_eq g (j > 0) (j = 0) i (j - 1) k (fun h => ⟨hi, by omega, hk⟩),
    rhs_correction_eq g (k < g.L_ - 1) (k = g.L_ - 1) i j (k + 1) (fun h => ⟨hi, hj, by omega⟩),
    rhs_correction_eq g (k > 0) (k = 0) i j (k - 1) (fun h => ⟨hi, hj, by omega⟩),
    vec_set_eq _ d _ _ hlt, Option.map_some', rhsValue]
  by_cases hf : g.pfluid_ i j k = true
  · simp only [hf, if_true]
  · simp only [hf, Bool.false_eq_true, if_false]

/-- The loop nest of `compute_pressure_rhs`: it never faults, and the entry of every cell
is its `rhsValue`. -/
theorem compute_pressure_rhs_loop (g : Mac3d) (rho dt : ℚ) :
    ∃ d, forLoop3 g.N_ g.M_ g.L_ (FLIP.compute_pressure_rhs_cell g rho dt) (fun _ => 0, 0)
        = some (d, g.N_ * g.M_ * g.L_) ∧
      ∀ i j k, i < g.N_ → j < g.M_ → k < g.L_ →
        d (cellIndex g.N_ g.M_ i j k) = rhsValue g rho dt i j k := by
  have h := forLoop3_progress g.N_ g.M_ g.L_ (FLIP.compute_pressure_rhs_cell g rho dt)
    (fun c st => st.2 = c ∧ ∀ i j k, i < g.N_ → j < g.M_ → k < g.L_ →
      cellIndex g.N_ g.M_ i j k < c → st.1 (cellIndex g.N_ g.M_ i j k) = rhsValue g rho dt i j k)
    ?_ (fun _ => 0, 0) ?_
  · obtain ⟨⟨d, c⟩, h1, h2, h3⟩ := h
    simp only at h2 h3
    subst h2
    exact ⟨d, h1, fun i j k hi hj hk => h3 i j k hi hj hk (cellIndex_lt _ _ _ i j k hi hj hk)⟩
  · intro i j k hi hj hk st hst
    obtain ⟨d, c⟩ := st
    obtain ⟨hc, hval⟩ := hst
    simp only at hc hval
    subst hc
    refine ⟨_, compute_pressure_rhs_cell_eq g rho dt i j k hi hj hk d, rfl, ?_⟩
    intro a b e ha hb he hlt
    simp only
    by_cases heq : cellIndex g.N_ g.M_ a b e = cellIndex g.N_ g.M_ i j k
    · obtain ⟨e1, e2, e3⟩ := cellIndex_inj _ _ _ _ _ _ _ _ ha hb hi hj heq
      subst e1 e2 e3
      simp only [if_true]
    · simp only [heq, if_false]
      exact hval a b e ha hb he (by omega)
  · exact ⟨rfl, fun i j k _ _ _ h => absurd h (Nat.not_lt_zero _)⟩

/-- `compute_pressure_rhs` never faults and touches only `d_`, whose entry for every cell
is the cell's `rhsValue`. -/
theorem compute_pressure_rhs_spec (f : FLIP) (dt : ℚ) :
    ∃ d, f.compute_pressure_rhs dt = some { f with d_ := d } ∧
      ∀ i j k, i < f.MACGrid_.N_ → j < f.MACGrid_.M_ → k < f.MACGrid_.L_ →
        d (cellIndex f.MACGrid_.N_ f.MACGrid_.M_ i j k)
          = rhsValue f.MACGrid_ f.fluid_density_ dt i j k := by
  obtain ⟨d, h1, h2⟩ := compute_pressure_rhs_loop f.MACGrid_ f.fluid_density_ dt
  refine ⟨d, ?_, h2⟩
  simp only [FLIP.compute_pressure_rhs, Mac3d.get_num_cells_x, Mac3d.get_num_cells_y,
    Mac3d.get_num_cells_z, h1, Option.map_some']

/-! ## Right-hand side: claim C10 -/

theorem grad_u_step (rho dt dx : ℚ) (i j k : ℕ) (g : Mac3d) (hi : i < g.N_) (hj : j < g.M_)
    (hk : k < g.L_) :
    (if i ≠ 0 then
        (g.get_pressure i j k).bind fun p1 =>
        (g.get_pressure (i - 1) j k).bind fun p0 =>
        (g.get_u i j k).bind fun u => g.set_u i j k (u - (p1 - p0) * (dt / (dx * rho)))
      else some g)
      = some (gradU rho dt dx i j k g) := by
  by_cases h0 : i ≠ 0
  · simp only [gradU, h0, ne_eq, not_false_eq_true, if_true, get_pressure_eq g i j k ⟨hi, hj, hk⟩,
      get_pressure_eq g (i - 1) j k ⟨by omega, hj, hk⟩, get_u_eq g i j k ⟨by omega, hj, hk⟩,
      Option.some_bind, set_u_eq g i j k _ ⟨by omega, hj, hk⟩]
  · simp only [gradU, h0, if_false]

theorem grad_v_step (rho dt dx : ℚ) (i j k : ℕ) (g : Mac3d) (hi : i < g.N_) (hj : j < g.M_)
    (hk : k < g.L_) :
    (if j ≠ 0 then
        (g.get_pressure i j k).bind fun p1 =>
        (g.get_pressure i (j - 1) k).bind fun p0 =>
        (g.get_v i j k).bind fun v => g.set_v i j k (v - (p1 - p0) * (dt / (dx * rho)))
      else some g)
      = some (gradV rho dt dx i j k g) := by
  by_cases h0 : j ≠ 0
  · simp only [gradV, h0, ne_eq, not_false_eq_true, if_true, get_pressure_eq g i j k ⟨hi, hj, hk⟩,
      get_pressure_eq g i (j - 1) k ⟨hi, by omega, hk⟩, get_v_eq g i j k ⟨hi, by omega, hk⟩,
      Option.some_bind, set_v_eq g i j k _ ⟨hi, by omega, hk⟩]
  · simp only [gradV, h0, if_false]

theorem grad_w_step (rho dt dx : ℚ) (i j k : ℕ) (g : Mac3d) (hi : i < g.N_) (hj : j < g.M_)
    (hk : k < g.L_) :
    (if k ≠ 0 then
        (g.get_pressure i j k).bind fun p1 =>
        (g.get_pressure i j (k - 1)).bind fun p0 =>
        (g.get_w i j k).bind fun w => g.set_w i j k (w - (p1 - p0) * (dt / (dx * rho)))
      else some g)
      = some (gradW rho dt dx i j k g) := by
  by_cases h0 : k ≠ 0
  · simp only [gradW, h0, ne_eq, not_false_eq_true, if_true, get_pressure_eq g i j k ⟨hi, hj, hk⟩,
      get_pressure_eq g i j (k - 1) ⟨hi, hj, by omega⟩, get_w_eq g i j k ⟨hi, hj, by omega⟩,
      Option.some_bind, set_w_eq g i j k _ ⟨hi, hj, by omega⟩]
  · simp only [gradW, h0, if_false]

theorem gradU_dims (rho dt dx : ℚ) (i j k : ℕ) (g : Mac3d) :
    (gradU rho dt dx i j k g).N_ = g.N_ ∧ (gradU rho dt dx i j k g).M_ = g.M_ ∧
      (gradU rho dt dx i j k g).L_ = g.L_ := by
  unfold gradU
  split <;> exact ⟨rfl, rfl, rfl⟩

theorem gradV_dims (rho dt dx : ℚ) (i j k : ℕ) (g : Mac3d) :
    (gradV rho dt dx i j k g).N_ = g.N_ ∧ (gradV rho dt dx i j k g).M_ = g.M_ ∧
      (gradV rho dt dx i j k g).L_ = g.L_ := by
  unfold gradV
  split <;> exact ⟨rfl, rfl, rfl⟩

theorem apply_pressure_gradients_cell_eq (rho dt dx : ℚ) (i j k : ℕ) (g : Mac3d)
    (hi : i < g.N_) (hj : j < g.M_) (hk : k < g.L_) :
    FLIP.apply_pressure_gradients_cell rho dt dx i j k g
      = some (gradW rho dt dx i j k (gradV rho dt dx i j k (gradU rho dt dx i j k g))) := by
  obtain ⟨a1, a2, a3⟩ := gradU_dims rho dt dx i j k g
  obtain ⟨b1, b2, b3⟩ := gradV_dims rho dt dx i j k (gradU rho dt dx i j k g)
  show ((if i ≠ 0 then
        (g.get_pressure i j k).bind fun p1 =>
        (g.get_pressure (i - 1) j k).bind fun p0 =>
        (g.get_u i j k).bind fun u => g.set_u i j k (u - (p1 - p0) * (dt / (dx * rho)))
      else some g).bind fun g1 =>
      (if j ≠ 0 then
        (g1.get_pressure i j k).bind fun p1 =>
        (g1.get_pressure i (j - 1) k).bind fun p0 =>
        (g1.get_v i j k).bind fun v => g1.set_v i j k (v - (p1 - p0) * (dt / (dx * rho)))
      else some g1).bind fun g2 =>
      if k ≠ 0 then
        (g2.get_pressure i j k).bind fun p1 =>
        (g2.get_pressure i j (k - 1)).bind fun p0 =>
        (g2.get_w i j k).bind fun w => g2.set_w i j k (w - (p1 - p0) * (dt / (dx * rho)))
      else some g2) = _
  rw [grad_u_step rho dt dx i j k g hi hj hk, Option.some_bind,
    grad_v_step rho dt dx i j k _ (by rw [a1]; exact hi) (by rw [a2]; exact hj)
      (by rw [a3]; exact hk), Option.some_bind,
    grad_w_step rho dt dx i j k _ (by rw [b1, a1]; exact hi) (by rw [b2, a2]; exact hj)
      (by rw [b3, a3]; exact hk)]

/-! ## Pressure gradients: progress -/

/-- One more cell handled: the field that was right for the cells below `(i, j, k)` and
is then written at `(i, j, k)` (under the guard `b0`) is right for the cells up to it. -/
theorem progress_update (N M i j k : ℕ) (L : ℕ) (hi : i < N) (hj : j < M) (hk : k < L)
    (lo : ℕ → ℕ → ℕ → Prop) [∀ a b e, Decidable (lo a b e)] (old new cur cur' : ℕ → ℕ → ℕ → ℚ)
    (b0 : Prop) [Decidable b0] (hb0 : b0 ↔ lo i j k)
    (hcur : ∀ a b e, cur a b e =
      if lo a b e ∧ a < N ∧ b < M ∧ e < L ∧ cellIndex N M a b e < cellIndex N M i j k
      then new a b e else old a b e)
    (hstep : ∀ a b e, cur' a b e =
      if b0 ∧ (a = i ∧ b = j ∧ e = k) then new i j k else cur a b e) :
    ∀ a b e, cur' a b e =
      if lo a b e ∧ a < N ∧ b < M ∧ e < L ∧ cellIndex N M a b e < cellIndex N M i j k + 1
      then new a b e else old a b e := by
  intro a b e
  rw [hstep a b e, hcur a b e]
  by_cases heq : a = i ∧ b = j ∧ e = k
  · obtain ⟨rfl, rfl, rfl⟩ := heq
    by_cases hb : b0
    · have hl : lo a b e := hb0.mp hb
      simp only [hb, hl, hi, hj, hk, and_self, Nat.lt_succ_self, if_true]
    · have hl : ¬lo a b e := fun h => hb (hb0.mpr h)
      simp only [hb, hl, false_and, if_false]
  · have h1 : ¬(b0 ∧ (a = i ∧ b = j ∧ e = k)) := fun h => heq h.2
    rw [if_neg h1]
    by_cases hin : a < N ∧ b < M ∧ e < L
    · have hne : cellIndex N M a b e ≠ cellIndex N M i j k :=
        fun hc => heq (cellIndex_inj N M a b e i j k hin.1 hin.2.1 hi hj hc)
      have hiff : cellIndex N M a b e < cellIndex N M i j k + 1 ↔
          cellIndex N M a b e < cellIndex N M i j k := by omega
      simp only [hiff]
    · have c1 : ¬(lo a b e ∧ a < N ∧ b < M ∧ e < L ∧ cellIndex N M a b e < cellIndex N M i j k) :=
        fun h => hin ⟨h.2.1, h.2.2.1, h.2.2.2.1⟩
      have c2 : ¬(lo a b e ∧ a < N ∧ b < M ∧ e < L ∧
          cellIndex N M a b e < cellIndex N M i j k + 1) :=
        fun h => hin ⟨h.2.1, h.2.2.1, h.2.2.2.1⟩
      rw [if_neg c1, if_neg c2]

/-! ## Pressure gradients: the body of the loop -/

theorem gradU_pu (rho dt dx : ℚ) (i j k : ℕ) (g : Mac3d) (a b e : ℕ) :
    (gradU rho dt dx i j k g).pu_ a b e =
      if i ≠ 0 ∧ (a = i ∧ b = j ∧ e = k) then
        g.pu_ i j k - (g.ppressure_ i j k - g.ppressure_ (i - 1) j k) * (dt / (dx * rho))
      else g.pu_ a b e := by
  unfold gradU
  by_cases h0 : i ≠ 0
  · simp only [h0, ne_eq, not_false_eq_true, if_true, write3, true_and]
  · simp only [h0, if_false, false_and]

theorem gradV_pv (rho dt dx : ℚ) (i j k : ℕ) (g : Mac3d) (a b e : ℕ) :
    (gradV rho dt dx i j k g).pv_ a b e =
      if j ≠ 0 ∧ (a = i ∧ b = j ∧ e = k) then
        g.pv_ i j k - (g.ppressure_ i j k - g.ppressure_ i (j - 1) k) * (dt / (dx * rho))
      else g.pv_ a b e := by
  unfold gradV
  by_cases h0 : j ≠ 0
  · simp only [h0, ne_eq, not_false_eq_true, if_true, write3, true_and]
  · simp only [h0, if_false, false_and]

theorem gradW_pw (rho dt dx : ℚ) (i j k : ℕ) (g : Mac3d) (a b e : ℕ) :
    (gradW rho dt dx i j k g).pw_ a b e =
      if k ≠ 0 ∧ (a = i ∧ b = j ∧ e = k) then
        g.pw_ i j k - (g.ppressure_ i j k - g.ppressure_ i j (k - 1)) * (dt / (dx * rho))
      else g.pw_ a b e := by
  unfold gradW
  by_cases h0 : k ≠ 0
  · simp only [h0, ne_eq, not_false_eq_true, if_true, write3, true_and]
  · simp only [h0, if_false, false_and]

/-- `gradU` changes nothing but the field `u`. -/
theorem gradU_frame (rho dt dx : ℚ) (i j k : ℕ) (g : Mac3d) :
    (gradU rho dt dx i j k g).N_ = g.N_ ∧ (gradU rho dt dx i j k g).M_ = g.M_ ∧
    (gradU rho dt dx i j k g).L_ = g.L_ ∧
    (gradU rho dt dx i j k g).ppressure_ = g.ppressure_ ∧
    (gradU rho dt dx i j k g).cell_sizex_ = g.cell_sizex_ ∧
    (gradU rho dt dx i j k g).psolid_ = g.psolid_ ∧
    (gradU rho dt dx i j k g).pfluid_ = g.pfluid_ ∧
    (gradU rho dt dx i j k g).pv_ = g.pv_ ∧ (gradU rho dt dx i j k g).pw_ = g.pw_ := by
  unfold gradU
  split <;> exact ⟨rfl, rfl, rfl, rfl, rfl, rfl, rfl, rfl, rfl⟩

/-- `gradV` changes nothing but the field `v`. -/
theorem gradV_frame (rho dt dx : ℚ) (i j k : ℕ) (g : Mac3d) :
    (gradV rho dt dx i j k g).N_ = g.N_ ∧ (gradV rho dt dx i j k g).M_ = g.M_ ∧
    (gradV rho dt dx i j k g).L_ = g.L_ ∧
    (gradV rho dt dx i j k g).ppressure_ = g.ppressure_ ∧
    (gradV rho dt dx i j k g).cell_sizex_ = g.cell_sizex_ ∧
    (gradV rho dt dx i j k g).psolid_ = g.psolid_ ∧
    (gradV rho dt dx i j k g).pfluid_ = g.pfluid_ ∧
    (gradV rho dt dx i j k g).pu_ = g.pu_ ∧ (gradV rho dt dx i j k g).pw_ = g.pw_ := by
  unfold gradV
  split <;> exact ⟨rfl, rfl, rfl, rfl, rfl, rfl, rfl, rfl, rfl⟩

/-- `gradW` changes nothing but the field `w`. -/
theorem gradW_frame (rho dt dx : ℚ) (i j k : ℕ) (g : Mac3d) :
    (gradW rho dt dx i j k g).N_ = g.N_ ∧ (gradW rho dt dx i j k g).M_ = g.M_ ∧
    (gradW rho dt dx i j k g).L_ = g.L_ ∧
    (gradW rho dt dx i j k g).ppressure_ = g.ppressure_ ∧
    (gradW rho dt dx i j k g).cell_sizex_ = g.cell_sizex_ ∧
    (gradW rho dt dx i j k g).psolid_ = g.psolid_ ∧
    (gradW rho dt dx i j k g).pfluid_ = g.pfluid_ ∧
    (gradW rho dt dx i j k g).pu_ = g.pu_ ∧ (gradW rho dt dx i j k g).pv_ = g.pv_ := by
  unfold gradW
  split <;> exact ⟨rfl, rfl, rfl, rfl, rfl, rfl, rfl, rfl, rfl⟩

/-- The body of the loop nest of `apply_pressure_gradients` takes the progress invariant
from the cell `(i, j, k)` to the next cell. -/
theorem gradProgress_step (g : Mac3d) (rho dt : ℚ) (i j k : ℕ) (hi : i < g.N_)
    (hj : j < g.M_) (hk : k < g.L_) (s : Mac3d)
    (h : GradProgress g rho dt (cellIndex g.N_ g.M_ i j k) s) :
    GradProgress g rho dt (cellIndex g.N_ g.M_ i j k + 1)
      (gradW rho dt g.cell_sizex_ i j k (gradV rho dt g.cell_sizex_ i j k
        (gradU rho dt g.cell_sizex_ i j k s))) := by
  obtain ⟨u1, u2, u3, u4, u5, u6, u7, u8, u9⟩ := gradU_frame rho dt g.cell_sizex_ i j k s
  obtain ⟨v1, v2, v3, v4, v5, v6, v7, v8, v9⟩ :=
    gradV_frame rho dt g.cell_sizex_ i j k (gradU rho dt g.cell_sizex_ i j k s)
  obtain ⟨w1, w2, w3, w4, w5, w6, w7, w8, w9⟩ :=
    gradW_frame rho dt g.cell_sizex_ i j k
      (gradV rho dt g.cell_sizex_ i j k (gradU rho dt g.cell_sizex_ i j k s))
  have hlt : ¬(cellIndex g.N_ g.M_ i j k < cellIndex g.N_ g.M_ i j k) := lt_irrefl _
  have su : s.pu_ i j k = g.pu_ i j k := by
    rw [h.hu i j k]
    simp only [hlt, and_false, if_false]
  have sv : s.pv_ i j k = g.pv_ i j k := by
    rw [h.hv i j k]
    simp only [hlt, and_false, if_false]
  have sw : s.pw_ i j k = g.pw_ i j k := by
    rw [h.hw i j k]
    simp only [hlt, and_false, if_false]
  refine ⟨by rw [w1, v1, u1, h.hN], by rw [w2, v2, u2, h.hM], by rw [w3, v3, u3, h.hL],
    by rw [w4, v4, u4, h.hp], by rw [w5, v5, u5, h.hsx], by rw [w6, v6, u6, h.hsolid],
    by rw [w7, v7, u7, h.hfluid], ?_, ?_, ?_⟩
  · refine progress_update g.N_ g.M_ i j k g.L_ hi hj hk (fun a _ _ => 1 ≤ a) g.pu_
      (uCorrected g rho dt) s.pu_ _ (i ≠ 0) (by simp only []; omega) h.hu ?_
    intro a b e
    rw [w8, v8, gradU_pu, su, h.hp]
    rfl
  · refine progress_update g.N_ g.M_ i j k g.L_ hi hj hk (fun _ b _ => 1 ≤ b) g.pv_
      (vCorrected g rho dt) s.pv_ _ (j ≠ 0) (by simp only []; omega) h.hv ?_
    intro a b e
    rw [w9, gradV_pv, u8, sv, u4, h.hp]
    rfl
  · refine progress_update g.N_ g.M_ i j k g.L_ hi hj hk (fun _ _ e => 1 ≤ e) g.pw_
      (wCorrected g rho dt) s.pw_ _ (k ≠ 0) (by simp only []; omega) h.hw ?_
    intro a b e
    rw [gradW_pw, v9, u9, sw, v4, u4, h.hp]
    rfl

/-! ## Pressure gradients: the whole loop nest -/

theorem gradProgress_init (g : Mac3d) (rho dt : ℚ) : GradProgress g rho dt 0 g := by
  refine ⟨rfl, rfl, rfl, rfl, rfl, rfl, rfl, ?_, ?_, ?_⟩ <;>
  · intro a b e
    simp only [Nat.not_lt_zero, and_false, if_false]

/-- `apply_pressure_gradients` never faults; it changes only the velocity fields, and
corrects exactly the lower faces of the cells that are not on the first index of their
axis. -/
theorem apply_pressure_gradients_spec (f : FLIP) (dt : ℚ) :
    ∃ g', f.apply_pressure_gradients dt = some { f with MACGrid_ := g' } ∧
      GradProgress f.MACGrid_ f.fluid_density_ dt
        (f.MACGrid_.N_ * f.MACGrid_.M_ * f.MACGrid_.L_) g' := by
  obtain ⟨g', h1, h2⟩ := forLoop3_progress f.MACGrid_.N_ f.MACGrid_.M_ f.MACGrid_.L_
    (FLIP.apply_pressure_gradients_cell f.fluid_density_ dt f.MACGrid_.cell_sizex_)
    (fun c s => GradProgress f.MACGrid_ f.fluid_density_ dt c s)
    (fun i j k hi hj hk s hs =>
      ⟨_, apply_pressure_gradients_cell_eq f.fluid_density_ dt f.MACGrid_.cell_sizex_ i j k s
          (by rw [hs.hN]; exact hi) (by rw [hs.hM]; exact hj) (by rw [hs.hL]; exact hk),
        gradProgress_step f.MACGrid_ f.fluid_density_ dt i j k hi hj hk s hs⟩)
    f.MACGrid_ (gradProgress_init _ _ _)
  refine ⟨g', ?_, h2⟩
  simp only [FLIP.apply_pressure_gradients, Mac3d.get_num_cells_x, Mac3d.get_num_cells_y,
    Mac3d.get_num_cells_z, Mac3d.get_cell_sizex, h1, Option.map_some']

theorem set_pressure_at (g : Mac3d) (p : ℕ → ℚ) (i j k : ℕ) (hi : i < g.N_) (hj : j < g.M_)
    (hk : k < g.L_) :
    (g.set_pressure p).ppressure_ i j k = p (cellIndex g.N_ g.M_ i j k) := by
  have e : i + j * g.N_ + k * g.N_ * g.M_ = cellIndex g.N_ g.M_ i j k := by
    unfold cellIndex; ring
  simp only [Mac3d.set_pressure, hi, hj, hk, and_self, if_true, e]

/-- The right-hand side entry of a fluid cell that has no solid neighbour and lies on no
border of the domain: no correction applies. -/
theorem rhsValue_interior (g : Mac3d) (rho dt : ℚ) (i j k : ℕ)
    (hi0 : 0 < i) (hi1 : i < g.N_ - 1) (hj0 : 0 < j) (hj1 : j < g.M_ - 1)
    (hk0 : 0 < k) (hk1 : k < g.L_ - 1) (hf : g.pfluid_ i j k = true)
    (s1 : g.psolid_ (i + 1) j k = false) (s2 : g.psolid_ (i - 1) j k = false)
    (s3 : g.psolid_ i (j + 1) k = false) (s4 : g.psolid_ i (j - 1) k = false)
    (s5 : g.psolid_ i j (k + 1) = false) (s6 : g.psolid_ i j (k - 1) = false) :
    rhsValue g rho dt i j k = rho * g.cell_sizex_ * (-(divergence g i j k)) / dt := by
  have c1 : ¬((i < g.N_ - 1 ∧ g.psolid_ (i + 1) j k = true) ∨ i = g.N_ - 1) := by
    rw [s1]; simp only [Bool.false_eq_true, and_false, false_or]; omega
  have c2 : ¬((i > 0 ∧ g.psolid_ (i - 1) j k = true) ∨ i = 0) := by
    rw [s2]; simp only [Bool.false_eq_true, and_false, false_or]; omega
  have c3 : ¬((j < g.M_ - 1 ∧ g.psolid_ i (j + 1) k = true) ∨ j = g.M_ - 1) := by
    rw [s3]; simp only [Bool.false_eq_true, and_false, false_or]; omega
  have c4 : ¬((j > 0 ∧ g.psolid_ i (j - 1) k = true) ∨ j = 0) := by
    rw [s4]; simp only [Bool.false_eq_true, and_false, false_or]; omega
  have c5 : ¬((k < g.L_ - 1 ∧ g.psolid_ i j (k + 1) = true) ∨ k = g.L_ - 1) := by
    rw [s5]; simp only [Bool.false_eq_true, and_false, false_or]; omega
  have c6 : ¬((k > 0 ∧ g.psolid_ i j (k - 1) = true) ∨ k = 0) := by
    rw [s6]; simp only [Bool.false_eq_true, and_false, false_or]; omega
  unfold rhsValue divergence
  rw [if_pos hf, if_neg c1, if_neg c2, if_neg c3, if_neg c4, if_neg c5, if_neg c6]
  ring

/-- Row `r` of `A * p` for a fluid cell in the interior whose six neighbours are fluid. -/
theorem mulVec_interior (g : Mac3d) (T : List Triplet_t) (p : ℕ → ℚ)
    (hsum : ∀ φ : Triplet_t → ℚ, tripletSum φ T
      = sum3 g.N_ g.M_ g.L_ (fun i j k => tripletSum φ (cellTriplets g i j k)))
    (i j k : ℕ) (hi0 : 0 < i) (hi1 : i < g.N_ - 1) (hj0 : 0 < j) (hj1 : j < g.M_ - 1)
    (hk0 : 0 < k) (hk1 : k < g.L_ - 1) (hf : g.pfluid_ i j k = true)
    (f1 : g.pfluid_ (i + 1) j k = true) (f2 : g.pfluid_ (i - 1) j k = true)
    (f3 : g.pfluid_ i (j + 1) k = true) (f4 : g.pfluid_ i (j - 1) k = true)
    (f5 : g.pfluid_ i j (k + 1) = true) (f6 : g.pfluid_ i j (k - 1) = true) :
    mulVec T (g.N_ * g.M_ * g.L_) p (cellIndex g.N_ g.M_ i j k)
      = g.A_diag_ (cellIndex g.N_ g.M_ i j k) * p (cellIndex g.N_ g.M_ i j k)
        + -1 * p (cellIndex g.N_ g.M_ (i + 1) j k) + -1 * p (cellIndex g.N_ g.M_ (i - 1) j k)
        + -1 * p (cellIndex g.N_ g.M_ i (j + 1) k) + -1 * p (cellIndex g.N_ g.M_ i (j - 1) k)
        + -1 * p (cellIndex g.N_ g.M_ i j (k + 1)) + -1 * p (cellIndex g.N_ g.M_ i j (k - 1)) := by
  have hi : i < g.N_ := by omega
  have hj : j < g.M_ := by omega
  have hk : k < g.L_ := by omega
  have hi' : i + 1 < g.N_ := by omega
  have hj' : j + 1 < g.M_ := by omega
  have hk' : k + 1 < g.L_ := by omega
  have hi'' : 1 ≤ i := hi0
  have hj'' : 1 ≤ j := hj0
  have hk'' : 1 ≤ k := hk0
  rw [mulVec_eq_rowPhi, hsum, matrix_row_sum g _ i j k hi hj hk]
  simp only [hf, f1, f2, f3, f4, f5, f6, hi', hj', hk', hi'', hj'', hk'', and_self, if_true,
    cellIndex_lt g.N_ g.M_ g.L_ i j k hi hj hk,
    cellIndex_lt g.N_ g.M_ g.L_ (i + 1) j k hi' hj hk,
    cellIndex_lt g.N_ g.M_ g.L_ (i - 1) j k (by omega) hj hk,
    cellIndex_lt g.N_ g.M_ g.L_ i (j + 1) k hi hj' hk,
    cellIndex_lt g.N_ g.M_ g.L_ i (j - 1) k hi (by omega) hk,
    cellIndex_lt g.N_ g.M_ g.L_ i j (k + 1) hi hj hk',
    cellIndex_lt g.N_ g.M_ g.L_ i j (k - 1) hi hj (by omega)]

/-! ## Pressure solve: the corrected field is divergence free -/

/-- The corrected divergence at an interior cell, from the progress invariant at the end
of `apply_pressure_gradients`. -/
theorem divergence_after_gradients (g g' : Mac3d) (rho dt : ℚ)
    (h : GradProgress g rho dt (g.N_ * g.M_ * g.L_) g')
    (i j k : ℕ) (hi0 : 0 < i) (hi1 : i < g.N_ - 1) (hj0 : 0 < j) (hj1 : j < g.M_ - 1)
    (hk0 : 0 < k) (hk1 : k < g.L_ - 1) :
    divergence g' i j k
      = uCorrected g rho dt (i + 1) j k - uCorrected g rho dt i j k
        + vCorrected g rho dt i (j + 1) k - vCorrected g rho dt i j k
        + wCorrected g rho dt i j (k + 1) - wCorrected g rho dt i j k := by
  have hi : i < g.N_ := by omega
  have hj : j < g.M_ := by omega
  have hk : k < g.L_ := by omega
  have hi' : i + 1 < g.N_ := by omega
  have hj' : j + 1 < g.M_ := by omega
  have hk' : k + 1 < g.L_ := by omega
  have hi'' : 1 ≤ i := hi0
  have hj'' : 1 ≤ j := hj0
  have hk'' : 1 ≤ k := hk0
  unfold divergence
  rw [h.hu (i + 1) j k, h.hu i j k, h.hv i (j + 1) k, h.hv i j k, h.hw i j (k + 1), h.hw i j k]
  simp only [hi, hj, hk, hi', hj', hk', hi'', hj'', hk'', Nat.le_add_left, and_self, if_true,
    cellIndex_lt g.N_ g.M_ g.L_ i j k hi hj hk,
    cellIndex_lt g.N_ g.M_ g.L_ (i + 1) j k hi' hj hk,
    cellIndex_lt g.N_ g.M_ g.L_ i (j + 1) k hi hj' hk,
    cellIndex_lt g.N_ g.M_ g.L_ i j (k + 1) hi hj hk']

theorem set_pressure_frame (g : Mac3d) (p : ℕ → ℚ) :
    (g.set_pressure p).pu_ = g.pu_ ∧ (g.set_pressure p).pv_ = g.pv_ ∧
      (g.set_pressure p).pw_ = g.pw_ ∧ (g.set_pressure p).cell_sizex_ = g.cell_sizex_ :=
  ⟨rfl, rfl, rfl, rfl⟩

/-- The algebra behind the projection: if `6 p_c − Σ p_nb = ρ h (−D) / dt`, the corrected
divergence `D − dt/(h ρ) (Σ p_nb − 6 p_c)` is 0. -/
theorem projection_algebra (rho h dt D pc p1 p2 p3 p4 p5 p6 u1 u0 v1 v0 w1 w0 : ℚ)
    (hrho : rho ≠ 0) (hh : h ≠ 0) (hdt : dt ≠ 0)
    (hD : D = u1 - u0 + v1 - v0 + w1 - w0)
    (hs : 6 * pc + -1 * p1 + -1 * p2 + -1 * p3 + -1 * p4 + -1 * p5 + -1 * p6
      = rho * h * (-D) / dt) :
    u1 - (p1 - pc) * (dt / (h * rho)) - (u0 - (pc - p2) * (dt / (h * rho)))
      + (v1 - (p3 - pc) * (dt / (h * rho))) - (v0 - (pc - p4) * (dt / (h * rho)))
      + (w1 - (p5 - pc) * (dt / (h * rho))) - (w0 - (pc - p6) * (dt / (h * rho))) = 0 := by
  have hK : (dt / (h * rho)) * (rho * h * (-D) / dt) = -D := by
    field_simp
    ring
  have e : u1 - (p1 - pc) * (dt / (h * rho)) - (u0 - (pc - p2) * (dt / (h * rho)))
      + (v1 - (p3 - pc) * (dt / (h * rho))) - (v0 - (pc - p4) * (dt / (h * rho)))
      + (w1 - (p5 - pc) * (dt / (h * rho))) - (w0 - (pc - p6) * (dt / (h * rho)))
      = (u1 - u0 + v1 - v0 + w1 - w0)
        + (dt / (h * rho)) * (6 * pc + -1 * p1 + -1 * p2 + -1 * p3 + -1 * p4 + -1 * p5 + -1 * p6) := by
    ring
  rw [e, hs, hK, ← hD]
  ring

/-- C1. Exact arithmetic, cell size `h ≠ 0`, `ρ ≠ 0`, `dt ≠ 0`, a grid on which no cell is
both solid and fluid, and a solver that returns an exact solution `p` of `A p = d` for the
`A` of `compute_pressure_matrix` and the `d` of `compute_pressure_rhs(dt)`: then
`do_pressures` completes, and at every fluid cell `(i, j, k)` with `0 < i < nx-1`,
`0 < j < ny-1`, `0 < k < nz-1` whose six axis neighbours are fluid and whose diagonal entry
is 6, the discrete divergence of the corrected velocity field is exactly 0. (The diagonal
entry of a cell is the grid's precomputed diagonal value of that cell.) -/
theorem do_pressures_divergence_free (solve : List Triplet_t → ℕ → (ℕ → ℚ) → (ℕ → ℚ))
    (f : FLIP) (dt : ℚ) (hh : f.MACGrid_.get_cell_sizex ≠ 0) (hrho : f.fluid_density_ ≠ 0)
    (hdt : dt ≠ 0) (hpart : NoSolidFluid f.MACGrid_)
    (hsolve : ∀ f1 f2, f.compute_pressure_matrix = some f1 →
      f1.compute_pressure_rhs dt = some f2 →
      ∀ r, r < f.MACGrid_.N_ * f.MACGrid_.M_ * f.MACGrid_.L_ →
        mulVec f2.A_ (f.MACGrid_.N_ * f.MACGrid_.M_ * f.MACGrid_.L_)
          (solve f2.A_ (f.MACGrid_.N_ * f.MACGrid_.M_ * f.MACGrid_.L_) f2.d_) r = f2.d_ r) :
    ∃ f', f.do_pressures solve dt = some f' ∧
      (∀ i j k, i < f.MACGrid_.N_ → j < f.MACGrid_.M_ → k < f.MACGrid_.L_ →
        coeff f'.A_ (cellIndex f.MACGrid_.N_ f.MACGrid_.M_ i j k)
            (cellIndex f.MACGrid_.N_ f.MACGrid_.M_ i j k)
          = f.MACGrid_.A_diag_ (cellIndex f.MACGrid_.N_ f.MACGrid_.M_ i j k)) ∧
      ∀ i j k, 0 < i → i < f.MACGrid_.N_ - 1 → 0 < j → j < f.MACGrid_.M_ - 1 →
        0 < k → k < f.MACGrid_.L_ - 1 →
        f.MACGrid_.pfluid_ i j k = true →
        f.MACGrid_.pfluid_ (i + 1) j k = true → f.MACGrid_.pfluid_ (i - 1) j k = true →
        f.MACGrid_.pfluid_ i (j + 1) k = true → f.MACGrid_.pfluid_ i (j - 1) k = true →
        f.MACGrid_.pfluid_ i j (k + 1) = true → f.MACGrid_.pfluid_ i j (k - 1) = true →
        coeff f'.A_ (cellIndex f.MACGrid_.N_ f.MACGrid_.M_ i j k)
          (cellIndex f.MACGrid_.N_ f.MACGrid_.M_ i j k) = 6 →
        divergence f'.MACGrid_ i j k = 0 := by
  obtain ⟨T, hA, hsum⟩ := compute_pressure_matrix_spec f
  obtain ⟨d, hd, hval⟩ := compute_pressure_rhs_spec { f with A_ := T } dt
  obtain ⟨g', hg, hprog⟩ := apply_pressure_gradients_spec
    { f with
      A_ := T
      d_ := d
      MACGrid_ := f.MACGrid_.set_pressure
        (solve T (f.MACGrid_.N_ * f.MACGrid_.M_ * f.MACGrid_.L_) d) } dt
  refine ⟨{ f with
      A_ := T
      d_ := d
      MACGrid_ := g' }, ?_, ?_, ?_⟩
  · simp only [FLIP.do_pressures, hA, Option.some_bind, hd, Mac3d.get_num_cells_x,
      Mac3d.get_num_cells_y, Mac3d.get_num_cells_z]
    exact hg
  · intro i j k hi hj hk
    show coeff T _ _ = _
    rw [coeff_eq_rowPhi, hsum, matrix_diagonal f.MACGrid_ i j k hi hj hk]
  · intro i j k hi0 hi1 hj0 hj1 hk0 hk1 hf f1 f2 f3 f4 f5 f6 hdiag
    have hi : i < f.MACGrid_.N_ := by omega
    have hj : j < f.MACGrid_.M_ := by omega
    have hk : k < f.MACGrid_.L_ := by omega
    have hd6 : f.MACGrid_.A_diag_ (cellIndex f.MACGrid_.N_ f.MACGrid_.M_ i j k) = 6 := by
      have e : coeff T (cellIndex f.MACGrid_.N_ f.MACGrid_.M_ i j k)
          (cellIndex f.MACGrid_.N_ f.MACGrid_.M_ i j k) = 6 := hdiag
      rw [coeff_eq_rowPhi, hsum, matrix_diagonal f.MACGrid_ i j k hi hj hk] at e
      exact e
    have hs := hsolve _ _ hA hd (cellIndex f.MACGrid_.N_ f.MACGrid_.M_ i j k)
      (cellIndex_lt _ _ _ i j k hi hj hk)
    have hs' : mulVec T (f.MACGrid_.N_ * f.MACGrid_.M_ * f.MACGrid_.L_)
        (solve T (f.MACGrid_.N_ * f.MACGrid_.M_ * f.MACGrid_.L_) d)
        (cellIndex f.MACGrid_.N_ f.MACGrid_.M_ i j k)
        = d (cellIndex f.MACGrid_.N_ f.MACGrid_.M_ i j k) := hs
    rw [mulVec_interior f.MACGrid_ T _ hsum i j k hi0 hi1 hj0 hj1 hk0 hk1 hf f1 f2 f3 f4 f5 f6,
      hd6] at hs'
    have hv := hval i j k hi hj hk
    have hv' : d (cellIndex f.MACGrid_.N_ f.MACGrid_.M_ i j k)
        = rhsValue f.MACGrid_ f.fluid_density_ dt i j k := hv
    rw [rhsValue_interior f.MACGrid_ f.fluid_density_ dt i j k hi0 hi1 hj0 hj1 hk0 hk1 hf
      (not_solid_of_fluid _ hpart _ _ _ (by omega) hj hk f1)
      (not_solid_of_fluid _ hpart _ _ _ (by omega) hj hk f2)
      (not_solid_of_fluid _ hpart _ _ _ hi (by omega) hk f3)
      (not_solid_of_fluid _ hpart _ _ _ hi (by omega) hk f4)
      (not_solid_of_fluid _ hpart _ _ _ hi hj (by omega) f5)
      (not_solid_of_fluid _ hpart _ _ _ hi hj (by omega) f6)] at hv'
    rw [hv'] at hs'
    have hdiv := divergence_after_gradients _ g' f.fluid_density_ dt hprog i j k
      hi0 hi1 hj0 hj1 hk0 hk1
    show divergence g' i j k = 0
    rw [hdiv]
    obtain ⟨e1, e2, e3, e4⟩ := set_pressure_frame f.MACGrid_
      (solve T (f.MACGrid_.N_ * f.MACGrid_.M_ * f.MACGrid_.L_) d)
    simp only [uCorrected, vCorrected, wCorrected, Nat.add_sub_cancel, e1, e2, e3, e4,
      set_pressure_at f.MACGrid_ _ i j k hi hj hk,
      set_pressure_at f.MACGrid_ _ (i + 1) j k (by omega) hj hk,
      set_pressure_at f.MACGrid_ _ (i - 1) j k (by omega) hj hk,
      set_pressure_at f.MACGrid_ _ i (j + 1) k hi (by omega) hk,
      set_pressure_at f.MACGrid_ _ i (j - 1) k hi (by omega) hk,
      set_pressure_at f.MACGrid_ _ i j (k + 1) hi hj (by omega),
      set_pressure_at f.MACGrid_ _ i j (k - 1) hi hj (by omega)]
    exact projection_algebra f.fluid_density_ f.MACGrid_.cell_sizex_ dt
      (divergence f.MACGrid_ i j k) _ _ _ _ _ _ _ _ _ _ _ _ _ hrho hh hdt rfl hs'

/-! ## Pressure solve: a concrete system -/

/-- On `crossGrid` with `dt = 1`, `crossPressure` solves the assembled system exactly. -/
theorem crossPressure_solves (f1 f2 : FLIP) (h1 : crossFLIP.compute_pressure_matrix = some f1)
    (h2 : f1.compute_pressure_rhs 1 = some f2) (r : ℕ) (hr : r < 3 * 3 * 3) :
    mulVec f2.A_ (3 * 3 * 3) crossPressure r = f2.d_ r := by
  obtain ⟨T, hA, hsum⟩ := compute_pressure_matrix_spec crossFLIP
  have e1 : f1 = { crossFLIP with A_ := T } := Option.some.inj (h1.symm.trans hA)
  subst e1
  obtain ⟨d, hd, hval⟩ := compute_pressure_rhs_spec { crossFLIP with A_ := T } 1
  have e2 : f2 = { crossFLIP with A_ := T, d_ := d } := Option.some.inj (h2.symm.trans hd)
  subst e2
  obtain ⟨i, j, k, hi, hj, hk, rfl⟩ := cellIndex_surj 3 3 3 r hr
  have hv := hval i j k hi hj hk
  have hm := matrix_row_sum crossGrid
    (fun col v => if col < 3 * 3 * 3 then v * crossPressure col else 0) i j k hi hj hk
  show mulVec T (3 * 3 * 3) crossPressure (cellIndex 3 3 i j k) = d (cellIndex 3 3 i j k)
  rw [mulVec_eq_rowPhi, hsum]
  refine (hm.trans ?_).trans hv.symm
  show _ = rhsValue crossGrid 1 1 i j k
  interval_cases i <;> interval_cases j <;> interval_cases k <;>
    norm_num [crossGrid, crossPressure, cellIndex, rhsValue]

/-- C1 at a concrete input: on `crossGrid` (cell size 1, density 1, `dt = 1`, no solid cell)
the centre cell has divergence −6 before the pressure step; `crossPressure` solves the
assembled system, `do_pressures` completes, and the centre cell has divergence 0
afterwards. -/
theorem do_pressures_divergence_free_witness :
    crossFLIP.MACGrid_.get_cell_sizex ≠ 0 ∧ NoSolidFluid crossFLIP.MACGrid_ ∧
    divergence crossFLIP.MACGrid_ 1 1 1 = -6 ∧
    ∃ f', crossFLIP.do_pressures crossSolve 1 = some f' ∧
      divergence f'.MACGrid_ 1 1 1 = 0 := by
  have hh : crossFLIP.MACGrid_.get_cell_sizex ≠ 0 := by
    norm_num [crossFLIP, crossGrid, Mac3d.get_cell_sizex]
  have hpart : NoSolidFluid crossFLIP.MACGrid_ := by
    intro i j k _ _ _ h
    simp [crossFLIP, crossGrid] at h
  refine ⟨hh, hpart, by norm_num [divergence, crossFLIP, crossGrid], ?_⟩
  obtain ⟨f', h1, hdiag, hdiv⟩ := do_pressures_divergence_free crossSolve crossFLIP 1 hh
    (by norm_num [crossFLIP]) one_ne_zero hpart
    (fun f1 f2 e1 e2 r hr => crossPressure_solves f1 f2 e1 e2 r hr)
  refine ⟨f', h1, hdiv 1 1 1 (by decide) (by decide) (by decide) (by decide) (by decide)
    (by decide) (by decide) (by decide) (by decide) (by decide) (by decide) (by decide)
    (by decide) ?_⟩
  rw [hdiag 1 1 1 (by decide) (by decide) (by decide)]
  norm_num [crossFLIP, crossGrid, cellIndex]

/-! ## Pressure gradients: claim C11 -/

/-- C11. `apply_pressure_gradients(dt)` completes on every grid state; afterwards, for
every `i` in `1..nx-1` (and `j < ny`, `k < nz`) `u(i,j,k)` is the old `u(i,j,k)` minus
`dt/(ρ·h) · (p(i,j,k) − p(i−1,j,k))`, likewise `v` for `j` in `1..ny-1` and `w` for `k` in
`1..nz-1`; the first-index faces `u(0,j,k)`, `v(i,0,k)`, `w(i,j,0)`, the last-index faces
`u(nx,j,k)`, `v(i,ny,k)`, `w(i,j,nz)` and the pressure field are unchanged. Here `h` is
`get_cell_sizex`, which the code uses on all three axes. -/
theorem apply_pressure_gradients_faces (f : FLIP) (dt : ℚ) :
    ∃ f', f.apply_pressure_gradients dt = some f' ∧
      f'.MACGrid_.ppressure_ = f.MACGrid_.ppressure_ ∧
      (∀ i j k, 1 ≤ i → i < f.MACGrid_.N_ → j < f.MACGrid_.M_ → k < f.MACGrid_.L_ →
        f'.MACGrid_.pu_ i j k = f.MACGrid_.pu_ i j k
          - dt / (f.fluid_density_ * f.MACGrid_.get_cell_sizex)
            * (f.MACGrid_.ppressure_ i j k - f.MACGrid_.ppressure_ (i - 1) j k)) ∧
      (∀ i j k, i < f.MACGrid_.N_ → 1 ≤ j → j < f.MACGrid_.M_ → k < f.MACGrid_.L_ →
        f'.MACGrid_.pv_ i j k = f.MACGrid_.pv_ i j k
          - dt / (f.fluid_density_ * f.MACGrid_.get_cell_sizex)
            * (f.MACGrid_.ppressure_ i j k - f.MACGrid_.ppressure_ i (j - 1) k)) ∧
      (∀ i j k, i < f.MACGrid_.N_ → j < f.MACGrid_.M_ → 1 ≤ k → k < f.MACGrid_.L_ →
        f'.MACGrid_.pw_ i j k = f.MACGrid_.pw_ i j k
          - dt / (f.fluid_density_ * f.MACGrid_.get_cell_sizex)
            * (f.MACGrid_.ppressure_ i j k - f.MACGrid_.ppressure_ i j (k - 1))) ∧
      (∀ j k, f'.MACGrid_.pu_ 0 j k = f.MACGrid_.pu_ 0 j k ∧
        f'.MACGrid_.pu_ f.MACGrid_.N_ j k = f.MACGrid_.pu_ f.MACGrid_.N_ j k) ∧
      (∀ i k, f'.MACGrid_.pv_ i 0 k = f.MACGrid_.pv_ i 0 k ∧
        f'.MACGrid_.pv_ i f.MACGrid_.M_ k = f.MACGrid_.pv_ i f.MACGrid_.M_ k) ∧
      (∀ i j, f'.MACGrid_.pw_ i j 0 = f.MACGrid_.pw_ i j 0 ∧
        f'.MACGrid_.pw_ i j f.MACGrid_.L_ = f.MACGrid_.pw_ i j f.MACGrid_.L_) := by
  obtain ⟨g', h1, hp⟩ := apply_pressure_gradients_spec f dt
  refine ⟨{ f with MACGrid_ := g' }, h1, hp.hp, ?_, ?_, ?_, ?_, ?_, ?_⟩
  · intro i j k hi1 hi hj hk
    show g'.pu_ i j k = _
    rw [hp.hu i j k, if_pos ⟨hi1, hi, hj, hk, cellIndex_lt _ _ _ i j k hi hj hk⟩]
    simp only [uCorrected, Mac3d.get_cell_sizex]
    rw [mul_comm f.fluid_density_ f.MACGrid_.cell_sizex_]
    ring
  · intro i j k hi hj1 hj hk
    show g'.pv_ i j k = _
    rw [hp.hv i j k, if_pos ⟨hj1, hi, hj, hk, cellIndex_lt _ _ _ i j k hi hj hk⟩]
    simp only [vCorrected, Mac3d.get_cell_sizex]
    rw [mul_comm f.fluid_density_ f.MACGrid_.cell_sizex_]
    ring
  · intro i j k hi hj hk1 hk
    show g'.pw_ i j k = _
    rw [hp.hw i j k, if_pos ⟨hk1, hi, hj, hk, cellIndex_lt _ _ _ i j k hi hj hk⟩]
    simp only [wCorrected, Mac3d.get_cell_sizex]
    rw [mul_comm f.fluid_density_ f.MACGrid_.cell_sizex_]
    ring
  · intro j k
    refine ⟨?_, ?_⟩
    · show g'.pu_ 0 j k = _
      rw [hp.hu 0 j k, if_neg (by omega)]
    · show g'.pu_ f.MACGrid_.N_ j k = _
      rw [hp.hu _ j k, if_neg (by omega)]
  · intro i k
    refine ⟨?_, ?_⟩
    · show g'.pv_ i 0 k = _
      rw [hp.hv i 0 k, if_neg (by omega)]
    · show g'.pv_ i f.MACGrid_.M_ k = _
      rw [hp.hv i _ k, if_neg (by omega)]
  · intro i j
    refine ⟨?_, ?_⟩
    · show g'.pw_ i j 0 = _
      rw [hp.hw i j 0, if_neg (by omega)]
    · show g'.pw_ i j f.MACGrid_.L_ = _
      rw [hp.hw i j _, if_neg (by omega)]

/-- C11 at a concrete input: on `crossPressureFLIP` with `dt = 1` the face `u(1,1,1)`
goes from 1 to `1 − (1 − 0) = 0` and the face `u(2,1,1)` from −1 to `−1 − (0 − 1) = 0`. -/
theorem apply_pressure_gradients_faces_witness :
    ∃ f', crossPressureFLIP.apply_pressure_gradients 1 = some f' ∧
      f'.MACGrid_.pu_ 1 1 1 = 0 ∧ f'.MACGrid_.pu_ 2 1 1 = 0 := by
  obtain ⟨f', h, _, hu, _⟩ := apply_pressure_gradients_faces crossPressureFLIP 1
  refine ⟨f', h, ?_, ?_⟩
  · rw [hu 1 1 1 (by decide) (by decide) (by decide) (by decide)]
    norm_num [crossPressureFLIP, crossFLIP, crossGrid, crossPressure, Mac3d.set_pressure,
      Mac3d.get_cell_sizex]
  · rw [hu 2 1 1 (by decide) (by decide) (by decide) (by decide)]
    norm_num [crossPressureFLIP, crossFLIP, crossGrid, crossPressure, Mac3d.set_pressure,
      Mac3d.get_cell_sizex]

/-! ## Boundary conditions: claim C12 -/

/-- A loop run from a related state: if every iteration can be replayed from a related
state, keeping the relation, so can the loop. -/
theorem forLoopFrom_sim {σ : Type} (R : σ → σ → Prop) (body : ℕ → σ → Option σ) (n : ℕ) :
    ∀ (a : ℕ) (s t s' : σ),
      (∀ i, a ≤ i → i < a + n → ∀ u v u', R u v → body i u = some u' →
        ∃ v', body i v = some v' ∧ R u' v') →
      R s t → forLoopFrom body n a s = some s' →
      ∃ t', forLoopFrom body n a t = some t' ∧ R s' t' := by
  induction n with
  | zero =>
    intro a s t s' _ hr h
    simp only [forLoopFrom, Option.some.injEq] at h
    subst h
    exact ⟨t, rfl, hr⟩
  | succ n ih =>
    intro a s t s' hstep hr h
    simp only [forLoopFrom, Option.bind_eq_some] at h
    obtain ⟨u, hu, hrest⟩ := h
    obtain ⟨v, hv, hr1⟩ := hstep a (le_refl a) (by omega) s t u hr hu
    obtain ⟨t', ht', hr2⟩ := ih (a + 1) u v s'
      (fun i h1 h2 => hstep i (by omega) (by omega)) hr1 hrest
    exact ⟨t', by simp only [forLoopFrom, hv, Option.some_bind, ht'], hr2⟩

theorem forLoop_sim {σ : Type} (R : σ → σ → Prop) (body : ℕ → σ → Option σ) (n : ℕ)
    (hstep : ∀ i, i < n → ∀ u v u', R u v → body i u = some u' →
      ∃ v', body i v = some v' ∧ R u' v')
    (s t s' : σ) (hr : R s t) (h : forLoop n body s = some s') :
    ∃ t', forLoop n body t = some t' ∧ R s' t' :=
  forLoopFrom_sim R body n 0 s t s' (fun i _ hi => hstep i (by omega)) hr h

theorem sameWalls_refl (g : Mac3d) : SameWalls g g := ⟨rfl, rfl, rfl, rfl, rfl⟩

theorem sameWalls_trans (a b c : Mac3d) (h1 : SameWalls a b) (h2 : SameWalls b c) :
    SameWalls a c :=
  ⟨h2.hN.trans h1.hN, h2.hM.trans h1.hM, h2.hL.trans h1.hL, h2.hsolid.trans h1.hsolid,
    h2.hout.trans h1.hout⟩

theorem sameWalls_symm (a b : Mac3d) (h : SameWalls a b) : SameWalls b a :=
  ⟨h.hN.symm, h.hM.symm, h.hL.symm, h.hsolid.symm, h.hout.symm⟩

theorem SameWalls.of_zeroed (g g' : Mac3d) (h : ZeroedFrom g g') : SameWalls g g' :=
  ⟨h.hN, h.hM, h.hL, h.hsolid, h.hout⟩

theorem is_solid_of_sameWalls (g g' : Mac3d) (h : SameWalls g g') (i j k : ℕ) :
    g'.is_solid i j k = g.is_solid i j k := by
  simp only [Mac3d.is_solid, h.hN, h.hM, h.hL, h.hsolid, h.hout]

theorem uWall_of_sameWalls (g g' : Mac3d) (h : SameWalls g g') (i j k : ℕ) :
    uWall g' i j k ↔ uWall g i j k := by
  simp only [uWall, h.hN, h.hM, h.hL, h.hsolid]

theorem vWall_of_sameWalls (g g' : Mac3d) (h : SameWalls g g') (i j k : ℕ) :
    vWall g' i j k ↔ vWall g i j k := by
  simp only [vWall, h.hN, h.hM, h.hL, h.hsolid]

theorem wWall_of_sameWalls (g g' : Mac3d) (h : SameWalls g g') (i j k : ℕ) :
    wWall g' i j k ↔ wWall g i j k := by
  simp only [wWall, h.hN, h.hM, h.hL, h.hsolid]

theorem zeroedWithin_refl (g : Mac3d) : ZeroedWithin g g :=
  ⟨sameWalls_refl g, fun _ _ _ => Or.inl rfl, fun _ _ _ => Or.inl rfl, fun _ _ _ => Or.inl rfl⟩

theorem zeroedWithin_trans (a b c : Mac3d) (h1 : ZeroedWithin a b) (h2 : ZeroedWithin b c) :
    ZeroedWithin a c := by
  refine ⟨sameWalls_trans _ _ _ h1.walls h2.walls, ?_, ?_, ?_⟩
  · intro i j k
    rcases h2.hu i j k with h | h
    · rw [h]; exact h1.hu i j k
    · exact Or.inr ⟨h.1, (uWall_of_sameWalls a b h1.walls i j k).mp h.2⟩
  · intro i j k
    rcases h2.hv i j k with h | h
    · rw [h]; exact h1.hv i j k
    · exact Or.inr ⟨h.1, (vWall_of_sameWalls a b h1.walls i j k).mp h.2⟩
  · intro i j k
    rcases h2.hw i j k with h | h
    · rw [h]; exact h1.hw i j k
    · exact Or.inr ⟨h.1, (wWall_of_sameWalls a b h1.walls i j k).mp h.2⟩

/-- Partial-correctness invariant rule: what every completed iteration keeps, the
completed loop keeps. -/
theorem forLoop_keeps {σ : Type} (I : σ → Prop) (body : ℕ → σ → Option σ) (n : ℕ)
    (hstep : ∀ i, i < n → ∀ t t', I t → body i t = some t' → I t')
    (s s' : σ) (h0 : I s) (h : forLoop n body s = some s') : I s' :=
  forLoop_rel (fun a b => I a → I b) (fun _ h => h) (fun _ _ _ h1 h2 h => h2 (h1 h)) body n
    (fun i hi t t' ht hI => hstep i hi t t' hI ht) s s' h h0

theorem set_u_zero_within (g g' : Mac3d) (i j k : ℕ) (h : g.set_u i j k 0 = some g')
    (hwall : i = 0 ∨ i = g.N_ ∨ g.psolid_ (i - 1) j k = true ∨ g.psolid_ i j k = true) :
    ZeroedWithin g g' := by
  unfold Mac3d.set_u at h
  split at h
  · rename_i hb
    simp only [Option.some.injEq] at h
    subst h
    refine ⟨⟨rfl, rfl, rfl, rfl, rfl⟩, ?_, fun _ _ _ => Or.inl rfl, fun _ _ _ => Or.inl rfl⟩
    intro a b c
    simp only [write3]
    split
    · rename_i e
      obtain ⟨e1, e2, e3⟩ := e
      subst e1 e2 e3
      exact Or.inr ⟨rfl, by omega, hb.2.1, hb.2.2, hwall⟩
    · exact Or.inl rfl
  · exact absurd h (by simp)

theorem set_v_zero_within (g g' : Mac3d) (i j k : ℕ) (h : g.set_v i j k 0 = some g')
    (hwall : j = 0 ∨ j = g.M_ ∨ g.psolid_ i (j - 1) k = true ∨ g.psolid_ i j k = true) :
    ZeroedWithin g g' := by
  unfold Mac3d.set_v at h
  split at h
  · rename_i hb
    simp only [Option.some.injEq] at h
    subst h
    refine ⟨⟨rfl, rfl, rfl, rfl, rfl⟩, fun _ _ _ => Or.inl rfl, ?_, fun _ _ _ => Or.inl rfl⟩
    intro a b c
    simp only [write3]
    split
    · rename_i e
      obtain ⟨e1, e2, e3⟩ := e
      subst e1 e2 e3
      exact Or.inr ⟨rfl, hb.1, by omega, hb.2.2, hwall⟩
    · exact Or.inl rfl
  · exact absurd h (by simp)

theorem set_w_zero_within (g g' : Mac3d) (i j k : ℕ) (h : g.set_w i j k 0 = some g')
    (hwall : k = 0 ∨ k = g.L_ ∨ g.psolid_ i j (k - 1) = true ∨ g.psolid_ i j k = true) :
    ZeroedWithin g g' := by
  unfold Mac3d.set_w at h
  split at h
  · rename_i hb
    simp only [Option.some.injEq] at h
    subst h
    refine ⟨⟨rfl, rfl, rfl, rfl, rfl⟩, fun _ _ _ => Or.inl rfl, fun _ _ _ => Or.inl rfl, ?_⟩
    intro a b c
    simp only [write3]
    split
    · rename_i e
      obtain ⟨e1, e2, e3⟩ := e
      subst e1 e2 e3
      exact Or.inr ⟨rfl, hb.1, hb.2.1, by omega, hwall⟩
    · exact Or.inl rfl
  · exact absurd h (by simp)

/-- The first write of the body of the solid-wall loop goes to a wall face. -/
theorem wall_u_step (g g1 : Mac3d) (b cu : Bool) (i j k : ℕ)
    (hb : g.is_solid i j k = some b)
    (hcu : scOr b (g.is_solid (i + 1) j k) = some cu)
    (hg1 : (if cu then g.set_u (i + 1) j k 0 else some g) = some g1) :
    ZeroedWithin g g1 := by
  cases cu with
  | false =>
    simp only [Bool.false_eq_true, if_false, Option.some.injEq] at hg1
    subst hg1
    exact zeroedWithin_refl g
  | true =>
    simp only [if_true] at hg1
    obtain ⟨_, _, hi, hj, hk⟩ := set_u_zero_spec g g1 _ _ _ hg1
    refine set_u_zero_within g g1 _ _ _ hg1 ?_
    rw [is_solid_eq g i j k ⟨by omega, hj, hk⟩] at hb
    have eb : g.psolid_ i j k = b := Option.some.inj hb
    obtain ⟨_, h2⟩ := scOr_spec _ _ _ hcu
    cases b with
    | true => exact Or.inr (Or.inr (Or.inl (by simpa using eb)))
    | false =>
      rcases Nat.lt_or_ge (i + 1) g.N_ with hlt | hge
      · have h3 := h2 rfl
        rw [is_solid_eq g (i + 1) j k ⟨hlt, hj, hk⟩] at h3
        exact Or.inr (Or.inr (Or.inr (Option.some.inj h3)))
      · exact Or.inr (Or.inl (by omega))

/-- The second write of the body of the solid-wall loop goes to a wall face. -/
theorem wall_v_step (g g1 : Mac3d) (b cv : Bool) (i j k : ℕ)
    (hb : g.is_solid i j k = some b)
    (hcv : scOr b (g.is_solid i (j + 1) k) = some cv)
    (hg1 : (if cv then g.set_v i (j + 1) k 0 else some g) = some g1) :
    ZeroedWithin g g1 := by
  cases cv with
  | false =>
    simp only [Bool.false_eq_true, if_false, Option.some.injEq] at hg1
    subst hg1
    exact zeroedWithin_refl g
  | true =>
    simp only [if_true] at hg1
    obtain ⟨_, _, hi, hj, hk⟩ := set_v_zero_spec g g1 _ _ _ hg1
    refine set_v_zero_within g g1 _ _ _ hg1 ?_
    rw [is_solid_eq g i j k ⟨hi, by omega, hk⟩] at hb
    have eb : g.psolid_ i j k = b := Option.some.inj hb
    obtain ⟨_, h2⟩ := scOr_spec _ _ _ hcv
    cases b with
    | true => exact Or.inr (Or.inr (Or.inl (by simpa using eb)))
    | false =>
      rcases Nat.lt_or_ge (j + 1) g.M_ with hlt | hge
      · have h3 := h2 rfl
        rw [is_solid_eq g i (j + 1) k ⟨hi, hlt, hk⟩] at h3
        exact Or.inr (Or.inr (Or.inr (Option.some.inj h3)))
      · exact Or.inr (Or.inl (by omega))

/-- The third write of the body of the solid-wall loop goes to a wall face. -/
theorem wall_w_step (g g1 : Mac3d) (b cw : Bool) (i j k : ℕ)
    (hb : g.is_solid i j k = some b)
    (hcw : scOr b (g.is_solid i j (k + 1)) = some cw)
    (hg1 : (if cw then g.set_w i j (k + 1) 0 else some g) = some g1) :
    ZeroedWithin g g1 := by
  cases cw with
  | false =>
    simp only [Bool.false_eq_true, if_false, Option.some.injEq] at hg1
    subst hg1
    exact zeroedWithin_refl g
  | true =>
    simp only [if_true] at hg1
    obtain ⟨_, _, hi, hj, hk⟩ := set_w_zero_spec g g1 _ _ _ hg1
    refine set_w_zero_within g g1 _ _ _ hg1 ?_
    rw [is_solid_eq g i j k ⟨hi, hj, by omega⟩] at hb
    have eb : g.psolid_ i j k = b := Option.some.inj hb
    obtain ⟨_, h2⟩ := scOr_spec _ _ _ hcw
    cases b with
    | true => exact Or.inr (Or.inr (Or.inl (by simpa using eb)))
    | false =>
      rcases Nat.lt_or_ge (k + 1) g.L_ with hlt | hge
      · have h3 := h2 rfl
        rw [is_solid_eq g i j (k + 1) ⟨hi, hj, hlt⟩] at h3
        exact Or.inr (Or.inr (Or.inr (Option.some.inj h3)))
      · exact Or.inr (Or.inl (by omega))

theorem bc_solid_cell_within (i j k : ℕ) (g g' : Mac3d)
    (h : FLIP.bc_solid_cell i j k g = some g') : ZeroedWithin g g' := by
  simp only [FLIP.bc_solid_cell, Option.bind_eq_some] at h
  obtain ⟨b, hb, cu, hcu, g1, hg1, cv, hcv, g2, hg2, cw, hcw, hg3⟩ := h
  have z1 := wall_u_step g g1 b cu i j k hb hcu hg1
  have hb1 : g1.is_solid i j k = some b := by
    rw [is_solid_of_sameWalls g g1 z1.walls]; exact hb
  have z2 := wall_v_step g1 g2 b cv i j k hb1 hcv hg2
  have hb2 : g2.is_solid i j k = some b := by
    rw [is_solid_of_sameWalls g1 g2 z2.walls]; exact hb1
  have z3 := wall_w_step g2 g' b cw i j k hb2 hcw hg3
  exact zeroedWithin_trans _ _ _ (zeroedWithin_trans _ _ _ z1 z2) z3

theorem bc_outer_v_within (g0 : Mac3d) (i k : ℕ) (t t' : Mac3d) (hI : ZeroedWithin g0 t)
    (h : FLIP.bc_outer_v g0.M_ i k t = some t') : ZeroedWithin g0 t' := by
  simp only [FLIP.bc_outer_v, Option.bind_eq_some] at h
  obtain ⟨t1, h1, h2⟩ := h
  have z1 := set_v_zero_within t t1 _ _ _ h1 (Or.inl rfl)
  have z2 := set_v_zero_within t1 t' _ _ _ h2
    (Or.inr (Or.inl ((z1.walls.hM.trans hI.walls.hM).symm)))
  exact zeroedWithin_trans _ _ _ hI (zeroedWithin_trans _ _ _ z1 z2)

theorem bc_outer_u_within (g0 : Mac3d) (j k : ℕ) (t t' : Mac3d) (hI : ZeroedWithin g0 t)
    (h : FLIP.bc_outer_u g0.N_ j k t = some t') : ZeroedWithin g0 t' := by
  simp only [FLIP.bc_outer_u, Option.bind_eq_some] at h
  obtain ⟨t1, h1, h2⟩ := h
  have z1 := set_u_zero_within t t1 _ _ _ h1 (Or.inl rfl)
  have z2 := set_u_zero_within t1 t' _ _ _ h2
    (Or.inr (Or.inl ((z1.walls.hN.trans hI.walls.hN).symm)))
  exact zeroedWithin_trans _ _ _ hI (zeroedWithin_trans _ _ _ z1 z2)

theorem bc_outer_w_within (g0 : Mac3d) (i j : ℕ) (t t' : Mac3d) (hI : ZeroedWithin g0 t)
    (h : FLIP.bc_outer_w g0.L_ i j t = some t') : ZeroedWithin g0 t' := by
  simp only [FLIP.bc_outer_w, Option.bind_eq_some] at h
  obtain ⟨t1, h1, h2⟩ := h
  have z1 := set_w_zero_within t t1 _ _ _ h1 (Or.inl rfl)
  have z2 := set_w_zero_within t1 t' _ _ _ h2
    (Or.inr (Or.inl ((z1.walls.hL.trans hI.walls.hL).symm)))
  exact zeroedWithin_trans _ _ _ hI (zeroedWithin_trans _ _ _ z1 z2)

/-- `apply_boundary_conditions` writes zeros, and only to wall faces. -/
theorem apply_boundary_conditions_grid_within (g g' : Mac3d)
    (h : FLIP.apply_boundary_conditions_grid g = some g') : ZeroedWithin g g' := by
  simp only [FLIP.apply_boundary_conditions_grid, Mac3d.get_num_cells_x, Mac3d.get_num_cells_y,
    Mac3d.get_num_cells_z, Option.bind_eq_some] at h
  obtain ⟨g1, h1, g2, h2, g3, h3, h4⟩ := h
  have z1 : ZeroedWithin g g1 := by
    refine forLoop_rel ZeroedWithin zeroedWithin_refl zeroedWithin_trans _ g.L_ ?_ g g1 h1
    intro k _ t t' ht
    refine forLoop_rel ZeroedWithin zeroedWithin_refl zeroedWithin_trans _ g.M_ ?_ t t' ht
    intro j _ t t' ht
    refine forLoop_rel ZeroedWithin zeroedWithin_refl zeroedWithin_trans _ g.N_ ?_ t t' ht
    intro i _ t t' ht
    exact bc_solid_cell_within i j k t t' ht
  have z2 : ZeroedWithin g g2 := by
    refine forLoop_keeps (ZeroedWithin g) _ g.L_ ?_ g1 g2 z1 h2
    intro k _ t t' hI ht
    refine forLoop_keeps (ZeroedWithin g) _ g.N_ ?_ t t' hI ht
    intro i _ t t' hI ht
    exact bc_outer_v_within g i k t t' hI ht
  have z3 : ZeroedWithin g g3 := by
    refine forLoop_keeps (ZeroedWithin g) _ g.L_ ?_ g2 g3 z2 h3
    intro k _ t t' hI ht
    refine forLoop_keeps (ZeroedWithin g) _ g.M_ ?_ t t' hI ht
    intro j _ t t' hI ht
    exact bc_outer_u_within g j k t t' hI ht
  refine forLoop_keeps (ZeroedWithin g) _ g.M_ ?_ g3 g' z3 h4
  intro j _ t t' hI ht
  refine forLoop_keeps (ZeroedWithin g) _ g.N_ ?_ t t' hI ht
  intro i _ t t' hI ht
  exact bc_outer_w_within g i j t t' hI ht

theorem set_u_sim (u v u1 : Mac3d) (i j k : ℕ) (x : ℚ) (hr : SameWalls u v)
    (h : u.set_u i j k x = some u1) : ∃ v1, v.set_u i j k x = some v1 ∧ SameWalls u1 v1 := by
  unfold Mac3d.set_u at h
  split at h
  · rename_i hb
    simp only [Option.some.injEq] at h
    subst h
    refine ⟨{ v with pu_ := write3 v.pu_ i j k x }, ?_, ⟨hr.hN, hr.hM, hr.hL, hr.hsolid, hr.hout⟩⟩
    exact set_u_eq v i j k x (by rw [hr.hN, hr.hM, hr.hL]; exact hb)
  · exact absurd h (by simp)

theorem set_v_sim (u v u1 : Mac3d) (i j k : ℕ) (x : ℚ) (hr : SameWalls u v)
    (h : u.set_v i j k x = some u1) : ∃ v1, v.set_v i j k x = some v1 ∧ SameWalls u1 v1 := by
  unfold Mac3d.set_v at h
  split at h
  · rename_i hb
    simp only [Option.some.injEq] at h
    subst h
    refine ⟨{ v with pv_ := write3 v.pv_ i j k x }, ?_, ⟨hr.hN, hr.hM, hr.hL, hr.hsolid, hr.hout⟩⟩
    exact set_v_eq v i j k x (by rw [hr.hN, hr.hM, hr.hL]; exact hb)
  · exact absurd h (by simp)

theorem set_w_sim (u v u1 : Mac3d) (i j k : ℕ) (x : ℚ) (hr : SameWalls u v)
    (h : u.set_w i j k x = some u1) : ∃ v1, v.set_w i j k x = some v1 ∧ SameWalls u1 v1 := by
  unfold Mac3d.set_w at h
  split at h
  · rename_i hb
    simp only [Option.some.injEq] at h
    subst h
    refine ⟨{ v with pw_ := write3 v.pw_ i j k x }, ?_, ⟨hr.hN, hr.hM, hr.hL, hr.hsolid, hr.hout⟩⟩
    exact set_w_eq v i j k x (by rw [hr.hN, hr.hM, hr.hL]; exact hb)
  · exact absurd h (by simp)

theorem cond_set_u_sim (u v u1 : Mac3d) (c : Bool) (i j k : ℕ) (hr : SameWalls u v)
    (h : (if c then u.set_u i j k 0 else some u) = some u1) :
    ∃ v1, (if c then v.set_u i j k 0 else some v) = some v1 ∧ SameWalls u1 v1 := by
  cases c with
  | false =>
    simp only [Bool.false_eq_true, if_false, Option.some.injEq] at h
    subst h
    exact ⟨v, rfl, hr⟩
  | true =>
    simp only [if_true] at h
    simpa using set_u_sim u v u1 i j k 0 hr h

theorem cond_set_v_sim (u v u1 : Mac3d) (c : Bool) (i j k : ℕ) (hr : SameWalls u v)
    (h : (if c then u.set_v i j k 0 else some u) = some u1) :
    ∃ v1, (if c then v.set_v i j k 0 else some v) = some v1 ∧ SameWalls u1 v1 := by
  cases c with
  | false =>
    simp only [Bool.false_eq_true, if_false, Option.some.injEq] at h
    subst h
    exact ⟨v, rfl, hr⟩
  | true =>
    simp only [if_true] at h
    simpa using set_v_sim u v u1 i j k 0 hr h

theorem cond_set_w_sim (u v u1 : Mac3d) (c : Bool) (i j k : ℕ) (hr : SameWalls u v)
    (h : (if c then u.set_w i j k 0 else some u) = some u1) :
    ∃ v1, (if c then v.set_w i j k 0 else some v) = some v1 ∧ SameWalls u1 v1 := by
  cases c with
  | false =>
    simp only [Bool.false_eq_true, if_false, Option.some.injEq] at h
    subst h
    exact ⟨v, rfl, hr⟩
  | true =>
    simp only [if_true] at h
    simpa using set_w_sim u v u1 i j k 0 hr h

theorem bc_solid_cell_sim (i j k : ℕ) (u v u' : Mac3d) (hr : SameWalls u v)
    (h : FLIP.bc_solid_cell i j k u = some u') :
    ∃ v', FLIP.bc_solid_cell i j k v = some v' ∧ SameWalls u' v' := by
  simp only [FLIP.bc_solid_cell, Option.bind_eq_some] at h
  obtain ⟨b, hb, cu, hcu, g1, hg1, cv, hcv, g2, hg2, cw, hcw, hg3⟩ := h
  obtain ⟨v1, hv1, r1⟩ := cond_set_u_sim u v g1 cu _ _ _ hr hg1
  obtain ⟨v2, hv2, r2⟩ := cond_set_v_sim g1 v1 g2 cv _ _ _ r1 hg2
  obtain ⟨v3, hv3, r3⟩ := cond_set_w_sim g2 v2 u' cw _ _ _ r2 hg3
  refine ⟨v3, ?_, r3⟩
  simp only [FLIP.bc_solid_cell, is_solid_of_sameWalls u v hr, hb, Option.some_bind, hcu, hv1,
    is_solid_of_sameWalls g1 v1 r1, hcv, hv2, is_solid_of_sameWalls g2 v2 r2, hcw, hv3]

theorem bc_outer_v_sim (ny i k : ℕ) (u v u' : Mac3d) (hr : SameWalls u v)
    (h : FLIP.bc_outer_v ny i k u = some u') :
    ∃ v', FLIP.bc_outer_v ny i k v = some v' ∧ SameWalls u' v' := by
  simp only [FLIP.bc_outer_v, Option.bind_eq_some] at h
  obtain ⟨u1, h1, h2⟩ := h
  obtain ⟨v1, hv1, r1⟩ := set_v_sim u v u1 _ _ _ _ hr h1
  obtain ⟨v2, hv2, r2⟩ := set_v_sim u1 v1 u' _ _ _ _ r1 h2
  exact ⟨v2, by simp only [FLIP.bc_outer_v, hv1, Option.some_bind, hv2], r2⟩

theorem bc_outer_u_sim (nx j k : ℕ) (u v u' : Mac3d) (hr : SameWalls u v)
    (h : FLIP.bc_outer_u nx j k u = some u') :
    ∃ v', FLIP.bc_outer_u nx j k v = some v' ∧ SameWalls u' v' := by
  simp only [FLIP.bc_outer_u, Option.bind_eq_some] at h
  obtain ⟨u1, h1, h2⟩ := h
  obtain ⟨v1, hv1, r1⟩ := set_u_sim u v u1 _ _ _ _ hr h1
  obtain ⟨v2, hv2, r2⟩ := set_u_sim u1 v1 u' _ _ _ _ r1 h2
  exact ⟨v2, by simp only [FLIP.bc_outer_u, hv1, Option.some_bind, hv2], r2⟩

theorem bc_outer_w_sim (nz i j : ℕ) (u v u' : Mac3d) (hr : SameWalls u v)
    (h : FLIP.bc_outer_w nz i j u = some u') :
    ∃ v', FLIP.bc_outer_w nz i j v = some v' ∧ SameWalls u' v' := by
  simp only [FLIP.bc_outer_w, Option.bind_eq_some] at h
  obtain ⟨u1, h1, h2⟩ := h
  obtain ⟨v1, hv1, r1⟩ := set_w_sim u v u1 _ _ _ _ hr h1
  obtain ⟨v2, hv2, r2⟩ := set_w_sim u1 v1 u' _ _ _ _ r1 h2
  exact ⟨v2, by simp only [FLIP.bc_outer_w, hv1, Option.some_bind, hv2], r2⟩

/-- Whether `apply_boundary_conditions` completes depends only on the dimensions and the
solid classification of the grid. -/
theorem apply_boundary_conditions_grid_sim (g t g' : Mac3d) (hr : SameWalls g t)
    (h : FLIP.apply_boundary_conditions_grid g = some g') :
    ∃ t', FLIP.apply_boundary_conditions_grid t = some t' ∧ SameWalls g' t' := by
  simp only [FLIP.apply_boundary_conditions_grid, Mac3d.get_num_cells_x, Mac3d.get_num_cells_y,
    Mac3d.get_num_cells_z, Option.bind_eq_some] at h
  obtain ⟨g1, h1, g2, h2, g3, h3, h4⟩ := h
  obtain ⟨t1, ht1, r1⟩ : ∃ t1, forLoop3 g.N_ g.M_ g.L_ FLIP.bc_solid_cell t = some t1 ∧
      SameWalls g1 t1 := by
    refine forLoop_sim SameWalls _ g.L_ ?_ g t g1 hr h1
    intro k _ u v u' huv hu
    refine forLoop_sim SameWalls _ g.M_ ?_ u v u' huv hu
    intro j _ u v u' huv hu
    refine forLoop_sim SameWalls _ g.N_ ?_ u v u' huv hu
    intro i _ u v u' huv hu
    exact bc_solid_cell_sim i j k u v u' huv hu
  obtain ⟨t2, ht2, r2⟩ : ∃ t2, forLoop g.L_ (fun k => forLoop g.N_
      (fun i => FLIP.bc_outer_v g.M_ i k)) t1 = some t2 ∧ SameWalls g2 t2 := by
    refine forLoop_sim SameWalls _ g.L_ ?_ g1 t1 g2 r1 h2
    intro k _ u v u' huv hu
    refine forLoop_sim SameWalls _ g.N_ ?_ u v u' huv hu
    intro i _ u v u' huv hu
    exact bc_outer_v_sim _ i k u v u' huv hu
  obtain ⟨t3, ht3, r3⟩ : ∃ t3, forLoop g.L_ (fun k => forLoop g.M_
      (fun j => FLIP.bc_outer_u g.N_ j k)) t2 = some t3 ∧ SameWalls g3 t3 := by
    refine forLoop_sim SameWalls _ g.L_ ?_ g2 t2 g3 r2 h3
    intro k _ u v u' huv hu
    refine forLoop_sim SameWalls _ g.M_ ?_ u v u' huv hu
    intro j _ u v u' huv hu
    exact bc_outer_u_sim _ j k u v u' huv hu
  obtain ⟨t4, ht4, r4⟩ : ∃ t4, forLoop g.M_ (fun j => forLoop g.N_
      (fun i => FLIP.bc_outer_w g.L_ i j)) t3 = some t4 ∧ SameWalls g' t4 := by
    refine forLoop_sim SameWalls _ g.M_ ?_ g3 t3 g' r3 h4
    intro j _ u v u' huv hu
    refine forLoop_sim SameWalls _ g.N_ ?_ u v u' huv hu
    intro i _ u v u' huv hu
    exact bc_outer_w_sim _ i j u v u' huv hu
  refine ⟨t4, ?_, r4⟩
  simp only [FLIP.apply_boundary_conditions_grid, Mac3d.get_num_cells_x, Mac3d.get_num_cells_y,
    Mac3d.get_num_cells_z, hr.hN, hr.hM, hr.hL, ht1, Option.some_bind, ht2, ht3, ht4]

theorem wall_u_zero (g : Mac3d) (q : BoundaryZero g) (a j k : ℕ) (h : uWall g a j k) :
    g.pu_ a j k = 0 := by
  obtain ⟨ha, hj, hk, hwall⟩ := h
  rcases Nat.eq_zero_or_pos a with h0 | hpos
  · subst h0
    exact (q.outer_u k hk j hj).1
  rcases Nat.eq_or_lt_of_le ha with hN | hlt
  · subst hN
    exact (q.outer_u k hk j hj).2
  have e : a - 1 + 1 = a := by omega
  have hq := (q.solid k hk j hj (a - 1) (by omega)).1
  rw [e] at hq
  rcases hwall with h | h | h | h
  · omega
  · omega
  · exact hq (Or.inl ⟨by omega, hj, hk, h⟩)
  · exact hq (Or.inr ⟨hlt, hj, hk, h⟩)

theorem wall_v_zero (g : Mac3d) (q : BoundaryZero g) (i b k : ℕ) (h : vWall g i b k) :
    g.pv_ i b k = 0 := by
  obtain ⟨hi, hb, hk, hwall⟩ := h
  rcases Nat.eq_zero_or_pos b with h0 | hpos
  · subst h0
    exact (q.outer_v k hk i hi).1
  rcases Nat.eq_or_lt_of_le hb with hM | hlt
  · subst hM
    exact (q.outer_v k hk i hi).2
  have e : b - 1 + 1 = b := by omega
  have hq := (q.solid k hk (b - 1) (by omega) i hi).2.1
  rw [e] at hq
  rcases hwall with h | h | h | h
  · omega
  · omega
  · exact hq (Or.inl ⟨hi, by omega, hk, h⟩)
  · exact hq (Or.inr ⟨hi, hlt, hk, h⟩)

theorem wall_w_zero (g : Mac3d) (q : BoundaryZero g) (i j c : ℕ) (h : wWall g i j c) :
    g.pw_ i j c = 0 := by
  obtain ⟨hi, hj, hc, hwall⟩ := h
  rcases Nat.eq_zero_or_pos c with h0 | hpos
  · subst h0
    exact (q.outer_w j hj i hi).1
  rcases Nat.eq_or_lt_of_le hc with hL | hlt
  · subst hL
    exact (q.outer_w j hj i hi).2
  have e : c - 1 + 1 = c := by omega
  have hq := (q.solid (c - 1) (by omega) j hj i hi).2.2
  rw [e] at hq
  rcases hwall with h | h | h | h
  · omega
  · omega
  · exact hq (Or.inl ⟨hi, hj, by omega, h⟩)
  · exact hq (Or.inr ⟨hi, hj, hlt, h⟩)

/-- C12. `apply_boundary_conditions` is idempotent: for every state on which the call
completes, a second call completes as well and leaves the `u`, `v` and `w` fields exactly
as the first call left them. -/
theorem apply_boundary_conditions_idempotent (f f1 : FLIP)
    (h : f.apply_boundary_conditions = some f1) :
    ∃ f2, f1.apply_boundary_conditions = some f2 ∧
      f2.MACGrid_.pu_ = f1.MACGrid_.pu_ ∧ f2.MACGrid_.pv_ = f1.MACGrid_.pv_ ∧
      f2.MACGrid_.pw_ = f1.MACGrid_.pw_ := by
  simp only [FLIP.apply_boundary_conditions, Option.map_eq_some'] at h
  obtain ⟨g1, hg1, rfl⟩ := h
  obtain ⟨z, q⟩ := apply_boundary_conditions_grid_spec f.MACGrid_ g1 hg1
  obtain ⟨g2, hg2, _⟩ := apply_boundary_conditions_grid_sim f.MACGrid_ g1 g1
    (SameWalls.of_zeroed _ _ z) hg1
  have w := apply_boundary_conditions_grid_within g1 g2 hg2
  refine ⟨{ f with MACGrid_ := g2 }, ?_, ?_, ?_, ?_⟩
  · simp only [FLIP.apply_boundary_conditions, hg2, Option.map_some']
  · funext i j k
    show g2.pu_ i j k = g1.pu_ i j k
    rcases w.hu i j k with e | ⟨e, hw⟩
    · exact e
    · rw [e, wall_u_zero g1 q i j k hw]
  · funext i j k
    show g2.pv_ i j k = g1.pv_ i j k
    rcases w.hv i j k with e | ⟨e, hw⟩
    · exact e
    · rw [e, wall_v_zero g1 q i j k hw]
  · funext i j k
    show g2.pw_ i j k = g1.pw_ i j k
    rcases w.hw i j k with e | ⟨e, hw⟩
    · exact e
    · rw [e, wall_w_zero g1 q i j k hw]

/-- C12 at a concrete input: on `cornerWallFLIP` the first call completes, and the second
call leaves its velocity fields as they are. -/
theorem apply_boundary_conditions_idempotent_witness :
    ∃ f1 f2, cornerWallFLIP.apply_boundary_conditions = some f1 ∧
      f1.apply_boundary_conditions = some f2 ∧
      f2.MACGrid_.pu_ = f1.MACGrid_.pu_ ∧ f2.MACGrid_.pv_ = f1.MACGrid_.pv_ ∧
      f2.MACGrid_.pw_ = f1.MACGrid_.pw_ := by
  obtain ⟨g1, hg1⟩ := apply_boundary_conditions_grid_isSome cornerWallGrid rfl
  have h1 : cornerWallFLIP.apply_boundary_conditions
      = some { cornerWallFLIP with MACGrid_ := g1 } := by
    simp only [FLIP.apply_boundary_conditions, cornerWallFLIP, hg1, Option.map_some']
  obtain ⟨f2, h2, e⟩ := apply_boundary_conditions_idempotent _ _ h1
  exact ⟨_, f2, h1, h2, e⟩

/-! ## The 2D grid: claims C19, C20 -/

/-- C19 (the code, and the failing input). `Mac2d::index_from_coord` succeeds exactly when
the position lies outside the domain (`x > sizex`, `y > sizey`, `x < 0` or `y < 0`), so it
fails exactly on the positions with `0 ≤ x ≤ sizex` and `0 ≤ y ≤ sizey`: the opposite of
the claim. On the 4×4 grid over `[0, 2] × [0, 2]` the inside position `(1/2, 1/2)` fails
and the outside position `(3, 3)` returns `(3, 3)`. -/
theorem index_from_coord_assert_inverted :
    (∀ (g : Mac2d) (x y : ℚ), (g.index_from_coord x y).isSome = true ↔
      (x > g.sizex_ ∨ y > g.sizey_ ∨ x < 0 ∨ y < 0)) ∧
    (∀ (g : Mac2d) (x y : ℚ), g.index_from_coord x y = none ↔
      (0 ≤ x ∧ x ≤ g.sizex_ ∧ 0 ≤ y ∧ y ≤ g.sizey_)) ∧
    halfCellGrid2d.index_from_coord (1 / 2) (1 / 2) = none ∧
    halfCellGrid2d.index_from_coord 3 3 = some (3, 3) := by
  refine ⟨?_, ?_, ?_, ?_⟩
  · intro g x y
    unfold Mac2d.index_from_coord
    split
    · rename_i h
      simp only [Option.isSome_some, true_iff]
      exact h
    · rename_i h
      simp only [Option.isSome_none, Bool.false_eq_true, false_iff]
      exact h
  · intro g x y
    unfold Mac2d.index_from_coord
    split
    · rename_i h
      refine ⟨fun e => absurd e (by simp), fun e => ?_⟩
      obtain ⟨hx0, hx, hy0, hy⟩ := e
      rcases h with h | h | h | h
      · exact absurd hx (not_le.mpr h)
      · exact absurd hy (not_le.mpr h)
      · exact absurd hx0 (not_le.mpr h)
      · exact absurd hy0 (not_le.mpr h)
    · rename_i h
      simp only [not_or, not_lt] at h
      exact ⟨fun _ => ⟨h.2.2.1, h.1, h.2.2.2, h.2.1⟩, fun _ => rfl⟩
  · norm_num [Mac2d.index_from_coord, halfCellGrid2d]
  · norm_num [Mac2d.index_from_coord, halfCellGrid2d, Mac2d.index_from_coord_pair,
      double_to_int]

/-- C20 (the code at the failing input). On the 4×4 grid over `[0, 2] × [0, 2]` (cell size
1/2) the position `(3/2, 1/2)` lies inside the domain, in the cell `(3, 1)`:
`3·(1/2) ≤ 3/2 < 4·(1/2)` and `1·(1/2) ≤ 1/2 < 2·(1/2)`. `index_from_coord` fails on it
(the assertion), and the pair its `return` statement builds is `(int(3/2), int(1/2)) =
(1, 0)`, which is not the containing cell: the cell size is not used. -/
theorem index_from_coord_ignores_cell_size :
    (0 ≤ (3 / 2 : ℚ) ∧ (3 / 2 : ℚ) ≤ halfCellGrid2d.sizex_ ∧
      0 ≤ (1 / 2 : ℚ) ∧ (1 / 2 : ℚ) ≤ halfCellGrid2d.sizey_) ∧
    halfCellGrid2d.index_from_coord (3 / 2) (1 / 2) = none ∧
    Mac2d.index_from_coord_pair (3 / 2) (1 / 2) = (1, 0) ∧
    (3 * halfCellGrid2d.cell_sizex_ ≤ 3 / 2 ∧ (3 / 2 : ℚ) < (3 + 1) * halfCellGrid2d.cell_sizex_ ∧
      1 * halfCellGrid2d.cell_sizey_ ≤ 1 / 2 ∧
      (1 / 2 : ℚ) < (1 + 1) * halfCellGrid2d.cell_sizey_) ∧
    ¬ ((1 : ℚ) * halfCellGrid2d.cell_sizex_ ≤ 3 / 2 ∧
      (3 / 2 : ℚ) < (1 + 1) * halfCellGrid2d.cell_sizex_) := by
  refine ⟨?_, ?_, ?_, ?_, ?_⟩
  · norm_num [halfCellGrid2d]
  · norm_num [Mac2d.index_from_coord, halfCellGrid2d]
  · have e1 : ⌊(3 / 2 : ℚ)⌋ = 1 := by
      rw [Int.floor_eq_iff]; norm_num
    have e2 : ⌊(1 / 2 : ℚ)⌋ = 0 := by
      rw [Int.floor_eq_iff]; norm_num
    simp only [Mac2d.index_from_coord_pair, double_to_int]
    rw [if_pos (by norm_num), if_pos (by norm_num), e1, e2]
  · norm_num [halfCellGrid2d]
  · norm_num [halfCellGrid2d]

/-! ## Grid to particle: claims C15, C16 -/

theorem forParticles_length (body : Particle → Option Particle) :
    ∀ ps ps', forParticles body ps = some ps' → ps'.length = ps.length := by
  intro ps
  induction ps with
  | nil =>
    intro ps' h
    simp only [forParticles, Option.some.injEq] at h
    subst h
    rfl
  | cons p ps ih =>
    intro ps' h
    simp only [forParticles, Option.bind_eq_some, Option.map_eq_some'] at h
    obtain ⟨p', _, qs, hqs, rfl⟩ := h
    simp only [List.length_cons, ih qs hqs]

/-- After a completed particle loop, particle `n` is the body applied to the old
particle `n`. -/
theorem forParticles_get (body : Particle → Option Particle) :
    ∀ (ps ps' : List Particle), forParticles body ps = some ps' →
      ∀ (n : ℕ) (p : Particle), ps[n]? = some p →
        ∃ p', ps'[n]? = some p' ∧ body p = some p' := by
  intro ps
  induction ps with
  | nil =>
    intro ps' _ n p hp
    simp at hp
  | cons q ps ih =>
    intro ps' h n p hp
    simp only [forParticles, Option.bind_eq_some, Option.map_eq_some'] at h
    obtain ⟨q', hq', qs, hqs, rfl⟩ := h
    cases n with
    | zero =>
      simp only [List.getElem?_cons_zero, Option.some.injEq] at hp
      subst hp
      exact ⟨q', by simp, hq'⟩
    | succ n =>
      simp only [List.getElem?_cons_succ] at hp
      obtain ⟨p', h1, h2⟩ := ih qs hqs n p hp
      exact ⟨p', by simpa using h1, h2⟩

theorem forParticles_isSome (body : Particle → Option Particle) :
    ∀ ps, (∀ p, p ∈ ps → ∃ p', body p = some p') → ∃ ps', forParticles body ps = some ps' := by
  intro ps
  induction ps with
  | nil => intro _; exact ⟨[], rfl⟩
  | cons q ps ih =>
    intro h
    obtain ⟨q', hq'⟩ := h q (List.mem_cons_self q ps)
    obtain ⟨qs, hqs⟩ := ih (fun p hp => h p (List.mem_cons_of_mem q hp))
    exact ⟨q' :: qs, by simp only [forParticles, hq', Option.some_bind, hqs, Option.map_some']⟩

theorem on_boundary_iff (g : Mac3d) (idx : ℕ × ℕ × ℕ) :
    FLIP.on_boundary g.get_num_cells_x g.get_num_cells_y g.get_num_cells_z idx = true ↔
      (idx.1 = 0 ∨ idx.1 + 1 = g.N_ ∨ idx.2.1 = 0 ∨ idx.2.1 + 1 = g.M_ ∨ idx.2.2 = 0
        ∨ idx.2.2 + 1 = g.L_) := by
  simp only [FLIP.on_boundary, Mac3d.get_num_cells_x, Mac3d.get_num_cells_y,
    Mac3d.get_num_cells_z, decide_eq_true_eq]
  omega

/-- What the body of the loop of `grid_to_particle` does to one particle. -/
theorem grid_to_particle_body_spec (I : Interpolation) (g : Mac3d) (alpha : ℚ)
    (p p' : Particle) (h : FLIP.grid_to_particle_body I g alpha p = some p') :
    ∃ idx s n, g.index_from_coord p.position.x p.position.y p.position.z = some idx ∧
      I.velocity g p.position true = some s ∧ I.velocity g p.position false = some n ∧
      p' = { p with velocity := blend p.velocity s n (blendFactor g alpha idx) } := by
  simp only [FLIP.grid_to_particle_body, Particle.get_position, Particle.get_velocity,
    Option.bind_eq_some] at h
  obtain ⟨idx, hidx, su, hsu, nu, hnu, sv, hsv, nv, hnv, sw, hsw, nw, hnw, hp'⟩ := h
  refine ⟨idx, ⟨su, sv, sw⟩, ⟨nu, nv, nw⟩, hidx, ?_, ?_, ?_⟩
  · simp only [Interpolation.velocity, hsu, hsv, hsw, Option.some_bind, Option.map_some']
  · simp only [Interpolation.velocity, hnu, hnv, hnw, Option.some_bind, Option.map_some']
  · simp only [Option.some.injEq] at hp'
    rw [← hp']
    by_cases hb : FLIP.on_boundary g.get_num_cells_x g.get_num_cells_y g.get_num_cells_z idx
        = true
    · have hb' := (on_boundary_iff g idx).mp hb
      simp only [hb, if_true, blendFactor, if_pos hb', Particle.set_velocity, blend,
        Vector3d.sub, Vector3d.add, Vector3d.scale]
    · have hb' : ¬(idx.1 = 0 ∨ idx.1 + 1 = g.N_ ∨ idx.2.1 = 0 ∨ idx.2.1 + 1 = g.M_ ∨ idx.2.2 = 0
          ∨ idx.2.2 + 1 = g.L_) := fun h => hb ((on_boundary_iff g idx).mpr h)
      simp only [hb, if_false, blendFactor, if_neg hb', Particle.set_velocity, blend,
        Vector3d.sub, Vector3d.add, Vector3d.scale, Bool.false_eq_true]

theorem interp_velocity_isSome (I : Interpolation) (g : Mac3d) (x : Vector3d) (b : Bool)
    (h : (I.velocity g x b).isSome = true) :
    ∃ u v w, I.get_interp_u g x.x x.y x.z b = some u ∧ I.get_interp_v g x.x x.y x.z b = some v
      ∧ I.get_interp_w g x.x x.y x.z b = some w := by
  obtain ⟨r, hr⟩ := Option.isSome_iff_exists.mp h
  simp only [Interpolation.velocity, Option.bind_eq_some, Option.map_eq_some'] at hr
  obtain ⟨u, hu, v, hv, w, hw, _⟩ := hr
  exact ⟨u, v, w, hu, hv, hw⟩

theorem grid_to_particle_body_isSome (I : Interpolation) (g : Mac3d) (alpha : ℚ) (p : Particle)
    (h1 : (g.index_from_coord p.position.x p.position.y p.position.z).isSome = true)
    (h2 : (I.velocity g p.position true).isSome = true)
    (h3 : (I.velocity g p.position false).isSome = true) :
    ∃ p', FLIP.grid_to_particle_body I g alpha p = some p' := by
  obtain ⟨idx, hidx⟩ := Option.isSome_iff_exists.mp h1
  obtain ⟨su, sv, sw, hsu, hsv, hsw⟩ := interp_velocity_isSome I g _ _ h2
  obtain ⟨nu, nv, nw, hnu, hnv, hnw⟩ := interp_velocity_isSome I g _ _ h3
  simp only [FLIP.grid_to_particle_body, Particle.get_position, hidx, Option.some_bind, hsu,
    hnu, hsv, hnv, hsw, hnw]
  exact ⟨_, rfl⟩

theorem double_to_int_nat_add_half (n : ℕ) : double_to_int ((n : ℚ) + 1 / 2) = n := by
  have h0 : (0 : ℚ) ≤ (n : ℚ) + 1 / 2 := by positivity
  rw [double_to_int, if_pos h0, Int.floor_eq_iff]
  constructor
  · push_cast; linarith
  · push_cast; linarith

/-- `grid_to_particle` completes when the cell lookup and the interpolations succeed
at every particle. -/
theorem grid_to_particle_completes (I : Interpolation) (f : FLIP)
    (h : ∀ p, p ∈ f.particles_ →
      (f.MACGrid_.index_from_coord p.position.x p.position.y p.position.z).isSome = true ∧
      (I.velocity f.MACGrid_ p.position true).isSome = true ∧
      (I.velocity f.MACGrid_ p.position false).isSome = true) :
    ∃ f', f.grid_to_particle I = some f' := by
  obtain ⟨ps', hps'⟩ := forParticles_isSome
    (FLIP.grid_to_particle_body I f.MACGrid_ f.alpha_) f.particles_
    (fun p hp => grid_to_particle_body_isSome I f.MACGrid_ f.alpha_ p (h p hp).1 (h p hp).2.1
      (h p hp).2.2)
  exact ⟨{ f with particles_ := ps' },
    by simp only [FLIP.grid_to_particle, hps', Option.map_some']⟩

theorem crossGrid_index_centre : crossGrid.index_from_coord 1 1 1 = some (1, 1, 1) := by
  have h := double_to_int_nat_add_half 1
  norm_num at h
  norm_num [Mac3d.index_from_coord, Mac3d.get_grid_size, crossGrid, h]

theorem crossGrid_index_corner : crossGrid.index_from_coord 0 0 0 = some (0, 0, 0) := by
  have h := double_to_int_nat_add_half 0
  norm_num at h
  norm_num [Mac3d.index_from_coord, Mac3d.get_grid_size, crossGrid, h]

/-- C15. `grid_to_particle` completes when `index_from_coord` and the interpolations
succeed at every particle; whenever it completes, the number of particles is unchanged and
particle `n` keeps its position and gets the velocity `v·(1−β) + n − s·(1−β)`, where `v`
is its old velocity, `s` and `n` are the star and the current field interpolated at its
position, and `β = min(1, 2α)` if its cell index is 0 or `count − 1` along some axis,
`β = α` otherwise. -/
theorem grid_to_particle_blend (I : Interpolation) (f : FLIP) :
    ((∀ p, p ∈ f.particles_ →
        (f.MACGrid_.index_from_coord p.position.x p.position.y p.position.z).isSome = true ∧
        (I.velocity f.MACGrid_ p.position true).isSome = true ∧
        (I.velocity f.MACGrid_ p.position false).isSome = true) →
      ∃ f', f.grid_to_particle I = some f') ∧
    ∀ f', f.grid_to_particle I = some f' →
      f'.particles_.length = f.particles_.length ∧
      ∀ (n : ℕ) (p : Particle), f.particles_[n]? = some p →
        ∃ p' idx s n1, f'.particles_[n]? = some p' ∧
          f.MACGrid_.index_from_coord p.position.x p.position.y p.position.z = some idx ∧
          I.velocity f.MACGrid_ p.position true = some s ∧
          I.velocity f.MACGrid_ p.position false = some n1 ∧
          p'.velocity = blend p.velocity s n1 (blendFactor f.MACGrid_ f.alpha_ idx) ∧
          p'.position = p.position := by
  constructor
  · exact grid_to_particle_completes I f
  · intro f' hf'
    simp only [FLIP.grid_to_particle, Option.map_eq_some'] at hf'
    obtain ⟨ps', hps', rfl⟩ := hf'
    refine ⟨forParticles_length _ _ _ hps', ?_⟩
    intro n p hp
    obtain ⟨p', h1, h2⟩ := forParticles_get _ _ _ hps' n p hp
    obtain ⟨idx, s, n1, hidx, hs, hn, rfl⟩ := grid_to_particle_body_spec I _ _ p p' h2
    exact ⟨_, idx, s, n1, h1, hidx, hs, hn, rfl, rfl⟩

/-- C15 at a concrete input: on `blendFLIP` (`α = 1/4`) with the star field interpolating
to 1 and the current field to 2, the particle in the interior cell `(1, 1, 1)` goes from
velocity `(4, 0, 0)` to `4·(3/4) + 2 − 3/4 = 17/4` in `x` and `2 − 3/4 = 5/4` in `y`, `z`;
the particle in the corner cell `(0, 0, 0)` has `β = 1/2` and goes to `(7/2, 3/2, 3/2)`. -/
theorem grid_to_particle_blend_witness :
    ∃ f' p0 p1, blendFLIP.grid_to_particle (constInterpolation 1 2) = some f' ∧
      f'.particles_[0]? = some p0 ∧ p0.velocity = ⟨17 / 4, 5 / 4, 5 / 4⟩ ∧
      f'.particles_[1]? = some p1 ∧ p1.velocity = ⟨7 / 2, 3 / 2, 3 / 2⟩ := by
  have e1 := crossGrid_index_centre
  have e0 := crossGrid_index_corner
  obtain ⟨f', hf'⟩ := (grid_to_particle_blend (constInterpolation 1 2) blendFLIP).1 (by
    intro p hp
    simp only [blendFLIP, List.mem_cons, List.mem_singleton, List.not_mem_nil, or_false] at hp
    rcases hp with rfl | rfl
    · exact ⟨by rw [show blendFLIP.MACGrid_ = crossGrid from rfl, e1]; rfl, rfl, rfl⟩
    · exact ⟨by rw [show blendFLIP.MACGrid_ = crossGrid from rfl, e0]; rfl, rfl, rfl⟩)
  obtain ⟨_, hget⟩ := (grid_to_particle_blend (constInterpolation 1 2) blendFLIP).2 f' hf'
  obtain ⟨p0, idx0, s0, n0, h0, hi0, hs0, hn0, hv0, _⟩ :=
    hget 0 ⟨⟨1, 1, 1⟩, ⟨1, 1, 1⟩, ⟨4, 0, 0⟩⟩ rfl
  obtain ⟨p1, idx1, s1, n1, h1, hi1, hs1, hn1, hv1, _⟩ :=
    hget 1 ⟨⟨0, 0, 0⟩, ⟨0, 0, 0⟩, ⟨4, 0, 0⟩⟩ rfl
  refine ⟨f', p0, p1, hf', h0, ?_, h1, ?_⟩
  · have hi0' : crossGrid.index_from_coord 1 1 1 = some idx0 := hi0
    rw [e1] at hi0'
    simp only [Option.some.injEq] at hi0'
    subst hi0'
    simp only [Interpolation.velocity, constInterpolation, Option.some_bind, Option.map_some',
      Option.some.injEq, if_true, Bool.false_eq_true, if_false] at hs0 hn0
    subst hs0 hn0
    rw [hv0]
    norm_num [blend, blendFactor, blendFLIP, crossGrid]
  · have hi1' : crossGrid.index_from_coord 0 0 0 = some idx1 := hi1
    rw [e0] at hi1'
    simp only [Option.some.injEq] at hi1'
    subst hi1'
    simp only [Interpolation.velocity, constInterpolation, Option.some_bind, Option.map_some',
      Option.some.injEq, if_true, Bool.false_eq_true, if_false] at hs1 hn1
    subst hs1 hn1
    rw [hv1]
    norm_num [blend, blendFactor, blendFLIP, crossGrid]

theorem blend_one (v s n : Vector3d) : blend v s n 1 = n := by
  simp only [blend, sub_self, mul_zero, zero_add, sub_zero]

theorem blendFactor_one (g : Mac3d) (idx : ℕ × ℕ × ℕ) : blendFactor g 1 idx = 1 := by
  unfold blendFactor
  split
  · norm_num
  · rfl

/-- C16. Pure PIC: with `α = 1`, whenever `grid_to_particle` completes, the new velocity of
every particle is the current grid velocity interpolated at its position, whatever its old
velocity, the star field, and its cell (boundary or interior). -/
theorem grid_to_particle_pure_pic (I : Interpolation) (f f' : FLIP) (hα : f.alpha_ = 1)
    (h : f.grid_to_particle I = some f') :
    ∀ (n : ℕ) (p : Particle), f.particles_[n]? = some p →
      ∃ p' n1, f'.particles_[n]? = some p' ∧
        I.velocity f.MACGrid_ p.position false = some n1 ∧ p'.velocity = n1 := by
  simp only [FLIP.grid_to_particle, Option.map_eq_some'] at h
  obtain ⟨ps', hps', rfl⟩ := h
  intro n p hp
  obtain ⟨p', h1, h2⟩ := forParticles_get _ _ _ hps' n p hp
  obtain ⟨idx, s, n1, _, _, hn, rfl⟩ := grid_to_particle_body_spec I _ _ p p' h2
  refine ⟨_, n1, h1, hn, ?_⟩
  show blend p.velocity s n1 (blendFactor f.MACGrid_ f.alpha_ idx) = n1
  rw [hα, blendFactor_one, blend_one]

/-- C16 at a concrete input: on `picFLIP` with the star field interpolating to 1 and the
current field to 2, both particles (interior cell and corner cell, old velocity
`(4, 0, 0)`) end with velocity `(2, 2, 2)`. -/
theorem grid_to_particle_pure_pic_witness :
    ∃ f' p0 p1, picFLIP.grid_to_particle (constInterpolation 1 2) = some f' ∧
      f'.particles_[0]? = some p0 ∧ p0.velocity = ⟨2, 2, 2⟩ ∧
      f'.particles_[1]? = some p1 ∧ p1.velocity = ⟨2, 2, 2⟩ := by
  obtain ⟨f', hf'⟩ := grid_to_particle_completes (constInterpolation 1 2) picFLIP (by
    intro p hp
    simp only [picFLIP, blendFLIP, List.mem_cons, List.mem_singleton, List.not_mem_nil,
      or_false] at hp
    rcases hp with rfl | rfl
    · exact ⟨by rw [show picFLIP.MACGrid_ = crossGrid from rfl, crossGrid_index_centre]; rfl,
        rfl, rfl⟩
    · exact ⟨by rw [show picFLIP.MACGrid_ = crossGrid from rfl, crossGrid_index_corner]; rfl,
        rfl, rfl⟩)
  obtain ⟨p0, n0, h0, hn0, hv0⟩ := grid_to_particle_pure_pic (constInterpolation 1 2) picFLIP f'
    rfl hf' 0 ⟨⟨1, 1, 1⟩, ⟨1, 1, 1⟩, ⟨4, 0, 0⟩⟩ rfl
  obtain ⟨p1, n1, h1, hn1, hv1⟩ := grid_to_particle_pure_pic (constInterpolation 1 2) picFLIP f'
    rfl hf' 1 ⟨⟨0, 0, 0⟩, ⟨0, 0, 0⟩, ⟨4, 0, 0⟩⟩ rfl
  simp only [Interpolation.velocity, constInterpolation, Option.some_bind, Option.map_some',
    Option.some.injEq, Bool.false_eq_true, if_false] at hn0 hn1
  subst hn0 hn1
  exact ⟨f', p0, p1, hf', h0, hv0, h1, hv1⟩

/-! ## Advection: claims C17, C18 -/

theorem floorGrid_index_upper : floorGrid.index_from_coord 0 0 1 = some (0, 0, 1) := by
  have h0 := double_to_int_nat_add_half 0
  have h1 := double_to_int_nat_add_half 1
  norm_num at h0 h1
  norm_num [Mac3d.index_from_coord, Mac3d.get_grid_size, floorGrid, h0, h1]

theorem floorGrid_index_floor : floorGrid.index_from_coord 0 0 0 = some (0, 0, 0) := by
  have h0 := double_to_int_nat_add_half 0
  norm_num at h0
  norm_num [Mac3d.index_from_coord, Mac3d.get_grid_size, floorGrid, h0]

/-- C18 (the code at the failing input). On `floorGrid` (solid floor cell `(0, 0, 0)`), a
particle at `(0, 0, 1)` in the non-solid cell `(0, 0, 1)` moves along `z` only, with the
grid velocity interpolating to `(0, 0, −1)` and `dt = 1`. `advance_particles` completes
and leaves the particle at `(0, 0, 0)`, whose cell `(0, 0, 0)` is the solid floor: the
pull-back did not fire, because the new cell is looked up with the old `z` coordinate. -/
theorem advance_particles_enters_floor :
    floorGrid.index_from_coord 0 0 1 = some (0, 0, 1) ∧
    floorGrid.is_solid 0 0 1 = some false ∧
    FLIP.advance_particles fallInterpolation 1 0 floorFLIP
      = some { floorFLIP with particles_ := [⟨⟨0, 0, 0⟩, ⟨0, 0, 1⟩, ⟨0, 0, -1⟩⟩] } ∧
    floorGrid.index_from_coord 0 0 0 = some (0, 0, 0) ∧
    floorGrid.is_solid 0 0 0 = some true := by
  refine ⟨floorGrid_index_upper, by simp [Mac3d.is_solid, floorGrid], ?_,
    floorGrid_index_floor, by simp [Mac3d.is_solid, floorGrid]⟩
  have hs : FLIP.advance_solid_check floorGrid ⟨0, 0, 1⟩ ⟨0, 0, 0⟩ = some ⟨0, 0, 0⟩ := by
    simp only [FLIP.advance_solid_check, floorGrid_index_upper, Option.some_bind]
    simp [Mac3d.is_solid, floorGrid]
  have hout : FLIP.half_step_outside floorGrid ⟨0, 0, 1 / 2⟩ = false := by
    norm_num [FLIP.half_step_outside, Mac3d.get_grid_size, Mac3d.get_cell_sizex,
      Mac3d.get_cell_sizey, Mac3d.get_cell_sizez, floorGrid]
  have hb : FLIP.advance_particles_body fallInterpolation floorGrid 1
      ⟨⟨0, 0, 1⟩, ⟨0, 0, 1⟩, ⟨0, 0, -1⟩⟩ = some ⟨⟨0, 0, 0⟩, ⟨0, 0, 1⟩, ⟨0, 0, -1⟩⟩ := by
    have e1 : (⟨0, 0, 1⟩ : Vector3d).add ((⟨0, 0, -1⟩ : Vector3d).scale (1 / 2 * 1))
        = ⟨0, 0, 1 / 2⟩ := by
      norm_num [Vector3d.add, Vector3d.scale]
    have e2 : (⟨FLIP.clamp_axis (0 + 1 * 0) floorGrid.get_cell_sizex floorGrid.get_grid_size.x,
        FLIP.clamp_axis (0 + 1 * 0) floorGrid.get_cell_sizey floorGrid.get_grid_size.y,
        FLIP.clamp_axis (1 + 1 * -1) floorGrid.get_cell_sizez floorGrid.get_grid_size.z⟩
          : Vector3d) = ⟨0, 0, 0⟩ := by
      norm_num [FLIP.clamp_axis, Mac3d.get_grid_size, Mac3d.get_cell_sizex,
        Mac3d.get_cell_sizey, Mac3d.get_cell_sizez, floorGrid]
    simp only [FLIP.advance_particles_body, Particle.get_position, Particle.get_velocity, e1,
      hout, Bool.false_eq_true, if_false, fallInterpolation, Option.some_bind, e2, hs,
      Option.map_some', Particle.set_position]
  simp only [FLIP.advance_particles, floorFLIP, forParticles, hb, Option.some_bind,
    Option.map_some']

/-- A nonempty tested interval on an axis means a positive cell size and at least one
cell. -/
theorem axis_nonempty (n : ℕ) (c x : ℚ) (h1 : -(1 / 2) * c < x) (h2 : x < n * c - 1 / 2 * c) :
    0 < c ∧ 1 ≤ n := by
  have hnc : 0 < (n : ℚ) * c := by linarith
  have hc : 0 < c := by
    by_contra hneg
    have hn0 : (0 : ℚ) ≤ n := Nat.cast_nonneg n
    have : (n : ℚ) * c ≤ 0 := mul_nonpos_of_nonneg_of_nonpos hn0 (le_of_not_lt hneg)
    linarith
  refine ⟨hc, ?_⟩
  rcases Nat.eq_zero_or_pos n with h0 | hpos
  · subst h0
    simp at hnc
  · exact hpos

/-- Inside the tested interval of an axis, the cell index is below the cell count. -/
theorem axis_index_lt (n : ℕ) (c x : ℚ) (h1 : -(1 / 2) * c < x) (h2 : x < n * c - 1 / 2 * c) :
    (double_to_int (x / c + 1 / 2)).toNat < n := by
  obtain ⟨hc, hn⟩ := axis_nonempty n c x h1 h2
  have hlo : 0 < x / c + 1 / 2 := by
    have : -(1 / 2) < x / c := by
      rw [lt_div_iff₀ hc]; exact h1
    linarith
  have hhi : x / c + 1 / 2 < n := by
    have : x / c < n - 1 / 2 := by
      rw [div_lt_iff₀ hc]; linarith
    linarith
  rw [double_to_int, if_pos (le_of_lt hlo)]
  have hf : ⌊x / c + 1 / 2⌋ < (n : ℤ) := by
    rw [Int.floor_lt]; exact_mod_cast hhi
  have hf0 : 0 ≤ ⌊x / c + 1 / 2⌋ := Int.floor_nonneg.mpr (le_of_lt hlo)
  omega

theorem index_from_coord_spec (g : Mac3d) (x y z : ℚ) (idx : ℕ × ℕ × ℕ)
    (h : g.index_from_coord x y z = some idx) :
    g.inside ⟨x, y, z⟩ ∧ idx.1 < g.N_ ∧ idx.2.1 < g.M_ ∧ idx.2.2 < g.L_ := by
  unfold Mac3d.index_from_coord at h
  split at h
  · rename_i hin
    simp only [Option.some.injEq] at h
    subst h
    obtain ⟨a1, a2, b1, b2, c1, c2⟩ := hin
    refine ⟨⟨a1, a2, b1, b2, c1, c2⟩, ?_, ?_, ?_⟩
    · exact axis_index_lt g.N_ g.cell_sizex_ x a1 a2
    · exact axis_index_lt g.M_ g.cell_sizey_ y b1 b2
    · exact axis_index_lt g.L_ g.cell_sizez_ z c1 c2
  · exact absurd h (by simp)

theorem index_from_coord_isSome (g : Mac3d) (x : Vector3d) (h : g.inside x) :
    ∃ idx, g.index_from_coord x.x x.y x.z = some idx := by
  unfold Mac3d.inside at h
  unfold Mac3d.index_from_coord
  rw [if_pos h]
  exact ⟨_, rfl⟩

theorem clamp_axis_inside (n : ℕ) (c v : ℚ) (hc : 0 < c) (hn : 1 ≤ n) :
    -(1 / 2) * c < FLIP.clamp_axis v c (n * c) ∧
      FLIP.clamp_axis v c (n * c) < n * c - 1 / 2 * c := by
  have hn1 : (1 : ℚ) ≤ n := by exact_mod_cast hn
  have hnc : c ≤ (n : ℚ) * c := by
    have := mul_le_mul_of_nonneg_right hn1 (le_of_lt hc)
    linarith
  unfold FLIP.clamp_axis
  simp only
  split_ifs with h1 h2
  · constructor <;> linarith
  · constructor <;> linarith
  · constructor
    · exact lt_of_not_le h2
    · exact lt_of_not_le h1

theorem pull_back_inside (prev new n : ℕ) (c pos : ℚ) (hc : 0 < c) (hp : prev < n)
    (hnew : new < n) (hpos : -(1 / 2) * c < pos ∧ pos < n * c - 1 / 2 * c) :
    -(1 / 2) * c < FLIP.pull_back prev new c pos ∧
      FLIP.pull_back prev new c pos < n * c - 1 / 2 * c := by
  unfold FLIP.pull_back
  split_ifs with h1 h2
  · have a1 : (1 : ℚ) ≤ prev := by exact_mod_cast (by omega : 1 ≤ prev)
    have a2 : (prev : ℚ) + 1 ≤ n := by exact_mod_cast (by omega : prev + 1 ≤ n)
    have m1 := mul_pos (show (0 : ℚ) < (prev : ℚ) + 1 / 4 by linarith) hc
    have m2 := mul_pos (show (0 : ℚ) < (n : ℚ) - prev - 1 / 4 by linarith) hc
    constructor <;> linarith
  · have a1 : (0 : ℚ) ≤ prev := Nat.cast_nonneg prev
    have a2 : (prev : ℚ) + 2 ≤ n := by exact_mod_cast (by omega : prev + 2 ≤ n)
    have m1 := mul_pos (show (0 : ℚ) < (prev : ℚ) + 3 / 4 by linarith) hc
    have m2 := mul_pos (show (0 : ℚ) < (n : ℚ) - prev - 3 / 4 by linarith) hc
    constructor <;> linarith
  · exact hpos

theorem advance_solid_check_inside (g : Mac3d) (pos_curr pos_next r : Vector3d)
    (hnext : g.inside pos_next)
    (h : FLIP.advance_solid_check g pos_curr pos_next = some r) : g.inside r := by
  simp only [FLIP.advance_solid_check, Option.bind_eq_some] at h
  obtain ⟨prev, hprev, new, hnew, solid, _, hr⟩ := h
  obtain ⟨_, p1, p2, p3⟩ := index_from_coord_spec g _ _ _ prev hprev
  obtain ⟨_, n1, n2, n3⟩ := index_from_coord_spec g _ _ _ new hnew
  cases solid with
  | false =>
    simp only [Bool.false_eq_true, if_false, Option.some.injEq] at hr
    rw [← hr]
    exact hnext
  | true =>
    simp only [if_true, Option.some.injEq] at hr
    rw [← hr]
    obtain ⟨a1, a2, b1, b2, c1, c2⟩ := hnext
    simp only [Mac3d.get_grid_size] at a2 b2 c2
    have hx := pull_back_inside prev.1 new.1 g.N_ g.cell_sizex_ pos_next.x
      (axis_nonempty _ _ _ a1 a2).1 p1 n1 ⟨a1, a2⟩
    have hy := pull_back_inside prev.2.1 new.2.1 g.M_ g.cell_sizey_ pos_next.y
      (axis_nonempty _ _ _ b1 b2).1 p2 n2 ⟨b1, b2⟩
    have hz := pull_back_inside prev.2.2 new.2.2 g.L_ g.cell_sizez_ pos_next.z
      (axis_nonempty _ _ _ c1 c2).1 p3 n3 ⟨c1, c2⟩
    exact ⟨hx.1, hx.2, hy.1, hy.2, hz.1, hz.2⟩

theorem advance_solid_check_isSome (g : Mac3d) (pos_curr pos_next : Vector3d)
    (hcurr : g.inside pos_curr) (hnext : g.inside pos_next) :
    ∃ r, FLIP.advance_solid_check g pos_curr pos_next = some r := by
  obtain ⟨prev, hprev⟩ := index_from_coord_isSome g pos_curr hcurr
  have hmix : g.inside ⟨pos_next.x, pos_next.y, pos_curr.z⟩ :=
    ⟨hnext.1, hnext.2.1, hnext.2.2.1, hnext.2.2.2.1, hcurr.2.2.2.2.1, hcurr.2.2.2.2.2⟩
  obtain ⟨new, hnew⟩ := index_from_coord_isSome g _ hmix
  obtain ⟨_, n1, n2, n3⟩ := index_from_coord_spec g _ _ _ new hnew
  simp only [FLIP.advance_solid_check, hprev, Option.some_bind, hnew,
    is_solid_eq g new.1 new.2.1 new.2.2 ⟨n1, n2, n3⟩]
  split
  · exact ⟨_, rfl⟩
  · exact ⟨_, rfl⟩

/-- The clamped RK2 estimate lies inside the tested domain. -/
theorem clamped_inside (g : Mac3d) (pos : Vector3d) (hin : g.inside pos) (x y z : ℚ) :
    g.inside ⟨FLIP.clamp_axis x g.get_cell_sizex g.get_grid_size.x,
      FLIP.clamp_axis y g.get_cell_sizey g.get_grid_size.y,
      FLIP.clamp_axis z g.get_cell_sizez g.get_grid_size.z⟩ := by
  obtain ⟨a1, a2, b1, b2, c1, c2⟩ := hin
  simp only [Mac3d.get_grid_size] at a2 b2 c2
  obtain ⟨hcx, hnx⟩ := axis_nonempty _ _ _ a1 a2
  obtain ⟨hcy, hny⟩ := axis_nonempty _ _ _ b1 b2
  obtain ⟨hcz, hnz⟩ := axis_nonempty _ _ _ c1 c2
  have hx := clamp_axis_inside g.N_ g.cell_sizex_ x hcx hnx
  have hy := clamp_axis_inside g.M_ g.cell_sizey_ y hcy hny
  have hz := clamp_axis_inside g.L_ g.cell_sizez_ z hcz hnz
  exact ⟨hx.1, hx.2, hy.1, hy.2, hz.1, hz.2⟩

/-- One particle of `advance_particles`: a particle inside the tested domain stays inside,
and its velocity is not touched. -/
theorem advance_particles_body_inside (I : Interpolation) (g : Mac3d) (dt : ℚ)
    (p p' : Particle) (hin : g.inside p.position)
    (h : FLIP.advance_particles_body I g dt p = some p') :
    g.inside p'.position ∧ p'.velocity = p.velocity := by
  unfold FLIP.advance_particles_body at h
  simp only at h
  split at h
  · simp only [Option.some.injEq] at h
    subst h
    exact ⟨hin, rfl⟩
  · simp only [Option.bind_eq_some, Option.map_eq_some'] at h
    obtain ⟨iu, _, iv, _, iw, _, r, hr, rfl⟩ := h
    exact ⟨advance_solid_check_inside g _ _ r (clamped_inside g p.position hin _ _ _) hr, rfl⟩

theorem advance_particles_body_isSome (I : Interpolation) (g : Mac3d) (dt : ℚ) (p : Particle)
    (hin : g.inside p.position)
    (hI : ∀ x y z, (I.get_interp_u g x y z false).isSome = true ∧
      (I.get_interp_v g x y z false).isSome = true ∧
      (I.get_interp_w g x y z false).isSome = true) :
    ∃ p', FLIP.advance_particles_body I g dt p = some p' := by
  unfold FLIP.advance_particles_body
  simp only
  split
  · exact ⟨p, rfl⟩
  · have hI' := hI (p.get_position.add (p.get_velocity.scale (1 / 2 * dt))).x
      (p.get_position.add (p.get_velocity.scale (1 / 2 * dt))).y
      (p.get_position.add (p.get_velocity.scale (1 / 2 * dt))).z
    obtain ⟨iu, hu⟩ := Option.isSome_iff_exists.mp hI'.1
    obtain ⟨iv, hv⟩ := Option.isSome_iff_exists.mp hI'.2.1
    obtain ⟨iw, hw⟩ := Option.isSome_iff_exists.mp hI'.2.2
    obtain ⟨r, hr⟩ := advance_solid_check_isSome g p.get_position _ hin
      (clamped_inside g p.position hin (p.get_position.x + dt * iu)
        (p.get_position.y + dt * iv) (p.get_position.z + dt * iw))
    simp only [hu, hv, hw, Option.some_bind, hr, Option.map_some']
    exact ⟨_, rfl⟩

/-- C17. `advance_particles` keeps particles inside the domain it tests. When every
particle lies strictly inside (`−0.5·cell < c < size − 0.5·cell` on each axis) and the
interpolation does not fault, the call completes; and whenever it completes, every
particle that was strictly inside before the call is strictly inside after it, for every
`dt` and every interpolated velocity, also when the clamp or the solid pull-back fires. -/
theorem advance_particles_stays_inside (I : Interpolation) (f : FLIP) (dt : ℚ) (step : ℕ) :
    ((∀ p, p ∈ f.particles_ → f.MACGrid_.inside p.position) →
      (∀ x y z, (I.get_interp_u f.MACGrid_ x y z false).isSome = true ∧
        (I.get_interp_v f.MACGrid_ x y z false).isSome = true ∧
        (I.get_interp_w f.MACGrid_ x y z false).isSome = true) →
      ∃ f', FLIP.advance_particles I dt step f = some f') ∧
    ∀ f', FLIP.advance_particles I dt step f = some f' →
      f'.MACGrid_ = f.MACGrid_ ∧
      ∀ (n : ℕ) (p : Particle), f.particles_[n]? = some p → f.MACGrid_.inside p.position →
        ∃ p', f'.particles_[n]? = some p' ∧ f.MACGrid_.inside p'.position := by
  constructor
  · intro hin hI
    obtain ⟨ps', hps'⟩ := forParticles_isSome (FLIP.advance_particles_body I f.MACGrid_ dt)
      f.particles_ (fun p hp => advance_particles_body_isSome I f.MACGrid_ dt p (hin p hp) hI)
    exact ⟨{ f with particles_ := ps' },
      by simp only [FLIP.advance_particles, hps', Option.map_some']⟩
  · intro f' hf'
    simp only [FLIP.advance_particles, Option.map_eq_some'] at hf'
    obtain ⟨ps', hps', rfl⟩ := hf'
    refine ⟨rfl, ?_⟩
    intro n p hp hin
    obtain ⟨p', h1, h2⟩ := forParticles_get _ _ _ hps' n p hp
    exact ⟨p', h1, (advance_particles_body_inside I f.MACGrid_ dt p p' hin h2).1⟩

/-- C17 at a concrete input: on `floorFLIP` with the grid velocity interpolating to
`(−3, −3, −3)` and `dt = 1`, the RK2 estimate `(−3, −3, −2)` leaves the domain on all
three axes; the call completes and the particle ends strictly inside the domain. -/
theorem advance_particles_stays_inside_witness :
    ∃ f' p', FLIP.advance_particles (constInterpolation 0 (-3)) 1 0 floorFLIP = some f' ∧
      f'.particles_[0]? = some p' ∧ floorGrid.inside p'.position := by
  have hin : floorGrid.inside ⟨0, 0, 1⟩ := by
    norm_num [Mac3d.inside, Mac3d.get_grid_size, floorGrid]
  obtain ⟨f', hf'⟩ := (advance_particles_stays_inside (constInterpolation 0 (-3)) floorFLIP
    1 0).1 (by
      intro p hp
      simp only [floorFLIP, List.mem_singleton] at hp
      subst hp
      exact hin) (fun _ _ _ => ⟨rfl, rfl, rfl⟩)
  obtain ⟨_, hget⟩ := (advance_particles_stays_inside (constInterpolation 0 (-3)) floorFLIP
    1 0).2 f' hf'
  obtain ⟨p', h1, h2⟩ := hget 0 ⟨⟨0, 0, 1⟩, ⟨0, 0, 1⟩, ⟨0, 0, -1⟩⟩ rfl hin
  exact ⟨f', p', hf', h1, h2⟩

/-! ## Particle to grid: claims C13, C14 -/

theorem get_weights_u_eq (g : Mac3d) (i j k : ℕ) (h : i < g.N_ + 1 ∧ j < g.M_ ∧ k < g.L_) :
    g.get_weights_u i j k = some (g.pweights_u_ i j k) := by
  simp only [Mac3d.get_weights_u, h, and_self, if_true]

theorem get_weights_v_eq (g : Mac3d) (i j k : ℕ) (h : i < g.N_ ∧ j < g.M_ + 1 ∧ k < g.L_) :
    g.get_weights_v i j k = some (g.pweights_v_ i j k) := by
  simp only [Mac3d.get_weights_v, h, and_self, if_true]

theorem get_weights_w_eq (g : Mac3d) (i j k : ℕ) (h : i < g.N_ ∧ j < g.M_ ∧ k < g.L_ + 1) :
    g.get_weights_w i j k = some (g.pweights_w_ i j k) := by
  simp only [Mac3d.get_weights_w, h, and_self, if_true]

theorem set_weights_u_eq (g : Mac3d) (i j k : ℕ) (x : ℚ)
    (h : i < g.N_ + 1 ∧ j < g.M_ ∧ k < g.L_) :
    g.set_weights_u i j k x = some { g with pweights_u_ := write3 g.pweights_u_ i j k x } := by
  simp only [Mac3d.set_weights_u, h, and_self, if_true]

theorem set_weights_v_eq (g : Mac3d) (i j k : ℕ) (x : ℚ)
    (h : i < g.N_ ∧ j < g.M_ + 1 ∧ k < g.L_) :
    g.set_weights_v i j k x = some { g with pweights_v_ := write3 g.pweights_v_ i j k x } := by
  simp only [Mac3d.set_weights_v, h, and_self, if_true]

theorem set_weights_w_eq (g : Mac3d) (i j k : ℕ) (x : ℚ)
    (h : i < g.N_ ∧ j < g.M_ ∧ k < g.L_ + 1) :
    g.set_weights_w i j k x = some { g with pweights_w_ := write3 g.pweights_w_ i j k x } := by
  simp only [Mac3d.set_weights_w, h, and_self, if_true]

/-- `accumulate_u` on a face inside the shape of `u`. -/
theorem accumulate_u_eq (pos vel gc : Vector3d) (h : ℚ) (i j k : ℤ) (g : Mac3d)
    (hb : i.toNat < g.N_ + 1 ∧ j.toNat < g.M_ ∧ k.toNat < g.L_) :
    FLIP.accumulate_u pos vel gc h i j k g = some
      (if FLIP.check_threshold pos gc h = true then
        { g with
          pu_ := write3 g.pu_ i.toNat j.toNat k.toNat
            (g.pu_ i.toNat j.toNat k.toNat + FLIP.compute_weight pos gc h * vel.x)
          pweights_u_ := write3 g.pweights_u_ i.toNat j.toNat k.toNat
            (g.pweights_u_ i.toNat j.toNat k.toNat + FLIP.compute_weight pos gc h) }
      else g) := by
  unfold FLIP.accumulate_u
  by_cases ht : FLIP.check_threshold pos gc h = true
  · simp only [ht, if_true, get_u_eq g _ _ _ hb, Option.some_bind, set_u_eq g _ _ _ _ hb,
      Mac3d.get_weights_u, Mac3d.set_weights_u, hb, and_self]
  · simp only [ht, if_false, Bool.false_eq_true]

/-- `accumulate_v` on a face inside the shape of `v`. -/
theorem accumulate_v_eq (pos vel gc : Vector3d) (h : ℚ) (i j k : ℤ) (g : Mac3d)
    (hb : i.toNat < g.N_ ∧ j.toNat < g.M_ + 1 ∧ k.toNat < g.L_) :
    FLIP.accumulate_v pos vel gc h i j k g = some
      (if FLIP.check_threshold pos gc h = true then
        { g with
          pv_ := write3 g.pv_ i.toNat j.toNat k.toNat
            (g.pv_ i.toNat j.toNat k.toNat + FLIP.compute_weight pos gc h * vel.y)
          pweights_v_ := write3 g.pweights_v_ i.toNat j.toNat k.toNat
            (g.pweights_v_ i.toNat j.toNat k.toNat + FLIP.compute_weight pos gc h) }
      else g) := by
  unfold FLIP.accumulate_v
  by_cases ht : FLIP.check_threshold pos gc h = true
  · simp only [ht, if_true, get_v_eq g _ _ _ hb, Option.some_bind, set_v_eq g _ _ _ _ hb,
      Mac3d.get_weights_v, Mac3d.set_weights_v, hb, and_self]
  · simp only [ht, if_false, Bool.false_eq_true]

/-- `accumulate_w` on a face inside the shape of `w`. -/
theorem accumulate_w_eq (pos vel gc : Vector3d) (h : ℚ) (i j k : ℤ) (g : Mac3d)
    (hb : i.toNat < g.N_ ∧ j.toNat < g.M_ ∧ k.toNat < g.L_ + 1) :
    FLIP.accumulate_w pos vel gc h i j k g = some
      (if FLIP.check_threshold pos gc h = true then
        { g with
          pw_ := write3 g.pw_ i.toNat j.toNat k.toNat
            (g.pw_ i.toNat j.toNat k.toNat + FLIP.compute_weight pos gc h * vel.z)
          pweights_w_ := write3 g.pweights_w_ i.toNat j.toNat k.toNat
            (g.pweights_w_ i.toNat j.toNat k.toNat + FLIP.compute_weight pos gc h) }
      else g) := by
  unfold FLIP.accumulate_w
  by_cases ht : FLIP.check_threshold pos gc h = true
  · simp only [ht, if_true, get_w_eq g _ _ _ hb, Option.some_bind, set_w_eq g _ _ _ _ hb,
      Mac3d.get_weights_w, Mac3d.set_weights_w, hb, and_self]
  · simp only [ht, if_false, Bool.false_eq_true]

theorem accumulated_congr (g : Mac3d) (vel : Vector3d) (A B C A' B' C' : ℕ → ℕ → ℕ → ℚ)
    (hA : ∀ a b e, A a b e = A' a b e) (hB : ∀ a b e, B a b e = B' a b e)
    (hC : ∀ a b e, C a b e = C' a b e) :
    g.accumulated vel A B C = g.accumulated vel A' B' C' := by
  have eA : A = A' := by funext a b e; exact hA a b e
  have eB : B = B' := by funext a b e; exact hB a b e
  have eC : C = C' := by funext a b e; exact hC a b e
  rw [eA, eB, eC]

theorem accumulated_zero (g : Mac3d) (vel : Vector3d) :
    g.accumulated vel (fun _ _ _ => 0) (fun _ _ _ => 0) (fun _ _ _ => 0) = g := by
  simp only [Mac3d.accumulated, zero_mul, add_zero]

theorem accumulated_accumulated (g : Mac3d) (vel : Vector3d)
    (A B C A' B' C' : ℕ → ℕ → ℕ → ℚ) :
    (g.accumulated vel A B C).accumulated vel A' B' C'
      = g.accumulated vel (fun a b e => A a b e + A' a b e) (fun a b e => B a b e + B' a b e)
          (fun a b e => C a b e + C' a b e) := by
  simp only [Mac3d.accumulated, add_mul, add_assoc]

/-- The first accumulation of the body of the innermost loop, under its bounds test. -/
theorem transfer_point_u (pos vel : Vector3d) (h : ℚ) (i j k : ℤ) (g s : Mac3d)
    (hN : s.N_ = g.N_) (hM : s.M_ = g.M_) (hL : s.L_ = g.L_)
    (hnn : i ≥ 0 ∧ j ≥ 0 ∧ k ≥ 0) :
    (if i ≤ (g.N_ : ℤ) ∧ j < (g.M_ : ℤ) ∧ k < (g.L_ : ℤ) then
        FLIP.accumulate_u pos vel (FLIP.u_coord g i j k) h i j k s
      else some s)
      = some (s.accumulated vel (FLIP.point_weight_u g pos h i j k) (fun _ _ _ => 0)
          (fun _ _ _ => 0)) := by
  by_cases hg : i ≤ (g.N_ : ℤ) ∧ j < (g.M_ : ℤ) ∧ k < (g.L_ : ℤ)
  · rw [if_pos hg, accumulate_u_eq pos vel _ h i j k s
      ⟨by rw [hN]; omega, by rw [hM]; omega, by rw [hL]; omega⟩]
    congr 1
    by_cases ht : FLIP.check_threshold pos (FLIP.u_coord g i j k) h = true
    · rw [if_pos ht]
      simp only [Mac3d.accumulated, FLIP.point_weight_u, hnn, hg, ht, and_self, true_and,
        zero_mul, add_zero]
      congr 1 <;> funext a b e <;> simp only [write3] <;>
        by_cases hc : a = i.toNat ∧ b = j.toNat ∧ e = k.toNat
      · obtain ⟨rfl, rfl, rfl⟩ := hc
        simp only [and_self, if_true]
      · simp only [hc, if_false, zero_mul, add_zero]
      · obtain ⟨rfl, rfl, rfl⟩ := hc
        simp only [and_self, if_true]
      · simp only [hc, if_false, add_zero]
    · rw [if_neg ht]
      rw [accumulated_congr s vel (FLIP.point_weight_u g pos h i j k) _ _ (fun _ _ _ => 0) _ _
        (fun a b e => by simp only [FLIP.point_weight_u, ht, false_and, and_false, if_false,
          Bool.false_eq_true])
        (fun _ _ _ => rfl) (fun _ _ _ => rfl), accumulated_zero]
  · rw [if_neg hg]
    rw [accumulated_congr s vel (FLIP.point_weight_u g pos h i j k) _ _ (fun _ _ _ => 0) _ _
      (fun a b e => by simp only [FLIP.point_weight_u, hg, false_and, and_false, if_false])
      (fun _ _ _ => rfl) (fun _ _ _ => rfl), accumulated_zero]

/-- The second accumulation of the body of the innermost loop, under its bounds test. -/
theorem transfer_point_v (pos vel : Vector3d) (h : ℚ) (i j k : ℤ) (g s : Mac3d)
    (hN : s.N_ = g.N_) (hM : s.M_ = g.M_) (hL : s.L_ = g.L_)
    (hnn : i ≥ 0 ∧ j ≥ 0 ∧ k ≥ 0) :
    (if i < (g.N_ : ℤ) ∧ j ≤ (g.M_ : ℤ) ∧ k < (g.L_ : ℤ) then
        FLIP.accumulate_v pos vel (FLIP.v_coord g i j k) h i j k s
      else some s)
      = some (s.accumulated vel (fun _ _ _ => 0) (FLIP.point_weight_v g pos h i j k)
          (fun _ _ _ => 0)) := by
  by_cases hg : i < (g.N_ : ℤ) ∧ j ≤ (g.M_ : ℤ) ∧ k < (g.L_ : ℤ)
  · rw [if_pos hg, accumulate_v_eq pos vel _ h i j k s
      ⟨by rw [hN]; omega, by rw [hM]; omega, by rw [hL]; omega⟩]
    congr 1
    by_cases ht : FLIP.check_threshold pos (FLIP.v_coord g i j k) h = true
    · rw [if_pos ht]
      simp only [Mac3d.accumulated, FLIP.point_weight_v, hnn, hg, ht, and_self, true_and,
        zero_mul, add_zero]
      congr 1 <;> funext a b e <;> simp only [write3] <;>
        by_cases hc : a = i.toNat ∧ b = j.toNat ∧ e = k.toNat
      · obtain ⟨rfl, rfl, rfl⟩ := hc
        simp only [and_self, if_true]
      · simp only [hc, if_false, zero_mul, add_zero]
      · obtain ⟨rfl, rfl, rfl⟩ := hc
        simp only [and_self, if_true]
      · simp only [hc, if_false, add_zero]
    · rw [if_neg ht]
      rw [accumulated_congr s vel _ (FLIP.point_weight_v g pos h i j k) _ _ (fun _ _ _ => 0) _
        (fun _ _ _ => rfl)
        (fun a b e => by simp only [FLIP.point_weight_v, ht, false_and, and_false, if_false,
          Bool.false_eq_true])
        (fun _ _ _ => rfl), accumulated_zero]
  · rw [if_neg hg]
    rw [accumulated_congr s vel _ (FLIP.point_weight_v g pos h i j k) _ _ (fun _ _ _ => 0) _
      (fun _ _ _ => rfl)
      (fun a b e => by simp only [FLIP.point_weight_v, hg, false_and, and_false, if_false])
      (fun _ _ _ => rfl), accumulated_zero]

/-- The third accumulation of the body of the innermost loop, under its bounds test. -/
theorem transfer_point_w (pos vel : Vector3d) (h : ℚ) (i j k : ℤ) (g s : Mac3d)
    (hN : s.N_ = g.N_) (hM : s.M_ = g.M_) (hL : s.L_ = g.L_)
    (hnn : i ≥ 0 ∧ j ≥ 0 ∧ k ≥ 0) :
    (if i < (g.N_ : ℤ) ∧ j < (g.M_ : ℤ) ∧ k ≤ (g.L_ : ℤ) then
        FLIP.accumulate_w pos vel (FLIP.w_coord g i j k) h i j k s
      else some s)
      = some (s.accumulated vel (fun _ _ _ => 0) (fun _ _ _ => 0)
          (FLIP.point_weight_w g pos h i j k)) := by
  by_cases hg : i < (g.N_ : ℤ) ∧ j < (g.M_ : ℤ) ∧ k ≤ (g.L_ : ℤ)
  · rw [if_pos hg, accumulate_w_eq pos vel _ h i j k s
      ⟨by rw [hN]; omega, by rw [hM]; omega, by rw [hL]; omega⟩]
    congr 1
    by_cases ht : FLIP.check_threshold pos (FLIP.w_coord g i j k) h = true
    · rw [if_pos ht]
      simp only [Mac3d.accumulated, FLIP.point_weight_w, hnn, hg, ht, and_self, true_and,
        zero_mul, add_zero]
      congr 1 <;> funext a b e <;> simp only [write3] <;>
        by_cases hc : a = i.toNat ∧ b = j.toNat ∧ e = k.toNat
      · obtain ⟨rfl, rfl, rfl⟩ := hc
        simp only [and_self, if_true]
      · simp only [hc, if_false, zero_mul, add_zero]
      · obtain ⟨rfl, rfl, rfl⟩ := hc
        simp only [and_self, if_true]
      · simp only [hc, if_false, add_zero]
    · rw [if_neg ht]
      rw [accumulated_congr s vel _ _ (FLIP.point_weight_w g pos h i j k) _ _ (fun _ _ _ => 0)
        (fun _ _ _ => rfl)
        (fun _ _ _ => rfl)
        (fun a b e => by simp only [FLIP.point_weight_w, ht, false_and, and_false, if_false,
          Bool.false_eq_true]), accumulated_zero]
  · rw [if_neg hg]
    rw [accumulated_congr s vel _ _ (FLIP.point_weight_w g pos h i j k) _ _ (fun _ _ _ => 0)
      (fun _ _ _ => rfl)
      (fun _ _ _ => rfl)
      (fun a b e => by simp only [FLIP.point_weight_w, hg, false_and, and_false, if_false]), accumulated_zero]

/-- The body of the innermost loop of the particle loop never faults: it adds the weights
of the grid point to the three faces of that index. -/
theorem transfer_point_eq (pos vel : Vector3d) (h : ℚ) (i j k : ℤ) (g : Mac3d) :
    FLIP.transfer_point pos vel h i j k g
      = some (g.accumulated vel (FLIP.point_weight_u g pos h i j k)
          (FLIP.point_weight_v g pos h i j k) (FLIP.point_weight_w g pos h i j k)) := by
  unfold FLIP.transfer_point
  simp only [Mac3d.get_num_cells_x, Mac3d.get_num_cells_y, Mac3d.get_num_cells_z]
  by_cases hnn : i ≥ 0 ∧ j ≥ 0 ∧ k ≥ 0
  · rw [if_pos hnn]
    have h1 := transfer_point_u pos vel h i j k g g rfl rfl rfl hnn
    have h2 := transfer_point_v pos vel h i j k g
      (g.accumulated vel (FLIP.point_weight_u g pos h i j k) (fun _ _ _ => 0) (fun _ _ _ => 0))
      rfl rfl rfl hnn
    have h3 := transfer_point_w pos vel h i j k g
      ((g.accumulated vel (FLIP.point_weight_u g pos h i j k) (fun _ _ _ => 0)
        (fun _ _ _ => 0)).accumulated vel (fun _ _ _ => 0) (FLIP.point_weight_v g pos h i j k)
        (fun _ _ _ => 0))
      rfl rfl rfl hnn
    simp only [FLIP.u_coord, FLIP.v_coord, FLIP.w_coord] at h1 h2 h3
    rw [h1, Option.some_bind, h2, Option.some_bind, h3, accumulated_accumulated,
      accumulated_accumulated]
    congr 1
    exact accumulated_congr g vel _ _ _ _ _ _ (fun _ _ _ => by simp only [add_zero])
      (fun _ _ _ => by simp only [zero_add, add_zero]) (fun _ _ _ => by simp only [zero_add])
  · rw [if_neg hnn]
    congr 1
    rw [accumulated_congr g vel _ _ _ (fun _ _ _ => 0) (fun _ _ _ => 0) (fun _ _ _ => 0)
      (fun a b e => by simp only [FLIP.point_weight_u, hnn, false_and, if_false])
      (fun a b e => by simp only [FLIP.point_weight_v, hnn, false_and, if_false])
      (fun a b e => by simp only [FLIP.point_weight_w, hnn, false_and, if_false]),
      accumulated_zero]

/-- The three nested loops around a particle never fault; they add, to every face, the
weights of the grid points of the window. -/
theorem transfer_window_eq (pos vel : Vector3d) (h : ℚ) (lo_i hi_i lo_j hi_j lo_k hi_k : ℤ)
    (g : Mac3d) :
    forRange lo_k hi_k (fun k => forRange lo_j hi_j (fun j => forRange lo_i hi_i
        (fun i => FLIP.transfer_point pos vel h i j k))) g
      = some (g.accumulated vel
          (FLIP.window_weight_u g pos h lo_i lo_j lo_k (hi_i + 1 - lo_i).toNat
            (hi_j + 1 - lo_j).toNat (hi_k + 1 - lo_k).toNat)
          (FLIP.window_weight_v g pos h lo_i lo_j lo_k (hi_i + 1 - lo_i).toNat
            (hi_j + 1 - lo_j).toNat (hi_k + 1 - lo_k).toNat)
          (FLIP.window_weight_w g pos h lo_i lo_j lo_k (hi_i + 1 - lo_i).toNat
            (hi_j + 1 - lo_j).toNat (hi_k + 1 - lo_k).toNat)) := by
  generalize hwi : (hi_i + 1 - lo_i).toNat = wi
  generalize hwj : (hi_j + 1 - lo_j).toNat = wj
  generalize hwk : (hi_k + 1 - lo_k).toNat = wk
  have hnest : forRange lo_k hi_k (fun k => forRange lo_j hi_j (fun j => forRange lo_i hi_i
        (fun i => FLIP.transfer_point pos vel h i j k))) g
      = forLoop3 wi wj wk (fun ti tj tk =>
          FLIP.transfer_point pos vel h (lo_i + ti) (lo_j + tj) (lo_k + tk)) g := by
    subst hwi hwj hwk
    rfl
  rw [hnest]
  obtain ⟨s', h1, h2⟩ := forLoop3_progress wi wj wk
    (fun ti tj tk => FLIP.transfer_point pos vel h (lo_i + ti) (lo_j + tj) (lo_k + tk))
    (fun c s => s = g.accumulated vel
      (fun a b e => sum3 wi wj wk (fun ti tj tk => if cellIndex wi wj ti tj tk < c then
        FLIP.point_weight_u g pos h (lo_i + ti) (lo_j + tj) (lo_k + tk) a b e else 0))
      (fun a b e => sum3 wi wj wk (fun ti tj tk => if cellIndex wi wj ti tj tk < c then
        FLIP.point_weight_v g pos h (lo_i + ti) (lo_j + tj) (lo_k + tk) a b e else 0))
      (fun a b e => sum3 wi wj wk (fun ti tj tk => if cellIndex wi wj ti tj tk < c then
        FLIP.point_weight_w g pos h (lo_i + ti) (lo_j + tj) (lo_k + tk) a b e else 0)))
    (fun ti tj tk hti htj htk s hs => by
      refine ⟨_, transfer_point_eq pos vel h _ _ _ s, ?_⟩
      have hs' : s = g.accumulated vel _ _ _ := hs
      subst hs'
      show Mac3d.accumulated _ _ _ _ _ = _
      rw [accumulated_accumulated]
      refine accumulated_congr g vel _ _ _ _ _ _ (fun a b e => ?_) (fun a b e => ?_)
        (fun a b e => ?_)
      · exact (sum3_below_succ wi wj wk (fun ti tj tk =>
          FLIP.point_weight_u g pos h (lo_i + ti) (lo_j + tj) (lo_k + tk) a b e)
          ti tj tk hti htj htk).symm
      · exact (sum3_below_succ wi wj wk (fun ti tj tk =>
          FLIP.point_weight_v g pos h (lo_i + ti) (lo_j + tj) (lo_k + tk) a b e)
          ti tj tk hti htj htk).symm
      · exact (sum3_below_succ wi wj wk (fun ti tj tk =>
          FLIP.point_weight_w g pos h (lo_i + ti) (lo_j + tj) (lo_k + tk) a b e)
          ti tj tk hti htj htk).symm)
    g (Eq.symm ((accumulated_congr g vel _ _ _ (fun _ _ _ => 0) (fun _ _ _ => 0)
        (fun _ _ _ => 0)
        (fun a b e => by simp only [Nat.not_lt_zero, if_false, sum3, Finset.sum_const_zero])
        (fun a b e => by simp only [Nat.not_lt_zero, if_false, sum3, Finset.sum_const_zero])
        (fun a b e => by simp only [Nat.not_lt_zero, if_false, sum3, Finset.sum_const_zero])).trans
        (accumulated_zero g vel)))
  rw [h1, h2]
  congr 1
  exact accumulated_congr g vel _ _ _ _ _ _
    (fun a b e => sum3_below_all wi wj wk _) (fun a b e => sum3_below_all wi wj wk _)
    (fun a b e => sum3_below_all wi wj wk _)

/-- A sum over an index window whose terms vanish away from the window point that is the
face `(a, b, e)`. -/
theorem sum3_window_point (wi wj wk : ℕ) (lo_i lo_j lo_k : ℤ) (G : ℤ → ℤ → ℤ → ℚ)
    (a b e : ℕ) :
    sum3 wi wj wk (fun ti tj tk =>
        if (lo_i + ti ≥ 0 ∧ lo_j + tj ≥ 0 ∧ lo_k + tk ≥ 0) ∧
            (a = (lo_i + ti).toNat ∧ b = (lo_j + tj).toNat ∧ e = (lo_k + tk).toNat)
        then G (lo_i + ti) (lo_j + tj) (lo_k + tk) else 0)
      = if (lo_i ≤ a ∧ (a : ℤ) < lo_i + wi) ∧ (lo_j ≤ b ∧ (b : ℤ) < lo_j + wj) ∧
            (lo_k ≤ e ∧ (e : ℤ) < lo_k + wk)
        then G a b e else 0 := by
  by_cases hin : (lo_i ≤ a ∧ (a : ℤ) < lo_i + wi) ∧ (lo_j ≤ b ∧ (b : ℤ) < lo_j + wj) ∧
      (lo_k ≤ e ∧ (e : ℤ) < lo_k + wk)
  · rw [if_pos hin]
    obtain ⟨⟨a1, a2⟩, ⟨b1, b2⟩, ⟨e1, e2⟩⟩ := hin
    have ea : lo_i + (((a : ℤ) - lo_i).toNat : ℤ) = a := by omega
    have eb : lo_j + (((b : ℤ) - lo_j).toNat : ℤ) = b := by omega
    have ee : lo_k + (((e : ℤ) - lo_k).toNat : ℤ) = e := by omega
    rw [sum3_single wi wj wk _ ((a : ℤ) - lo_i).toNat ((b : ℤ) - lo_j).toNat
      ((e : ℤ) - lo_k).toNat (by omega) (by omega) (by omega)]
    · simp only [ea, eb, ee, Int.toNat_ofNat, and_self, ge_iff_le, Int.ofNat_zero_le, if_true]
    · intro ti tj tk _ _ _ hne
      rw [if_neg]
      rintro ⟨⟨n1, n2, n3⟩, c1, c2, c3⟩
      exact hne ⟨by omega, by omega, by omega⟩
  · rw [if_neg hin]
    refine sum3_zero wi wj wk _ (fun ti tj tk hti htj htk => ?_)
    rw [if_neg]
    rintro ⟨⟨n1, n2, n3⟩, c1, c2, c3⟩
    exact hin ⟨⟨by omega, by omega⟩, ⟨by omega, by omega⟩, ⟨by omega, by omega⟩⟩

/-- The weight added to the `u` face `(a, b, e)` by the loops around a particle: the
kernel weight if the face lies in the index window, in the shape of `u` and within the
radius, 0 otherwise. -/
theorem window_weight_u_eq (g : Mac3d) (pos : Vector3d) (h : ℚ) (lo_i lo_j lo_k : ℤ)
    (wi wj wk : ℕ) (a b e : ℕ) :
    FLIP.window_weight_u g pos h lo_i lo_j lo_k wi wj wk a b e
      = if ((lo_i ≤ a ∧ (a : ℤ) < lo_i + wi) ∧ (lo_j ≤ b ∧ (b : ℤ) < lo_j + wj) ∧
            (lo_k ≤ e ∧ (e : ℤ) < lo_k + wk)) ∧
          (a ≤ g.N_ ∧ b < g.M_ ∧ e < g.L_) ∧
          FLIP.check_threshold pos (FLIP.u_coord g a b e) h = true
        then FLIP.compute_weight pos (FLIP.u_coord g a b e) h else 0 := by
  unfold FLIP.window_weight_u
  have hG := sum3_window_point wi wj wk lo_i lo_j lo_k
    (fun i j k => if (i ≤ (g.N_ : ℤ) ∧ j < (g.M_ : ℤ) ∧ k < (g.L_ : ℤ)) ∧
        FLIP.check_threshold pos (FLIP.u_coord g i j k) h = true
      then FLIP.compute_weight pos (FLIP.u_coord g i j k) h else 0) a b e
  rw [sum3_congr wi wj wk _ _ (fun ti tj tk _ _ _ => ?_), hG]
  · simp only [Nat.cast_le, Nat.cast_lt, ← ite_and]
  · simp only [FLIP.point_weight_u]
    by_cases c1 : (lo_i + ti ≥ 0 ∧ lo_j + tj ≥ 0 ∧ lo_k + tk ≥ 0) ∧
        (a = (lo_i + ti).toNat ∧ b = (lo_j + tj).toNat ∧ e = (lo_k + tk).toNat)
    · rw [if_pos c1]
      by_cases c2 : (lo_i + ↑ti ≤ (g.N_ : ℤ) ∧ lo_j + ↑tj < (g.M_ : ℤ) ∧ lo_k + ↑tk < (g.L_ : ℤ))
          ∧ FLIP.check_threshold pos (FLIP.u_coord g (lo_i + ti) (lo_j + tj) (lo_k + tk)) h = true
      · rw [if_pos c2, if_pos ⟨c1.1, c2.1, c2.2, c1.2⟩]
      · rw [if_neg c2, if_neg (fun hc => c2 ⟨hc.2.1, hc.2.2.1⟩)]
    · rw [if_neg c1, if_neg (fun hc => c1 ⟨hc.1, hc.2.2.2⟩)]

/-- The weight added to the `v` face `(a, b, e)` by the loops around a particle: the
kernel weight if the face lies in the index window, in the shape of `v` and within the
radius, 0 otherwise. -/
theorem window_weight_v_eq (g : Mac3d) (pos : Vector3d) (h : ℚ) (lo_i lo_j lo_k : ℤ)
    (wi wj wk : ℕ) (a b e : ℕ) :
    FLIP.window_weight_v g pos h lo_i lo_j lo_k wi wj wk a b e
      = if ((lo_i ≤ a ∧ (a : ℤ) < lo_i + wi) ∧ (lo_j ≤ b ∧ (b : ℤ) < lo_j + wj) ∧
            (lo_k ≤ e ∧ (e : ℤ) < lo_k + wk)) ∧
          (a < g.N_ ∧ b ≤ g.M_ ∧ e < g.L_) ∧
          FLIP.check_threshold pos (FLIP.v_coord g a b e) h = true
        then FLIP.compute_weight pos (FLIP.v_coord g a b e) h else 0 := by
  unfold FLIP.window_weight_v
  have hG := sum3_window_point wi wj wk lo_i lo_j lo_k
    (fun i j k => if (i < (g.N_ : ℤ) ∧ j ≤ (g.M_ : ℤ) ∧ k < (g.L_ : ℤ)) ∧
        FLIP.check_threshold pos (FLIP.v_coord g i j k) h = true
      then FLIP.compute_weight pos (FLIP.v_coord g i j k) h else 0) a b e
  rw [sum3_congr wi wj wk _ _ (fun ti tj tk _ _ _ => ?_), hG]
  · simp only [Nat.cast_le, Nat.cast_lt, ← ite_and]
  · simp only [FLIP.point_weight_v]
    by_cases c1 : (lo_i + ti ≥ 0 ∧ lo_j + tj ≥ 0 ∧ lo_k + tk ≥ 0) ∧
        (a = (lo_i + ti).toNat ∧ b = (lo_j + tj).toNat ∧ e = (lo_k + tk).toNat)
    · rw [if_pos c1]
      by_cases c2 : (lo_i + ↑ti < (g.N_ : ℤ) ∧ lo_j + ↑tj ≤ (g.M_ : ℤ) ∧ lo_k + ↑tk < (g.L_ : ℤ))
          ∧ FLIP.check_threshold pos (FLIP.v_coord g (lo_i + ti) (lo_j + tj) (lo_k + tk)) h = true
      · rw [if_pos c2, if_pos ⟨c1.1, c2.1, c2.2, c1.2⟩]
      · rw [if_neg c2, if_neg (fun hc => c2 ⟨hc.2.1, hc.2.2.1⟩)]
    · rw [if_neg c1, if_neg (fun hc => c1 ⟨hc.1, hc.2.2.2⟩)]

/-- The weight added to the `w` face `(a, b, e)` by the loops around a particle: the
kernel weight if the face lies in the index window, in the shape of `w` and within the
radius, 0 otherwise. -/
theorem window_weight_w_eq (g : Mac3d) (pos : Vector3d) (h : ℚ) (lo_i lo_j lo_k : ℤ)
    (wi wj wk : ℕ) (a b e : ℕ) :
    FLIP.window_weight_w g pos h lo_i lo_j lo_k wi wj wk a b e
      = if ((lo_i ≤ a ∧ (a : ℤ) < lo_i + wi) ∧ (lo_j ≤ b ∧ (b : ℤ) < lo_j + wj) ∧
            (lo_k ≤ e ∧ (e : ℤ) < lo_k + wk)) ∧
          (a < g.N_ ∧ b < g.M_ ∧ e ≤ g.L_) ∧
          FLIP.check_threshold pos (FLIP.w_coord g a b e) h = true
        then FLIP.compute_weight pos (FLIP.w_coord g a b e) h else 0 := by
  unfold FLIP.window_weight_w
  have hG := sum3_window_point wi wj wk lo_i lo_j lo_k
    (fun i j k => if (i < (g.N_ : ℤ) ∧ j < (g.M_ : ℤ) ∧ k ≤ (g.L_ : ℤ)) ∧
        FLIP.check_threshold pos (FLIP.w_coord g i j k) h = true
      then FLIP.compute_weight pos (FLIP.w_coord g i j k) h else 0) a b e
  rw [sum3_congr wi wj wk _ _ (fun ti tj tk _ _ _ => ?_), hG]
  · simp only [Nat.cast_le, Nat.cast_lt, ← ite_and]
  · simp only [FLIP.point_weight_w]
    by_cases c1 : (lo_i + ti ≥ 0 ∧ lo_j + tj ≥ 0 ∧ lo_k + tk ≥ 0) ∧
        (a = (lo_i + ti).toNat ∧ b = (lo_j + tj).toNat ∧ e = (lo_k + tk).toNat)
    · rw [if_pos c1]
      by_cases c2 : (lo_i + ↑ti < (g.N_ : ℤ) ∧ lo_j + ↑tj < (g.M_ : ℤ) ∧ lo_k + ↑tk ≤ (g.L_ : ℤ))
          ∧ FLIP.check_threshold pos (FLIP.w_coord g (lo_i + ti) (lo_j + tj) (lo_k + tk)) h = true
      · rw [if_pos c2, if_pos ⟨c1.1, c2.1, c2.2, c1.2⟩]
      · rw [if_neg c2, if_neg (fun hc => c2 ⟨hc.2.1, hc.2.2.1⟩)]
    · rw [if_neg c1, if_neg (fun hc => c1 ⟨hc.1, hc.2.2.2⟩)]

theorem marked_eq_write (cell : ℕ × ℕ × ℕ) (g : Mac3d)
    (hf : g.pfluid_ cell.1 cell.2.1 cell.2.2 = false)
    (hs : g.psolid_ cell.1 cell.2.1 cell.2.2 = false) :
    g.marked cell = { g with pfluid_ := write3 g.pfluid_ cell.1 cell.2.1 cell.2.2 true } := by
  unfold Mac3d.marked
  congr 1
  funext a b e
  simp only [write3]
  by_cases hc : a = cell.1 ∧ b = cell.2.1 ∧ e = cell.2.2
  · obtain ⟨rfl, rfl, rfl⟩ := hc
    simp only [hf, hs, and_self, decide_True, Bool.not_false, Bool.and_self, Bool.or_true,
      if_true]
  · simp only [hc, decide_False, Bool.false_and, Bool.or_false, if_false]

theorem marked_eq_self (cell : ℕ × ℕ × ℕ) (g : Mac3d)
    (h : g.pfluid_ cell.1 cell.2.1 cell.2.2 = true ∨ g.psolid_ cell.1 cell.2.1 cell.2.2 = true) :
    g.marked cell = g := by
  have e : (fun a b e => g.pfluid_ a b e ||
      (decide (a = cell.1 ∧ b = cell.2.1 ∧ e = cell.2.2) && !g.psolid_ a b e)) = g.pfluid_ := by
    funext a b e
    by_cases hc : a = cell.1 ∧ b = cell.2.1 ∧ e = cell.2.2
    · obtain ⟨rfl, rfl, rfl⟩ := hc
      rcases h with h | h
      · simp only [h, Bool.true_or]
      · simp only [h, Bool.not_true, Bool.and_false, Bool.or_false]
    · simp only [hc, decide_False, Bool.false_and, Bool.or_false]
  unfold Mac3d.marked
  rw [e]

theorem mark_fluid_eq (cell : ℕ × ℕ × ℕ) (g : Mac3d)
    (hc : cell.1 < g.N_ ∧ cell.2.1 < g.M_ ∧ cell.2.2 < g.L_) :
    FLIP.mark_fluid cell g = some (g.marked cell) := by
  unfold FLIP.mark_fluid
  rw [is_fluid_eq g _ _ _ hc, Option.some_bind, is_solid_eq g _ _ _ hc]
  cases hf : g.pfluid_ cell.1 cell.2.1 cell.2.2
  · cases hs : g.psolid_ cell.1 cell.2.1 cell.2.2
    · rw [marked_eq_write cell g hf hs]
      simp only [Option.map_some', scAnd, Bool.not_false, if_true, Option.some_bind,
        Mac3d.set_fluid, hc, and_self]
    · rw [marked_eq_self cell g (Or.inr hs)]
      simp only [Option.map_some', scAnd, Bool.not_false, Bool.not_true, if_true,
        Option.some_bind, Bool.false_eq_true, if_false]
  · rw [marked_eq_self cell g (Or.inl hf)]
    simp only [scAnd, Bool.not_true, Bool.false_eq_true, if_false, Option.some_bind]

theorem index_from_coord_congr (g g' : Mac3d) (hg : SameGeometry g g') (x y z : ℚ) :
    g'.index_from_coord x y z = g.index_from_coord x y z := by
  simp only [Mac3d.index_from_coord, Mac3d.get_grid_size, hg.hN, hg.hM, hg.hL, hg.hx, hg.hy,
    hg.hz]

theorem weight_u_congr (g g' : Mac3d) (hg : SameGeometry g g') (h : ℚ) (hsx hsy hsz : ℤ)
    (p : Particle) (a b e : ℕ) :
    FLIP.weight_u g' h hsx hsy hsz p a b e = FLIP.weight_u g h hsx hsy hsz p a b e := by
  unfold FLIP.weight_u FLIP.contributes_u
  rw [index_from_coord_congr g g' hg]
  have e1 : FLIP.u_coord g' a b e = FLIP.u_coord g a b e := by
    simp only [FLIP.u_coord, Mac3d.get_cell_sizex, Mac3d.get_cell_sizey, Mac3d.get_cell_sizez,
      hg.hx, hg.hy, hg.hz]
  rw [e1, hg.hN, hg.hM, hg.hL]

theorem window_weight_u_cell (g : Mac3d) (h : ℚ) (hsx hsy hsz : ℤ) (p : Particle)
    (cell : ℕ × ℕ × ℕ)
    (hcell : g.index_from_coord p.position.x p.position.y p.position.z = some cell)
    (a b e : ℕ) :
    FLIP.window_weight_u g p.position h (cell.1 - hsx) (cell.2.1 - hsy) (cell.2.2 - hsz)
        (cell.1 + hsx + 1 + 1 - (cell.1 - hsx)).toNat
        (cell.2.1 + hsy + 1 + 1 - (cell.2.1 - hsy)).toNat
        (cell.2.2 + hsz + 1 + 1 - (cell.2.2 - hsz)).toNat a b e
      = FLIP.weight_u g h hsx hsy hsz p a b e := by
  rw [window_weight_u_eq]
  unfold FLIP.weight_u FLIP.contributes_u
  rw [hcell]
  refine if_congr (Iff.trans (and_congr (and_congr ?_ (and_congr ?_ ?_)) Iff.rfl)
    decide_eq_true_iff.symm) rfl rfl
  · constructor
    · rintro ⟨h1, h2⟩; exact ⟨h1, by omega⟩
    · rintro ⟨h1, h2⟩; exact ⟨h1, by omega⟩
  · constructor
    · rintro ⟨h1, h2⟩; exact ⟨h1, by omega⟩
    · rintro ⟨h1, h2⟩; exact ⟨h1, by omega⟩
  · constructor
    · rintro ⟨h1, h2⟩; exact ⟨h1, by omega⟩
    · rintro ⟨h1, h2⟩; exact ⟨h1, by omega⟩

theorem weight_v_congr (g g' : Mac3d) (hg : SameGeometry g g') (h : ℚ) (hsx hsy hsz : ℤ)
    (p : Particle) (a b e : ℕ) :
    FLIP.weight_v g' h hsx hsy hsz p a b e = FLIP.weight_v g h hsx hsy hsz p a b e := by
  unfold FLIP.weight_v FLIP.contributes_v
  rw [index_from_coord_congr g g' hg]
  have e1 : FLIP.v_coord g' a b e = FLIP.v_coord g a b e := by
    simp only [FLIP.v_coord, Mac3d.get_cell_sizex, Mac3d.get_cell_sizey, Mac3d.get_cell_sizez,
      hg.hx, hg.hy, hg.hz]
  rw [e1, hg.hN, hg.hM, hg.hL]

theorem window_weight_v_cell (g : Mac3d) (h : ℚ) (hsx hsy hsz : ℤ) (p : Particle)
    (cell : ℕ × ℕ × ℕ)
    (hcell : g.index_from_coord p.position.x p.position.y p.position.z = some cell)
    (a b e : ℕ) :
    FLIP.window_weight_v g p.position h (cell.1 - hsx) (cell.2.1 - hsy) (cell.2.2 - hsz)
        (cell.1 + hsx + 1 + 1 - (cell.1 - hsx)).toNat
        (cell.2.1 + hsy + 1 + 1 - (cell.2.1 - hsy)).toNat
        (cell.2.2 + hsz + 1 + 1 - (cell.2.2 - hsz)).toNat a b e
      = FLIP.weight_v g h hsx hsy hsz p a b e := by
  rw [window_weight_v_eq]
  unfold FLIP.weight_v FLIP.contributes_v
  rw [hcell]
  refine if_congr (Iff.trans (and_congr (and_congr ?_ (and_congr ?_ ?_)) Iff.rfl)
    decide_eq_true_iff.symm) rfl rfl
  · constructor
    · rintro ⟨h1, h2⟩; exact ⟨h1, by omega⟩
    · rintro ⟨h1, h2⟩; exact ⟨h1, by omega⟩
  · constructor
    · rintro ⟨h1, h2⟩; exact ⟨h1, by omega⟩
    · rintro ⟨h1, h2⟩; exact ⟨h1, by omega⟩
  · constructor
    · rintro ⟨h1, h2⟩; exact ⟨h1, by omega⟩
    · rintro ⟨h1, h2⟩; exact ⟨h1, by omega⟩

theorem weight_w_congr (g g' : Mac3d) (hg : SameGeometry g g') (h : ℚ) (hsx hsy hsz : ℤ)
    (p : Particle) (a b e : ℕ) :
    FLIP.weight_w g' h hsx hsy hsz p a b e = FLIP.weight_w g h hsx hsy hsz p a b e := by
  unfold FLIP.weight_w FLIP.contributes_w
  rw [index_from_coord_congr g g' hg]
  have e1 : FLIP.w_coord g' a b e = FLIP.w_coord g a b e := by
    simp only [FLIP.w_coord, Mac3d.get_cell_sizex, Mac3d.get_cell_sizey, Mac3d.get_cell_sizez,
      hg.hx, hg.hy, hg.hz]
  rw [e1, hg.hN, hg.hM, hg.hL]

theorem window_weight_w_cell (g : Mac3d) (h : ℚ) (hsx hsy hsz : ℤ) (p : Particle)
    (cell : ℕ × ℕ × ℕ)
    (hcell : g.index_from_coord p.position.x p.position.y p.position.z = some cell)
    (a b e : ℕ) :
    FLIP.window_weight_w g p.position h (cell.1 - hsx) (cell.2.1 - hsy) (cell.2.2 - hsz)
        (cell.1 + hsx + 1 + 1 - (cell.1 - hsx)).toNat
        (cell.2.1 + hsy + 1 + 1 - (cell.2.1 - hsy)).toNat
        (cell.2.2 + hsz + 1 + 1 - (cell.2.2 - hsz)).toNat a b e
      = FLIP.weight_w g h hsx hsy hsz p a b e := by
  rw [window_weight_w_eq]
  unfold FLIP.weight_w FLIP.contributes_w
  rw [hcell]
  refine if_congr (Iff.trans (and_congr (and_congr ?_ (and_congr ?_ ?_)) Iff.rfl)
    decide_eq_true_iff.symm) rfl rfl
  · constructor
    · rintro ⟨h1, h2⟩; exact ⟨h1, by omega⟩
    · rintro ⟨h1, h2⟩; exact ⟨h1, by omega⟩
  · constructor
    · rintro ⟨h1, h2⟩; exact ⟨h1, by omega⟩
    · rintro ⟨h1, h2⟩; exact ⟨h1, by omega⟩
  · constructor
    · rintro ⟨h1, h2⟩; exact ⟨h1, by omega⟩
    · rintro ⟨h1, h2⟩; exact ⟨h1, by omega⟩

theorem inside_congr (g g' : Mac3d) (hg : SameGeometry g g') (x : Vector3d) :
    g'.inside x ↔ g.inside x := by
  simp only [Mac3d.inside, Mac3d.get_grid_size, hg.hN, hg.hM, hg.hL, hg.hx, hg.hy, hg.hz]

/-- The body of the particle loop for a particle whose cell is `cell`. -/
theorem transfer_particle_eq (h : ℚ) (hsx hsy hsz : ℤ) (p : Particle) (g : Mac3d)
    (cell : ℕ × ℕ × ℕ)
    (hcell : g.index_from_coord p.position.x p.position.y p.position.z = some cell) :
    FLIP.transfer_particle h hsx hsy hsz p g
      = some ((g.marked cell).accumulated p.velocity (FLIP.weight_u g h hsx hsy hsz p)
          (FLIP.weight_v g h hsx hsy hsz p) (FLIP.weight_w g h hsx hsy hsz p)) := by
  obtain ⟨_, c1, c2, c3⟩ := index_from_coord_spec g _ _ _ cell hcell
  have hgeo : SameGeometry g (g.marked cell) := ⟨rfl, rfl, rfl, rfl, rfl, rfl⟩
  have hcell' : (g.marked cell).index_from_coord p.position.x p.position.y p.position.z
      = some cell := by
    rw [index_from_coord_congr g _ hgeo]; exact hcell
  unfold FLIP.transfer_particle
  simp only [Particle.get_position, Particle.get_velocity, hcell, Option.some_bind]
  rw [mark_fluid_eq cell g ⟨c1, c2, c3⟩, Option.some_bind, transfer_window_eq]
  congr 1
  refine accumulated_congr _ _ _ _ _ _ _ _ (fun a b e => ?_) (fun a b e => ?_)
    (fun a b e => ?_)
  · rw [window_weight_u_cell _ h hsx hsy hsz p cell hcell', weight_u_congr g _ hgeo]
  · rw [window_weight_v_cell _ h hsx hsy hsz p cell hcell', weight_v_congr g _ hgeo]
  · rw [window_weight_w_cell _ h hsx hsy hsz p cell hcell', weight_w_congr g _ hgeo]

theorem transferred_nil (g : Mac3d) (h : ℚ) (hsx hsy hsz : ℤ) :
    g.transferred h hsx hsy hsz [] = g := by
  simp only [Mac3d.transferred, List.any_nil, Bool.and_false, Bool.or_false, List.map_nil,
    List.sum_nil, add_zero]

/-- Two grids with the same fields are equal. -/
theorem Mac3d.eq_of_fields (g g' : Mac3d)
    (h1 : g.N_ = g'.N_)
    (h2 : g.M_ = g'.M_)
    (h3 : g.L_ = g'.L_)
    (h4 : g.cell_sizex_ = g'.cell_sizex_)
    (h5 : g.cell_sizey_ = g'.cell_sizey_)
    (h6 : g.cell_sizez_ = g'.cell_sizez_)
    (h7 : g.ppressure_ = g'.ppressure_)
    (h8 : g.pu_ = g'.pu_)
    (h9 : g.pv_ = g'.pv_)
    (h10 : g.pw_ = g'.pw_)
    (h11 : g.psolid_ = g'.psolid_)
    (h12 : g.pfluid_ = g'.pfluid_)
    (h13 : g.A_diag_ = g'.A_diag_)
    (h14 : g.solid_outside = g'.solid_outside)
    (h15 : g.fluid_outside = g'.fluid_outside)
    (h16 : g.pweights_u_ = g'.pweights_u_)
    (h17 : g.pweights_v_ = g'.pweights_v_)
    (h18 : g.pweights_w_ = g'.pweights_w_) :
    g = g' := by
  cases g
  cases g'
  simp only at h1 h2 h3 h4 h5 h6 h7 h8 h9 h10 h11 h12 h13 h14 h15 h16 h17 h18
  subst h1 h2 h3 h4 h5 h6 h7 h8 h9 h10 h11 h12 h13 h14 h15 h16 h17 h18
  rfl

theorem transferred_pu (g g' : Mac3d) (hg : SameGeometry g g') (h : ℚ) (hsx hsy hsz : ℤ)
    (ps : List Particle) (a b e : ℕ) :
    (g'.transferred h hsx hsy hsz ps).pu_ a b e = g'.pu_ a b e
      + (ps.map (fun p => FLIP.weight_u g h hsx hsy hsz p a b e * p.velocity.x)).sum := by
  show g'.pu_ a b e + _ = _
  simp only [weight_u_congr g g' hg]

theorem transferred_pweights_u (g g' : Mac3d) (hg : SameGeometry g g') (h : ℚ)
    (hsx hsy hsz : ℤ) (ps : List Particle) (a b e : ℕ) :
    (g'.transferred h hsx hsy hsz ps).pweights_u_ a b e = g'.pweights_u_ a b e
      + (ps.map (fun p => FLIP.weight_u g h hsx hsy hsz p a b e)).sum := by
  show g'.pweights_u_ a b e + _ = _
  simp only [weight_u_congr g g' hg]

theorem transferred_pv (g g' : Mac3d) (hg : SameGeometry g g') (h : ℚ) (hsx hsy hsz : ℤ)
    (ps : List Particle) (a b e : ℕ) :
    (g'.transferred h hsx hsy hsz ps).pv_ a b e = g'.pv_ a b e
      + (ps.map (fun p => FLIP.weight_v g h hsx hsy hsz p a b e * p.velocity.y)).sum := by
  show g'.pv_ a b e + _ = _
  simp only [weight_v_congr g g' hg]

theorem transferred_pweights_v (g g' : Mac3d) (hg : SameGeometry g g') (h : ℚ)
    (hsx hsy hsz : ℤ) (ps : List Particle) (a b e : ℕ) :
    (g'.transferred h hsx hsy hsz ps).pweights_v_ a b e = g'.pweights_v_ a b e
      + (ps.map (fun p => FLIP.weight_v g h hsx hsy hsz p a b e)).sum := by
  show g'.pweights_v_ a b e + _ = _
  simp only [weight_v_congr g g' hg]

theorem transferred_pw (g g' : Mac3d) (hg : SameGeometry g g') (h : ℚ) (hsx hsy hsz : ℤ)
    (ps : List Particle) (a b e : ℕ) :
    (g'.transferred h hsx hsy hsz ps).pw_ a b e = g'.pw_ a b e
      + (ps.map (fun p => FLIP.weight_w g h hsx hsy hsz p a b e * p.velocity.z)).sum := by
  show g'.pw_ a b e + _ = _
  simp only [weight_w_congr g g' hg]

theorem transferred_pweights_w (g g' : Mac3d) (hg : SameGeometry g g') (h : ℚ)
    (hsx hsy hsz : ℤ) (ps : List Particle) (a b e : ℕ) :
    (g'.transferred h hsx hsy hsz ps).pweights_w_ a b e = g'.pweights_w_ a b e
      + (ps.map (fun p => FLIP.weight_w g h hsx hsy hsz p a b e)).sum := by
  show g'.pweights_w_ a b e + _ = _
  simp only [weight_w_congr g g' hg]

theorem transferred_pfluid (g g' : Mac3d) (hg : SameGeometry g g') (h : ℚ) (hsx hsy hsz : ℤ)
    (ps : List Particle) (a b e : ℕ) :
    (g'.transferred h hsx hsy hsz ps).pfluid_ a b e = (g'.pfluid_ a b e || (!g'.psolid_ a b e &&
      ps.any (fun p =>
        decide (g.index_from_coord p.position.x p.position.y p.position.z = some (a, b, e))))) := by
  show (g'.pfluid_ a b e || _) = _
  simp only [index_from_coord_congr g g' hg]

/-- Handling the particle `p`, then the particles `ps`, is handling `p :: ps`. -/
theorem transferred_cons (g : Mac3d) (h : ℚ) (hsx hsy hsz : ℤ) (p : Particle)
    (ps : List Particle) (cell : ℕ × ℕ × ℕ)
    (hcell : g.index_from_coord p.position.x p.position.y p.position.z = some cell) :
    ((g.marked cell).accumulated p.velocity (FLIP.weight_u g h hsx hsy hsz p)
        (FLIP.weight_v g h hsx hsy hsz p) (FLIP.weight_w g h hsx hsy hsz p)).transferred
        h hsx hsy hsz ps
      = g.transferred h hsx hsy hsz (p :: ps) := by
  have hgeo : SameGeometry g ((g.marked cell).accumulated p.velocity
      (FLIP.weight_u g h hsx hsy hsz p) (FLIP.weight_v g h hsx hsy hsz p)
      (FLIP.weight_w g h hsx hsy hsz p)) := ⟨rfl, rfl, rfl, rfl, rfl, rfl⟩
  refine Mac3d.eq_of_fields _ _ rfl rfl rfl rfl rfl rfl rfl ?_ ?_ ?_ rfl ?_ rfl rfl rfl ?_ ?_ ?_
  · funext a b e
    rw [transferred_pu g _ hgeo]
    show g.pu_ a b e + _ * _ + _ = g.pu_ a b e + _
    simp only [List.map_cons, List.sum_cons, add_assoc]
  · funext a b e
    rw [transferred_pv g _ hgeo]
    show g.pv_ a b e + _ * _ + _ = g.pv_ a b e + _
    simp only [List.map_cons, List.sum_cons, add_assoc]
  · funext a b e
    rw [transferred_pw g _ hgeo]
    show g.pw_ a b e + _ * _ + _ = g.pw_ a b e + _
    simp only [List.map_cons, List.sum_cons, add_assoc]
  · funext a b e
    rw [transferred_pfluid g _ hgeo]
    show ((g.pfluid_ a b e ||
        (decide (a = cell.1 ∧ b = cell.2.1 ∧ e = cell.2.2) && !g.psolid_ a b e)) ||
        (!g.psolid_ a b e && _)) = (g.pfluid_ a b e || (!g.psolid_ a b e && _))
    have hd : decide (g.index_from_coord p.position.x p.position.y p.position.z = some (a, b, e))
        = decide (a = cell.1 ∧ b = cell.2.1 ∧ e = cell.2.2) := by
      rw [hcell]
      refine decide_eq_decide.mpr ?_
      constructor
      · intro hc
        have := Option.some.inj hc
        rw [this]
        exact ⟨rfl, rfl, rfl⟩
      · rintro ⟨rfl, rfl, rfl⟩
        rfl
    simp only [List.any_cons, hd]
    cases g.pfluid_ a b e <;> cases g.psolid_ a b e <;>
      cases decide (a = cell.1 ∧ b = cell.2.1 ∧ e = cell.2.2) <;> rfl
  · funext a b e
    rw [transferred_pweights_u g _ hgeo]
    show g.pweights_u_ a b e + _ + _ = g.pweights_u_ a b e + _
    simp only [List.map_cons, List.sum_cons, add_assoc]
  · funext a b e
    rw [transferred_pweights_v g _ hgeo]
    show g.pweights_v_ a b e + _ + _ = g.pweights_v_ a b e + _
    simp only [List.map_cons, List.sum_cons, add_assoc]
  · funext a b e
    rw [transferred_pweights_w g _ hgeo]
    show g.pweights_w_ a b e + _ + _ = g.pweights_w_ a b e + _
    simp only [List.map_cons, List.sum_cons, add_assoc]

/-- The particle loop of `compute_velocity_field` completes when every particle lies
inside the domain, and leaves the grid `transferred`. -/
theorem forEachParticle_transfer (h : ℚ) (hsx hsy hsz : ℤ) :
    ∀ (ps : List Particle) (g : Mac3d), (∀ p, p ∈ ps → g.inside p.position) →
      forEachParticle (FLIP.transfer_particle h hsx hsy hsz) ps g
        = some (g.transferred h hsx hsy hsz ps) := by
  intro ps
  induction ps with
  | nil =>
    intro g _
    rw [transferred_nil]
    rfl
  | cons p ps ih =>
    intro g hin
    obtain ⟨cell, hcell⟩ := index_from_coord_isSome g p.position
      (hin p (List.mem_cons_self p ps))
    have hgeo : SameGeometry g ((g.marked cell).accumulated p.velocity
        (FLIP.weight_u g h hsx hsy hsz p) (FLIP.weight_v g h hsx hsy hsz p)
        (FLIP.weight_w g h hsx hsy hsz p)) := ⟨rfl, rfl, rfl, rfl, rfl, rfl⟩
    show (FLIP.transfer_particle h hsx hsy hsz p g).bind _ = _
    rw [transfer_particle_eq h hsx hsy hsz p g cell hcell, Option.some_bind,
      ih _ (fun q hq => (inside_congr g _ hgeo q.position).mpr
        (hin q (List.mem_cons_of_mem p hq))),
      transferred_cons g h hsx hsy hsz p ps cell hcell]

/-- If the particle loop completes, every particle lies inside the domain. -/
theorem forEachParticle_transfer_inside (h : ℚ) (hsx hsy hsz : ℤ) :
    ∀ (ps : List Particle) (g g' : Mac3d),
      forEachParticle (FLIP.transfer_particle h hsx hsy hsz) ps g = some g' →
      ∀ p, p ∈ ps → g.inside p.position := by
  intro ps
  induction ps with
  | nil =>
    intro g g' _ p hp
    simp at hp
  | cons q ps ih =>
    intro g g' hrun p hp
    have hrun' : (FLIP.transfer_particle h hsx hsy hsz q g).bind
        (forEachParticle (FLIP.transfer_particle h hsx hsy hsz) ps) = some g' := hrun
    rw [Option.bind_eq_some] at hrun'
    obtain ⟨g1, h1, h2⟩ := hrun'
    have hq : ∃ cell, g.index_from_coord q.position.x q.position.y q.position.z = some cell := by
      unfold FLIP.transfer_particle at h1
      simp only [Particle.get_position, Option.bind_eq_some] at h1
      obtain ⟨cell, hc, _⟩ := h1
      exact ⟨cell, hc⟩
    obtain ⟨cell, hcell⟩ := hq
    have hqin := (index_from_coord_spec g _ _ _ cell hcell).1
    rcases List.mem_cons.mp hp with rfl | hp'
    · exact hqin
    · rw [transfer_particle_eq h hsx hsy hsz q g cell hcell] at h1
      have e1 := Option.some.inj h1
      have hgeo : SameGeometry g g1 := by
        rw [← e1]; exact ⟨rfl, rfl, rfl, rfl, rfl, rfl⟩
      exact (inside_congr g g1 hgeo p.position).mp (ih g1 g' h2 p hp')

/-- One face of `normalize_accumulated_u`. -/
theorem normalize_u_face_step (g : Mac3d) (i j k : ℕ) (hi : i < g.N_ + 1) (hj : j < g.M_)
    (hk : k < g.L_) (s : Mac3d × (ℕ → Bool))
    (hs : s.1 = g.normalized_u_below (cellIndex (g.N_ + 1) g.M_ i j k)) :
    ∃ s', FLIP.normalize_u_face g.N_ g.M_ i j k s = some s' ∧
      s'.1 = g.normalized_u_below (cellIndex (g.N_ + 1) g.M_ i j k + 1) := by
  obtain ⟨s1, s2⟩ := s
  simp only at hs
  subst hs
  have hlt : ¬(cellIndex (g.N_ + 1) g.M_ i j k < cellIndex (g.N_ + 1) g.M_ i j k) :=
    lt_irrefl _
  have hcur : ∀ a b e, (g.normalized_u_below (cellIndex (g.N_ + 1) g.M_ i j k)).pu_ a b e =
      if g.pweights_u_ a b e ≠ 0 ∧ a < g.N_ + 1 ∧ b < g.M_ ∧ e < g.L_ ∧
          cellIndex (g.N_ + 1) g.M_ a b e < cellIndex (g.N_ + 1) g.M_ i j k then
        g.pu_ a b e / g.pweights_u_ a b e
      else g.pu_ a b e := by
    intro a b e
    rfl
  have hown : (g.normalized_u_below (cellIndex (g.N_ + 1) g.M_ i j k)).pu_ i j k
      = g.pu_ i j k := by
    rw [hcur i j k]
    simp only [hlt, and_false, if_false]
  have hb : i < (g.normalized_u_below (cellIndex (g.N_ + 1) g.M_ i j k)).N_ + 1 ∧
      j < (g.normalized_u_below (cellIndex (g.N_ + 1) g.M_ i j k)).M_ ∧
      k < (g.normalized_u_below (cellIndex (g.N_ + 1) g.M_ i j k)).L_ := ⟨hi, hj, hk⟩
  have hprog := fun cur' hstep => progress_update (g.N_ + 1) g.M_ i j k g.L_ hi hj hk
    (fun a b e => g.pweights_u_ a b e ≠ 0) g.pu_
    (fun a b e => g.pu_ a b e / g.pweights_u_ a b e)
    (g.normalized_u_below (cellIndex (g.N_ + 1) g.M_ i j k)).pu_ cur'
    (g.pweights_u_ i j k ≠ 0) Iff.rfl hcur hstep
  unfold FLIP.normalize_u_face
  simp only
  rw [get_weights_u_eq _ i j k hb, Option.some_bind]
  show ∃ s', (if g.pweights_u_ i j k ≠ 0 then _ else _) = some s' ∧ _
  by_cases hW : g.pweights_u_ i j k ≠ 0
  · rw [if_pos hW, get_u_eq _ i j k hb, Option.some_bind, set_u_eq _ i j k _ hb,
      Option.map_some']
    refine ⟨_, rfl, ?_⟩
    refine Mac3d.eq_of_fields _ _ rfl rfl rfl rfl rfl rfl rfl ?_ rfl rfl rfl rfl rfl rfl rfl
      rfl rfl rfl
    funext a b e
    have := hprog (write3 (g.normalized_u_below (cellIndex (g.N_ + 1) g.M_ i j k)).pu_ i j k
        ((g.normalized_u_below (cellIndex (g.N_ + 1) g.M_ i j k)).pu_ i j k
          / g.pweights_u_ i j k))
      (fun a b e => by
        simp only [write3, ne_eq, hW, not_false_eq_true, true_and, hown])
      a b e
    rw [show (g.normalized_u_below (cellIndex (g.N_ + 1) g.M_ i j k + 1)).pu_ a b e =
      if g.pweights_u_ a b e ≠ 0 ∧ a < g.N_ + 1 ∧ b < g.M_ ∧ e < g.L_ ∧
          cellIndex (g.N_ + 1) g.M_ a b e < cellIndex (g.N_ + 1) g.M_ i j k + 1 then
        g.pu_ a b e / g.pweights_u_ a b e
      else g.pu_ a b e from rfl]
    exact this
  · rw [if_neg hW]
    refine ⟨_, rfl, ?_⟩
    refine Mac3d.eq_of_fields _ _ rfl rfl rfl rfl rfl rfl rfl ?_ rfl rfl rfl rfl rfl rfl rfl
      rfl rfl rfl
    funext a b e
    have := hprog (g.normalized_u_below (cellIndex (g.N_ + 1) g.M_ i j k)).pu_
      (fun a b e => by simp only [hW, false_and, if_false])
      a b e
    rw [show (g.normalized_u_below (cellIndex (g.N_ + 1) g.M_ i j k + 1)).pu_ a b e =
      if g.pweights_u_ a b e ≠ 0 ∧ a < g.N_ + 1 ∧ b < g.M_ ∧ e < g.L_ ∧
          cellIndex (g.N_ + 1) g.M_ a b e < cellIndex (g.N_ + 1) g.M_ i j k + 1 then
        g.pu_ a b e / g.pweights_u_ a b e
      else g.pu_ a b e from rfl]
    exact this

/-- `normalize_accumulated_u` never faults and leaves the grid `normalized_u`. -/
theorem normalize_accumulated_u_eq (g : Mac3d) (vis : ℕ → Bool) :
    ∃ vis', FLIP.normalize_accumulated_u (g, vis) = some (g.normalized_u, vis') := by
  obtain ⟨s', h1, h2⟩ := forLoop3_progress (g.N_ + 1) g.M_ g.L_
    (FLIP.normalize_u_face g.N_ g.M_)
    (fun c s => s.1 = g.normalized_u_below c)
    (fun i j k hi hj hk s hs => normalize_u_face_step g i j k hi hj hk s hs)
    (g, vis) (by
      show g = g.normalized_u_below 0
      refine Mac3d.eq_of_fields _ _ rfl rfl rfl rfl rfl rfl rfl ?_ rfl rfl rfl rfl rfl rfl rfl
        rfl rfl rfl
      funext a b e
      show g.pu_ a b e = if _ then _ else _
      rw [if_neg]
      intro hc
      exact absurd hc.2.2.2.2 (Nat.not_lt_zero _))
  refine ⟨s'.2, ?_⟩
  have e1 : s'.1 = g.normalized_u := by
    have h2' : s'.1 = g.normalized_u_below ((g.N_ + 1) * g.M_ * g.L_) := h2
    rw [h2']
    refine Mac3d.eq_of_fields _ _ rfl rfl rfl rfl rfl rfl rfl ?_ rfl rfl rfl rfl rfl rfl rfl
      rfl rfl rfl
    funext a b e
    show (if _ then _ else _) = if _ then _ else _
    refine if_congr ?_ rfl rfl
    constructor
    · intro hc
      exact ⟨hc.1, hc.2.1, hc.2.2.1, hc.2.2.2.1⟩
    · intro hc
      refine ⟨hc.1, hc.2.1, hc.2.2.1, hc.2.2.2, ?_⟩
      exact cellIndex_lt _ _ _ a b e hc.2.1 hc.2.2.1 hc.2.2.2
  have e2 : s' = (g.normalized_u, s'.2) := by
    rw [← e1]
  rw [e2] at h1
  exact h1

/-- One face of `normalize_accumulated_v`. -/
theorem normalize_v_face_step (g : Mac3d) (i j k : ℕ) (hi : i < g.N_) (hj : j < g.M_ + 1)
    (hk : k < g.L_) (s : Mac3d × (ℕ → Bool))
    (hs : s.1 = g.normalized_v_below (cellIndex g.N_ (g.M_ + 1) i j k)) :
    ∃ s', FLIP.normalize_v_face g.N_ g.M_ i j k s = some s' ∧
      s'.1 = g.normalized_v_below (cellIndex g.N_ (g.M_ + 1) i j k + 1) := by
  obtain ⟨s1, s2⟩ := s
  simp only at hs
  subst hs
  have hlt : ¬(cellIndex g.N_ (g.M_ + 1) i j k < cellIndex g.N_ (g.M_ + 1) i j k) :=
    lt_irrefl _
  have hcur : ∀ a b e, (g.normalized_v_below (cellIndex g.N_ (g.M_ + 1) i j k)).pv_ a b e =
      if g.pweights_v_ a b e ≠ 0 ∧ a < g.N_ ∧ b < g.M_ + 1 ∧ e < g.L_ ∧
          cellIndex g.N_ (g.M_ + 1) a b e < cellIndex g.N_ (g.M_ + 1) i j k then
        g.pv_ a b e / g.pweights_v_ a b e
      else g.pv_ a b e := by
    intro a b e
    rfl
  have hown : (g.normalized_v_below (cellIndex g.N_ (g.M_ + 1) i j k)).pv_ i j k
      = g.pv_ i j k := by
    rw [hcur i j k]
    simp only [hlt, and_false, if_false]
  have hb : i < (g.normalized_v_below (cellIndex g.N_ (g.M_ + 1) i j k)).N_ ∧
      j < (g.normalized_v_below (cellIndex g.N_ (g.M_ + 1) i j k)).M_ + 1 ∧
      k < (g.normalized_v_below (cellIndex g.N_ (g.M_ + 1) i j k)).L_ := ⟨hi, hj, hk⟩
  have hprog := fun cur' hstep => progress_update g.N_ (g.M_ + 1) i j k g.L_ hi hj hk
    (fun a b e => g.pweights_v_ a b e ≠ 0) g.pv_
    (fun a b e => g.pv_ a b e / g.pweights_v_ a b e)
    (g.normalized_v_below (cellIndex g.N_ (g.M_ + 1) i j k)).pv_ cur'
    (g.pweights_v_ i j k ≠ 0) Iff.rfl hcur hstep
  unfold FLIP.normalize_v_face
  simp only
  rw [get_weights_v_eq _ i j k hb, Option.some_bind]
  show ∃ s', (if g.pweights_v_ i j k ≠ 0 then _ else _) = some s' ∧ _
  by_cases hW : g.pweights_v_ i j k ≠ 0
  · rw [if_pos hW, get_v_eq _ i j k hb, Option.some_bind, set_v_eq _ i j k _ hb,
      Option.map_some']
    refine ⟨_, rfl, ?_⟩
    refine Mac3d.eq_of_fields _ _ rfl rfl rfl rfl rfl rfl rfl rfl ?_ rfl rfl rfl rfl rfl rfl
      rfl rfl rfl
    funext a b e
    have := hprog (write3 (g.normalized_v_below (cellIndex g.N_ (g.M_ + 1) i j k)).pv_ i j k
        ((g.normalized_v_below (cellIndex g.N_ (g.M_ + 1) i j k)).pv_ i j k
          / g.pweights_v_ i j k))
      (fun a b e => by
        simp only [write3, ne_eq, hW, not_false_eq_true, true_and, hown])
      a b e
    rw [show (g.normalized_v_below (cellIndex g.N_ (g.M_ + 1) i j k + 1)).pv_ a b e =
      if g.pweights_v_ a b e ≠ 0 ∧ a < g.N_ ∧ b < g.M_ + 1 ∧ e < g.L_ ∧
          cellIndex g.N_ (g.M_ + 1) a b e < cellIndex g.N_ (g.M_ + 1) i j k + 1 then
        g.pv_ a b e / g.pweights_v_ a b e
      else g.pv_ a b e from rfl]
    exact this
  · rw [if_neg hW]
    refine ⟨_, rfl, ?_⟩
    refine Mac3d.eq_of_fields _ _ rfl rfl rfl rfl rfl rfl rfl rfl ?_ rfl rfl rfl rfl rfl rfl
      rfl rfl rfl
    funext a b e
    have := hprog (g.normalized_v_below (cellIndex g.N_ (g.M_ + 1) i j k)).pv_
      (fun a b e => by simp only [hW, false_and, if_false])
      a b e
    rw [show (g.normalized_v_below (cellIndex g.N_ (g.M_ + 1) i j k + 1)).pv_ a b e =
      if g.pweights_v_ a b e ≠ 0 ∧ a < g.N_ ∧ b < g.M_ + 1 ∧ e < g.L_ ∧
          cellIndex g.N_ (g.M_ + 1) a b e < cellIndex g.N_ (g.M_ + 1) i j k + 1 then
        g.pv_ a b e / g.pweights_v_ a b e
      else g.pv_ a b e from rfl]
    exact this

/-- `normalize_accumulated_v` never faults and leaves the grid `normalized_v`. -/
theorem normalize_accumulated_v_eq (g : Mac3d) (vis : ℕ → Bool) :
    ∃ vis', FLIP.normalize_accumulated_v (g, vis) = some (g.normalized_v, vis') := by
  obtain ⟨s', h1, h2⟩ := forLoop3_progress g.N_ (g.M_ + 1) g.L_
    (FLIP.normalize_v_face g.N_ g.M_)
    (fun c s => s.1 = g.normalized_v_below c)
    (fun i j k hi hj hk s hs => normalize_v_face_step g i j k hi hj hk s hs)
    (g, vis) (by
      show g = g.normalized_v_below 0
      refine Mac3d.eq_of_fields _ _ rfl rfl rfl rfl rfl rfl rfl rfl ?_ rfl rfl rfl rfl rfl rfl
        rfl rfl rfl
      funext a b e
      show g.pv_ a b e = if _ then _ else _
      rw [if_neg]
      intro hc
      exact absurd hc.2.2.2.2 (Nat.not_lt_zero _))
  refine ⟨s'.2, ?_⟩
  have e1 : s'.1 = g.normalized_v := by
    have h2' : s'.1 = g.normalized_v_below (g.N_ * (g.M_ + 1) * g.L_) := h2
    rw [h2']
    refine Mac3d.eq_of_fields _ _ rfl rfl rfl rfl rfl rfl rfl rfl ?_ rfl rfl rfl rfl rfl rfl
      rfl rfl rfl
    funext a b e
    show (if _ then _ else _) = if _ then _ else _
    refine if_congr ?_ rfl rfl
    constructor
    · intro hc
      exact ⟨hc.1, hc.2.1, hc.2.2.1, hc.2.2.2.1⟩
    · intro hc
      refine ⟨hc.1, hc.2.1, hc.2.2.1, hc.2.2.2, ?_⟩
      exact cellIndex_lt _ _ _ a b e hc.2.1 hc.2.2.1 hc.2.2.2
  have e2 : s' = (g.normalized_v, s'.2) := by
    rw [← e1]
  rw [e2] at h1
  exact h1

/-- One face of `normalize_accumulated_w`. -/
theorem normalize_w_face_step (g : Mac3d) (i j k : ℕ) (hi : i < g.N_) (hj : j < g.M_)
    (hk : k < g.L_ + 1) (s : Mac3d × (ℕ → Bool))
    (hs : s.1 = g.normalized_w_below (cellIndex g.N_ g.M_ i j k)) :
    ∃ s', FLIP.normalize_w_face g.N_ g.M_ i j k s = some s' ∧
      s'.1 = g.normalized_w_below (cellIndex g.N_ g.M_ i j k + 1) := by
  obtain ⟨s1, s2⟩ := s
  simp only at hs
  subst hs
  have hlt : ¬(cellIndex g.N_ g.M_ i j k < cellIndex g.N_ g.M_ i j k) :=
    lt_irrefl _
  have hcur : ∀ a b e, (g.normalized_w_below (cellIndex g.N_ g.M_ i j k)).pw_ a b e =
      if g.pweights_w_ a b e ≠ 0 ∧ a < g.N_ ∧ b < g.M_ ∧ e < g.L_ + 1 ∧
          cellIndex g.N_ g.M_ a b e < cellIndex g.N_ g.M_ i j k then
        g.pw_ a b e / g.pweights_w_ a b e
      else g.pw_ a b e := by
    intro a b e
    rfl
  have hown : (g.normalized_w_below (cellIndex g.N_ g.M_ i j k)).pw_ i j k
      = g.pw_ i j k := by
    rw [hcur i j k]
    simp only [hlt, and_false, if_false]
  have hb : i < (g.normalized_w_below (cellIndex g.N_ g.M_ i j k)).N_ ∧
      j < (g.normalized_w_below (cellIndex g.N_ g.M_ i j k)).M_ ∧
      k < (g.normalized_w_below (cellIndex g.N_ g.M_ i j k)).L_ + 1 := ⟨hi, hj, hk⟩
  have hprog := fun cur' hstep => progress_update g.N_ g.M_ i j k (g.L_ + 1) hi hj hk
    (fun a b e => g.pweights_w_ a b e ≠ 0) g.pw_
    (fun a b e => g.pw_ a b e / g.pweights_w_ a b e)
    (g.normalized_w_below (cellIndex g.N_ g.M_ i j k)).pw_ cur'
    (g.pweights_w_ i j k ≠ 0) Iff.rfl hcur hstep
  unfold FLIP.normalize_w_face
  simp only
  rw [get_weights_w_eq _ i j k hb, Option.some_bind]
  show ∃ s', (if g.pweights_w_ i j k ≠ 0 then _ else _) = some s' ∧ _
  by_cases hW : g.pweights_w_ i j k ≠ 0
  · rw [if_pos hW, get_w_eq _ i j k hb, Option.some_bind, set_w_eq _ i j k _ hb,
      Option.map_some']
    refine ⟨_, rfl, ?_⟩
    refine Mac3d.eq_of_fields _ _ rfl rfl rfl rfl rfl rfl rfl rfl rfl ?_ rfl rfl rfl rfl rfl
      rfl rfl rfl
    funext a b e
    have := hprog (write3 (g.normalized_w_below (cellIndex g.N_ g.M_ i j k)).pw_ i j k
        ((g.normalized_w_below (cellIndex g.N_ g.M_ i j k)).pw_ i j k
          / g.pweights_w_ i j k))
      (fun a b e => by
        simp only [write3, ne_eq, hW, not_false_eq_true, true_and, hown])
      a b e
    rw [show (g.normalized_w_below (cellIndex g.N_ g.M_ i j k + 1)).pw_ a b e =
      if g.pweights_w_ a b e ≠ 0 ∧ a < g.N_ ∧ b < g.M_ ∧ e < g.L_ + 1 ∧
          cellIndex g.N_ g.M_ a b e < cellIndex g.N_ g.M_ i j k + 1 then
        g.pw_ a b e / g.pweights_w_ a b e
      else g.pw_ a b e from rfl]
    exact this
  · rw [if_neg hW]
    refine ⟨_, rfl, ?_⟩
    refine Mac3d.eq_of_fields _ _ rfl rfl rfl rfl rfl rfl rfl rfl rfl ?_ rfl rfl rfl rfl rfl
      rfl rfl rfl
    funext a b e
    have := hprog (g.normalized_w_below (cellIndex g.N_ g.M_ i j k)).pw_
      (fun a b e => by simp only [hW, false_and, if_false])
      a b e
    rw [show (g.normalized_w_below (cellIndex g.N_ g.M_ i j k + 1)).pw_ a b e =
      if g.pweights_w_ a b e ≠ 0 ∧ a < g.N_ ∧ b < g.M_ ∧ e < g.L_ + 1 ∧
          cellIndex g.N_ g.M_ a b e < cellIndex g.N_ g.M_ i j k + 1 then
        g.pw_ a b e / g.pweights_w_ a b e
      else g.pw_ a b e from rfl]
    exact this

/-- `normalize_accumulated_w` never faults and leaves the grid `normalized_w`. -/
theorem normalize_accumulated_w_eq (g : Mac3d) (vis : ℕ → Bool) :
    ∃ vis', FLIP.normalize_accumulated_w (g, vis) = some (g.normalized_w, vis') := by
  obtain ⟨s', h1, h2⟩ := forLoop3_progress g.N_ g.M_ (g.L_ + 1)
    (FLIP.normalize_w_face g.N_ g.M_)
    (fun c s => s.1 = g.normalized_w_below c)
    (fun i j k hi hj hk s hs => normalize_w_face_step g i j k hi hj hk s hs)
    (g, vis) (by
      show g = g.normalized_w_below 0
      refine Mac3d.eq_of_fields _ _ rfl rfl rfl rfl rfl rfl rfl rfl rfl ?_ rfl rfl rfl rfl rfl
        rfl rfl rfl
      funext a b e
      show g.pw_ a b e = if _ then _ else _
      rw [if_neg]
      intro hc
      exact absurd hc.2.2.2.2 (Nat.not_lt_zero _))
  refine ⟨s'.2, ?_⟩
  have e1 : s'.1 = g.normalized_w := by
    have h2' : s'.1 = g.normalized_w_below (g.N_ * g.M_ * (g.L_ + 1)) := h2
    rw [h2']
    refine Mac3d.eq_of_fields _ _ rfl rfl rfl rfl rfl rfl rfl rfl rfl ?_ rfl rfl rfl rfl rfl
      rfl rfl rfl
    funext a b e
    show (if _ then _ else _) = if _ then _ else _
    refine if_congr ?_ rfl rfl
    constructor
    · intro hc
      exact ⟨hc.1, hc.2.1, hc.2.2.1, hc.2.2.2.1⟩
    · intro hc
      refine ⟨hc.1, hc.2.1, hc.2.2.1, hc.2.2.2, ?_⟩
      exact cellIndex_lt _ _ _ a b e hc.2.1 hc.2.2.1 hc.2.2.2
  have e2 : s' = (g.normalized_w, s'.2) := by
    rw [← e1]
  rw [e2] at h1
  exact h1

theorem transfer_start_geometry (f : FLIP) : SameGeometry f.MACGrid_ f.transfer_start :=
  ⟨rfl, rfl, rfl, rfl, rfl, rfl⟩

theorem transfer_normalized_unfold (f : FLIP) :
    f.transfer_normalized =
      (forEachParticle (FLIP.transfer_particle f.kernel_radius f.h_scaledx f.h_scaledy
        f.h_scaledz) f.particles_ f.transfer_start).bind fun (g2 : Mac3d) =>
      (FLIP.normalize_accumulated_u (g2, fun _ => false)).bind
        fun (su : Mac3d × (ℕ → Bool)) =>
      (FLIP.normalize_accumulated_v (su.1, fun _ => false)).bind
        fun (sv : Mac3d × (ℕ → Bool)) =>
      (FLIP.normalize_accumulated_w (sv.1, fun _ => false)).map
        fun (sw : Mac3d × (ℕ → Bool)) => (sw.1, su.2, sv.2, sw.2) := rfl

/-- The transfer and normalisation complete when every particle lies inside the domain;
the resulting grid is `normalized_grid`. -/
theorem transfer_normalized_eq (f : FLIP)
    (hin : ∀ p, p ∈ f.particles_ → f.MACGrid_.inside p.position) :
    ∃ vu vv vw, f.transfer_normalized = some (f.normalized_grid, vu, vv, vw) := by
  have h1 := forEachParticle_transfer f.kernel_radius f.h_scaledx f.h_scaledy f.h_scaledz
    f.particles_ f.transfer_start
    (fun p hp => (inside_congr _ _ (transfer_start_geometry f) p.position).mpr (hin p hp))
  obtain ⟨vu, hu⟩ := normalize_accumulated_u_eq
    (f.transfer_start.transferred f.kernel_radius f.h_scaledx f.h_scaledy f.h_scaledz
      f.particles_) (fun _ => false)
  obtain ⟨vv, hv⟩ := normalize_accumulated_v_eq
    (f.transfer_start.transferred f.kernel_radius f.h_scaledx f.h_scaledy f.h_scaledz
      f.particles_).normalized_u (fun _ => false)
  obtain ⟨vw, hw⟩ := normalize_accumulated_w_eq
    (f.transfer_start.transferred f.kernel_radius f.h_scaledx f.h_scaledy f.h_scaledz
      f.particles_).normalized_u.normalized_v (fun _ => false)
  refine ⟨vu, vv, vw, ?_⟩
  rw [transfer_normalized_unfold, h1, Option.some_bind, hu, Option.some_bind, hv,
    Option.some_bind, hw, Option.map_some']
  rfl

/-- If the transfer and normalisation complete, every particle lies inside the domain and
the resulting grid is `normalized_grid`. -/
theorem transfer_normalized_spec (f : FLIP)
    (t : Mac3d × (ℕ → Bool) × (ℕ → Bool) × (ℕ → Bool)) (h : f.transfer_normalized = some t) :
    (∀ p, p ∈ f.particles_ → f.MACGrid_.inside p.position) ∧ t.1 = f.normalized_grid := by
  have hin : ∀ p, p ∈ f.particles_ → f.MACGrid_.inside p.position := by
    rw [transfer_normalized_unfold, Option.bind_eq_some] at h
    obtain ⟨g2, hg2, _⟩ := h
    intro p hp
    exact (inside_congr _ _ (transfer_start_geometry f) p.position).mp
      (forEachParticle_transfer_inside _ _ _ _ _ _ _ hg2 p hp)
  refine ⟨hin, ?_⟩
  obtain ⟨vu, vv, vw, h'⟩ := transfer_normalized_eq f hin
  rw [h'] at h
  rw [← Option.some.inj h]

theorem M_PI_pos : 0 < M_PI := by
  unfold M_PI
  norm_num

theorem compute_weight_nonneg (pos gc : Vector3d) (h : ℚ)
    (ht : FLIP.check_threshold pos gc h = true) : 0 ≤ FLIP.compute_weight pos gc h := by
  unfold FLIP.check_threshold at ht
  have ht' : 0 ≤ h ∧ pos.dist_sq gc ≤ h ^ 2 := of_decide_eq_true ht
  unfold FLIP.compute_weight
  have h1 : 0 ≤ 315 / (64 * M_PI * h ^ 9) :=
    div_nonneg (by norm_num)
      (mul_nonneg (mul_nonneg (by norm_num) (le_of_lt M_PI_pos)) (pow_nonneg ht'.1 9))
  have h2 : 0 ≤ h ^ 2 - pos.dist_sq gc := by linarith [ht'.2]
  exact mul_nonneg h1 (pow_nonneg h2 3)

theorem contributes_u_threshold (g : Mac3d) (h : ℚ) (hsx hsy hsz : ℤ) (p : Particle)
    (a b e : ℕ) (hc : FLIP.contributes_u g h hsx hsy hsz p a b e = true) :
    FLIP.check_threshold p.position (FLIP.u_coord g a b e) h = true := by
  unfold FLIP.contributes_u at hc
  cases hidx : g.index_from_coord p.position.x p.position.y p.position.z with
  | none => rw [hidx] at hc; exact absurd hc (by simp)
  | some cell =>
    rw [hidx] at hc
    exact (of_decide_eq_true hc).2.2

theorem contributes_v_threshold (g : Mac3d) (h : ℚ) (hsx hsy hsz : ℤ) (p : Particle)
    (a b e : ℕ) (hc : FLIP.contributes_v g h hsx hsy hsz p a b e = true) :
    FLIP.check_threshold p.position (FLIP.v_coord g a b e) h = true := by
  unfold FLIP.contributes_v at hc
  cases hidx : g.index_from_coord p.position.x p.position.y p.position.z with
  | none => rw [hidx] at hc; exact absurd hc (by simp)
  | some cell =>
    rw [hidx] at hc
    exact (of_decide_eq_true hc).2.2

theorem contributes_w_threshold (g : Mac3d) (h : ℚ) (hsx hsy hsz : ℤ) (p : Particle)
    (a b e : ℕ) (hc : FLIP.contributes_w g h hsx hsy hsz p a b e = true) :
    FLIP.check_threshold p.position (FLIP.w_coord g a b e) h = true := by
  unfold FLIP.contributes_w at hc
  cases hidx : g.index_from_coord p.position.x p.position.y p.position.z with
  | none => rw [hidx] at hc; exact absurd hc (by simp)
  | some cell =>
    rw [hidx] at hc
    exact (of_decide_eq_true hc).2.2

theorem face_weight_u_nonneg (f : FLIP) (p : Particle) (a b e : ℕ) :
    0 ≤ f.face_weight_u p a b e := by
  unfold FLIP.face_weight_u FLIP.weight_u
  split_ifs with hc
  · exact compute_weight_nonneg _ _ _ (contributes_u_threshold _ _ _ _ _ _ _ _ _ hc)
  · exact le_refl 0

theorem face_weight_v_nonneg (f : FLIP) (p : Particle) (a b e : ℕ) :
    0 ≤ f.face_weight_v p a b e := by
  unfold FLIP.face_weight_v FLIP.weight_v
  split_ifs with hc
  · exact compute_weight_nonneg _ _ _ (contributes_v_threshold _ _ _ _ _ _ _ _ _ hc)
  · exact le_refl 0

theorem face_weight_w_nonneg (f : FLIP) (p : Particle) (a b e : ℕ) :
    0 ≤ f.face_weight_w p a b e := by
  unfold FLIP.face_weight_w FLIP.weight_w
  split_ifs with hc
  · exact compute_weight_nonneg _ _ _ (contributes_w_threshold _ _ _ _ _ _ _ _ _ hc)
  · exact le_refl 0

theorem face_weight_u_contributed (f : FLIP) (p : Particle) (a b e : ℕ)
    (h : f.face_weight_u p a b e ≠ 0) : f.contributed_u p a b e = true := by
  unfold FLIP.face_weight_u FLIP.weight_u at h
  unfold FLIP.contributed_u
  by_contra hc
  exact h (if_neg hc)

theorem face_weight_v_contributed (f : FLIP) (p : Particle) (a b e : ℕ)
    (h : f.face_weight_v p a b e ≠ 0) : f.contributed_v p a b e = true := by
  unfold FLIP.face_weight_v FLIP.weight_v at h
  unfold FLIP.contributed_v
  by_contra hc
  exact h (if_neg hc)

theorem face_weight_w_contributed (f : FLIP) (p : Particle) (a b e : ℕ)
    (h : f.face_weight_w p a b e ≠ 0) : f.contributed_w p a b e = true := by
  unfold FLIP.face_weight_w FLIP.weight_w at h
  unfold FLIP.contributed_w
  by_contra hc
  exact h (if_neg hc)

/-- A sum of nonnegative weights is nonnegative, and the weighted sum of values that lie
in `[lo, hi]` wherever the weight is not 0 lies in `[lo * W, hi * W]`. -/
theorem weightedSum_bounds (w c : Particle → ℚ) (lo hi : ℚ) (hw : ∀ p, 0 ≤ w p) :
    ∀ ps : List Particle, (∀ p, p ∈ ps → w p ≠ 0 → lo ≤ c p ∧ c p ≤ hi) →
      0 ≤ weightSum w ps ∧ lo * weightSum w ps ≤ weightedSum w c ps ∧
        weightedSum w c ps ≤ hi * weightSum w ps := by
  intro ps
  induction ps with
  | nil =>
    intro _
    simp [weightSum, weightedSum]
  | cons p ps ih =>
    intro hb
    obtain ⟨h0, h1, h2⟩ := ih (fun q hq => hb q (List.mem_cons_of_mem p hq))
    have e1 : weightSum w (p :: ps) = w p + weightSum w ps := by
      simp [weightSum]
    have e2 : weightedSum w c (p :: ps) = w p * c p + weightedSum w c ps := by
      simp [weightedSum]
    rw [e1, e2]
    have hp : lo * w p ≤ w p * c p ∧ w p * c p ≤ hi * w p := by
      by_cases hz : w p = 0
      · rw [hz]; simp
      · obtain ⟨hl, hh⟩ := hb p (List.mem_cons_self p ps) hz
        constructor
        · rw [mul_comm lo]; exact mul_le_mul_of_nonneg_left hl (hw p)
        · rw [mul_comm hi]; exact mul_le_mul_of_nonneg_left hh (hw p)
    refine ⟨add_nonneg (hw p) h0, ?_, ?_⟩
    · rw [mul_add]; exact add_le_add hp.1 h1
    · rw [mul_add]; exact add_le_add hp.2 h2

/-- The weighted average of values that lie in `[lo, hi]` wherever the weight is not 0
lies in `[lo, hi]`. -/
theorem weightedAverage_bounds (w c : Particle → ℚ) (lo hi : ℚ) (hw : ∀ p, 0 ≤ w p)
    (ps : List Particle) (hb : ∀ p, p ∈ ps → w p ≠ 0 → lo ≤ c p ∧ c p ≤ hi)
    (hW : weightSum w ps ≠ 0) :
    lo ≤ weightedSum w c ps / weightSum w ps ∧ weightedSum w c ps / weightSum w ps ≤ hi := by
  obtain ⟨h0, h1, h2⟩ := weightedSum_bounds w c lo hi hw ps hb
  have hpos : 0 < weightSum w ps := lt_of_le_of_ne h0 (Ne.symm hW)
  exact ⟨(le_div_iff₀ hpos).mpr h1, (div_le_iff₀ hpos).mpr h2⟩

theorem normalized_pu (T : Mac3d) (a b e : ℕ) :
    T.normalized_u.normalized_v.normalized_w.pu_ a b e
      = if T.pweights_u_ a b e ≠ 0 ∧ a < T.N_ + 1 ∧ b < T.M_ ∧ e < T.L_ then
          T.pu_ a b e / T.pweights_u_ a b e
        else T.pu_ a b e := rfl

theorem normalized_pweights_u (T : Mac3d) (a b e : ℕ) :
    T.normalized_u.normalized_v.normalized_w.pweights_u_ a b e = T.pweights_u_ a b e := rfl

/-- After the normalisation passes, the weight accumulator of an in-shape `u` face holds
the sum of the weights of the particles, and the face holds the accumulated weighted
velocity, divided by that sum if it is not 0. -/
theorem normalized_grid_u (f : FLIP) (a b e : ℕ) (ha : a < f.MACGrid_.N_ + 1)
    (hb : b < f.MACGrid_.M_) (he : e < f.MACGrid_.L_) :
    f.normalized_grid.pweights_u_ a b e
        = weightSum (fun p => f.face_weight_u p a b e) f.particles_ ∧
      f.normalized_grid.pu_ a b e
        = if weightSum (fun p => f.face_weight_u p a b e) f.particles_ ≠ 0 then
            weightedSum (fun p => f.face_weight_u p a b e) (fun p => p.velocity.x)
                f.particles_
              / weightSum (fun p => f.face_weight_u p a b e) f.particles_
          else weightedSum (fun p => f.face_weight_u p a b e) (fun p => p.velocity.x)
            f.particles_ := by
  have hW := transferred_pweights_u f.MACGrid_ f.transfer_start (transfer_start_geometry f)
    f.kernel_radius f.h_scaledx f.h_scaledy f.h_scaledz f.particles_ a b e
  have hU := transferred_pu f.MACGrid_ f.transfer_start (transfer_start_geometry f)
    f.kernel_radius f.h_scaledx f.h_scaledy f.h_scaledz f.particles_ a b e
  have hW0 : f.transfer_start.pweights_u_ a b e = 0 := by
    show (if a < f.MACGrid_.N_ + 1 ∧ b < f.MACGrid_.M_ ∧ e < f.MACGrid_.L_ then (0 : ℚ)
      else _) = 0
    exact if_pos ⟨ha, hb, he⟩
  have hU0 : f.transfer_start.pu_ a b e = 0 := by
    show (if a < f.MACGrid_.N_ + 1 ∧ b < f.MACGrid_.M_ ∧ e < f.MACGrid_.L_ then (0 : ℚ)
      else _) = 0
    exact if_pos ⟨ha, hb, he⟩
  rw [hW0, zero_add] at hW
  rw [hU0, zero_add] at hU
  have hW' : (f.transfer_start.transferred f.kernel_radius f.h_scaledx f.h_scaledy
      f.h_scaledz f.particles_).pweights_u_ a b e
        = weightSum (fun p => f.face_weight_u p a b e) f.particles_ := hW
  have hU' : (f.transfer_start.transferred f.kernel_radius f.h_scaledx f.h_scaledy
      f.h_scaledz f.particles_).pu_ a b e
        = weightedSum (fun p => f.face_weight_u p a b e) (fun p => p.velocity.x)
          f.particles_ := hU
  have hN : (f.transfer_start.transferred f.kernel_radius f.h_scaledx f.h_scaledy
      f.h_scaledz f.particles_).N_ = f.MACGrid_.N_ := rfl
  have hM : (f.transfer_start.transferred f.kernel_radius f.h_scaledx f.h_scaledy
      f.h_scaledz f.particles_).M_ = f.MACGrid_.M_ := rfl
  have hL : (f.transfer_start.transferred f.kernel_radius f.h_scaledx f.h_scaledy
      f.h_scaledz f.particles_).L_ = f.MACGrid_.L_ := rfl
  unfold FLIP.normalized_grid
  rw [normalized_pweights_u, normalized_pu, hW', hU', hN, hM, hL]
  refine ⟨rfl, ?_⟩
  by_cases hz : weightSum (fun p => f.face_weight_u p a b e) f.particles_ ≠ 0
  · rw [if_pos ⟨hz, ha, hb, he⟩, if_pos hz]
  · rw [if_neg (fun h => hz h.1), if_neg hz]

theorem normalized_pv (T : Mac3d) (a b e : ℕ) :
    T.normalized_u.normalized_v.normalized_w.pv_ a b e
      = if T.pweights_v_ a b e ≠ 0 ∧ a < T.N_ ∧ b < T.M_ + 1 ∧ e < T.L_ then
          T.pv_ a b e / T.pweights_v_ a b e
        else T.pv_ a b e := rfl

theorem normalized_pweights_v (T : Mac3d) (a b e : ℕ) :
    T.normalized_u.normalized_v.normalized_w.pweights_v_ a b e = T.pweights_v_ a b e := rfl

/-- After the normalisation passes, the weight accumulator of an in-shape `v` face holds
the sum of the weights of the particles, and the face holds the accumulated weighted
velocity, divided by that sum if it is not 0. -/
theorem normalized_grid_v (f : FLIP) (a b e : ℕ) (ha : a < f.MACGrid_.N_)
    (hb : b < f.MACGrid_.M_ + 1) (he : e < f.MACGrid_.L_) :
    f.normalized_grid.pweights_v_ a b e
        = weightSum (fun p => f.face_weight_v p a b e) f.particles_ ∧
      f.normalized_grid.pv_ a b e
        = if weightSum (fun p => f.face_weight_v p a b e) f.particles_ ≠ 0 then
            weightedSum (fun p => f.face_weight_v p a b e) (fun p => p.velocity.y)
                f.particles_
              / weightSum (fun p => f.face_weight_v p a b e) f.particles_
          else weightedSum (fun p => f.face_weight_v p a b e) (fun p => p.velocity.y)
            f.particles_ := by
  have hW := transferred_pweights_v f.MACGrid_ f.transfer_start (transfer_start_geometry f)
    f.kernel_radius f.h_scaledx f.h_scaledy f.h_scaledz f.particles_ a b e
  have hU := transferred_pv f.MACGrid_ f.transfer_start (transfer_start_geometry f)
    f.kernel_radius f.h_scaledx f.h_scaledy f.h_scaledz f.particles_ a b e
  have hW0 : f.transfer_start.pweights_v_ a b e = 0 := by
    show (if a < f.MACGrid_.N_ ∧ b < f.MACGrid_.M_ + 1 ∧ e < f.MACGrid_.L_ then (0 : ℚ)
      else _) = 0
    exact if_pos ⟨ha, hb, he⟩
  have hU0 : f.transfer_start.pv_ a b e = 0 := by
    show (if a < f.MACGrid_.N_ ∧ b < f.MACGrid_.M_ + 1 ∧ e < f.MACGrid_.L_ then (0 : ℚ)
      else _) = 0
    exact if_pos ⟨ha, hb, he⟩
  rw [hW0, zero_add] at hW
  rw [hU0, zero_add] at hU
  have hW' : (f.transfer_start.transferred f.kernel_radius f.h_scaledx f.h_scaledy
      f.h_scaledz f.particles_).pweights_v_ a b e
        = weightSum (fun p => f.face_weight_v p a b e) f.particles_ := hW
  have hU' : (f.transfer_start.transferred f.kernel_radius f.h_scaledx f.h_scaledy
      f.h_scaledz f.particles_).pv_ a b e
        = weightedSum (fun p => f.face_weight_v p a b e) (fun p => p.velocity.y)
          f.particles_ := hU
  have hN : (f.transfer_start.transferred f.kernel_radius f.h_scaledx f.h_scaledy
      f.h_scaledz f.particles_).N_ = f.MACGrid_.N_ := rfl
  have hM : (f.transfer_start.transferred f.kernel_radius f.h_scaledx f.h_scaledy
      f.h_scaledz f.particles_).M_ = f.MACGrid_.M_ := rfl
  have hL : (f.transfer_start.transferred f.kernel_radius f.h_scaledx f.h_scaledy
      f.h_scaledz f.particles_).L_ = f.MACGrid_.L_ := rfl
  unfold FLIP.normalized_grid
  rw [normalized_pweights_v, normalized_pv, hW', hU', hN, hM, hL]
  refine ⟨rfl, ?_⟩
  by_cases hz : weightSum (fun p => f.face_weight_v p a b e) f.particles_ ≠ 0
  · rw [if_pos ⟨hz, ha, hb, he⟩, if_pos hz]
  · rw [if_neg (fun h => hz h.1), if_neg hz]

theorem normalized_pw (T : Mac3d) (a b e : ℕ) :
    T.normalized_u.normalized_v.normalized_w.pw_ a b e
      = if T.pweights_w_ a b e ≠ 0 ∧ a < T.N_ ∧ b < T.M_ ∧ e < T.L_ + 1 then
          T.pw_ a b e / T.pweights_w_ a b e
        else T.pw_ a b e := rfl

theorem normalized_pweights_w (T : Mac3d) (a b e : ℕ) :
    T.normalized_u.normalized_v.normalized_w.pweights_w_ a b e = T.pweights_w_ a b e := rfl

/-- After the normalisation passes, the weight accumulator of an in-shape `w` face holds
the sum of the weights of the particles, and the face holds the accumulated weighted
velocity, divided by that sum if it is not 0. -/
theorem normalized_grid_w (f : FLIP) (a b e : ℕ) (ha : a < f.MACGrid_.N_)
    (hb : b < f.MACGrid_.M_) (he : e < f.MACGrid_.L_ + 1) :
    f.normalized_grid.pweights_w_ a b e
        = weightSum (fun p => f.face_weight_w p a b e) f.particles_ ∧
      f.normalized_grid.pw_ a b e
        = if weightSum (fun p => f.face_weight_w p a b e) f.particles_ ≠ 0 then
            weightedSum (fun p => f.face_weight_w p a b e) (fun p => p.velocity.z)
                f.particles_
              / weightSum (fun p => f.face_weight_w p a b e) f.particles_
          else weightedSum (fun p => f.face_weight_w p a b e) (fun p => p.velocity.z)
            f.particles_ := by
  have hW := transferred_pweights_w f.MACGrid_ f.transfer_start (transfer_start_geometry f)
    f.kernel_radius f.h_scaledx f.h_scaledy f.h_scaledz f.particles_ a b e
  have hU := transferred_pw f.MACGrid_ f.transfer_start (transfer_start_geometry f)
    f.kernel_radius f.h_scaledx f.h_scaledy f.h_scaledz f.particles_ a b e
  have hW0 : f.transfer_start.pweights_w_ a b e = 0 := by
    show (if a < f.MACGrid_.N_ ∧ b < f.MACGrid_.M_ ∧ e < f.MACGrid_.L_ + 1 then (0 : ℚ)
      else _) = 0
    exact if_pos ⟨ha, hb, he⟩
  have hU0 : f.transfer_start.pw_ a b e = 0 := by
    show (if a < f.MACGrid_.N_ ∧ b < f.MACGrid_.M_ ∧ e < f.MACGrid_.L_ + 1 then (0 : ℚ)
      else _) = 0
    exact if_pos ⟨ha, hb, he⟩
  rw [hW0, zero_add] at hW
  rw [hU0, zero_add] at hU
  have hW' : (f.transfer_start.transferred f.kernel_radius f.h_scaledx f.h_scaledy
      f.h_scaledz f.particles_).pweights_w_ a b e
        = weightSum (fun p => f.face_weight_w p a b e) f.particles_ := hW
  have hU' : (f.transfer_start.transferred f.kernel_radius f.h_scaledx f.h_scaledy
      f.h_scaledz f.particles_).pw_ a b e
        = weightedSum (fun p => f.face_weight_w p a b e) (fun p => p.velocity.z)
          f.particles_ := hU
  have hN : (f.transfer_start.transferred f.kernel_radius f.h_scaledx f.h_scaledy
      f.h_scaledz f.particles_).N_ = f.MACGrid_.N_ := rfl
  have hM : (f.transfer_start.transferred f.kernel_radius f.h_scaledx f.h_scaledy
      f.h_scaledz f.particles_).M_ = f.MACGrid_.M_ := rfl
  have hL : (f.transfer_start.transferred f.kernel_radius f.h_scaledx f.h_scaledy
      f.h_scaledz f.particles_).L_ = f.MACGrid_.L_ := rfl
  unfold FLIP.normalized_grid
  rw [normalized_pweights_w, normalized_pw, hW', hU', hN, hM, hL]
  refine ⟨rfl, ?_⟩
  by_cases hz : weightSum (fun p => f.face_weight_w p a b e) f.particles_ ≠ 0
  · rw [if_pos ⟨hz, ha, hb, he⟩, if_pos hz]
  · rw [if_neg (fun h => hz h.1), if_neg hz]

theorem isWeightedAverage_of (value acc : ℚ) (w c : Particle → ℚ)
    (contributed : Particle → Bool) (ps : List Particle) (hw : ∀ p, 0 ≤ w p)
    (hc : ∀ p, w p ≠ 0 → contributed p = true) (hacc : acc = weightSum w ps)
    (hval : value = if weightSum w ps ≠ 0 then weightedSum w c ps / weightSum w ps
      else weightedSum w c ps) :
    IsWeightedAverage value acc w c contributed ps := by
  refine ⟨hacc, fun hne => ?_⟩
  rw [hacc] at hne
  rw [if_pos hne] at hval
  have hbd : ∀ lo hi : ℚ, (∀ p, p ∈ ps → contributed p = true → lo ≤ c p ∧ c p ≤ hi) →
      lo ≤ value ∧ value ≤ hi := by
    intro lo hi hb
    rw [hval]
    exact weightedAverage_bounds w c lo hi hw ps (fun p hp hz => hb p hp (hc p hz)) hne
  refine ⟨hval, hbd, fun p hp => ?_⟩
  have h := hbd (c p) (c p) (fun q hq hcq => by rw [hp q hq hcq]; exact ⟨le_refl _, le_refl _⟩)
  exact le_antisymm h.2 h.1

theorem singleFLIP_inside :
    ∀ p, p ∈ singleFLIP.particles_ → singleFLIP.MACGrid_.inside p.position := by
  intro p hp
  have hp' : p = ⟨⟨1, 1, 1⟩, ⟨1, 1, 1⟩, ⟨1, 0, 0⟩⟩ := by
    simpa [singleFLIP] using hp
  subst hp'
  norm_num [Mac3d.inside, singleFLIP, crossGrid, Mac3d.get_grid_size]

theorem singleFLIP_weight :
    singleFLIP.face_weight_u ⟨⟨1, 1, 1⟩, ⟨1, 1, 1⟩, ⟨1, 0, 0⟩⟩ 1 1 1 ≠ 0 := by
  have hc : ⌈(2 : ℚ)⌉ = 2 := Int.ceil_eq_iff.mpr (by norm_num)
  have hidx : crossGrid.index_from_coord 1 1 1 = some (1, 1, 1) := crossGrid_index_centre
  have ht : FLIP.check_threshold ⟨1, 1, 1⟩ (FLIP.u_coord crossGrid 1 1 1) 2 = true := by
    unfold FLIP.check_threshold
    apply decide_eq_true
    norm_num [FLIP.u_coord, Vector3d.dist_sq, crossGrid, Mac3d.get_cell_sizex,
      Mac3d.get_cell_sizey, Mac3d.get_cell_sizez]
  have hk : singleFLIP.kernel_radius = 2 := by
    norm_num [FLIP.kernel_radius, singleFLIP, crossGrid, Mac3d.get_cell_sizex]
  have hcon : FLIP.contributes_u crossGrid 2 2 2 2 ⟨⟨1, 1, 1⟩, ⟨1, 1, 1⟩, ⟨1, 0, 0⟩⟩ 1 1 1
      = true := by
    unfold FLIP.contributes_u
    rw [hidx]
    apply decide_eq_true
    exact ⟨by decide, by decide, ht⟩
  have hx : singleFLIP.h_scaledx = 2 := by
    unfold FLIP.h_scaledx
    rw [hk]
    norm_num [singleFLIP, crossGrid, Mac3d.get_cell_sizex, hc]
  have hy : singleFLIP.h_scaledy = 2 := by
    unfold FLIP.h_scaledy
    rw [hk]
    norm_num [singleFLIP, crossGrid, Mac3d.get_cell_sizey, hc]
  have hz : singleFLIP.h_scaledz = 2 := by
    unfold FLIP.h_scaledz
    rw [hk]
    norm_num [singleFLIP, crossGrid, Mac3d.get_cell_sizez, hc]
  unfold FLIP.face_weight_u FLIP.weight_u
  rw [hk, hx, hy, hz]
  have hg : singleFLIP.MACGrid_ = crossGrid := rfl
  rw [hg, if_pos hcon]
  norm_num [FLIP.compute_weight, FLIP.u_coord, Vector3d.dist_sq, crossGrid,
    Mac3d.get_cell_sizex, Mac3d.get_cell_sizey, Mac3d.get_cell_sizez, M_PI]

/-- C14. The transfer and normalisation passes of `compute_velocity_field` (before
extrapolation) complete when every particle lies inside the domain; whenever they return a
grid, every `u` face of the grid is the weighted average of the x-velocities of the
particles that contributed to it: its weight accumulator is `sum_p w_p`, and if that is
not 0 the face holds `sum_p (w_p * vel_p.x) / sum_p w_p`, lies between any lower and upper
bound of the x-velocities of the contributing particles (so between their minimum and
maximum), and equals the x-velocity of the particle if a single particle contributed. The
same holds for the `v` faces with the y-velocities and the `w` faces with the
z-velocities. -/
theorem transfer_normalized_weighted_average (f : FLIP) :
    ((∀ p, p ∈ f.particles_ → f.MACGrid_.inside p.position) →
      ∃ t, f.transfer_normalized = some t) ∧
    ∀ t, f.transfer_normalized = some t →
      (∀ a b e, a < f.MACGrid_.N_ + 1 → b < f.MACGrid_.M_ → e < f.MACGrid_.L_ →
        IsWeightedAverage (t.1.pu_ a b e) (t.1.pweights_u_ a b e)
          (fun p => f.face_weight_u p a b e) (fun p => p.velocity.x)
          (fun p => f.contributed_u p a b e) f.particles_) ∧
      (∀ a b e, a < f.MACGrid_.N_ → b < f.MACGrid_.M_ + 1 → e < f.MACGrid_.L_ →
        IsWeightedAverage (t.1.pv_ a b e) (t.1.pweights_v_ a b e)
          (fun p => f.face_weight_v p a b e) (fun p => p.velocity.y)
          (fun p => f.contributed_v p a b e) f.particles_) ∧
      (∀ a b e, a < f.MACGrid_.N_ → b < f.MACGrid_.M_ → e < f.MACGrid_.L_ + 1 →
        IsWeightedAverage (t.1.pw_ a b e) (t.1.pweights_w_ a b e)
          (fun p => f.face_weight_w p a b e) (fun p => p.velocity.z)
          (fun p => f.contributed_w p a b e) f.particles_) := by
  refine ⟨fun hin => ?_, fun t ht => ?_⟩
  · obtain ⟨vu, vv, vw, h⟩ := transfer_normalized_eq f hin
    exact ⟨_, h⟩
  · obtain ⟨_, hg⟩ := transfer_normalized_spec f t ht
    rw [hg]
    refine ⟨fun a b e ha hb he => ?_, fun a b e ha hb he => ?_, fun a b e ha hb he => ?_⟩
    · exact isWeightedAverage_of _ _ _ _ _ _ (fun p => face_weight_u_nonneg f p a b e)
        (fun p hp => face_weight_u_contributed f p a b e hp)
        (normalized_grid_u f a b e ha hb he).1 (normalized_grid_u f a b e ha hb he).2
    · exact isWeightedAverage_of _ _ _ _ _ _ (fun p => face_weight_v_nonneg f p a b e)
        (fun p hp => face_weight_v_contributed f p a b e hp)
        (normalized_grid_v f a b e ha hb he).1 (normalized_grid_v f a b e ha hb he).2
    · exact isWeightedAverage_of _ _ _ _ _ _ (fun p => face_weight_w_nonneg f p a b e)
        (fun p hp => face_weight_w_contributed f p a b e hp)
        (normalized_grid_w f a b e ha hb he).1 (normalized_grid_w f a b e ha hb he).2

/-- On `singleFLIP` the passes complete, the `u` face `(1, 1, 1)` next to the particle
has a nonzero weight accumulator and recovers the x-velocity 1 of the particle. -/
theorem transfer_normalized_weighted_average_witness :
    (∀ p, p ∈ singleFLIP.particles_ → singleFLIP.MACGrid_.inside p.position) ∧
    ∃ t, singleFLIP.transfer_normalized = some t ∧ t.1.pweights_u_ 1 1 1 ≠ 0 ∧
      t.1.pu_ 1 1 1 = 1 := by
  obtain ⟨t, ht⟩ := (transfer_normalized_weighted_average singleFLIP).1 singleFLIP_inside
  have h := ((transfer_normalized_weighted_average singleFLIP).2 t ht).1 1 1 1
    (by decide) (by decide) (by decide)
  have hne : t.1.pweights_u_ 1 1 1 ≠ 0 := by
    rw [h.1]
    have e : weightSum (fun p => singleFLIP.face_weight_u p 1 1 1) singleFLIP.particles_
        = singleFLIP.face_weight_u ⟨⟨1, 1, 1⟩, ⟨1, 1, 1⟩, ⟨1, 0, 0⟩⟩ 1 1 1 := by
      simp [weightSum, singleFLIP]
    rw [e]
    exact singleFLIP_weight
  refine ⟨singleFLIP_inside, t, ht, hne, ?_⟩
  have h3 := (h.2 hne).2.2 ⟨⟨1, 1, 1⟩, ⟨1, 1, 1⟩, ⟨1, 0, 0⟩⟩
    (fun q hq _ => by simpa [singleFLIP] using hq)
  exact h3

theorem sameCells_refl (g : Mac3d) : SameCells g g := ⟨rfl, rfl, rfl, rfl, rfl⟩

theorem sameCells_trans (a b c : Mac3d) (h1 : SameCells a b) (h2 : SameCells b c) :
    SameCells a c :=
  ⟨h2.hN.trans h1.hN, h2.hM.trans h1.hM, h2.hL.trans h1.hL, h2.hsolid.trans h1.hsolid,
    h2.hfluid.trans h1.hfluid⟩

/-- Completion rule for the loop nest with a reflexive, transitive relation between the
states: if the body completes from every state related to the first one and relates its
result to its argument, so does the nest. -/
theorem forLoop3_isSome {σ : Type} (rel : σ → σ → Prop) (hrefl : ∀ s, rel s s)
    (htrans : ∀ a b c, rel a b → rel b c → rel a c) (nx ny nz : ℕ)
    (body : ℕ → ℕ → ℕ → σ → Option σ) (s0 : σ)
    (hstep : ∀ i j k, i < nx → j < ny → k < nz → ∀ t, rel s0 t →
      ∃ t', body i j k t = some t' ∧ rel t t') :
    ∃ s', forLoop3 nx ny nz body s0 = some s' ∧ rel s0 s' := by
  unfold forLoop3
  refine forLoop_isSome rel hrefl htrans _ nz s0 s0 (hrefl s0) (fun k hk t ht => ?_)
  obtain ⟨t', h1, h2⟩ := forLoop_isSome rel hrefl htrans
    (fun j => forLoop nx (fun i => body i j k)) ny s0 t ht (fun j hj u hu => by
      obtain ⟨u', g1, g2⟩ := forLoop_isSome rel hrefl htrans (fun i => body i j k) nx s0 u hu
        (fun i hi v hv => hstep i j k hi hj hk v hv)
      exact ⟨u', g1, g2⟩)
  exact ⟨t', h1, h2⟩

/-- A guarded step of the extrapolation keeps the relation to the first grid. -/
theorem guarded_step_cells (g : Mac3d) (c : Prop) [Decidable c]
    (step : Mac3d × (ℕ → ℕ) → Option (Mac3d × (ℕ → ℕ))) (s : Mac3d × (ℕ → ℕ))
    (hs : SameCells g s.1)
    (hstep : c → ∃ s', step s = some s' ∧ SameCells g s'.1) :
    ∃ s', (if c then step s else some s) = some s' ∧ SameCells g s'.1 := by
  by_cases hc : c
  · rw [if_pos hc]; exact hstep hc
  · rw [if_neg hc]; exact ⟨s, rfl, hs⟩

/-- A guarded step of the extrapolation followed by the rest of the body. -/
theorem guarded_bind_cells (g : Mac3d) (c : Prop) [Decidable c]
    (step rest : Mac3d × (ℕ → ℕ) → Option (Mac3d × (ℕ → ℕ))) (s : Mac3d × (ℕ → ℕ))
    (hs : SameCells g s.1)
    (hstep : c → ∃ s', step s = some s' ∧ SameCells g s'.1)
    (hrest : ∀ s1 : Mac3d × (ℕ → ℕ), SameCells g s1.1 →
      ∃ s', rest s1 = some s' ∧ SameCells g s'.1) :
    ∃ s', (if c then step s else some s).bind rest = some s' ∧ SameCells g s'.1 := by
  obtain ⟨s1, e1, r1⟩ := guarded_step_cells g c step s hs hstep
  rw [e1, Option.some_bind]
  exact hrest s1 r1

theorem extrapolate_u_step_cells (g : Mac3d) (i j k i' j' k' idx : ℕ) (s : Mac3d × (ℕ → ℕ))
    (hs : SameCells g s.1) (h : i < g.N_ + 1 ∧ j < g.M_ ∧ k < g.L_)
    (h' : i' < g.N_ + 1 ∧ j' < g.M_ ∧ k' < g.L_) :
    ∃ s', FLIP.extrapolate_u_step i j k i' j' k' idx s = some s' ∧ SameCells g s'.1 := by
  have hb : i < s.1.N_ + 1 ∧ j < s.1.M_ ∧ k < s.1.L_ := by
    rw [hs.hN, hs.hM, hs.hL]; exact h
  have hb' : i' < s.1.N_ + 1 ∧ j' < s.1.M_ ∧ k' < s.1.L_ := by
    rw [hs.hN, hs.hM, hs.hL]; exact h'
  unfold FLIP.extrapolate_u_step
  simp only [Mac3d.get_u, Mac3d.set_u, if_pos hb, if_pos hb', Option.some_bind,
    Option.map_some']
  exact ⟨_, rfl, ⟨hs.hN, hs.hM, hs.hL, hs.hsolid, hs.hfluid⟩⟩

theorem extrapolate_u_face_cells (vis : ℕ → Bool) (g : Mac3d) (i j k : ℕ)
    (hi : i < g.N_ + 1) (hj : j < g.M_) (hk : k < g.L_) (s : Mac3d × (ℕ → ℕ))
    (hs : SameCells g s.1) :
    ∃ s', FLIP.extrapolate_u_face vis g.N_ g.M_ g.L_ i j k s = some s' ∧
      SameCells g s'.1 := by
  unfold FLIP.extrapolate_u_face
  by_cases hv : vis ((g.N_ + 1) * j + i + (g.N_ + 1) * g.M_ * k) = true
  · rw [if_pos hv]
    refine guarded_bind_cells g _ _ _ s hs
      (fun hc => extrapolate_u_step_cells g i j k (i - 1) j k _ s hs ⟨hi, hj, hk⟩
        ⟨by omega, hj, hk⟩) (fun s1 r1 => ?_)
    refine guarded_bind_cells g _ _ _ s1 r1
      (fun hc => extrapolate_u_step_cells g i j k i (j - 1) k _ s1 r1 ⟨hi, hj, hk⟩
        ⟨hi, by omega, hk⟩) (fun s2 r2 => ?_)
    refine guarded_bind_cells g _ _ _ s2 r2
      (fun hc => extrapolate_u_step_cells g i j k i j (k - 1) _ s2 r2 ⟨hi, hj, hk⟩
        ⟨hi, hj, by omega⟩) (fun s3 r3 => ?_)
    refine guarded_bind_cells g _ _ _ s3 r3
      (fun hc => extrapolate_u_step_cells g i j k (i + 1) j k _ s3 r3 ⟨hi, hj, hk⟩
        ⟨by have := hc.1; omega, hj, hk⟩) (fun s4 r4 => ?_)
    refine guarded_bind_cells g _ _ _ s4 r4
      (fun hc => extrapolate_u_step_cells g i j k i (j + 1) k _ s4 r4 ⟨hi, hj, hk⟩
        ⟨hi, by have := hc.1; omega, hk⟩) (fun s5 r5 => ?_)
    exact guarded_step_cells g _ _ s5 r5
      (fun hc => extrapolate_u_step_cells g i j k i j (k + 1) _ s5 r5 ⟨hi, hj, hk⟩
        ⟨hi, hj, by have := hc.1; omega⟩)
  · rw [if_neg hv]; exact ⟨s, rfl, hs⟩

/-- `extrapolate_u` completes and keeps the dimensions and the flags of the cells. -/
theorem extrapolate_u_cells (vis : ℕ → Bool) (g : Mac3d) :
    ∃ g', FLIP.extrapolate_u vis g = some g' ∧ SameCells g g' := by
  obtain ⟨s', h1, h2⟩ := forLoop3_isSome
    (fun (a b : Mac3d × (ℕ → ℕ)) => SameCells g a.1 → SameCells g b.1)
    (fun _ h => h) (fun _ _ _ h1 h2 h => h2 (h1 h)) (g.N_ + 1) g.M_ g.L_
    (FLIP.extrapolate_u_face vis g.N_ g.M_ g.L_) (g, fun _ => 0)
    (fun i j k hi hj hk t ht => by
      obtain ⟨t', e, r⟩ := extrapolate_u_face_cells vis g i j k hi hj hk t
        (ht (sameCells_refl g))
      exact ⟨t', e, fun _ => r⟩)
  refine ⟨s'.1, ?_, h2 (sameCells_refl g)⟩
  unfold FLIP.extrapolate_u
  show (forLoop3 (g.N_ + 1) g.M_ g.L_ (FLIP.extrapolate_u_face vis g.N_ g.M_ g.L_)
    (g, fun _ => 0)).map (fun s => s.1) = some s'.1
  rw [h1]
  rfl

theorem extrapolate_v_step_cells (g : Mac3d) (i j k i' j' k' idx : ℕ) (s : Mac3d × (ℕ → ℕ))
    (hs : SameCells g s.1) (h : i < g.N_ ∧ j < g.M_ + 1 ∧ k < g.L_)
    (h' : i' < g.N_ ∧ j' < g.M_ + 1 ∧ k' < g.L_) :
    ∃ s', FLIP.extrapolate_v_step i j k i' j' k' idx s = some s' ∧ SameCells g s'.1 := by
  have hb : i < s.1.N_ ∧ j < s.1.M_ + 1 ∧ k < s.1.L_ := by
    rw [hs.hN, hs.hM, hs.hL]; exact h
  have hb' : i' < s.1.N_ ∧ j' < s.1.M_ + 1 ∧ k' < s.1.L_ := by
    rw [hs.hN, hs.hM, hs.hL]; exact h'
  unfold FLIP.extrapolate_v_step
  simp only [Mac3d.get_v, Mac3d.set_v, if_pos hb, if_pos hb', Option.some_bind,
    Option.map_some']
  exact ⟨_, rfl, ⟨hs.hN, hs.hM, hs.hL, hs.hsolid, hs.hfluid⟩⟩

theorem extrapolate_v_face_cells (vis : ℕ → Bool) (g : Mac3d) (i j k : ℕ)
    (hi : i < g.N_) (hj : j < g.M_ + 1) (hk : k < g.L_) (s : Mac3d × (ℕ → ℕ))
    (hs : SameCells g s.1) :
    ∃ s', FLIP.extrapolate_v_face vis g.N_ g.M_ g.L_ i j k s = some s' ∧
      SameCells g s'.1 := by
  unfold FLIP.extrapolate_v_face
  by_cases hv : vis (g.N_ * j + i + g.N_ * (g.M_ + 1) * k) = true
  · rw [if_pos hv]
    refine guarded_bind_cells g _ _ _ s hs
      (fun hc => extrapolate_v_step_cells g i j k (i - 1) j k _ s hs ⟨hi, hj, hk⟩
        ⟨by omega, hj, hk⟩) (fun s1 r1 => ?_)
    refine guarded_bind_cells g _ _ _ s1 r1
      (fun hc => extrapolate_v_step_cells g i j k i (j - 1) k _ s1 r1 ⟨hi, hj, hk⟩
        ⟨hi, by omega, hk⟩) (fun s2 r2 => ?_)
    refine guarded_bind_cells g _ _ _ s2 r2
      (fun hc => extrapolate_v_step_cells g i j k i j (k - 1) _ s2 r2 ⟨hi, hj, hk⟩
        ⟨hi, hj, by omega⟩) (fun s3 r3 => ?_)
    refine guarded_bind_cells g _ _ _ s3 r3
      (fun hc => extrapolate_v_step_cells g i j k (i + 1) j k _ s3 r3 ⟨hi, hj, hk⟩
        ⟨by have := hc.1; omega, hj, hk⟩) (fun s4 r4 => ?_)
    refine guarded_bind_cells g _ _ _ s4 r4
      (fun hc => extrapolate_v_step_cells g i j k i (j + 1) k _ s4 r4 ⟨hi, hj, hk⟩
        ⟨hi, by have := hc.1; omega, hk⟩) (fun s5 r5 => ?_)
    exact guarded_step_cells g _ _ s5 r5
      (fun hc => extrapolate_v_step_cells g i j k i j (k + 1) _ s5 r5 ⟨hi, hj, hk⟩
        ⟨hi, hj, by have := hc.1; omega⟩)
  · rw [if_neg hv]; exact ⟨s, rfl, hs⟩

/-- `extrapolate_v` completes and keeps the dimensions and the flags of the cells. -/
theorem extrapolate_v_cells (vis : ℕ → Bool) (g : Mac3d) :
    ∃ g', FLIP.extrapolate_v vis g = some g' ∧ SameCells g g' := by
  obtain ⟨s', h1, h2⟩ := forLoop3_isSome
    (fun (a b : Mac3d × (ℕ → ℕ)) => SameCells g a.1 → SameCells g b.1)
    (fun _ h => h) (fun _ _ _ h1 h2 h => h2 (h1 h)) g.N_ (g.M_ + 1) g.L_
    (FLIP.extrapolate_v_face vis g.N_ g.M_ g.L_) (g, fun _ => 0)
    (fun i j k hi hj hk t ht => by
      obtain ⟨t', e, r⟩ := extrapolate_v_face_cells vis g i j k hi hj hk t
        (ht (sameCells_refl g))
      exact ⟨t', e, fun _ => r⟩)
  refine ⟨s'.1, ?_, h2 (sameCells_refl g)⟩
  unfold FLIP.extrapolate_v
  show (forLoop3 g.N_ (g.M_ + 1) g.L_ (FLIP.extrapolate_v_face vis g.N_ g.M_ g.L_)
    (g, fun _ => 0)).map (fun s => s.1) = some s'.1
  rw [h1]
  rfl

theorem extrapolate_w_step_cells (g : Mac3d) (i j k i' j' k' idx : ℕ) (s : Mac3d × (ℕ → ℕ))
    (hs : SameCells g s.1) (h : i < g.N_ ∧ j < g.M_ ∧ k < g.L_ + 1)
    (h' : i' < g.N_ ∧ j' < g.M_ ∧ k' < g.L_ + 1) :
    ∃ s', FLIP.extrapolate_w_step i j k i' j' k' idx s = some s' ∧ SameCells g s'.1 := by
  have hb : i < s.1.N_ ∧ j < s.1.M_ ∧ k < s.1.L_ + 1 := by
    rw [hs.hN, hs.hM, hs.hL]; exact h
  have hb' : i' < s.1.N_ ∧ j' < s.1.M_ ∧ k' < s.1.L_ + 1 := by
    rw [hs.hN, hs.hM, hs.hL]; exact h'
  unfold FLIP.extrapolate_w_step
  simp only [Mac3d.get_w, Mac3d.set_w, if_pos hb, if_pos hb', Option.some_bind,
    Option.map_some']
  exact ⟨_, rfl, ⟨hs.hN, hs.hM, hs.hL, hs.hsolid, hs.hfluid⟩⟩

theorem extrapolate_w_face_cells (vis : ℕ → Bool) (g : Mac3d) (i j k : ℕ)
    (hi : i < g.N_) (hj : j < g.M_) (hk : k < g.L_ + 1) (s : Mac3d × (ℕ → ℕ))
    (hs : SameCells g s.1) :
    ∃ s', FLIP.extrapolate_w_face vis g.N_ g.M_ g.L_ i j k s = some s' ∧
      SameCells g s'.1 := by
  unfold FLIP.extrapolate_w_face
  by_cases hv : vis (g.N_ * j + i + g.N_ * g.M_ * k) = true
  · rw [if_pos hv]
    refine guarded_bind_cells g _ _ _ s hs
      (fun hc => extrapolate_w_step_cells g i j k (i - 1) j k _ s hs ⟨hi, hj, hk⟩
        ⟨by omega, hj, hk⟩) (fun s1 r1 => ?_)
    refine guarded_bind_cells g _ _ _ s1 r1
      (fun hc => extrapolate_w_step_cells g i j k i (j - 1) k _ s1 r1 ⟨hi, hj, hk⟩
        ⟨hi, by omega, hk⟩) (fun s2 r2 => ?_)
    refine guarded_bind_cells g _ _ _ s2 r2
      (fun hc => extrapolate_w_step_cells g i j k i j (k - 1) _ s2 r2 ⟨hi, hj, hk⟩
        ⟨hi, hj, by omega⟩) (fun s3 r3 => ?_)
    refine guarded_bind_cells g _ _ _ s3 r3
      (fun hc => extrapolate_w_step_cells g i j k (i + 1) j k _ s3 r3 ⟨hi, hj, hk⟩
        ⟨by have := hc.1; omega, hj, hk⟩) (fun s4 r4 => ?_)
    refine guarded_bind_cells g _ _ _ s4 r4
      (fun hc => extrapolate_w_step_cells g i j k i (j + 1) k _ s4 r4 ⟨hi, hj, hk⟩
        ⟨hi, by have := hc.1; omega, hk⟩) (fun s5 r5 => ?_)
    exact guarded_step_cells g _ _ s5 r5
      (fun hc => extrapolate_w_step_cells g i j k i j (k + 1) _ s5 r5 ⟨hi, hj, hk⟩
        ⟨hi, hj, by have := hc.1; omega⟩)
  · rw [if_neg hv]; exact ⟨s, rfl, hs⟩

/-- `extrapolate_w` completes and keeps the dimensions and the flags of the cells. -/
theorem extrapolate_w_cells (vis : ℕ → Bool) (g : Mac3d) :
    ∃ g', FLIP.extrapolate_w vis g = some g' ∧ SameCells g g' := by
  obtain ⟨s', h1, h2⟩ := forLoop3_isSome
    (fun (a b : Mac3d × (ℕ → ℕ)) => SameCells g a.1 → SameCells g b.1)
    (fun _ h => h) (fun _ _ _ h1 h2 h => h2 (h1 h)) g.N_ g.M_ (g.L_ + 1)
    (FLIP.extrapolate_w_face vis g.N_ g.M_ g.L_) (g, fun _ => 0)
    (fun i j k hi hj hk t ht => by
      obtain ⟨t', e, r⟩ := extrapolate_w_face_cells vis g i j k hi hj hk t
        (ht (sameCells_refl g))
      exact ⟨t', e, fun _ => r⟩)
  refine ⟨s'.1, ?_, h2 (sameCells_refl g)⟩
  unfold FLIP.extrapolate_w
  show (forLoop3 g.N_ g.M_ (g.L_ + 1) (FLIP.extrapolate_w_face vis g.N_ g.M_ g.L_)
    (g, fun _ => 0)).map (fun s => s.1) = some s'.1
  rw [h1]
  rfl

theorem compute_velocity_field_unfold (f : FLIP) :
    f.compute_velocity_field =
      f.transfer_normalized.bind fun (t : Mac3d × (ℕ → Bool) × (ℕ → Bool) × (ℕ → Bool)) =>
      (FLIP.extrapolate_u t.2.1 t.1).bind fun (g1 : Mac3d) =>
      (FLIP.extrapolate_v t.2.2.1 g1).bind fun (g2 : Mac3d) =>
      (FLIP.extrapolate_w t.2.2.2 g2).map fun (g3 : Mac3d) => { f with MACGrid_ := g3 } :=
  rfl

/-- `compute_velocity_field` completes when every particle lies inside the domain; the
grid it leaves has the dimensions and the flags of `normalized_grid`. -/
theorem compute_velocity_field_grid (f : FLIP)
    (hin : ∀ p, p ∈ f.particles_ → f.MACGrid_.inside p.position) :
    ∃ g3, f.compute_velocity_field = some { f with MACGrid_ := g3 } ∧
      SameCells f.normalized_grid g3 := by
  obtain ⟨vu, vv, vw, ht⟩ := transfer_normalized_eq f hin
  obtain ⟨g1, e1, r1⟩ := extrapolate_u_cells vu f.normalized_grid
  obtain ⟨g2, e2, r2⟩ := extrapolate_v_cells vv g1
  obtain ⟨g3, e3, r3⟩ := extrapolate_w_cells vw g2
  refine ⟨g3, ?_, sameCells_trans _ _ _ (sameCells_trans _ _ _ r1 r2) r3⟩
  rw [compute_velocity_field_unfold, ht, Option.some_bind]
  show (FLIP.extrapolate_u vu f.normalized_grid).bind _ = _
  rw [e1, Option.some_bind]
  show (FLIP.extrapolate_v vv g1).bind _ = _
  rw [e2, Option.some_bind]
  show (FLIP.extrapolate_w vw g2).map _ = _
  rw [e3, Option.map_some']

/-- If `compute_velocity_field` completes, every particle lies inside the domain and the
grid it leaves has the dimensions and the flags of `normalized_grid`. -/
theorem compute_velocity_field_spec (f f' : FLIP) (h : f.compute_velocity_field = some f') :
    (∀ p, p ∈ f.particles_ → f.MACGrid_.inside p.position) ∧
      SameCells f.normalized_grid f'.MACGrid_ := by
  have hin : ∀ p, p ∈ f.particles_ → f.MACGrid_.inside p.position := by
    rw [compute_velocity_field_unfold, Option.bind_eq_some] at h
    obtain ⟨t, ht, _⟩ := h
    exact (transfer_normalized_spec f t ht).1
  refine ⟨hin, ?_⟩
  obtain ⟨g3, e, r⟩ := compute_velocity_field_grid f hin
  rw [e] at h
  rw [← Option.some.inj h]
  exact r

theorem transferred_cells (g : Mac3d) (h : ℚ) (hsx hsy hsz : ℤ) (ps : List Particle) :
    (g.transferred h hsx hsy hsz ps).N_ = g.N_ ∧ (g.transferred h hsx hsy hsz ps).M_ = g.M_ ∧
    (g.transferred h hsx hsy hsz ps).L_ = g.L_ ∧
    (g.transferred h hsx hsy hsz ps).psolid_ = g.psolid_ := ⟨rfl, rfl, rfl, rfl⟩

theorem normalized_cells (g : Mac3d) :
    SameCells g g.normalized_u.normalized_v.normalized_w := ⟨rfl, rfl, rfl, rfl, rfl⟩

theorem transfer_start_cells (f : FLIP) :
    f.transfer_start.N_ = f.MACGrid_.N_ ∧ f.transfer_start.M_ = f.MACGrid_.M_ ∧
    f.transfer_start.L_ = f.MACGrid_.L_ ∧ f.transfer_start.psolid_ = f.MACGrid_.psolid_ :=
  ⟨rfl, rfl, rfl, rfl⟩

theorem normalized_grid_cells (f : FLIP) :
    f.normalized_grid.N_ = f.MACGrid_.N_ ∧ f.normalized_grid.M_ = f.MACGrid_.M_ ∧
    f.normalized_grid.L_ = f.MACGrid_.L_ ∧ f.normalized_grid.psolid_ = f.MACGrid_.psolid_ := by
  have h1 := normalized_cells (f.transfer_start.transferred f.kernel_radius f.h_scaledx
    f.h_scaledy f.h_scaledz f.particles_)
  have h2 := transferred_cells f.transfer_start f.kernel_radius f.h_scaledx
    f.h_scaledy f.h_scaledz f.particles_
  have h3 := transfer_start_cells f
  unfold FLIP.normalized_grid
  exact ⟨h1.hN.trans (h2.1.trans h3.1), h1.hM.trans (h2.2.1.trans h3.2.1),
    h1.hL.trans (h2.2.2.1.trans h3.2.2.1), h1.hsolid.trans (h2.2.2.2.trans h3.2.2.2)⟩

/-- The fluid flag of an in-shape cell after the transfer: the cell is not solid and some
particle maps to it. -/
theorem normalized_grid_pfluid (f : FLIP) (i j k : ℕ) (hi : i < f.MACGrid_.N_)
    (hj : j < f.MACGrid_.M_) (hk : k < f.MACGrid_.L_) :
    f.normalized_grid.pfluid_ i j k = true ↔
      f.MACGrid_.psolid_ i j k = false ∧
        ∃ p, p ∈ f.particles_ ∧
          f.MACGrid_.index_from_coord p.position.x p.position.y p.position.z
            = some (i, j, k) := by
  have h := transferred_pfluid f.MACGrid_ f.transfer_start (transfer_start_geometry f)
    f.kernel_radius f.h_scaledx f.h_scaledy f.h_scaledz f.particles_ i j k
  have h0 : f.transfer_start.pfluid_ i j k = false := by
    show (if i < f.MACGrid_.N_ ∧ j < f.MACGrid_.M_ ∧ k < f.MACGrid_.L_ then false
      else _) = false
    exact if_pos ⟨hi, hj, hk⟩
  have hs : f.transfer_start.psolid_ i j k = f.MACGrid_.psolid_ i j k := rfl
  rw [h0, hs, Bool.false_or] at h
  have hn := (normalized_cells (f.transfer_start.transferred f.kernel_radius f.h_scaledx
    f.h_scaledy f.h_scaledz f.particles_)).hfluid
  unfold FLIP.normalized_grid
  rw [hn, h, Bool.and_eq_true, Bool.not_eq_true', List.any_eq_true]
  constructor
  · rintro ⟨h1, p, hp, hd⟩
    exact ⟨h1, p, hp, of_decide_eq_true hd⟩
  · rintro ⟨h1, p, hp, hd⟩
    exact ⟨h1, p, hp, decide_eq_true hd⟩

/-- C13. `compute_velocity_field` completes when every particle lies inside the domain.
Whenever it completes, the dimensions and the solid flags of the grid are unchanged, every
cell is fluid if and only if it is not solid and the position of at least one particle
maps to it by `index_from_coord`, and so no cell is both solid and fluid; the fluid flags
before the call play no part. -/
theorem compute_velocity_field_classification (f : FLIP) :
    ((∀ p, p ∈ f.particles_ → f.MACGrid_.inside p.position) →
      ∃ f', f.compute_velocity_field = some f') ∧
    ∀ f', f.compute_velocity_field = some f' →
      f'.MACGrid_.N_ = f.MACGrid_.N_ ∧ f'.MACGrid_.M_ = f.MACGrid_.M_ ∧
      f'.MACGrid_.L_ = f.MACGrid_.L_ ∧ f'.MACGrid_.psolid_ = f.MACGrid_.psolid_ ∧
      (∀ i j k, i < f.MACGrid_.N_ → j < f.MACGrid_.M_ → k < f.MACGrid_.L_ →
        (f'.MACGrid_.pfluid_ i j k = true ↔
          f.MACGrid_.psolid_ i j k = false ∧
            ∃ p, p ∈ f.particles_ ∧
              f.MACGrid_.index_from_coord p.position.x p.position.y p.position.z
                = some (i, j, k))) ∧
      NoSolidFluid f'.MACGrid_ := by
  refine ⟨fun hin => ?_, fun f' h => ?_⟩
  · obtain ⟨g3, e, _⟩ := compute_velocity_field_grid f hin
    exact ⟨_, e⟩
  · obtain ⟨_, r⟩ := compute_velocity_field_spec f f' h
    have hc := normalized_grid_cells f
    have hN : f'.MACGrid_.N_ = f.MACGrid_.N_ := r.hN.trans hc.1
    have hM : f'.MACGrid_.M_ = f.MACGrid_.M_ := r.hM.trans hc.2.1
    have hL : f'.MACGrid_.L_ = f.MACGrid_.L_ := r.hL.trans hc.2.2.1
    have hS : f'.MACGrid_.psolid_ = f.MACGrid_.psolid_ := r.hsolid.trans hc.2.2.2
    have hF : ∀ i j k, i < f.MACGrid_.N_ → j < f.MACGrid_.M_ → k < f.MACGrid_.L_ →
        (f'.MACGrid_.pfluid_ i j k = true ↔
          f.MACGrid_.psolid_ i j k = false ∧
            ∃ p, p ∈ f.particles_ ∧
              f.MACGrid_.index_from_coord p.position.x p.position.y p.position.z
                = some (i, j, k)) := by
      intro i j k hi hj hk
      rw [r.hfluid]
      exact normalized_grid_pfluid f i j k hi hj hk
    refine ⟨hN, hM, hL, hS, hF, ?_⟩
    intro i j k hi hj hk hboth
    rw [hN] at hi
    rw [hM] at hj
    rw [hL] at hk
    have h1 := ((hF i j k hi hj hk).mp hboth.2).1
    rw [hS, h1] at hboth
    exact absurd hboth.1 (by simp)

/-- On `floorFLIP`, whose grid has the solid cell `(0, 0, 0)` and one particle in the cell
`(0, 0, 1)`, the call completes; the cell of the particle is fluid, the solid cell is not,
and no cell is both solid and fluid. -/
theorem compute_velocity_field_classification_witness :
    (∀ p, p ∈ floorFLIP.particles_ → floorFLIP.MACGrid_.inside p.position) ∧
    ∃ f', floorFLIP.compute_velocity_field = some f' ∧
      f'.MACGrid_.pfluid_ 0 0 1 = true ∧ f'.MACGrid_.pfluid_ 0 0 0 = false ∧
      NoSolidFluid f'.MACGrid_ := by
  have hin : ∀ p, p ∈ floorFLIP.particles_ → floorFLIP.MACGrid_.inside p.position := by
    intro p hp
    have hp' : p = ⟨⟨0, 0, 1⟩, ⟨0, 0, 1⟩, ⟨0, 0, -1⟩⟩ := by
      simpa [floorFLIP] using hp
    subst hp'
    norm_num [Mac3d.inside, floorFLIP, floorGrid, Mac3d.get_grid_size]
  obtain ⟨f', h⟩ := (compute_velocity_field_classification floorFLIP).1 hin
  obtain ⟨_, _, _, _, hF, hno⟩ := (compute_velocity_field_classification floorFLIP).2 f' h
  refine ⟨hin, f', h, ?_, ?_, hno⟩
  · exact (hF 0 0 1 (by decide) (by decide) (by decide)).mpr
      ⟨rfl, ⟨⟨0, 0, 1⟩, ⟨0, 0, 1⟩, ⟨0, 0, -1⟩⟩, by simp [floorFLIP], floorGrid_index_upper⟩
  · cases hq : f'.MACGrid_.pfluid_ 0 0 0 with
    | false => rfl
    | true =>
      have h1 := ((hF 0 0 0 (by decide) (by decide) (by decide)).mp hq).1
      exact absurd h1 (by decide)

/-! ## Smoothing kernel: claim C30 -/

theorem check_threshold_far (pos gc : Vector3d) (h : ℚ)
    (hr : h ^ 2 < pos.dist_sq gc) : FLIP.check_threshold pos gc h = false := by
  unfold FLIP.check_threshold
  exact decide_eq_false (fun hc => absurd hc.2 (not_le.mpr hr))

/-- C30. The kernel of `compute_weight` as a function of the squared distance `r^2`
(`dist_sq`), for `h > 0`: if `r1^2 ≤ r2^2 ≤ h^2` then `weight(r1) ≥ weight(r2) ≥ 0`; at
`r^2 = h^2` the weight is 0; and for `r^2 > h^2` `check_threshold` rejects the pair, so
that `accumulate_u`, `accumulate_v` and `accumulate_w` leave the grid (values and weight
accumulators) as it is. -/
theorem compute_weight_kernel_shape (h : ℚ) (hh : 0 < h) :
    (∀ p q1 q2 : Vector3d, p.dist_sq q1 ≤ p.dist_sq q2 → p.dist_sq q2 ≤ h ^ 2 →
      FLIP.compute_weight p q2 h ≤ FLIP.compute_weight p q1 h ∧
        0 ≤ FLIP.compute_weight p q2 h) ∧
    (∀ p q : Vector3d, p.dist_sq q = h ^ 2 → FLIP.compute_weight p q h = 0) ∧
    (∀ (pos vel gc : Vector3d) (i j k : ℤ) (g : Mac3d), h ^ 2 < pos.dist_sq gc →
      FLIP.check_threshold pos gc h = false ∧
      FLIP.accumulate_u pos vel gc h i j k g = some g ∧
      FLIP.accumulate_v pos vel gc h i j k g = some g ∧
      FLIP.accumulate_w pos vel gc h i j k g = some g) := by
  have hc : 0 ≤ 315 / (64 * M_PI * h ^ 9) :=
    div_nonneg (by norm_num)
      (mul_nonneg (mul_nonneg (by norm_num) (le_of_lt M_PI_pos)) (pow_nonneg (le_of_lt hh) 9))
  refine ⟨fun p q1 q2 h12 h2 => ?_, fun p q hq => ?_, fun pos vel gc i j k g hr => ?_⟩
  · unfold FLIP.compute_weight
    have d2 : 0 ≤ h ^ 2 - p.dist_sq q2 := by linarith
    have d12 : h ^ 2 - p.dist_sq q2 ≤ h ^ 2 - p.dist_sq q1 := by linarith
    exact ⟨mul_le_mul_of_nonneg_left (pow_le_pow_left₀ d2 d12 3) hc,
      mul_nonneg hc (pow_nonneg d2 3)⟩
  · unfold FLIP.compute_weight
    simp only [hq, sub_self]
    norm_num
  · have ht := check_threshold_far pos gc h hr
    refine ⟨ht, ?_, ?_, ?_⟩
    · unfold FLIP.accumulate_u
      rw [ht]; rfl
    · unfold FLIP.accumulate_v
      rw [ht]; rfl
    · unfold FLIP.accumulate_w
      rw [ht]; rfl

/-- The kernel with `h = 2` around the origin: the points at distance 0, 1 and 2 have
weights in decreasing order, the last one 0, and the point `(3, 0, 0)` is rejected. -/
theorem compute_weight_kernel_shape_witness :
    (0 : ℚ) < 2 ∧
    FLIP.compute_weight ⟨0, 0, 0⟩ ⟨1, 0, 0⟩ 2 ≤ FLIP.compute_weight ⟨0, 0, 0⟩ ⟨0, 0, 0⟩ 2 ∧
    0 ≤ FLIP.compute_weight ⟨0, 0, 0⟩ ⟨1, 0, 0⟩ 2 ∧
    FLIP.compute_weight ⟨0, 0, 0⟩ ⟨2, 0, 0⟩ 2 = 0 ∧
    FLIP.check_threshold ⟨0, 0, 0⟩ ⟨3, 0, 0⟩ 2 = false := by
  have h := compute_weight_kernel_shape 2 (by norm_num)
  have h1 := h.1 ⟨0, 0, 0⟩ ⟨0, 0, 0⟩ ⟨1, 0, 0⟩ (by norm_num [Vector3d.dist_sq])
    (by norm_num [Vector3d.dist_sq])
  have h2 := h.2.1 ⟨0, 0, 0⟩ ⟨2, 0, 0⟩ (by norm_num [Vector3d.dist_sq])
  have h3 := (h.2.2 ⟨0, 0, 0⟩ ⟨0, 0, 0⟩ ⟨3, 0, 0⟩ 0 0 0 crossGrid
    (by norm_num [Vector3d.dist_sq])).1
  exact ⟨by norm_num, h1.1, h1.2, h2, h3⟩

/-! ## The 2D grid: claims C21 to C27 -/

/-- C21 (the code at the failing input). On the 1×1 grid `onesGrid2d`, whose velocity
arrays hold 1, `set_velocities_to_zero` completes and zeroes `u(0, 0)` and `v(0, 0)`, but
the last column `u(1, 0)` and the last row `v(0, 1)` still read 1: the loops stop at
`i < N_`, `j < M_`. -/
theorem set_velocities_to_zero_skips_last :
    ∃ g', onesGrid2d.set_velocities_to_zero = some g' ∧
      g'.get_u 0 0 = some 0 ∧ g'.get_v 0 0 = some 0 ∧
      g'.get_u 1 0 = some 1 ∧ g'.get_v 0 1 = some 1 := by
  refine ⟨{ onesGrid2d with
    pu_ := Function.update onesGrid2d.pu_ 0 0
    pv_ := Function.update onesGrid2d.pv_ 0 0 }, ?_, ?_, ?_, ?_, ?_⟩
  · simp [Mac2d.set_velocities_to_zero, onesGrid2d, forLoop, forLoopFrom, Mac2d.set_u,
      Mac2d.set_v]
  · simp [Mac2d.get_u, onesGrid2d]
  · simp [Mac2d.get_v, onesGrid2d]
  · simp [Mac2d.get_u, onesGrid2d]
  · simp [Mac2d.get_v, onesGrid2d]

theorem innerFacesOnly_refl (g : Mac2d) : InnerFacesOnly g g :=
  ⟨rfl, rfl, fun _ => Or.inl rfl, fun _ => Or.inl rfl⟩

theorem innerFacesOnly_trans (a b c : Mac2d) (h1 : InnerFacesOnly a b)
    (h2 : InnerFacesOnly b c) : InnerFacesOnly a c := by
  refine ⟨h2.hN.trans h1.hN, h2.hM.trans h1.hM, fun off => ?_, fun off => ?_⟩
  · rcases h2.hu off with e | ⟨i, j, hi, hj, e⟩
    · rcases h1.hu off with e' | h'
      · exact Or.inl (e.trans e')
      · exact Or.inr h'
    · rw [h1.hN] at hi e
      rw [h1.hM] at hj
      exact Or.inr ⟨i, j, hi, hj, e⟩
  · rcases h2.hv off with e | ⟨i, j, hi, hj, e⟩
    · rcases h1.hv off with e' | h'
      · exact Or.inl (e.trans e')
      · exact Or.inr h'
    · rw [h1.hN] at hi e
      rw [h1.hM] at hj
      exact Or.inr ⟨i, j, hi, hj, e⟩

theorem set_uv_zero_inner (g s s' : Mac2d) (i j : ℕ) (hi : i < g.N_.toNat)
    (hj : j < g.M_.toNat) (hs : s.N_ = g.N_ ∧ s.M_ = g.M_)
    (h : ((s.set_u i j 0).bind fun (s1 : Mac2d) => s1.set_v i j 0) = some s') :
    (s'.N_ = g.N_ ∧ s'.M_ = g.M_) ∧ InnerFacesOnly s s' := by
  have hi' : (i : ℤ) < s.N_ := by rw [hs.1]; omega
  have hj' : (j : ℤ) < s.M_ := by rw [hs.2]; omega
  unfold Mac2d.set_u at h
  rw [if_pos ⟨by omega, hj'⟩, Option.some_bind] at h
  unfold Mac2d.set_v at h
  rw [if_pos ⟨hi', by show (j : ℤ) < s.M_ + 1; omega⟩] at h
  have e := Option.some.inj h
  subst e
  refine ⟨hs, rfl, rfl, fun off => ?_, fun off => ?_⟩
  · by_cases ho : off = (s.N_ + 1) * j + i
    · exact Or.inr ⟨i, j, hi', hj', ho⟩
    · exact Or.inl (Function.update_noteq ho _ _)
  · by_cases ho : off = s.N_ * j + i
    · exact Or.inr ⟨i, j, hi', hj', ho⟩
    · exact Or.inl (Function.update_noteq ho _ _)

/-- Whenever `set_velocities_to_zero` completes, it has written only `u` and `v` faces
`(i, j)` with `0 ≤ i < N_` and `0 ≤ j < M_`. -/
theorem set_velocities_to_zero_inner (g g' : Mac2d)
    (h : g.set_velocities_to_zero = some g') : InnerFacesOnly g g' := by
  unfold Mac2d.set_velocities_to_zero at h
  have key := forLoop_rel
    (fun (a b : Mac2d) => (a.N_ = g.N_ ∧ a.M_ = g.M_) →
      (b.N_ = g.N_ ∧ b.M_ = g.M_) ∧ InnerFacesOnly a b)
    (fun a ha => ⟨ha, innerFacesOnly_refl a⟩)
    (fun a b c h1 h2 ha =>
      ⟨(h2 (h1 ha).1).1, innerFacesOnly_trans a b c (h1 ha).2 (h2 (h1 ha).1).2⟩)
    _ g.M_.toNat (fun j hj t t' ht => ?_) g g' h
  · exact (key ⟨rfl, rfl⟩).2
  · exact forLoop_rel
      (fun (a b : Mac2d) => (a.N_ = g.N_ ∧ a.M_ = g.M_) →
        (b.N_ = g.N_ ∧ b.M_ = g.M_) ∧ InnerFacesOnly a b)
      (fun a ha => ⟨ha, innerFacesOnly_refl a⟩)
      (fun a b c h1 h2 ha =>
        ⟨(h2 (h1 ha).1).1, innerFacesOnly_trans a b c (h1 ha).2 (h2 (h1 ha).1).2⟩)
      _ g.N_.toNat (fun i hi s s' hs' hs => set_uv_zero_inner g s s' i j hi hj hs hs')
      t t' ht

/-- Whenever `set_velocities_to_zero` completes, the last column of `u` and the last row
of `v` hold what they held before the call. -/
theorem set_velocities_to_zero_frame (g g' : Mac2d)
    (h : g.set_velocities_to_zero = some g') :
    (∀ j : ℤ, 0 ≤ j → j < g.M_ → g'.get_u g.N_ j = g.get_u g.N_ j) ∧
    (∀ i : ℤ, 0 ≤ i → i < g.N_ → g'.get_v i g.M_ = g.get_v i g.M_) := by
  have r := set_velocities_to_zero_inner g g' h
  refine ⟨fun j hj0 hj => ?_, fun i hi0 hi => ?_⟩
  · unfold Mac2d.get_u
    rw [r.hN, r.hM]
    rcases r.hu ((g.N_ + 1) * j + g.N_) with e | ⟨a, b, ha, hb, e⟩
    · rw [e]
    · exfalso
      have h1 : (g.N_ + 1) * (j - b) = a - g.N_ := by linarith
      have h2 : (0 : ℤ) ≤ a := Int.natCast_nonneg a
      rcases lt_trichotomy j (b : ℤ) with hlt | heq | hgt
      · nlinarith
      · rw [heq] at h1; simp at h1; omega
      · nlinarith
  · unfold Mac2d.get_v
    rw [r.hN, r.hM]
    rcases r.hv (g.N_ * g.M_ + i) with e | ⟨a, b, ha, hb, e⟩
    · rw [e]
    · exfalso
      have h2 : (0 : ℤ) ≤ a := Int.natCast_nonneg a
      have h3 : (0 : ℤ) ≤ b := Int.natCast_nonneg b
      nlinarith

/-- A loop faults if some iteration faults from every state that satisfies an invariant
of the body. -/
theorem forLoopFrom_none {σ : Type} (I : σ → Prop) (body : ℕ → σ → Option σ) (i0 : ℕ)
    (hkeep : ∀ i t t', I t → body i t = some t' → I t')
    (hfault : ∀ t, I t → body i0 t = none) (n : ℕ) :
    ∀ (a : ℕ) (s : σ), I s → a ≤ i0 → i0 < a + n → forLoopFrom body n a s = none := by
  induction n with
  | zero =>
    intro a s _ h1 h2
    omega
  | succ n ih =>
    intro a s hs h1 h2
    simp only [forLoopFrom]
    by_cases e : a = i0
    · subst e
      rw [hfault s hs]
      rfl
    · cases hb : body a s with
      | none => rfl
      | some t =>
        rw [Option.some_bind]
        exact ih (a + 1) t (hkeep a s t hs hb) (by omega) (by omega)

theorem forLoop_none {σ : Type} (I : σ → Prop) (body : ℕ → σ → Option σ) (i0 n : ℕ)
    (hkeep : ∀ i t t', I t → body i t = some t' → I t')
    (hfault : ∀ t, I t → body i0 t = none) (s : σ) (hs : I s) (h : i0 < n) :
    forLoop n body s = none :=
  forLoopFrom_none I body i0 hkeep hfault n 0 s hs (Nat.zero_le _) (by omega)

theorem set_weights_keep_dims (g s s' : Mac2d) (i j : ℤ)
    (hs : s.N_ = g.N_ ∧ s.M_ = g.M_)
    (h : ((s.set_weights_u i j 0).bind fun (s1 : Mac2d) => s1.set_weights_v i j 0)
      = some s') : s'.N_ = g.N_ ∧ s'.M_ = g.M_ := by
  unfold Mac2d.set_weights_u at h
  split at h
  · rw [Option.some_bind] at h
    unfold Mac2d.set_weights_v at h
    split at h
    · rw [← Option.some.inj h]; exact hs
    · exact absurd h (by simp)
  · exact absurd h (by simp)

/-- C22 (the code). `set_weights_to_zero` faults on every grid with `N_ ≥ 0` and
`M_ ≥ 0`, hence on every grid with `N_, M_ ≥ 1`: in the first row `j = 0` the loop reaches
`i = N_`, where `set_weights_v(N_, 0, 0.)` fails its assertion `i < N_` (and for `M_ = 0`
`set_weights_u(0, 0, 0.)` fails `j < M_`). -/
theorem set_weights_to_zero_faults (g : Mac2d) (hN : 0 ≤ g.N_) (hM : 0 ≤ g.M_) :
    g.set_weights_to_zero = none := by
  unfold Mac2d.set_weights_to_zero
  obtain ⟨m, hm⟩ : ∃ m, (g.M_ + 1).toNat = m + 1 := ⟨g.M_.toNat, by omega⟩
  rw [hm]
  have hrow : forLoop (g.N_ + 1).toNat (fun i (s : Mac2d) =>
      (s.set_weights_u i ((0 : ℕ) : ℤ) 0).bind fun (s1 : Mac2d) =>
        s1.set_weights_v i ((0 : ℕ) : ℤ) 0) g = none := by
    refine forLoop_none (fun s : Mac2d => s.N_ = g.N_ ∧ s.M_ = g.M_) _ g.N_.toNat _
      (fun i t t' ht h => set_weights_keep_dims g t t' i _ ht h) (fun t ht => ?_) g
      ⟨rfl, rfl⟩ (by omega)
    have e : ((g.N_.toNat : ℕ) : ℤ) = g.N_ := Int.toNat_of_nonneg hN
    unfold Mac2d.set_weights_u
    split
    · rw [Option.some_bind]
      unfold Mac2d.set_weights_v
      rw [if_neg]
      show ¬ (((g.N_.toNat : ℕ) : ℤ) < t.N_ ∧ _)
      rw [e, ht.1]
      exact fun h => absurd h.1 (lt_irrefl _)
    · rfl
  show forLoopFrom _ (m + 1) 0 g = none
  simp only [forLoopFrom]
  rw [hrow]
  rfl

/-- On the 1×1 grid `onesGrid2d` the call faults. -/
theorem set_weights_to_zero_faults_witness :
    (0 : ℤ) ≤ onesGrid2d.N_ ∧ (0 : ℤ) ≤ onesGrid2d.M_ ∧
      onesGrid2d.set_weights_to_zero = none :=
  ⟨by decide, by decide, set_weights_to_zero_faults onesGrid2d (by decide) (by decide)⟩

/-- C23 (the code, and the failing input). Each accessor of `Mac2d` tests its indices
against the upper bounds only, so it succeeds exactly when `i` and `j` are below them,
negative indices included. On the 2×2 grid `offsetGrid2d`, whose arrays hold their own
offsets, `get_u(-1, 1)` succeeds and returns the content of offset 2, the face
`u(2, 0)`; `set_u(-1, 1, 9)` overwrites that face; `get_v(-1, 1)`, `get_pressure(-1, 1)`,
`is_solid(-1, 1)` and `is_fluid(-1, 1)` return the content of offset 1, which belongs to
`(1, 0)`; and `get_u(-1, 0)` succeeds on the offset `-1`, before the start of the
array. -/
theorem accessors_accept_negative_index :
    (∀ (g : Mac2d) (i j : ℤ),
      ((g.get_u i j).isSome = true ↔ i < g.N_ + 1 ∧ j < g.M_) ∧
      (∀ x, (g.set_u i j x).isSome = true ↔ i < g.N_ + 1 ∧ j < g.M_) ∧
      ((g.get_v i j).isSome = true ↔ i < g.N_ ∧ j < g.M_ + 1) ∧
      (∀ x, (g.set_v i j x).isSome = true ↔ i < g.N_ ∧ j < g.M_ + 1) ∧
      ((g.get_pressure i j).isSome = true ↔ i < g.N_ ∧ j < g.M_) ∧
      ((g.is_solid i j).isSome = true ↔ i < g.N_ ∧ j < g.M_) ∧
      ((g.is_fluid i j).isSome = true ↔ i < g.N_ ∧ j < g.M_)) ∧
    offsetGrid2d.get_u (-1) 1 = some 2 ∧ offsetGrid2d.get_u 2 0 = some 2 ∧
    ((offsetGrid2d.set_u (-1) 1 9).bind fun g => g.get_u 2 0) = some 9 ∧
    offsetGrid2d.get_v (-1) 1 = some 1 ∧ offsetGrid2d.get_v 1 0 = some 1 ∧
    offsetGrid2d.get_pressure (-1) 1 = some 1 ∧ offsetGrid2d.get_pressure 1 0 = some 1 ∧
    offsetGrid2d.is_solid (-1) 1 = some true ∧ offsetGrid2d.is_fluid (-1) 1 = some true ∧
    offsetGrid2d.get_u (-1) 0 = some (offsetGrid2d.pu_ (-1)) := by
  refine ⟨fun g i j => ⟨?_, fun x => ?_, ?_, fun x => ?_, ?_, ?_, ?_⟩, ?_, ?_, ?_, ?_, ?_,
    ?_, ?_, ?_, ?_, ?_⟩
  · unfold Mac2d.get_u; split <;> simp_all
  · unfold Mac2d.set_u; split <;> simp_all
  · unfold Mac2d.get_v; split <;> simp_all
  · unfold Mac2d.set_v; split <;> simp_all
  · unfold Mac2d.get_pressure; split <;> simp_all
  · unfold Mac2d.is_solid; split <;> simp_all
  · unfold Mac2d.is_fluid; split <;> simp_all
  · simp [Mac2d.get_u, offsetGrid2d]
  · simp [Mac2d.get_u, offsetGrid2d]
  · simp [Mac2d.get_u, Mac2d.set_u, offsetGrid2d]
  · simp [Mac2d.get_v, offsetGrid2d]
  · simp [Mac2d.get_v, offsetGrid2d]
  · simp [Mac2d.get_pressure, offsetGrid2d]
  · simp [Mac2d.get_pressure, offsetGrid2d]
  · simp [Mac2d.is_solid, offsetGrid2d]
  · simp [Mac2d.is_fluid, offsetGrid2d]
  · simp [Mac2d.get_u, offsetGrid2d]

/-- The counter `cellidx` of the 2D loops: the loops complete after `nx * ny` increments,
and the cell `(a, b)` is handled exactly once, with `cellidx = a + b * nx`. -/
theorem cellidxTrace_spec (nx ny : ℕ) :
    ∃ log, cellidxTrace nx ny = some (nx * ny, log) ∧
      ∀ a b c, (a, b, c) ∈ log ↔ (a < nx ∧ b < ny ∧ c = a + b * nx) := by
  unfold cellidxTrace
  have hstep : ∀ j, j < ny → ∀ t : ℕ × List (ℕ × ℕ × ℕ),
      (t.1 = nx * j ∧ ∀ a b c, (a, b, c) ∈ t.2 ↔ (a < nx ∧ b < j ∧ c = a + b * nx)) →
      ∃ t', forLoop nx (fun i (s : ℕ × List (ℕ × ℕ × ℕ)) =>
          some (s.1 + 1, s.2 ++ [(i, j, s.1)])) t = some t' ∧
        (t'.1 = nx * (j + 1) ∧
          ∀ a b c, (a, b, c) ∈ t'.2 ↔ (a < nx ∧ b < j + 1 ∧ c = a + b * nx)) := by
    intro j hj t ht
    obtain ⟨t', g1, g2, g3⟩ := forLoop_inv nx
      (fun i (s : ℕ × List (ℕ × ℕ × ℕ)) => some (s.1 + 1, s.2 ++ [(i, j, s.1)]))
      (fun i s => s.1 = nx * j + i ∧
        ∀ a b c, (a, b, c) ∈ s.2 ↔ (a < nx ∧ c = a + b * nx ∧ (b < j ∨ (b = j ∧ a < i))))
      t ⟨by simpa using ht.1, fun a b c => by
        rw [ht.2 a b c]
        constructor
        · rintro ⟨x, y, z⟩
          exact ⟨x, z, Or.inl y⟩
        · rintro ⟨x, z, y | ⟨_, y⟩⟩
          · exact ⟨x, y, z⟩
          · omega⟩
      (fun i hi s hs => ⟨_, rfl, by show s.1 + 1 = nx * j + (i + 1); rw [hs.1]; ring,
        fun a b c => by
          show (a, b, c) ∈ s.2 ++ [(i, j, s.1)] ↔ _
          rw [List.mem_append, hs.2 a b c, List.mem_singleton, Prod.mk.injEq, Prod.mk.injEq,
            hs.1, mul_comm nx j]
          constructor
          · rintro (⟨x, z, y | ⟨y1, y2⟩⟩ | ⟨e1, e2, e3⟩)
            · exact ⟨x, z, Or.inl y⟩
            · exact ⟨x, z, Or.inr ⟨y1, by omega⟩⟩
            · subst e1 e2 e3
              exact ⟨hi, by omega, Or.inr ⟨rfl, by omega⟩⟩
          · rintro ⟨x, z, y | ⟨y1, y2⟩⟩
            · exact Or.inl ⟨x, z, Or.inl y⟩
            · by_cases e : a = i
              · subst e y1
                exact Or.inr ⟨rfl, rfl, by omega⟩
              · exact Or.inl ⟨x, z, Or.inr ⟨y1, by omega⟩⟩⟩)
    refine ⟨t', g1, by rw [g2]; ring, fun a b c => ?_⟩
    rw [g3 a b c]
    constructor
    · rintro ⟨x, z, y | ⟨y1, _⟩⟩
      · exact ⟨x, by omega, z⟩
      · exact ⟨x, by omega, z⟩
    · rintro ⟨x, y, z⟩
      by_cases e : b = j
      · exact ⟨x, z, Or.inr ⟨e, x⟩⟩
      · exact ⟨x, z, Or.inl (by omega)⟩
  obtain ⟨s', h1, h2, h3⟩ := forLoop_inv ny
    (fun j => forLoop nx (fun i (s : ℕ × List (ℕ × ℕ × ℕ)) =>
      some (s.1 + 1, s.2 ++ [(i, j, s.1)])))
    (fun j s => s.1 = nx * j ∧ ∀ a b c, (a, b, c) ∈ s.2 ↔ (a < nx ∧ b < j ∧ c = a + b * nx))
    (0, []) ⟨by simp, by simp⟩ hstep
  refine ⟨s'.2, ?_, h3⟩
  rw [h1]
  exact congrArg some (Prod.ext h2 rfl)

theorem getD_eq_getElem? (p : List ℚ) (k : ℕ) (h : k < p.length) :
    p[k]? = some (p.getD k 0) := by
  rw [List.getD_eq_getElem?_getD, List.getElem?_eq_getElem h]
  rfl

/-- C24. Bulk pressure assignment: for every vector `p` of length `N_ * M_`,
`set_pressure(p)` completes and afterwards `get_pressure(i, j)` succeeds with the entry
`p[i + j * N_]` for every `0 ≤ i < N_`, `0 ≤ j < M_`; and `i + j * nx` is the value of the
counter `cellidx` at the cell `(i, j)` in the loops of the 2D `compute_pressure_matrix`
and `compute_pressure_rhs`. -/
theorem set_pressure_ordering (g : Mac2d) (p : List ℚ) (hp : (p.length : ℤ) = g.N_ * g.M_) :
    (∃ g', g.set_pressure p = some g' ∧
      ∀ i j : ℕ, (i : ℤ) < g.N_ → (j : ℤ) < g.M_ →
        ∃ x, p[i + j * g.N_.toNat]? = some x ∧ g'.get_pressure i j = some x) ∧
    ∃ log, cellidxTrace g.N_.toNat g.M_.toNat = some (g.N_.toNat * g.M_.toNat, log) ∧
      ∀ i j c, (i, j, c) ∈ log ↔
        (i < g.N_.toNat ∧ j < g.M_.toNat ∧ c = i + j * g.N_.toNat) := by
  refine ⟨⟨_, by unfold Mac2d.set_pressure; rw [if_pos (le_of_eq hp)], fun i j hi hj => ?_⟩,
    cellidxTrace_spec _ _⟩
  have hN : ((g.N_.toNat : ℕ) : ℤ) = g.N_ := Int.toNat_of_nonneg (by omega)
  have hlt : g.N_ * j + i < g.N_ * g.M_ := by nlinarith
  have hk : i + j * g.N_.toNat < p.length := by
    have : ((i + j * g.N_.toNat : ℕ) : ℤ) < (p.length : ℤ) := by
      rw [hp]; push_cast; rw [hN]; linarith
    exact_mod_cast this
  have hc : (g.N_ * j + i).toNat = i + j * g.N_.toNat := by
    have : g.N_ * j + i = ((i + j * g.N_.toNat : ℕ) : ℤ) := by
      push_cast; rw [hN]; ring
    rw [this, Int.toNat_natCast]
  refine ⟨p.getD (i + j * g.N_.toNat) 0, getD_eq_getElem? p _ hk, ?_⟩
  unfold Mac2d.get_pressure
  rw [if_pos ⟨hi, hj⟩]
  show some (if 0 ≤ g.N_ * (j : ℤ) + i ∧ g.N_ * (j : ℤ) + i < p.length then
    p.getD (g.N_ * (j : ℤ) + i).toNat 0 else _) = _
  rw [if_pos ⟨by nlinarith [Int.natCast_nonneg i, Int.natCast_nonneg j], by rw [hp]; exact hlt⟩,
    hc]

/-- The 2×2 grid with pressure 0 everywhere takes the vector `[10, 20, 30, 40]`: cell
`(1, 0)` reads `p[1] = 20` and cell `(0, 1)` reads `p[2] = 30`. -/
theorem set_pressure_ordering_witness :
    ((([10, 20, 30, 40] : List ℚ).length : ℤ) = offsetGrid2d.N_ * offsetGrid2d.M_) ∧
    ∃ g', offsetGrid2d.set_pressure [10, 20, 30, 40] = some g' ∧
      g'.get_pressure 1 0 = some 20 ∧ g'.get_pressure 0 1 = some 30 := by
  have hp : ((([10, 20, 30, 40] : List ℚ).length : ℤ) = offsetGrid2d.N_ * offsetGrid2d.M_) := by
    simp [offsetGrid2d]
  obtain ⟨g', h1, h2⟩ := (set_pressure_ordering offsetGrid2d [10, 20, 30, 40] hp).1
  refine ⟨hp, g', h1, ?_, ?_⟩
  · obtain ⟨x, e1, e2⟩ := h2 1 0 (by simp [offsetGrid2d]) (by simp [offsetGrid2d])
    have : x = 20 := by
      simp [offsetGrid2d] at e1
      exact e1.symm
    rw [this] at e2
    exact e2
  · obtain ⟨x, e1, e2⟩ := h2 0 1 (by simp [offsetGrid2d]) (by simp [offsetGrid2d])
    have : x = 30 := by
      simp [offsetGrid2d] at e1
      exact e1.symm
    rw [this] at e2
    exact e2

/-- C25 (the code at the failing input). `Mac2d(2, 4, 2, 8)`, whatever the allocated
arrays hold, completes with `cell_sizex_ = 1` and `cell_sizey_ = 1`: the initialiser of
`cell_sizey_` is `sizex_/(1.*N_)`, the one of `cell_sizex_`, whereas the domain size of
the y axis divided by its cell count is `8 / 4 = 2`. -/
theorem constructor_cell_sizey (raw : Mac2d) :
    ∃ g, Mac2d.construct 2 4 2 8 raw = some g ∧
      g.N_ = 2 ∧ g.M_ = 4 ∧ g.sizex_ = 2 ∧ g.sizey_ = 8 ∧
      g.cell_sizex_ = 1 ∧ g.cell_sizey_ = 1 ∧ g.sizey_ / g.M_ = 2 := by
  simp only [Mac2d.construct, forLoop, forLoopFrom, Mac2d.diag_count, Mac2d.not_solid,
    Mac2d.is_solid]
  norm_num

/-- C26 (the code at the failing inputs). `Mac2d(2, 2, dx, dy)` on arrays in which only the
cell `(1, 0)` is flagged solid completes with a vector `A_diag_` of 2 entries, not
`2 * 2 = 4`: the loop runs over `index < min(N_, M_)` and handles the cells
`(index, index)` of the diagonal of the grid. The entry at position 1 is `(1, 1, 1)`,
counted for the cell `(1, 1)`, whereas the cell `(1, 0)` of linear index `1 + 0 * 2` has
2 non-solid neighbours; the lookup `get_a_diag()[1 + 1 * 2]` for the cell `(1, 1)` is out
of range. And `Mac2d(1, 1, dx, dy)` does not complete at all: `is_solid(0, 1)` fails its
assertion. -/
theorem constructor_diag_entries (dx dy : ℚ) (raw : Mac2d) :
    (∃ g, Mac2d.construct 2 2 dx dy offsetGrid2d = some g ∧
      g.A_diag_ = [⟨0, 0, 1⟩, ⟨1, 1, 1⟩] ∧ g.A_diag_.length = 2 ∧
      g.spec_diag_count 1 0 = 2 ∧ g.get_a_diag (1 + 1 * 2) = none) ∧
    Mac2d.construct 1 1 dx dy raw = none := by
  constructor
  · simp only [Mac2d.construct, forLoop, forLoopFrom, Mac2d.diag_count, Mac2d.not_solid,
      Mac2d.is_solid, Mac2d.spec_diag_count, Mac2d.get_a_diag, offsetGrid2d]
    norm_num
  · simp only [Mac2d.construct, forLoop, forLoopFrom, Mac2d.diag_count, Mac2d.not_solid,
      Mac2d.is_solid]
    norm_num

/-- Inside the domain `index_from_coord` fails, and with it the interpolation part of the
2D `grid_to_particle`. -/
theorem interpolate_inside_faults (g : Mac2d) (x y : ℚ) (hx0 : 0 ≤ x) (hx : x ≤ g.sizex_)
    (hy0 : 0 ≤ y) (hy : y ≤ g.sizey_) : FLIP2d.interpolate g x y = none := by
  have h : g.index_from_coord x y = none := by
    unfold Mac2d.index_from_coord
    rw [if_neg]
    intro hc
    rcases hc with hc | hc | hc | hc
    · exact absurd hx (not_le.mpr hc)
    · exact absurd hy (not_le.mpr hc)
    · exact absurd hx0 (not_le.mpr hc)
    · exact absurd hy0 (not_le.mpr hc)
  unfold FLIP2d.interpolate
  rw [h]
  rfl

/-- C27 (the code at the failing input). On the uniform grid `uniformGrid2d` (`u = 4`,
`v = 8` on every face, current and snapshot) the position `(1/2, 1/4)` lies strictly inside
the domain. `index_from_coord` fails on it, so the interpolations and `grid_to_particle`
do not complete. And from the index pair `(0, 0)` that its `return` statement builds, the
interpolations read the rows and columns of index `-1` (`get_u_star(0, -1)` passes its
assertion and reads offset `-3`, before the start of the array) and return `5` and `11`,
not the constants `4` and `8`. -/
theorem grid_to_particle_uniform_field :
    ((0 : ℚ) < 1 / 2 ∧ (1 / 2 : ℚ) < uniformGrid2d.sizex_ ∧
      (0 : ℚ) < 1 / 4 ∧ (1 / 4 : ℚ) < uniformGrid2d.sizey_) ∧
    (∀ i j : ℤ, 0 ≤ i → i ≤ 2 → 0 ≤ j → j < 2 →
      uniformGrid2d.get_u i j = some 4 ∧ uniformGrid2d.get_u_star i j = some 4) ∧
    (∀ i j : ℤ, 0 ≤ i → i < 2 → 0 ≤ j → j ≤ 2 →
      uniformGrid2d.get_v i j = some 8 ∧ uniformGrid2d.get_v_star i j = some 8) ∧
    uniformGrid2d.index_from_coord (1 / 2) (1 / 4) = none ∧
    FLIP2d.interpolate uniformGrid2d (1 / 2) (1 / 4) = none ∧
    (∀ v : Vector3d,
      FLIP2d.grid_to_particle uniformGrid2d [⟨⟨1 / 2, 1 / 4, 0⟩, ⟨1 / 2, 1 / 4, 0⟩, v⟩]
        = none) ∧
    Mac2d.index_from_coord_pair (1 / 2) (1 / 4) = (0, 0) ∧
    uniformGrid2d.get_u_star 0 (-1) = some (uniformGrid2d.pu_star_ (-3)) ∧
    FLIP2d.interpolate_at uniformGrid2d (0, 0) (1 / 2) (1 / 4)
      = some (⟨5, 11, 0⟩, ⟨5, 11, 0⟩) := by
  have hi : FLIP2d.interpolate uniformGrid2d (1 / 2) (1 / 4) = none :=
    interpolate_inside_faults uniformGrid2d (1 / 2) (1 / 4) (by norm_num)
      (by norm_num [uniformGrid2d]) (by norm_num) (by norm_num [uniformGrid2d])
  refine ⟨by norm_num [uniformGrid2d], ?_, ?_, ?_, hi, ?_, ?_, ?_, ?_⟩
  · intro i j hi0 hi2 hj0 hj2
    have h1 : (0 : ℤ) ≤ (2 + 1) * j + i ∧ (2 + 1) * j + i < 6 := by omega
    simp only [Mac2d.get_u, Mac2d.get_u_star, uniformGrid2d]
    rw [if_pos ⟨by omega, hj2⟩, if_pos h1]
    exact ⟨rfl, rfl⟩
  · intro i j hi0 hi2 hj0 hj2
    have h1 : (0 : ℤ) ≤ 2 * j + i ∧ 2 * j + i < 6 := by omega
    simp only [Mac2d.get_v, Mac2d.get_v_star, uniformGrid2d]
    rw [if_pos ⟨hi2, by omega⟩, if_pos h1]
    exact ⟨rfl, rfl⟩
  · norm_num [Mac2d.index_from_coord, uniformGrid2d]
  · intro v
    simp only [FLIP2d.grid_to_particle, forParticles, FLIP2d.grid_to_particle_body,
      Particle.get_position, hi, Option.map_none', Option.none_bind]
  · have e1 : ⌊(1 / 2 : ℚ)⌋ = 0 := by
      rw [Int.floor_eq_iff]; norm_num
    have e2 : ⌊(1 / 4 : ℚ)⌋ = 0 := by
      rw [Int.floor_eq_iff]; norm_num
    simp only [Mac2d.index_from_coord_pair, double_to_int]
    rw [if_pos (by norm_num), if_pos (by norm_num), e1, e2]
  · simp [Mac2d.get_u_star, uniformGrid2d]
  · have hu : FLIP2d.interpolate_field uniformGrid2d.get_u 0 1 (-1) 0 1 1 (1 / 2) (1 / 4)
        = some 5 := by
      simp only [FLIP2d.interpolate_field, Mac2d.get_u, uniformGrid2d, FLIP2d.bilinear]
      norm_num
    have hus : FLIP2d.interpolate_field uniformGrid2d.get_u_star 0 1 (-1) 0 1 1 (1 / 2)
        (1 / 4) = some 5 := by
      simp only [FLIP2d.interpolate_field, Mac2d.get_u_star, uniformGrid2d, FLIP2d.bilinear]
      norm_num
    have hv : FLIP2d.interpolate_field uniformGrid2d.get_v (-1) 0 0 1 1 1 (1 / 2) (1 / 4)
        = some 11 := by
      simp only [FLIP2d.interpolate_field, Mac2d.get_v, uniformGrid2d, FLIP2d.bilinear]
      norm_num
    have hvs : FLIP2d.interpolate_field uniformGrid2d.get_v_star (-1) 0 0 1 1 1 (1 / 2)
        (1 / 4) = some 11 := by
      simp only [FLIP2d.interpolate_field, Mac2d.get_v_star, uniformGrid2d, FLIP2d.bilinear]
      norm_num
    have hs : uniformGrid2d.get_cell_sizex = 1 := rfl
    unfold FLIP2d.interpolate_at
    simp only [hs]
    norm_num
    rw [hus, hu, hvs, hv]
    rfl

/-! ## Advection, forces, boundary corrections: claims C31, C37 to C40 -/

theorem advance_particles_body_velocity (I : Interpolation) (g : Mac3d) (dt : ℚ)
    (p p' : Particle) (h : FLIP.advance_particles_body I g dt p = some p') :
    p'.velocity = p.velocity := by
  unfold FLIP.advance_particles_body at h
  simp only at h
  split at h
  · rw [← Option.some.inj h]
  · simp only [Option.bind_eq_some, Option.map_eq_some'] at h
    obtain ⟨_, _, _, _, _, _, _, _, e⟩ := h
    rw [← e]
    rfl

theorem advance_particles_body_skip (I : Interpolation) (g : Mac3d) (dt : ℚ) (p : Particle)
    (h : FLIP.half_step_outside g (FLIP.pos_half dt p) = true) :
    FLIP.advance_particles_body I g dt p = some p := by
  unfold FLIP.advance_particles_body
  simp only
  have h' : FLIP.half_step_outside g (p.get_position.add (p.get_velocity.scale (1 / 2 * dt)))
      = true := h
  rw [if_pos h']

/-- C40. Skipped particles of `advance_particles`. The call completes when every particle
is either skipped (its Euler half step `pos + 0.5*dt*vel` has a coordinate `c` with
`c ≤ −0.5·cell` or `c ≥ size − 0.5·cell`) or lies strictly inside the domain with a
non-faulting interpolation. Whenever it completes, every particle keeps its velocity, and
a skipped particle keeps its position as well, for every interpolated velocity field. -/
theorem advance_particles_skips (I : Interpolation) (f : FLIP) (dt : ℚ) (step : ℕ) :
    ((∀ p, p ∈ f.particles_ →
        FLIP.half_step_outside f.MACGrid_ (FLIP.pos_half dt p) = true ∨
        (f.MACGrid_.inside p.position ∧
          ∀ x y z, (I.get_interp_u f.MACGrid_ x y z false).isSome = true ∧
            (I.get_interp_v f.MACGrid_ x y z false).isSome = true ∧
            (I.get_interp_w f.MACGrid_ x y z false).isSome = true)) →
      ∃ f', FLIP.advance_particles I dt step f = some f') ∧
    ∀ f', FLIP.advance_particles I dt step f = some f' →
      ∀ (n : ℕ) (p : Particle), f.particles_[n]? = some p →
        ∃ p', f'.particles_[n]? = some p' ∧ p'.velocity = p.velocity ∧
          (FLIP.half_step_outside f.MACGrid_ (FLIP.pos_half dt p) = true →
            p'.position = p.position) := by
  constructor
  · intro h
    obtain ⟨ps', hps'⟩ := forParticles_isSome (FLIP.advance_particles_body I f.MACGrid_ dt)
      f.particles_ (fun p hp => by
        rcases h p hp with hs | ⟨hin, hI⟩
        · exact ⟨p, advance_particles_body_skip I f.MACGrid_ dt p hs⟩
        · exact advance_particles_body_isSome I f.MACGrid_ dt p hin hI)
    exact ⟨{ f with particles_ := ps' },
      by simp only [FLIP.advance_particles, hps', Option.map_some']⟩
  · intro f' hf'
    simp only [FLIP.advance_particles, Option.map_eq_some'] at hf'
    obtain ⟨ps', hps', rfl⟩ := hf'
    intro n p hp
    obtain ⟨p', h1, h2⟩ := forParticles_get _ _ _ hps' n p hp
    refine ⟨p', h1, advance_particles_body_velocity I _ dt p p' h2, fun hs => ?_⟩
    rw [advance_particles_body_skip I f.MACGrid_ dt p hs] at h2
    rw [← Option.some.inj h2]

/-- On `floorFLIP` with `dt = 4` the half step of the particle, `(0, 0, −1)`, is below the
domain: the call completes and the particle keeps its position `(0, 0, 1)` and its
velocity. -/
theorem advance_particles_skips_witness :
    ∃ f' p', FLIP.advance_particles fallInterpolation 4 0 floorFLIP = some f' ∧
      f'.particles_[0]? = some p' ∧ p'.velocity = ⟨0, 0, -1⟩ ∧ p'.position = ⟨0, 0, 1⟩ := by
  have hs : FLIP.half_step_outside floorGrid
      (FLIP.pos_half 4 ⟨⟨0, 0, 1⟩, ⟨0, 0, 1⟩, ⟨0, 0, -1⟩⟩) = true := by
    unfold FLIP.half_step_outside
    apply decide_eq_true
    norm_num [FLIP.pos_half, Particle.get_position, Particle.get_velocity, Vector3d.add,
      Vector3d.scale, Mac3d.get_grid_size, Mac3d.get_cell_sizex, Mac3d.get_cell_sizey,
      Mac3d.get_cell_sizez, floorGrid]
  obtain ⟨f', hf'⟩ := (advance_particles_skips fallInterpolation floorFLIP 4 0).1 (by
    intro p hp
    simp only [floorFLIP, List.mem_singleton] at hp
    subst hp
    exact Or.inl hs)
  obtain ⟨p', h1, h2, h3⟩ := (advance_particles_skips fallInterpolation floorFLIP 4 0).2 f' hf'
    0 ⟨⟨0, 0, 1⟩, ⟨0, 0, 1⟩, ⟨0, 0, -1⟩⟩ rfl
  exact ⟨f', p', hf', h1, h2, h3 hs⟩

theorem blendFactor_zero (g : Mac3d) (idx : ℕ × ℕ × ℕ) : blendFactor g 0 idx = 0 := by
  unfold blendFactor
  split
  · norm_num
  · rfl

theorem blend_same_zero (v s : Vector3d) : blend v s s 0 = v := by
  unfold blend
  simp only [sub_zero, mul_one, add_sub_cancel_right]

/-- The update of `grid_to_particle` evaluated in exact arithmetic: the call completes when
`index_from_coord` and the interpolations succeed at every particle. Whenever it
completes, every particle keeps its position; and with `α = 0`, if at every particle the
interpolated current velocity equals the interpolated star velocity, every particle is
left exactly as it was, velocity included, in boundary and interior cells alike. -/
theorem grid_to_particle_exact_consistency (I : Interpolation) (f : FLIP) :
    ((∀ p, p ∈ f.particles_ →
        (f.MACGrid_.index_from_coord p.position.x p.position.y p.position.z).isSome = true ∧
        (I.velocity f.MACGrid_ p.position true).isSome = true ∧
        (I.velocity f.MACGrid_ p.position false).isSome = true) →
      ∃ f', f.grid_to_particle I = some f') ∧
    ∀ f', f.grid_to_particle I = some f' →
      (∀ (n : ℕ) (p : Particle), f.particles_[n]? = some p →
        ∃ p', f'.particles_[n]? = some p' ∧ p'.position = p.position) ∧
      (f.alpha_ = 0 →
        (∀ p, p ∈ f.particles_ →
          I.velocity f.MACGrid_ p.position false = I.velocity f.MACGrid_ p.position true) →
        ∀ (n : ℕ) (p : Particle), f.particles_[n]? = some p → f'.particles_[n]? = some p) := by
  refine ⟨grid_to_particle_completes I f, fun f' h => ?_⟩
  simp only [FLIP.grid_to_particle, Option.map_eq_some'] at h
  obtain ⟨ps', hps', rfl⟩ := h
  refine ⟨fun n p hp => ?_, fun hα heq n p hp => ?_⟩
  · obtain ⟨p', h1, h2⟩ := forParticles_get _ _ _ hps' n p hp
    obtain ⟨idx, s, n1, _, _, _, rfl⟩ := grid_to_particle_body_spec I _ _ p p' h2
    exact ⟨_, h1, rfl⟩
  · obtain ⟨p', h1, h2⟩ := forParticles_get _ _ _ hps' n p hp
    obtain ⟨idx, s, n1, _, hs, hn, rfl⟩ := grid_to_particle_body_spec I _ _ p p' h2
    have hmem : p ∈ f.particles_ := List.getElem?_mem hp
    have e : n1 = s := by
      have := heq p hmem
      rw [hs, hn] at this
      exact Option.some.inj this
    show _ = some p
    rw [h1, hα, blendFactor_zero, e, blend_same_zero]

theorem clamp_axis_id (c cell size : ℚ) (h1 : -(1 / 2) * cell < c)
    (h2 : c < size - 1 / 2 * cell) : FLIP.clamp_axis c cell size = c := by
  unfold FLIP.clamp_axis
  simp only
  rw [if_neg (not_le.mpr h2), if_neg (not_le.mpr h1)]

theorem advance_solid_check_free (g : Mac3d) (pos_curr pos_next : Vector3d) (c : ℕ × ℕ × ℕ)
    (hin : g.inside pos_curr)
    (hc : g.index_from_coord pos_next.x pos_next.y pos_curr.z = some c)
    (hs : g.is_solid c.1 c.2.1 c.2.2 = some false) :
    FLIP.advance_solid_check g pos_curr pos_next = some pos_next := by
  obtain ⟨idx, hidx⟩ := index_from_coord_isSome g pos_curr hin
  unfold FLIP.advance_solid_check
  rw [hidx, Option.some_bind, hc, Option.some_bind]
  simp only [hs, Option.some_bind]
  rfl

theorem crossGrid_index_right : crossGrid.index_from_coord (7 / 4) 1 1 = some (2, 1, 1) := by
  have h1 := double_to_int_nat_add_half 1
  norm_num at h1
  have h2 : double_to_int (7 / 4 + 1 / 2) = 2 := by
    unfold double_to_int
    rw [if_pos (by norm_num)]
    rw [Int.floor_eq_iff]
    norm_num
  norm_num at h2
  norm_num [Mac3d.index_from_coord, Mac3d.get_grid_size, crossGrid, h1, h2]
  rfl

/-- C31 (amended). The midpoint scheme of `advance_particles`: the midpoint is
`pos + 0.5*dt*vel`, with `vel` the velocity stored in the particle; if it is not outside
the domain, the grid velocity is interpolated there (`get_interp_u/v/w`), and when the
point `pos + dt*U(midpoint)` lies strictly inside the domain and the cell that the solid
check looks up is not solid, that point is the new position of the particle. -/
theorem advance_particles_midpoint (I : Interpolation) (g : Mac3d) (dt : ℚ) (p : Particle)
    (iu iv iw : ℚ) (c : ℕ × ℕ × ℕ) (hin : g.inside p.position)
    (hmid : FLIP.half_step_outside g (FLIP.pos_half dt p) = false)
    (hu : I.get_interp_u g (FLIP.pos_half dt p).x (FLIP.pos_half dt p).y
      (FLIP.pos_half dt p).z false = some iu)
    (hv : I.get_interp_v g (FLIP.pos_half dt p).x (FLIP.pos_half dt p).y
      (FLIP.pos_half dt p).z false = some iv)
    (hw : I.get_interp_w g (FLIP.pos_half dt p).x (FLIP.pos_half dt p).y
      (FLIP.pos_half dt p).z false = some iw)
    (hnew : g.inside ⟨p.position.x + dt * iu, p.position.y + dt * iv, p.position.z + dt * iw⟩)
    (hc : g.index_from_coord (p.position.x + dt * iu) (p.position.y + dt * iv) p.position.z
      = some c)
    (hs : g.is_solid c.1 c.2.1 c.2.2 = some false) :
    FLIP.pos_half dt p = ⟨p.position.x + p.velocity.x * (1 / 2 * dt),
      p.position.y + p.velocity.y * (1 / 2 * dt), p.position.z + p.velocity.z * (1 / 2 * dt)⟩ ∧
    FLIP.advance_particles_body I g dt p = some (p.set_position
      ⟨p.position.x + dt * iu, p.position.y + dt * iv, p.position.z + dt * iw⟩) := by
  refine ⟨rfl, ?_⟩
  have hmid' : ¬ (FLIP.half_step_outside g
      (p.get_position.add (p.get_velocity.scale (1 / 2 * dt))) = true) := by
    have e : FLIP.half_step_outside g
        (p.get_position.add (p.get_velocity.scale (1 / 2 * dt))) = false := hmid
    rw [e]; simp
  have hu' : I.get_interp_u g (p.get_position.add (p.get_velocity.scale (1 / 2 * dt))).x
      (p.get_position.add (p.get_velocity.scale (1 / 2 * dt))).y
      (p.get_position.add (p.get_velocity.scale (1 / 2 * dt))).z false = some iu := hu
  have hv' : I.get_interp_v g (p.get_position.add (p.get_velocity.scale (1 / 2 * dt))).x
      (p.get_position.add (p.get_velocity.scale (1 / 2 * dt))).y
      (p.get_position.add (p.get_velocity.scale (1 / 2 * dt))).z false = some iv := hv
  have hw' : I.get_interp_w g (p.get_position.add (p.get_velocity.scale (1 / 2 * dt))).x
      (p.get_position.add (p.get_velocity.scale (1 / 2 * dt))).y
      (p.get_position.add (p.get_velocity.scale (1 / 2 * dt))).z false = some iw := hw
  have hn := hnew
  unfold Mac3d.inside at hn
  obtain ⟨x1, x2, y1, y2, z1, z2⟩ := hn
  have ex := clamp_axis_id (p.position.x + dt * iu) g.get_cell_sizex g.get_grid_size.x x1 x2
  have ey := clamp_axis_id (p.position.y + dt * iv) g.get_cell_sizey g.get_grid_size.y y1 y2
  have ez := clamp_axis_id (p.position.z + dt * iw) g.get_cell_sizez g.get_grid_size.z z1 z2
  have hchk := advance_solid_check_free g p.position
    ⟨p.position.x + dt * iu, p.position.y + dt * iv, p.position.z + dt * iw⟩ c hin hc hs
  unfold FLIP.advance_particles_body
  simp only
  rw [if_neg hmid', hu', Option.some_bind, hv', Option.some_bind, hw', Option.some_bind]
  show Option.map _ (FLIP.advance_solid_check g p.position
    ⟨FLIP.clamp_axis (p.position.x + dt * iu) g.get_cell_sizex g.get_grid_size.x,
      FLIP.clamp_axis (p.position.y + dt * iv) g.get_cell_sizey g.get_grid_size.y,
      FLIP.clamp_axis (p.position.z + dt * iw) g.get_cell_sizez g.get_grid_size.z⟩) = _
  rw [ex, ey, ez, hchk]
  rfl

theorem shear_half_step : FLIP.half_step_outside crossGrid (FLIP.pos_half (1 / 2) shearParticle)
    = false := by
  unfold FLIP.half_step_outside
  apply decide_eq_false
  norm_num [FLIP.pos_half, shearParticle, Particle.get_position, Particle.get_velocity,
    Vector3d.add, Vector3d.scale, Mac3d.get_grid_size, Mac3d.get_cell_sizex,
    Mac3d.get_cell_sizey, Mac3d.get_cell_sizez, crossGrid]

theorem shear_pos_half : FLIP.pos_half (1 / 2) shearParticle = ⟨3 / 2, 1, 1⟩ := by
  norm_num [FLIP.pos_half, shearParticle, Particle.get_position, Particle.get_velocity,
    Vector3d.add, Vector3d.scale]

/-- On `crossGrid` with the shear field `u = x` and `dt = 1/2`, the particle at `(1, 1, 1)`
with velocity `(2, 0, 0)` has the midpoint `(3/2, 1, 1)` and moves to
`(1 + 1/2 · 3/2, 1, 1)`. -/
theorem advance_particles_midpoint_witness :
    FLIP.pos_half (1 / 2) shearParticle = ⟨3 / 2, 1, 1⟩ ∧
    FLIP.advance_particles_body shearInterpolation crossGrid (1 / 2) shearParticle
      = some (shearParticle.set_position ⟨7 / 4, 1, 1⟩) := by
  have h := advance_particles_midpoint shearInterpolation crossGrid (1 / 2) shearParticle
    (3 / 2) 0 0 (2, 1, 1)
    (by norm_num [Mac3d.inside, Mac3d.get_grid_size, crossGrid, shearParticle])
    shear_half_step
    (by rw [shear_pos_half]; rfl) (by rw [shear_pos_half]; rfl) (by rw [shear_pos_half]; rfl)
    (by norm_num [Mac3d.inside, Mac3d.get_grid_size, crossGrid, shearParticle])
    (by
      have e : shearParticle.position.x + 1 / 2 * (3 / 2) = 7 / 4 := by
        norm_num [shearParticle]
      have e2 : shearParticle.position.y + 1 / 2 * 0 = 1 := by norm_num [shearParticle]
      rw [e, e2]
      exact crossGrid_index_right)
    (by simp [Mac3d.is_solid, crossGrid])
  refine ⟨shear_pos_half, ?_⟩
  have e : (⟨shearParticle.position.x + 1 / 2 * (3 / 2), shearParticle.position.y + 1 / 2 * 0,
      shearParticle.position.z + 1 / 2 * 0⟩ : Vector3d) = ⟨7 / 4, 1, 1⟩ := by
    norm_num [shearParticle]
  rw [← e]
  exact h.2

/-- C31 (counterexample to the claim as worded). On `crossGrid` with the shear field
`u = x`, `dt = 1/2` and the particle at `(1, 1, 1)` with velocity `(2, 0, 0)`: the grid
velocity interpolated at the particle is `(1, 0, 0)`, so the claim's midpoint is
`(5/4, 1, 1)` and its new position `(13/8, 1, 1)`; the code takes the midpoint
`(3/2, 1, 1)` from the stored velocity and moves the particle to `(7/4, 1, 1)`. -/
theorem advance_particles_midpoint_counterexample :
    shearInterpolation.velocity crossGrid shearParticle.position false = some ⟨1, 0, 0⟩ ∧
    midpoint_spec shearInterpolation crossGrid (1 / 2) shearParticle = some ⟨5 / 4, 1, 1⟩ ∧
    rk2_spec shearInterpolation crossGrid (1 / 2) shearParticle = some ⟨13 / 8, 1, 1⟩ ∧
    FLIP.pos_half (1 / 2) shearParticle = ⟨3 / 2, 1, 1⟩ ∧
    ∃ p', FLIP.advance_particles_body shearInterpolation crossGrid (1 / 2) shearParticle
        = some p' ∧ p'.position = ⟨7 / 4, 1, 1⟩ ∧ p'.position ≠ ⟨13 / 8, 1, 1⟩ := by
  have hv : shearInterpolation.velocity crossGrid shearParticle.position false
      = some ⟨1, 0, 0⟩ := by
    simp [Interpolation.velocity, shearInterpolation, shearParticle]
  have hm : midpoint_spec shearInterpolation crossGrid (1 / 2) shearParticle
      = some ⟨5 / 4, 1, 1⟩ := by
    unfold midpoint_spec
    rw [hv]
    norm_num [Vector3d.add, Vector3d.scale, shearParticle]
  have hr : rk2_spec shearInterpolation crossGrid (1 / 2) shearParticle
      = some ⟨13 / 8, 1, 1⟩ := by
    unfold rk2_spec
    rw [hm]
    norm_num [Interpolation.velocity, shearInterpolation, Vector3d.add, Vector3d.scale,
      shearParticle]
  have hchk : FLIP.advance_solid_check crossGrid ⟨1, 1, 1⟩ ⟨7 / 4, 1, 1⟩
      = some ⟨7 / 4, 1, 1⟩ :=
    advance_solid_check_free crossGrid ⟨1, 1, 1⟩ ⟨7 / 4, 1, 1⟩ (2, 1, 1)
      (by norm_num [Mac3d.inside, Mac3d.get_grid_size, crossGrid])
      crossGrid_index_right (by simp [Mac3d.is_solid, crossGrid])
  have hb : FLIP.advance_particles_body shearInterpolation crossGrid (1 / 2) shearParticle
      = some (shearParticle.set_position ⟨7 / 4, 1, 1⟩) := by
    have hs := shear_half_step
    have hp := shear_pos_half
    unfold FLIP.pos_half at hs hp
    unfold FLIP.advance_particles_body
    simp only
    rw [hs, hp]
    simp only [Bool.false_eq_true, if_false, shearInterpolation, Option.some_bind]
    have ex : FLIP.clamp_axis (shearParticle.get_position.x + 1 / 2 * (3 / 2))
        crossGrid.get_cell_sizex crossGrid.get_grid_size.x = 7 / 4 := by
      rw [clamp_axis_id] <;>
        norm_num [shearParticle, Particle.get_position, Mac3d.get_cell_sizex,
          Mac3d.get_grid_size, crossGrid]
    have ey : FLIP.clamp_axis (shearParticle.get_position.y + 1 / 2 * 0)
        crossGrid.get_cell_sizey crossGrid.get_grid_size.y = 1 := by
      rw [clamp_axis_id] <;>
        norm_num [shearParticle, Particle.get_position, Mac3d.get_cell_sizey,
          Mac3d.get_grid_size, crossGrid]
    have ez : FLIP.clamp_axis (shearParticle.get_position.z + 1 / 2 * 0)
        crossGrid.get_cell_sizez crossGrid.get_grid_size.z = 1 := by
      rw [clamp_axis_id] <;>
        norm_num [shearParticle, Particle.get_position, Mac3d.get_cell_sizez,
          Mac3d.get_grid_size, crossGrid]
    rw [ex, ey, ez]
    have hpos : shearParticle.get_position = ⟨1, 1, 1⟩ := rfl
    rw [hpos, hchk]
    rfl
  refine ⟨hv, hm, hr, shear_pos_half, _, hb, rfl, ?_⟩
  intro h
  have := congrArg Vector3d.x h
  norm_num [Particle.set_position] at this

theorem apply_forces_step (g : Mac3d) (dt G : ℚ) (i j k : ℕ) (hi : i < g.N_)
    (hj : j < g.M_ + 1) (hk : k < g.L_) (s : Mac3d)
    (hs : s = g.forced_below dt G (cellIndex g.N_ (g.M_ + 1) i j k)) :
    ∃ s', ((s.get_v i j k).bind fun (v : ℚ) => s.set_v i j k (v - dt * G)) = some s' ∧
      s' = g.forced_below dt G (cellIndex g.N_ (g.M_ + 1) i j k + 1) := by
  subst hs
  have hb : i < (g.forced_below dt G (cellIndex g.N_ (g.M_ + 1) i j k)).N_ ∧
      j < (g.forced_below dt G (cellIndex g.N_ (g.M_ + 1) i j k)).M_ + 1 ∧
      k < (g.forced_below dt G (cellIndex g.N_ (g.M_ + 1) i j k)).L_ := ⟨hi, hj, hk⟩
  have hcur : ∀ a b e, (g.forced_below dt G (cellIndex g.N_ (g.M_ + 1) i j k)).pv_ a b e =
      if True ∧ a < g.N_ ∧ b < g.M_ + 1 ∧ e < g.L_ ∧
          cellIndex g.N_ (g.M_ + 1) a b e < cellIndex g.N_ (g.M_ + 1) i j k then
        g.pv_ a b e - dt * G
      else g.pv_ a b e := fun _ _ _ => rfl
  have hown : (g.forced_below dt G (cellIndex g.N_ (g.M_ + 1) i j k)).pv_ i j k
      = g.pv_ i j k := by
    rw [hcur i j k, if_neg]
    intro hc
    exact absurd hc.2.2.2.2 (lt_irrefl _)
  rw [get_v_eq _ i j k hb, Option.some_bind, set_v_eq _ i j k _ hb]
  refine ⟨_, rfl, ?_⟩
  refine Mac3d.eq_of_fields _ _ rfl rfl rfl rfl rfl rfl rfl rfl ?_ rfl rfl rfl rfl rfl rfl
    rfl rfl rfl
  funext a b e
  have := progress_update g.N_ (g.M_ + 1) i j k g.L_ hi hj hk (fun _ _ _ => True) g.pv_
    (fun a b e => g.pv_ a b e - dt * G)
    (g.forced_below dt G (cellIndex g.N_ (g.M_ + 1) i j k)).pv_
    (write3 (g.forced_below dt G (cellIndex g.N_ (g.M_ + 1) i j k)).pv_ i j k
      ((g.forced_below dt G (cellIndex g.N_ (g.M_ + 1) i j k)).pv_ i j k - dt * G))
    True Iff.rfl hcur
    (fun a b e => by simp only [write3, true_and, hown]) a b e
  exact this

/-- `apply_forces` never faults: it subtracts `dt * gravity_mag_` from every `v` face of
the shape `N × (M+1) × L` and changes nothing else. -/
theorem apply_forces_grid (f : FLIP) (dt : ℚ) :
    f.apply_forces dt = some { f with MACGrid_ := f.forced dt } := by
  obtain ⟨s', h1, h2⟩ := forLoop3_progress f.MACGrid_.N_ (f.MACGrid_.M_ + 1) f.MACGrid_.L_
    (fun i j k (g : Mac3d) =>
      (g.get_v i j k).bind fun (v : ℚ) => g.set_v i j k (v - dt * f.gravity_mag_))
    (fun c s => s = f.MACGrid_.forced_below dt f.gravity_mag_ c)
    (fun i j k hi hj hk s hs => apply_forces_step f.MACGrid_ dt f.gravity_mag_ i j k hi hj hk
      s hs)
    f.MACGrid_ (by
      refine Mac3d.eq_of_fields _ _ rfl rfl rfl rfl rfl rfl rfl rfl ?_ rfl rfl rfl rfl rfl rfl
        rfl rfl rfl
      funext a b e
      show f.MACGrid_.pv_ a b e = if _ then _ else _
      rw [if_neg]
      intro hc
      exact absurd hc.2.2.2.2 (Nat.not_lt_zero _))
  subst h2
  show (forLoop3 f.MACGrid_.N_ (f.MACGrid_.M_ + 1) f.MACGrid_.L_ _ f.MACGrid_).map _ = _
  rw [h1]
  rfl

/-- C39. `apply_forces(dt)` always completes; afterwards every `v` face
(`i < N`, `j ≤ M`, `k < L`) holds its old value minus `dt * gravity_mag_`, and the `u`
faces, the `w` faces, the pressure field, the solid and fluid flags and the dimensions are
unchanged. -/
theorem apply_forces_effect (f : FLIP) (dt : ℚ) :
    ∃ f', f.apply_forces dt = some f' ∧
      (∀ i j k, i < f.MACGrid_.N_ → j ≤ f.MACGrid_.M_ → k < f.MACGrid_.L_ →
        f'.MACGrid_.pv_ i j k = f.MACGrid_.pv_ i j k - dt * f.gravity_mag_) ∧
      f'.MACGrid_.pu_ = f.MACGrid_.pu_ ∧ f'.MACGrid_.pw_ = f.MACGrid_.pw_ ∧
      f'.MACGrid_.ppressure_ = f.MACGrid_.ppressure_ ∧
      f'.MACGrid_.psolid_ = f.MACGrid_.psolid_ ∧ f'.MACGrid_.pfluid_ = f.MACGrid_.pfluid_ ∧
      f'.MACGrid_.N_ = f.MACGrid_.N_ ∧ f'.MACGrid_.M_ = f.MACGrid_.M_ ∧
      f'.MACGrid_.L_ = f.MACGrid_.L_ ∧ f'.particles_ = f.particles_ := by
  refine ⟨_, apply_forces_grid f dt, fun i j k hi hj hk => ?_, rfl, rfl, rfl, rfl, rfl, rfl,
    rfl, rfl, rfl⟩
  show (if True ∧ i < f.MACGrid_.N_ ∧ j < f.MACGrid_.M_ + 1 ∧ k < f.MACGrid_.L_ ∧
    cellIndex f.MACGrid_.N_ (f.MACGrid_.M_ + 1) i j k
      < f.MACGrid_.N_ * (f.MACGrid_.M_ + 1) * f.MACGrid_.L_ then
        f.MACGrid_.pv_ i j k - dt * f.gravity_mag_ else f.MACGrid_.pv_ i j k) = _
  rw [if_pos ⟨trivial, hi, by omega, hk,
    cellIndex_lt _ _ _ i j k hi (by omega) hk⟩]

/-- On `columnFLIP` (`v` faces 5 and 7, gravity 10) with `dt = 1/2` the `v` faces become 0
and 2, and the `u` face keeps its value. -/
theorem apply_forces_effect_witness :
    ∃ f', columnFLIP.apply_forces (1 / 2) = some f' ∧
      f'.MACGrid_.pv_ 0 0 0 = 0 ∧ f'.MACGrid_.pv_ 0 1 0 = 2 ∧ f'.MACGrid_.pu_ 1 0 0 = 1 := by
  obtain ⟨f', h, hv, hu, _⟩ := apply_forces_effect columnFLIP (1 / 2)
  refine ⟨f', h, ?_, ?_, ?_⟩
  · rw [hv 0 0 0 (by decide) (by decide) (by decide)]
    norm_num [columnFLIP, columnGrid]
  · rw [hv 0 1 0 (by decide) (by decide) (by decide)]
    norm_num [columnFLIP, columnGrid]
  · rw [hu]
    rfl

theorem boundary_upper_u (g : Mac3d) (hbc : BoundaryZero g) (i j k : ℕ) (hi : i < g.N_)
    (hj : j < g.M_) (hk : k < g.L_)
    (h : (i < g.N_ - 1 ∧ g.psolid_ (i + 1) j k = true) ∨ i = g.N_ - 1) :
    g.pu_ (i + 1) j k = 0 := by
  rcases h with ⟨h1, h2⟩ | h1
  · exact (hbc.solid k hk j hj i hi).1 (Or.inr ⟨by omega, hj, hk, h2⟩)
  · have e : i + 1 = g.N_ := by omega
    rw [e]
    exact (hbc.outer_u k hk j hj).2

theorem boundary_lower_u (g : Mac3d) (hbc : BoundaryZero g) (i j k : ℕ) (hi : i < g.N_)
    (hj : j < g.M_) (hk : k < g.L_)
    (h : (i > 0 ∧ g.psolid_ (i - 1) j k = true) ∨ i = 0) : g.pu_ i j k = 0 := by
  rcases h with ⟨h1, h2⟩ | h1
  · have e : i - 1 + 1 = i := by omega
    have := (hbc.solid k hk j hj (i - 1) (by omega)).1 (Or.inl ⟨by omega, hj, hk, h2⟩)
    rw [e] at this
    exact this
  · rw [h1]
    exact (hbc.outer_u k hk j hj).1

theorem boundary_upper_v (g : Mac3d) (hbc : BoundaryZero g) (i j k : ℕ) (hi : i < g.N_)
    (hj : j < g.M_) (hk : k < g.L_)
    (h : (j < g.M_ - 1 ∧ g.psolid_ i (j + 1) k = true) ∨ j = g.M_ - 1) :
    g.pv_ i (j + 1) k = 0 := by
  rcases h with ⟨h1, h2⟩ | h1
  · exact (hbc.solid k hk j hj i hi).2.1 (Or.inr ⟨hi, by omega, hk, h2⟩)
  · have e : j + 1 = g.M_ := by omega
    rw [e]
    exact (hbc.outer_v k hk i hi).2

theorem boundary_lower_v (g : Mac3d) (hbc : BoundaryZero g) (i j k : ℕ) (hi : i < g.N_)
    (hj : j < g.M_) (hk : k < g.L_)
    (h : (j > 0 ∧ g.psolid_ i (j - 1) k = true) ∨ j = 0) : g.pv_ i j k = 0 := by
  rcases h with ⟨h1, h2⟩ | h1
  · have e : j - 1 + 1 = j := by omega
    have := (hbc.solid k hk (j - 1) (by omega) i hi).2.1 (Or.inl ⟨hi, by omega, hk, h2⟩)
    rw [e] at this
    exact this
  · rw [h1]
    exact (hbc.outer_v k hk i hi).1

theorem boundary_upper_w (g : Mac3d) (hbc : BoundaryZero g) (i j k : ℕ) (hi : i < g.N_)
    (hj : j < g.M_) (hk : k < g.L_)
    (h : (k < g.L_ - 1 ∧ g.psolid_ i j (k + 1) = true) ∨ k = g.L_ - 1) :
    g.pw_ i j (k + 1) = 0 := by
  rcases h with ⟨h1, h2⟩ | h1
  · exact (hbc.solid k hk j hj i hi).2.2 (Or.inr ⟨hi, hj, by omega, h2⟩)
  · have e : k + 1 = g.L_ := by omega
    rw [e]
    exact (hbc.outer_w j hj i hi).2

theorem boundary_lower_w (g : Mac3d) (hbc : BoundaryZero g) (i j k : ℕ) (hi : i < g.N_)
    (hj : j < g.M_) (hk : k < g.L_)
    (h : (k > 0 ∧ g.psolid_ i j (k - 1) = true) ∨ k = 0) : g.pw_ i j k = 0 := by
  rcases h with ⟨h1, h2⟩ | h1
  · have e : k - 1 + 1 = k := by omega
    have := (hbc.solid (k - 1) (by omega) j hj i hi).2.2 (Or.inl ⟨hi, hj, by omega, h2⟩)
    rw [e] at this
    exact this
  · rw [h1]
    exact (hbc.outer_w j hj i hi).1

theorem ite_face_zero (c : Prop) [Decidable c] (x : ℚ) (h : c → x = 0) :
    (if c then x else 0) = 0 := by
  split
  · rename_i hc; exact h hc
  · rfl

/-- Under the postcondition of `apply_boundary_conditions` the six correction terms of
`compute_pressure_rhs` are 0 at every fluid cell. -/
theorem rhsValue_after_boundary (g : Mac3d) (hbc : BoundaryZero g) (ρ dt : ℚ) (i j k : ℕ)
    (hi : i < g.N_) (hj : j < g.M_) (hk : k < g.L_) (hf : g.pfluid_ i j k = true) :
    rhsValue g ρ dt i j k =
      -(ρ * g.cell_sizex_ * ((g.pu_ (i + 1) j k - g.pu_ i j k)
        + (g.pv_ i (j + 1) k - g.pv_ i j k) + (g.pw_ i j (k + 1) - g.pw_ i j k))) / dt := by
  unfold rhsValue
  rw [if_pos hf,
    ite_face_zero _ _ (boundary_upper_u g hbc i j k hi hj hk),
    ite_face_zero _ _ (boundary_lower_u g hbc i j k hi hj hk),
    ite_face_zero _ _ (boundary_upper_v g hbc i j k hi hj hk),
    ite_face_zero _ _ (boundary_lower_v g hbc i j k hi hj hk),
    ite_face_zero _ _ (boundary_upper_w g hbc i j k hi hj hk),
    ite_face_zero _ _ (boundary_lower_w g hbc i j k hi hj hk)]
  ring

theorem crossGrid_boundaryZero : BoundaryZero crossGrid := by
  refine ⟨fun k _ j _ i _ => ⟨fun h => ?_, fun h => ?_, fun h => ?_⟩,
    fun k _ j _ => ?_, fun k _ i _ => ?_, fun j _ i _ => ?_⟩
  · rcases h with h | h <;> exact absurd h.2.2.2 (by simp [crossGrid])
  · rcases h with h | h <;> exact absurd h.2.2.2 (by simp [crossGrid])
  · rcases h with h | h <;> exact absurd h.2.2.2 (by simp [crossGrid])
  · simp [crossGrid]
  · simp [crossGrid]
  · simp [crossGrid]

/-- C37. On every grid state that satisfies the postcondition of
`apply_boundary_conditions` (every face next to a solid cell and every outer-boundary face
is 0), `compute_pressure_rhs(dt)` completes and stores, for every fluid cell,
`d[cell] = −ρ·h·((u(i+1)−u(i)) + (v(j+1)−v(j)) + (w(k+1)−w(k)))/dt`, with
`h = get_cell_sizex`: the six correction terms contribute 0. -/
theorem compute_pressure_rhs_after_boundary (f : FLIP) (dt : ℚ)
    (hbc : BoundaryZero f.MACGrid_) :
    ∃ d, f.compute_pressure_rhs dt = some { f with d_ := d } ∧
      ∀ i j k, i < f.MACGrid_.N_ → j < f.MACGrid_.M_ → k < f.MACGrid_.L_ →
        f.MACGrid_.pfluid_ i j k = true →
        d (cellIndex f.MACGrid_.N_ f.MACGrid_.M_ i j k)
          = -(f.fluid_density_ * f.MACGrid_.get_cell_sizex *
              ((f.MACGrid_.pu_ (i + 1) j k - f.MACGrid_.pu_ i j k)
                + (f.MACGrid_.pv_ i (j + 1) k - f.MACGrid_.pv_ i j k)
                + (f.MACGrid_.pw_ i j (k + 1) - f.MACGrid_.pw_ i j k))) / dt := by
  obtain ⟨d, h1, h2⟩ := compute_pressure_rhs_spec f dt
  refine ⟨d, h1, fun i j k hi hj hk hf => ?_⟩
  rw [h2 i j k hi hj hk, rhsValue_after_boundary f.MACGrid_ hbc _ dt i j k hi hj hk hf]
  rfl

/-- On `crossGrid`, whose outer faces are 0 and which has no solid cell, the centre cell
`(1, 1, 1)` (linear index 13) has the face differences `−2`, `−2`, `−2`; with density 1,
cell size 1 and `dt = 2` the call stores `d[13] = 3`. -/
theorem compute_pressure_rhs_after_boundary_witness :
    BoundaryZero crossFLIP.MACGrid_ ∧
    ∃ d, crossFLIP.compute_pressure_rhs 2 = some { crossFLIP with d_ := d } ∧ d 13 = 3 := by
  obtain ⟨d, h1, h2⟩ := compute_pressure_rhs_after_boundary crossFLIP 2 crossGrid_boundaryZero
  refine ⟨crossGrid_boundaryZero, d, h1, ?_⟩
  have h := h2 1 1 1 (by decide) (by decide) (by decide) (by decide)
  have e : cellIndex crossFLIP.MACGrid_.N_ crossFLIP.MACGrid_.M_ 1 1 1 = 13 := by decide
  rw [e] at h
  rw [h]
  norm_num [crossFLIP, crossGrid, Mac3d.get_cell_sizex]

/-! ## The 2D solver steps: claims C32 to C36 -/

theorem to_unsigned_cast (x : ℤ) (h0 : 0 ≤ x) (h1 : x < 2 ^ 32) : ((to_unsigned x : ℕ) : ℤ) = x := by
  unfold to_unsigned
  rw [Int.toNat_of_nonneg (Int.emod_nonneg _ (by norm_num))]
  exact Int.emod_eq_of_lt h0 h1

theorem to_int_small (n : ℕ) (h : n < 2 ^ 31) : to_int n = (n : ℤ) := by
  have h1 : n % 2 ^ 32 = n := Nat.mod_eq_of_lt (by omega)
  unfold to_int
  rw [h1, if_pos h]

theorem to_int_zero : to_int 0 = 0 := by decide

theorem to_int_one : to_int 1 = 1 := by decide

theorem to_int_two : to_int 2 = 2 := by decide

theorem to_int_three : to_int 3 = 3 := by decide

theorem unsigned_sub_zero_one : unsigned_sub 0 1 = 4294967295 := by decide

theorem unsigned_sub_one_one : unsigned_sub 1 1 = 0 := by decide

theorem unsigned_sub_two_one : unsigned_sub 2 1 = 1 := by decide

theorem to_int_minus_one : to_int 4294967295 = -1 := by decide

theorem to_unsigned_one : to_unsigned 1 = 1 := by decide

theorem to_unsigned_two : to_unsigned 2 = 2 := by decide

theorem y_test_false (j ny : ℕ) (hj : j < ny) (hny : ny < 2 ^ 31) :
    decide ((j + ny) % 2 ^ 32 < ny) = false := by
  rw [decide_eq_false_iff_not]
  norm_num at hny ⊢
  omega

theorem push_pair_x_only (g : Mac2d) (b : Bool) (r : ℕ) (T : List Triplet_t)
    (hT : ∀ t ∈ T, XCouplingOnly g t) :
    ∀ t ∈ FLIP.push_pair b r ((r + 1) % 2 ^ 32) T, XCouplingOnly g t := by
  intro t ht
  unfold FLIP.push_pair at ht
  split at ht
  · rcases List.mem_append.1 ht with h | h
    · exact hT t h
    · simp only [List.mem_cons, List.mem_singleton, List.not_mem_nil, or_false] at h
      rcases h with h | h
      · subst h
        exact Or.inr ⟨rfl, Or.inl rfl⟩
      · subst h
        exact Or.inr ⟨rfl, Or.inr rfl⟩
  · exact hT t ht

theorem compute_pressure_matrix_cell_x_only (g : Mac2d) (nx ny i j : ℕ) (hj : j < ny)
    (hny : ny < 2 ^ 31) (s s' : List Triplet_t × ℕ)
    (hs : ∀ t ∈ s.1, XCouplingOnly g t)
    (h : FLIP2d.compute_pressure_matrix_cell g nx ny i j s = some s') :
    ∀ t ∈ s'.1, XCouplingOnly g t := by
  unfold FLIP2d.compute_pressure_matrix_cell at h
  rw [y_test_false j ny hj hny] at h
  cases hfl : g.is_fluid (to_int i) (to_int j) with
  | none => rw [hfl] at h; simp at h
  | some fl =>
    rw [hfl, Option.some_bind] at h
    cases fl with
    | false =>
      simp only [Bool.false_eq_true, if_false, Option.some.injEq] at h
      rw [← h]
      exact hs
    | true =>
      simp only [if_true] at h
      cases hd : g.get_a_diag ((i + j * nx) % 2 ^ 32) with
      | none => rw [hd] at h; simp at h
      | some diag_e =>
        rw [hd, Option.some_bind] at h
        cases hcx : scAnd (decide ((i + 1) % 2 ^ 32 < nx))
            (g.is_fluid (to_int (i + 1)) (to_int j)) with
        | none => rw [hcx] at h; simp at h
        | some cx =>
          rw [hcx, Option.some_bind] at h
          simp only [scAnd, Bool.false_eq_true, if_false, Option.some_bind,
            Option.some.injEq] at h
          rw [← h]
          have h1 : ∀ t ∈ s.1 ++ [diag_e], XCouplingOnly g t := by
            intro t ht
            rcases List.mem_append.1 ht with h' | h'
            · exact hs t h'
            · rw [List.mem_singleton] at h'
              subst h'
              exact Or.inl (List.getElem?_mem hd)
          have h2 := push_pair_x_only g cx s.2 _ h1
          simpa [FLIP.push_pair] using h2

theorem compute_pressure_matrix_x_only (g : Mac2d) (hM : 0 ≤ g.M_ ∧ g.M_ < 2 ^ 31)
    (T : List Triplet_t) (h : FLIP2d.compute_pressure_matrix g = some T) :
    ∀ t ∈ T, XCouplingOnly g t := by
  unfold FLIP2d.compute_pressure_matrix at h
  simp only [Option.map_eq_some'] at h
  obtain ⟨s, h1, h2⟩ := h
  subst h2
  have hny : g.get_num_cells_y < 2 ^ 31 := by
    have := to_unsigned_cast g.M_ hM.1 (by linarith [hM.2])
    unfold Mac2d.get_num_cells_y
    have h3 : ((to_unsigned g.M_ : ℕ) : ℤ) < 2 ^ 31 := by rw [this]; exact hM.2
    exact_mod_cast h3
  refine forLoop_keeps (fun s : List Triplet_t × ℕ => ∀ t ∈ s.1, XCouplingOnly g t) _ _
    (fun j hj t t' ht hb => ?_) _ _ (by simp) h1
  exact forLoop_keeps (fun s : List Triplet_t × ℕ => ∀ t ∈ s.1, XCouplingOnly g t) _ _
    (fun i _ u u' hu hb' =>
      compute_pressure_matrix_cell_x_only g _ _ i j hj hny u u' hu hb') _ _ ht hb

theorem coeff_eq_zero (T : List Triplet_t) (r c : ℕ)
    (h : ∀ t ∈ T, ¬ (t.row = r ∧ t.col = c)) : coeff T r c = 0 := by
  unfold coeff
  apply List.sum_eq_zero
  intro x hx
  rw [List.mem_map] at hx
  obtain ⟨t, ht, rfl⟩ := hx
  rw [if_neg (h t ht)]

theorem fluidGrid2d_matrix : FLIP2d.compute_pressure_matrix fluidGrid2d
    = some [⟨0, 0, 2⟩, ⟨0, 1, -1⟩, ⟨1, 0, -1⟩, ⟨1, 1, 2⟩, ⟨2, 2, 2⟩, ⟨2, 3, -1⟩, ⟨3, 2, -1⟩,
        ⟨3, 3, 2⟩] := by
  rfl

/-- Claim C32, what the 2D `compute_pressure_matrix` builds instead: on a grid whose
`A_diag_` holds diagonal triplets, every entry `A[r][c]` with `c` different from `r`,
`r + 1` and `r - 1` is 0; the test `j+ny < ny` of the y branch never holds, so no entry
couples a cell with the cell above it. -/
theorem compute_pressure_matrix_y_coupling (g : Mac2d) (hM : 0 ≤ g.M_ ∧ g.M_ < 2 ^ 31)
    (hdiag : ∀ t ∈ g.A_diag_, t.row = t.col) (T : List Triplet_t)
    (h : FLIP2d.compute_pressure_matrix g = some T) (r c : ℕ) (hrc : r ≠ c)
    (h1 : c ≠ (r + 1) % 2 ^ 32) (h2 : r ≠ (c + 1) % 2 ^ 32) : coeff T r c = 0 := by
  apply coeff_eq_zero
  intro t ht hcontra
  rcases compute_pressure_matrix_x_only g hM T h t ht with hd | ⟨_, hx | hx⟩
  · exact hrc (hcontra.1.symm.trans ((hdiag t hd).trans hcontra.2))
  · rw [hcontra.1, hcontra.2] at hx
    exact h1 hx
  · rw [hcontra.1, hcontra.2] at hx
    exact h2 hx

/-- Claim C32 on the 2×2 grid of four fluid cells: cell `(0, 0)` has index 0 and the cell
above it, `(0, 1)`, index 2; the matrix has `A[0][2] = A[2][0] = 0`, where the claim has
`-1`, and `A[0][1] = A[1][0] = -1` for the x neighbour. -/
theorem compute_pressure_matrix_y_coupling_witness :
    ∃ T, FLIP2d.compute_pressure_matrix fluidGrid2d = some T
      ∧ fluidGrid2d.is_fluid 0 0 = some true ∧ fluidGrid2d.is_fluid 0 1 = some true
      ∧ coeff T 0 2 = 0 ∧ coeff T 2 0 = 0 ∧ coeff T 0 1 = -1 ∧ coeff T 1 0 = -1 := by
  refine ⟨_, fluidGrid2d_matrix, rfl, rfl,
    compute_pressure_matrix_y_coupling fluidGrid2d (by decide) (by decide) _
      fluidGrid2d_matrix 0 2 (by decide) (by decide) (by decide),
    ?_, ?_, ?_⟩
  · simp [coeff]
  · simp [coeff]
  · simp [coeff]

theorem set_u_sameShape2d (g s s' : Mac2d) (i j : ℤ) (x : ℚ) (hs : SameShape2d g s)
    (h : s.set_u i j x = some s') : SameShape2d g s' := by
  unfold Mac2d.set_u at h
  split at h
  · simp only [Option.some.injEq] at h
    subst h
    exact hs
  · simp at h

theorem set_v_sameShape2d (g s s' : Mac2d) (i j : ℤ) (x : ℚ) (hs : SameShape2d g s)
    (h : s.set_v i j x = some s') : SameShape2d g s' := by
  unfold Mac2d.set_v at h
  split at h
  · simp only [Option.some.injEq] at h
    subst h
    exact hs
  · simp at h

theorem bc_solid_cell_sameShape2d (g s s' : Mac2d) (i j : ℕ) (hs : SameShape2d g s)
    (h : FLIP2d.bc_solid_cell i j s = some s') : SameShape2d g s' := by
  unfold FLIP2d.bc_solid_cell at h
  cases h0 : s.is_solid (to_int i) (to_int j) with
  | none => rw [h0] at h; simp at h
  | some b0 =>
    rw [h0, Option.some_bind] at h
    cases h1 : scOr b0 (s.is_solid (to_int (i + 1)) (to_int j)) with
    | none => rw [h1] at h; simp at h
    | some cu =>
      rw [h1, Option.some_bind] at h
      cases h2 : (if cu = true then s.set_u (to_int (i + 1)) (to_int j) 0 else some s) with
      | none => rw [h2] at h; simp at h
      | some g1 =>
        rw [h2, Option.some_bind] at h
        have hg1 : SameShape2d g g1 := by
          split at h2
          · exact set_u_sameShape2d g s g1 _ _ _ hs h2
          · simp only [Option.some.injEq] at h2
            subst h2
            exact hs
        cases h3 : scOr b0 (g1.is_solid (to_int i) (to_int (j + 1))) with
        | none => rw [h3] at h; simp at h
        | some cv =>
          rw [h3, Option.some_bind] at h
          split at h
          · exact set_v_sameShape2d g g1 s' _ _ _ hg1 h
          · simp only [Option.some.injEq] at h
            subst h
            exact hg1

/-- At the last cell of a row, `i = nx - 1`, when that cell is not solid: the query
`is_solid(i+1, j)` is made, addresses column `nx`, and fails its assertion. -/
theorem bc_solid_cell_last_column (g s : Mac2d) (j : ℕ) (hs : SameShape2d g s)
    (hN : 1 ≤ g.N_ ∧ g.N_ < 2 ^ 31) (hj : (j : ℤ) < g.M_) (hj' : j < 2 ^ 31)
    (hsolid : g.psolid_ (g.N_ * j + (g.N_ - 1)) = false) :
    to_int (g.get_num_cells_x - 1 + 1) = g.N_
    ∧ s.is_solid (to_int (g.get_num_cells_x - 1 + 1)) (to_int j) = none
    ∧ FLIP2d.bc_solid_cell (g.get_num_cells_x - 1) j s = none := by
  obtain ⟨e1, e2, e3⟩ := hs
  have hc : ((g.get_num_cells_x : ℕ) : ℤ) = g.N_ :=
    to_unsigned_cast g.N_ (by linarith [hN.1]) (by linarith [hN.2])
  have hpos : 1 ≤ g.get_num_cells_x := by
    have : (1 : ℤ) ≤ ((g.get_num_cells_x : ℕ) : ℤ) := by rw [hc]; exact hN.1
    exact_mod_cast this
  have hlt : g.get_num_cells_x < 2 ^ 31 := by
    have : ((g.get_num_cells_x : ℕ) : ℤ) < 2 ^ 31 := by rw [hc]; exact hN.2
    exact_mod_cast this
  have hs1 : g.get_num_cells_x - 1 + 1 = g.get_num_cells_x := by omega
  have t1 : to_int (g.get_num_cells_x - 1 + 1) = g.N_ := by
    rw [hs1, to_int_small _ hlt, hc]
  have t2 : to_int (g.get_num_cells_x - 1) = g.N_ - 1 := by
    rw [to_int_small _ (by omega)]
    have : ((g.get_num_cells_x - 1 : ℕ) : ℤ) = ((g.get_num_cells_x : ℕ) : ℤ) - 1 := by
      push_cast [hpos]
      ring
    rw [this, hc]
  have t3 : to_int j = (j : ℤ) := to_int_small j hj'
  have q : s.is_solid (to_int (g.get_num_cells_x - 1 + 1)) (to_int j) = none := by
    unfold Mac2d.is_solid
    rw [t1, e1, if_neg (by intro h; exact lt_irrefl _ h.1)]
  refine ⟨t1, q, ?_⟩
  unfold FLIP2d.bc_solid_cell
  have q0 : s.is_solid (to_int (g.get_num_cells_x - 1)) (to_int j) = some false := by
    unfold Mac2d.is_solid
    rw [t2, t3, e1, e2, e3, if_pos ⟨by linarith, hj⟩, hsolid]
  rw [q0, Option.some_bind, q]
  rfl

/-- Claim C33, the 2D `apply_boundary_conditions` does not complete: on every grid with
`nx, ny >= 1` (within the range of `int`) whose cell `(nx-1, 0)` is not solid the call
fails an index assertion (in the solid-wall loop, on the query `is_solid(nx, 0)`), so it
has no grid to return. -/
theorem apply_boundary_conditions_2d_faults (g : Mac2d) (hN : 1 ≤ g.N_ ∧ g.N_ < 2 ^ 31)
    (hM : 1 ≤ g.M_ ∧ g.M_ < 2 ^ 31) (hsolid : g.psolid_ (g.N_ - 1) = false) :
    FLIP2d.apply_boundary_conditions g = none := by
  have hcx : ((g.get_num_cells_x : ℕ) : ℤ) = g.N_ :=
    to_unsigned_cast g.N_ (by linarith [hN.1]) (by linarith [hN.2])
  have hcy : ((g.get_num_cells_y : ℕ) : ℤ) = g.M_ :=
    to_unsigned_cast g.M_ (by linarith [hM.1]) (by linarith [hM.2])
  have hx : 1 ≤ g.get_num_cells_x := by
    have : (1 : ℤ) ≤ ((g.get_num_cells_x : ℕ) : ℤ) := by rw [hcx]; exact hN.1
    exact_mod_cast this
  have hy : 1 ≤ g.get_num_cells_y := by
    have : (1 : ℤ) ≤ ((g.get_num_cells_y : ℕ) : ℤ) := by rw [hcy]; exact hM.1
    exact_mod_cast this
  have hloop : forLoop g.get_num_cells_y
      (fun j => forLoop g.get_num_cells_x (fun i => FLIP2d.bc_solid_cell i j)) g = none := by
    refine forLoop_none (SameShape2d g) _ 0 _ (fun j t t' ht hb => ?_) (fun t ht => ?_) g
      ⟨rfl, rfl, rfl⟩ (by omega)
    · exact forLoop_keeps (SameShape2d g) _ _
        (fun i _ u u' hu hb' => bc_solid_cell_sameShape2d g u u' i j hu hb') _ _ ht hb
    · refine forLoop_none (SameShape2d g) _ (g.get_num_cells_x - 1) _
        (fun i u u' hu hb' => bc_solid_cell_sameShape2d g u u' i 0 hu hb')
        (fun u hu => ?_) t ht (by omega)
      exact (bc_solid_cell_last_column g u 0 hu hN (by simpa using hM.1) (by norm_num)
        (by simpa using hsolid)).2.2
  unfold FLIP2d.apply_boundary_conditions
  simp only [hloop, Option.none_bind]

/-- Claim C33 on the 1×1 grid without a solid cell: the hypotheses hold and the call does
not complete. -/
theorem apply_boundary_conditions_2d_faults_witness :
    (1 ≤ onesGrid2d.N_ ∧ 1 ≤ onesGrid2d.M_) ∧ onesGrid2d.is_solid 0 0 = some false
      ∧ onesGrid2d.is_solid 1 0 = none
      ∧ FLIP2d.apply_boundary_conditions onesGrid2d = none :=
  ⟨by decide, rfl, rfl,
    apply_boundary_conditions_2d_faults onesGrid2d (by decide) (by decide) rfl⟩

/-- Claim C34, the queries of the solid-wall loop of `apply_boundary_conditions`: at the
last cell `i = nx - 1` of a row, if that cell is not solid, the loop body evaluates
`is_solid(i+1, j)` with `i + 1 = nx`, outside the cell shape. In 2D the query fails the
assertion of `Mac2d::is_solid` and the body does not complete; in 3D the answer is the
one `is_solid` gives outside the shape, and the body does not complete if that is a
failed assertion. A query inside the shape never fails. -/
theorem solid_wall_loop_queries_outside (g : Mac2d) (j : ℕ) (g3 : Mac3d) (b c : ℕ)
    (hN : 1 ≤ g.N_ ∧ g.N_ < 2 ^ 31) (hj : (j : ℤ) < g.M_) (hj' : j < 2 ^ 31)
    (hsolid : g.psolid_ (g.N_ * j + (g.N_ - 1)) = false)
    (hN3 : 1 ≤ g3.N_) (hb : b < g3.M_) (hc : c < g3.L_)
    (hsolid3 : g3.psolid_ (g3.N_ - 1) b c = false) :
    (to_int (g.get_num_cells_x - 1 + 1) = g.N_
      ∧ g.is_solid (to_int (g.get_num_cells_x - 1 + 1)) (to_int j) = none
      ∧ FLIP2d.bc_solid_cell (g.get_num_cells_x - 1) j g = none)
    ∧ (g3.is_solid (g3.get_num_cells_x - 1 + 1) b c = g3.solid_outside
      ∧ (g3.solid_outside = none → FLIP.bc_solid_cell (g3.get_num_cells_x - 1) b c g3 = none))
    ∧ (∀ i' j' k', i' < g3.N_ → j' < g3.M_ → k' < g3.L_ →
        g3.is_solid i' j' k' = some (g3.psolid_ i' j' k')) := by
  refine ⟨bc_solid_cell_last_column g g j ⟨rfl, rfl, rfl⟩ hN hj hj' hsolid, ?_, ?_⟩
  · have q : g3.is_solid (g3.get_num_cells_x - 1 + 1) b c = g3.solid_outside := by
      unfold Mac3d.is_solid Mac3d.get_num_cells_x
      rw [if_neg (by omega)]
    refine ⟨q, fun hout => ?_⟩
    have q0 : g3.is_solid (g3.get_num_cells_x - 1) b c = some false := by
      unfold Mac3d.is_solid Mac3d.get_num_cells_x
      rw [if_pos ⟨by omega, hb, hc⟩, hsolid3]
    unfold FLIP.bc_solid_cell
    rw [q0, Option.some_bind, q, hout]
    rfl
  · intro i' j' k' h1 h2 h3
    unfold Mac3d.is_solid
    rw [if_pos ⟨h1, h2, h3⟩]

/-- Claim C34 on the 1×1 grid and the 1×1×1 grid without a solid cell: the first
iteration `i = 0 = nx - 1` queries `is_solid(1, 0)`, respectively `is_solid(1, 0, 0)`. -/
theorem solid_wall_loop_queries_outside_witness :
    (onesGrid2d.is_solid (to_int (0 + 1)) (to_int 0) = none
      ∧ FLIP2d.bc_solid_cell 0 0 onesGrid2d = none)
    ∧ assertingGrid.is_solid (0 + 1) 0 0 = none
    ∧ FLIP.bc_solid_cell 0 0 0 assertingGrid = none := by
  have h := solid_wall_loop_queries_outside onesGrid2d 0 assertingGrid 0 0 (by decide)
    (by decide) (by decide) rfl (by decide) (by decide) (by decide) rfl
  exact ⟨⟨h.1.2.1, h.1.2.2⟩, h.2.1.1, h.2.1.2 rfl⟩

theorem wallGrid2d_rhs_cell_inner (a b : ℚ) :
    FLIP2d.rhs_cell (wallGrid2d a b) 2 2 1 1 = some (34 + b) := by
  simp only [FLIP2d.rhs_cell, FLIP2d.add_if, scOr, scAnd, Mac2d.get_u, Mac2d.get_v,
    Mac2d.is_solid, wallGrid2d, to_int_zero, to_int_one, to_int_two, unsigned_sub_two_one,
    unsigned_sub_one_one, unsigned_sub_zero_one, to_int_minus_one]
  norm_num [to_int_zero, to_int_one, to_int_two]
  ring

theorem wallGrid2d_rhs_cell_corner (a b : ℚ) :
    FLIP2d.rhs_cell (wallGrid2d a b) 2 2 0 0 = some (a - 21) := by
  simp only [FLIP2d.rhs_cell, FLIP2d.add_if, scOr, scAnd, Mac2d.get_u, Mac2d.get_v,
    Mac2d.is_solid, wallGrid2d, to_int_zero, to_int_one, to_int_two, unsigned_sub_two_one,
    unsigned_sub_one_one, unsigned_sub_zero_one, to_int_minus_one]
  norm_num [to_int_zero, to_int_one, to_int_two]
  ring

theorem wallGrid2d_rhs (a b : ℚ) :
    FLIP2d.compute_pressure_rhs (wallGrid2d a b) 1 1
      = some (Function.update (Function.update (Function.update (Function.update
          (fun _ => 0) 0 (a - 21)) 1 0) 2 0) 3 (34 + b)) := by
  have hx : (wallGrid2d a b).get_num_cells_x = 2 := to_unsigned_two
  have hy : (wallGrid2d a b).get_num_cells_y = 2 := to_unsigned_two
  have f00 : (wallGrid2d a b).is_fluid (to_int 0) (to_int 0) = some true := by
    rw [to_int_zero]; rfl
  have f10 : (wallGrid2d a b).is_fluid (to_int 1) (to_int 0) = some false := by
    rw [to_int_zero, to_int_one]; rfl
  have f01 : (wallGrid2d a b).is_fluid (to_int 0) (to_int 1) = some false := by
    rw [to_int_zero, to_int_one]; rfl
  have f11 : (wallGrid2d a b).is_fluid (to_int 1) (to_int 1) = some true := by
    rw [to_int_one]; rfl
  have hc : (wallGrid2d a b).get_cell_sizex = 1 := rfl
  simp only [FLIP2d.compute_pressure_rhs, hx, hy, forLoop, forLoopFrom, f00, f10, f01, f11,
    wallGrid2d_rhs_cell_inner, wallGrid2d_rhs_cell_corner, hc, Option.some_bind,
    Option.map_some', if_true, Bool.false_eq_true, if_false, zero_add, mul_one, one_mul,
    div_one]

/-- Claim C35, the faces that the 2D `compute_pressure_rhs` adds on the lower sides: for
the fluid cell `(1, 1)` with the solid left neighbour `(0, 1)` the term added is
`get_u(i-1, j) = u(0, 1) = b`, not the cell's own left face `get_u(1, 1) = 4`; for the
fluid cell `(0, 0)` the term added is `get_u(-1, 0)`, whose assertion passes and which
reads offset `-1`, before the `u` array (the value `a`), and `get_v(0, -1)` likewise. The
entries of `d_` (density 1, `dt = 1`) are `34 + b` and `a - 21`. -/
theorem compute_pressure_rhs_2d_faces (a b : ℚ) :
    ((wallGrid2d a b).is_fluid 1 1 = some true ∧ (wallGrid2d a b).is_solid 0 1 = some true
      ∧ (wallGrid2d a b).get_u 0 1 = some b ∧ (wallGrid2d a b).get_u 1 1 = some 4
      ∧ FLIP2d.rhs_cell (wallGrid2d a b) 2 2 1 1 = some (34 + b))
    ∧ ((wallGrid2d a b).is_fluid 0 0 = some true
      ∧ to_int (unsigned_sub 0 1) = -1 ∧ (wallGrid2d a b).get_u (-1) 0 = some a
      ∧ (wallGrid2d a b).pu_ (-1) = a
      ∧ FLIP2d.rhs_cell (wallGrid2d a b) 2 2 0 0 = some (a - 21))
    ∧ ∃ d, FLIP2d.compute_pressure_rhs (wallGrid2d a b) 1 1 = some d
        ∧ d 3 = 34 + b ∧ d 0 = a - 21 := by
  refine ⟨⟨rfl, rfl, ?_, ?_, wallGrid2d_rhs_cell_inner a b⟩,
    ⟨rfl, by decide, ?_, ?_, wallGrid2d_rhs_cell_corner a b⟩,
    ⟨_, wallGrid2d_rhs a b, ?_, ?_⟩⟩
  · simp [Mac2d.get_u, wallGrid2d]
  · simp [Mac2d.get_u, wallGrid2d]
  · simp [Mac2d.get_u, wallGrid2d]
  · simp [wallGrid2d]
  · simp [Function.update]
  · simp [Function.update]

theorem advance_seed_zero (dt : ℚ) (p : Particle) :
    FLIP2d.advance_seed dt 0 p = p.get_position.add (p.get_velocity.scale dt) := by
  simp [FLIP2d.advance_seed]

theorem advance_seed_succ (dt : ℚ) (n : ℕ) (p : Particle) :
    FLIP2d.advance_seed dt (n + 1) p
      = p.get_prev_position.add (p.get_velocity.scale (2 * dt)) := by
  simp [FLIP2d.advance_seed]

theorem advance_particle_position (g : Mac2d) (dt : ℚ) (step : ℕ) (p : Particle) :
    (FLIP2d.advance_particle g dt step p).2
      = p.set_position (FLIP2d.clamp_position g (FLIP2d.advance_seed dt step p)) := rfl

/-- Claim C36, the step index selects the integration seed of the 2D `advance_particles`:
the unclamped new position is `pos_curr + dt*vel` when `step = 0` and
`pos_prev + 2*dt*vel` when `step > 0`; every particle of the array gets the position that
the four domain tests make of that estimate; and when `step = 0` the new position is the
same whatever the previous position of the particle holds. -/
theorem advance_particles_seed (g : Mac2d) (dt : ℚ) (p : Particle) :
    FLIP2d.advance_seed dt 0 p = p.get_position.add (p.get_velocity.scale dt)
    ∧ (∀ n : ℕ, FLIP2d.advance_seed dt (n + 1) p
        = p.get_prev_position.add (p.get_velocity.scale (2 * dt)))
    ∧ (∀ (step : ℕ) (ps : List Particle), FLIP2d.advance_particles g dt step ps
        = ps.map fun q =>
            q.set_position (FLIP2d.clamp_position g (FLIP2d.advance_seed dt step q)))
    ∧ (∀ prev : Vector3d,
        ((FLIP2d.advance_particle g dt 0 { p with prev_position := prev }).2).get_position
          = ((FLIP2d.advance_particle g dt 0 p).2).get_position) := by
  refine ⟨advance_seed_zero dt p, fun n => advance_seed_succ dt n p, fun step ps => rfl, ?_⟩
  intro prev
  rw [advance_particle_position, advance_particle_position, advance_seed_zero,
    advance_seed_zero]
  rfl

/-- Claim C36, where the claim fails: on the first step (`step = 0`) the body calls
`get_prev_position` on the particle, as its first access, although the position it then
stores is `pos_curr + dt*vel = (1, 1/2)`. -/
theorem advance_particles_seed_counterexample :
    ParticleAccess.get_prev_position ∈ (FLIP2d.advance_particle fluidGrid2d (1 / 2) 0 seedParticle).1
    ∧ (FLIP2d.advance_particle fluidGrid2d (1 / 2) 0 seedParticle).1.head?
        = some ParticleAccess.get_prev_position
    ∧ ((FLIP2d.advance_particle fluidGrid2d (1 / 2) 0 seedParticle).2).get_position
        = ⟨1, 1 / 2, 0⟩ := by
  refine ⟨by simp [FLIP2d.advance_particle], by simp [FLIP2d.advance_particle], ?_⟩
  rw [advance_particle_position, advance_seed_zero]
  simp only [Particle.set_position, Particle.get_position, FLIP2d.clamp_position,
    Particle.get_velocity, Vector3d.add, Vector3d.scale, seedParticle, fluidGrid2d,
    Mac2d.get_cell_sizex, Mac2d.get_cell_sizey, Mac2d.get_num_cells_x, Mac2d.get_num_cells_y,
    to_unsigned]
  have h2 : Int.toNat 2 = 2 := rfl
  norm_num [h2]

/-! ## Extrapolation of the velocity field: claims C28, C29 -/

theorem faceOffset_eq (nx ny i j k : ℕ) : faceOffset nx ny i j k = cellIndex nx ny i j k := by
  unfold faceOffset cellIndex
  ring

theorem propagationSource_lt (nx ny nz d a b e : ℕ) (ha : a < nx) (hb : b < ny) (he : e < nz)
    (n : ℕ × ℕ × ℕ) (h : propagationSource nx ny nz d a b e = some n) :
    n.1 < nx ∧ n.2.1 < ny ∧ n.2.2 < nz := by
  unfold propagationSource at h
  split at h <;> first
    | (split at h
       · rw [← Option.some.inj h]; simp only; omega
       · exact absurd h (by simp))
    | exact absurd h (by simp)

theorem propagationTarget_lt (nx ny nz d i j k : ℕ) (hi : i < nx) (hj : j < ny) (hk : k < nz)
    (t : ℕ × ℕ × ℕ) (h : propagationTarget nx ny nz d i j k = some t) :
    t.1 < nx ∧ t.2.1 < ny ∧ t.2.2 < nz := by
  unfold propagationTarget at h
  split at h <;> first
    | (split at h
       · rw [← Option.some.inj h]; simp only; omega
       · exact absurd h (by simp))
    | exact absurd h (by simp)

/-- Propagation `d` from `(i, j, k)` lands on `(a, b, e)` exactly when `(i, j, k)` is the
source of propagation `d` for `(a, b, e)`. -/
theorem propagationSource_iff (nx ny nz d i j k a b e : ℕ) (hi : i < nx) (hj : j < ny)
    (hk : k < nz) (ha : a < nx) (hb : b < ny) (he : e < nz) :
    propagationSource nx ny nz d a b e = some (i, j, k) ↔
      propagationTarget nx ny nz d i j k = some (a, b, e) := by
  unfold propagationSource propagationTarget
  split <;> simp <;> omega

theorem propagationSource_some_lt (nx ny nz d a b e : ℕ) (n : ℕ × ℕ × ℕ)
    (h : propagationSource nx ny nz d a b e = some n) : d < 6 := by
  unfold propagationSource at h
  split at h <;> first
    | omega
    | exact absurd h (by simp)

/-- One step of the loop nest changes one contribution: statement `d` at the face
`(i, j, k)` adds the value of that face to the contribution `d` of the face it lands on,
if `(i, j, k)` is visited. -/
theorem neighbourTerm_succ (visited : ℕ → Bool) (nx ny nz : ℕ) (val : ℕ → ℕ → ℕ → ℚ)
    (i j k d : ℕ) (hi : i < nx) (hj : j < ny) (hk : k < nz) (hd : d < 6)
    (d' a b e : ℕ) (ha : a < nx) (hb : b < ny) (he : e < nz) :
    neighbourTerm visited nx ny nz val (6 * cellIndex nx ny i j k + d + 1) d' a b e
      = neighbourTerm visited nx ny nz val (6 * cellIndex nx ny i j k + d) d' a b e
        + (if d' = d ∧ visited (faceOffset nx ny i j k) = true
              ∧ propagationTarget nx ny nz d i j k = some (a, b, e)
            then val i j k else 0) := by
  unfold neighbourTerm
  cases hsrc : propagationSource nx ny nz d' a b e with
  | none =>
    have hno : ¬ (d' = d ∧ visited (faceOffset nx ny i j k) = true
        ∧ propagationTarget nx ny nz d i j k = some (a, b, e)) := by
      rintro ⟨h1, _, h3⟩
      subst h1
      rw [(propagationSource_iff nx ny nz d' i j k a b e hi hj hk ha hb he).2 h3] at hsrc
      exact absurd hsrc (by simp)
    simp only [if_neg hno, add_zero]
  | some n =>
    obtain ⟨n1, n2, n3⟩ := n
    have hn := propagationSource_lt nx ny nz d' a b e ha hb he _ hsrc
    have hd' := propagationSource_some_lt nx ny nz d' a b e _ hsrc
    simp only at hn ⊢
    by_cases hfire : d' = d ∧ visited (faceOffset nx ny i j k) = true
        ∧ propagationTarget nx ny nz d i j k = some (a, b, e)
    · obtain ⟨h1, h2, h3⟩ := hfire
      subst h1
      have hs := (propagationSource_iff nx ny nz d' i j k a b e hi hj hk ha hb he).2 h3
      rw [hs] at hsrc
      simp only [Option.some.injEq, Prod.mk.injEq] at hsrc
      obtain ⟨e1, e2, e3⟩ := hsrc
      subst e1 e2 e3
      have c1 : visited (faceOffset nx ny i j k) = true ∧
          6 * cellIndex nx ny i j k + d' < 6 * cellIndex nx ny i j k + d' + 1 :=
        ⟨h2, by omega⟩
      have c2 : ¬ (visited (faceOffset nx ny i j k) = true ∧
          6 * cellIndex nx ny i j k + d' < 6 * cellIndex nx ny i j k + d') := by
        rintro ⟨_, h⟩
        omega
      have c3 : d' = d' ∧ visited (faceOffset nx ny i j k) = true
          ∧ propagationTarget nx ny nz d' i j k = some (a, b, e) := ⟨rfl, h2, h3⟩
      rw [if_pos c1, if_neg c2, if_pos c3, zero_add]
    · rw [if_neg hfire, add_zero]
      by_cases hv : visited (faceOffset nx ny n1 n2 n3) = true
      · by_cases hlt : 6 * cellIndex nx ny n1 n2 n3 + d' < 6 * cellIndex nx ny i j k + d
        · rw [if_pos ⟨hv, by omega⟩, if_pos ⟨hv, hlt⟩]
        · have hne : ¬ (6 * cellIndex nx ny n1 n2 n3 + d'
              < 6 * cellIndex nx ny i j k + d + 1) := by
            intro hlt'
            have h1 : cellIndex nx ny n1 n2 n3 = cellIndex nx ny i j k := by omega
            have h2 : d' = d := by omega
            obtain ⟨e1, e2, e3⟩ := cellIndex_inj nx ny n1 n2 n3 i j k hn.1 hn.2.1 hi hj h1
            subst e1 e2 e3 h2
            exact hfire ⟨rfl, hv,
              (propagationSource_iff nx ny nz d' n1 n2 n3 a b e hi hj hk ha hb he).1 hsrc⟩
          rw [if_neg (fun h => hne h.2), if_neg (fun h => hlt h.2)]
      · rw [if_neg (fun h => hv h.1), if_neg (fun h => hv h.1)]

theorem neighbourSum_succ (visited : ℕ → Bool) (nx ny nz : ℕ) (val : ℕ → ℕ → ℕ → ℚ)
    (i j k d : ℕ) (hi : i < nx) (hj : j < ny) (hk : k < nz) (hd : d < 6)
    (a b e : ℕ) (ha : a < nx) (hb : b < ny) (he : e < nz) :
    neighbourSum visited nx ny nz val (6 * cellIndex nx ny i j k + d + 1) a b e
      = neighbourSum visited nx ny nz val (6 * cellIndex nx ny i j k + d) a b e
        + (if visited (faceOffset nx ny i j k) = true
              ∧ propagationTarget nx ny nz d i j k = some (a, b, e)
            then val i j k else 0) := by
  unfold neighbourSum
  simp only [neighbourTerm_succ visited nx ny nz val i j k d hi hj hk hd _ a b e ha hb he]
  by_cases hf : visited (faceOffset nx ny i j k) = true
      ∧ propagationTarget nx ny nz d i j k = some (a, b, e)
  · simp only [hf, and_self, and_true]
    have : d = 0 ∨ d = 1 ∨ d = 2 ∨ d = 3 ∨ d = 4 ∨ d = 5 := by omega
    rcases this with h | h | h | h | h | h <;> subst h <;> simp <;> ring
  · have hno : ∀ d', ¬ (d' = d ∧ visited (faceOffset nx ny i j k) = true
        ∧ propagationTarget nx ny nz d i j k = some (a, b, e)) :=
      fun d' h => hf h.2
    simp only [if_neg (hno _), if_neg hf, add_zero]

theorem faceOffset_inj (nx ny a b e a' b' e' : ℕ) (ha : a < nx) (hb : b < ny)
    (ha' : a' < nx) (hb' : b' < ny)
    (h : faceOffset nx ny a b e = faceOffset nx ny a' b' e') : a = a' ∧ b = b' ∧ e = e' := by
  rw [faceOffset_eq, faceOffset_eq] at h
  exact cellIndex_inj nx ny a b e a' b' e' ha hb ha' hb' h

/-- A step of the loop nest at which nothing is propagated keeps the invariant. -/
theorem extrapolationInv_skip (visited : ℕ → Bool) (nx ny nz : ℕ) (f0 : ℕ → ℕ → ℕ → ℚ)
    (i j k d : ℕ) (hi : i < nx) (hj : j < ny) (hk : k < nz) (hd : d < 6)
    (f : ℕ → ℕ → ℕ → ℚ) (counter : ℕ → ℕ)
    (hInv : ExtrapolationInv visited nx ny nz f0 (6 * cellIndex nx ny i j k + d) f counter)
    (hno : ∀ a b e, visited (faceOffset nx ny i j k) = true →
      propagationTarget nx ny nz d i j k = some (a, b, e) →
      visited (faceOffset nx ny a b e) = true) :
    ExtrapolationInv visited nx ny nz f0 (6 * cellIndex nx ny i j k + d + 1) f counter := by
  have hsame : ∀ (val : ℕ → ℕ → ℕ → ℚ) a b e, a < nx → b < ny → e < nz →
      visited (faceOffset nx ny a b e) = false →
      neighbourSum visited nx ny nz val (6 * cellIndex nx ny i j k + d + 1) a b e
        = neighbourSum visited nx ny nz val (6 * cellIndex nx ny i j k + d) a b e := by
    intro val a b e ha hb he hu
    rw [neighbourSum_succ visited nx ny nz val i j k d hi hj hk hd a b e ha hb he,
      if_neg, add_zero]
    rintro ⟨h1, h2⟩
    rw [hno a b e h1 h2] at hu
    exact absurd hu (by simp)
  refine ⟨hInv.kept, ?_, ?_, ?_⟩
  · intro a b e ha hb he hu
    rw [hsame _ a b e ha hb he hu]
    exact hInv.count a b e ha hb he hu
  · intro a b e ha hb he hu
    rw [hsame _ a b e ha hb he hu, hsame _ a b e ha hb he hu]
    exact hInv.total a b e ha hb he hu
  · intro a b e ha hb he hu h0
    rw [hsame _ a b e ha hb he hu] at h0
    exact hInv.fresh a b e ha hb he hu h0

/-- A propagation keeps the invariant: the target face takes the running average
`(old * counter + value) / (counter + 1)` and its counter goes up by one. -/
theorem extrapolationInv_fire (visited : ℕ → Bool) (nx ny nz : ℕ) (f0 : ℕ → ℕ → ℕ → ℚ)
    (i j k d : ℕ) (hi : i < nx) (hj : j < ny) (hk : k < nz) (hd : d < 6)
    (a0 b0 e0 : ℕ) (f : ℕ → ℕ → ℕ → ℚ) (counter : ℕ → ℕ)
    (hInv : ExtrapolationInv visited nx ny nz f0 (6 * cellIndex nx ny i j k + d) f counter)
    (hv : visited (faceOffset nx ny i j k) = true)
    (ht : propagationTarget nx ny nz d i j k = some (a0, b0, e0))
    (hu0 : visited (faceOffset nx ny a0 b0 e0) = false) :
    ExtrapolationInv visited nx ny nz f0 (6 * cellIndex nx ny i j k + d + 1)
      (write3 f a0 b0 e0 ((f a0 b0 e0 * (counter (faceOffset nx ny a0 b0 e0) : ℚ) + f i j k)
        / ((counter (faceOffset nx ny a0 b0 e0) : ℚ) + 1)))
      (Function.update counter (faceOffset nx ny a0 b0 e0)
        (counter (faceOffset nx ny a0 b0 e0) + 1)) := by
  have ht0 := propagationTarget_lt nx ny nz d i j k hi hj hk _ ht
  simp only at ht0
  obtain ⟨ha0, hb0, he0⟩ := ht0
  have hother : ∀ (val : ℕ → ℕ → ℕ → ℚ) a b e, a < nx → b < ny → e < nz →
      ¬ (a = a0 ∧ b = b0 ∧ e = e0) →
      neighbourSum visited nx ny nz val (6 * cellIndex nx ny i j k + d + 1) a b e
        = neighbourSum visited nx ny nz val (6 * cellIndex nx ny i j k + d) a b e := by
    intro val a b e ha hb he hne
    rw [neighbourSum_succ visited nx ny nz val i j k d hi hj hk hd a b e ha hb he,
      if_neg, add_zero]
    rintro ⟨_, h2⟩
    rw [ht] at h2
    simp only [Option.some.injEq, Prod.mk.injEq] at h2
    exact hne ⟨h2.1.symm, h2.2.1.symm, h2.2.2.symm⟩
  have htarget : ∀ (val : ℕ → ℕ → ℕ → ℚ),
      neighbourSum visited nx ny nz val (6 * cellIndex nx ny i j k + d + 1) a0 b0 e0
        = neighbourSum visited nx ny nz val (6 * cellIndex nx ny i j k + d) a0 b0 e0
          + val i j k := by
    intro val
    rw [neighbourSum_succ visited nx ny nz val i j k d hi hj hk hd a0 b0 e0 ha0 hb0 he0,
      if_pos ⟨hv, ht⟩]
  have hcnt : ∀ a b e, a < nx → b < ny → ¬ (a = a0 ∧ b = b0 ∧ e = e0) →
      Function.update counter (faceOffset nx ny a0 b0 e0)
        (counter (faceOffset nx ny a0 b0 e0) + 1) (faceOffset nx ny a b e)
        = counter (faceOffset nx ny a b e) := by
    intro a b e ha hb hne
    apply Function.update_noteq
    intro h
    exact hne (faceOffset_inj nx ny a b e a0 b0 e0 ha hb ha0 hb0 h)
  have hpos : ((counter (faceOffset nx ny a0 b0 e0) : ℚ) + 1) ≠ 0 := by positivity
  refine ⟨?_, ?_, ?_, ?_⟩
  · intro a b e ha hb he hvis
    have hne : ¬ (a = a0 ∧ b = b0 ∧ e = e0) := by
      rintro ⟨h1, h2, h3⟩
      subst h1 h2 h3
      rw [hu0] at hvis
      exact absurd hvis (by simp)
    simp only [write3, if_neg hne]
    exact hInv.kept a b e ha hb he hvis
  · intro a b e ha hb he hu
    by_cases heq : a = a0 ∧ b = b0 ∧ e = e0
    · obtain ⟨h1, h2, h3⟩ := heq
      subst h1 h2 h3
      rw [Function.update_same, htarget, ← hInv.count a b e ha hb he hu]
      push_cast
      ring
    · rw [hcnt a b e ha hb heq, hother _ a b e ha hb he heq]
      exact hInv.count a b e ha hb he hu
  · intro a b e ha hb he hu
    by_cases heq : a = a0 ∧ b = b0 ∧ e = e0
    · obtain ⟨h1, h2, h3⟩ := heq
      subst h1 h2 h3
      have hc := hInv.count a b e ha hb he hu
      have htot := hInv.total a b e ha hb he hu
      have hk' := hInv.kept i j k hi hj hk hv
      simp only [write3, and_self, if_true]
      rw [htarget, htarget, ← hc, ← htot, ← hc, hk']
      field_simp
    · simp only [write3, if_neg heq]
      rw [hother _ a b e ha hb he heq, hother _ a b e ha hb he heq]
      exact hInv.total a b e ha hb he hu
  · intro a b e ha hb he hu h0
    by_cases heq : a = a0 ∧ b = b0 ∧ e = e0
    · obtain ⟨h1, h2, h3⟩ := heq
      subst h1 h2 h3
      rw [htarget, ← hInv.count a b e ha hb he hu] at h0
      exact absurd h0 hpos
    · simp only [write3, if_neg heq]
      rw [hother _ a b e ha hb he heq] at h0
      exact hInv.fresh a b e ha hb he hu h0

theorem neighbourSum_zero (visited : ℕ → Bool) (nx ny nz : ℕ) (val : ℕ → ℕ → ℕ → ℚ)
    (a b e : ℕ) : neighbourSum visited nx ny nz val 0 a b e = 0 := by
  have h : ∀ d, neighbourTerm visited nx ny nz val 0 d a b e = 0 := by
    intro d
    unfold neighbourTerm
    split
    · rw [if_neg (fun h => Nat.not_lt_zero _ h.2)]
    · rfl
  unfold neighbourSum
  simp only [h, add_zero]

/-- Before the first step the invariant holds of the field and the zeroed counters. -/
theorem extrapolationInv_init (visited : ℕ → Bool) (nx ny nz : ℕ) (f0 : ℕ → ℕ → ℕ → ℚ) :
    ExtrapolationInv visited nx ny nz f0 0 f0 (fun _ => 0) := by
  refine ⟨fun _ _ _ _ _ _ _ => rfl, ?_, ?_, fun _ _ _ _ _ _ _ _ => rfl⟩
  · intro a b e _ _ _ _
    rw [neighbourSum_zero]
    simp
  · intro a b e _ _ _ _
    rw [neighbourSum_zero, neighbourSum_zero, mul_zero]

theorem neighbourTerm_final (visited : ℕ → Bool) (nx ny nz : ℕ) (val : ℕ → ℕ → ℕ → ℚ)
    (d a b e : ℕ) (ha : a < nx) (hb : b < ny) (he : e < nz) (c : Prop) [Decidable c]
    (n : ℕ × ℕ × ℕ)
    (hsrc : propagationSource nx ny nz d a b e = if c then some n else none) :
    neighbourTerm visited nx ny nz val (6 * (nx * ny * nz)) d a b e
      = (((if c then [n] else []).filter
          (fun m => visited (faceOffset nx ny m.1 m.2.1 m.2.2))).map
          (fun m => val m.1 m.2.1 m.2.2)).sum := by
  unfold neighbourTerm
  by_cases hc : c
  · rw [if_pos hc] at hsrc
    have hn := propagationSource_lt nx ny nz d a b e ha hb he n hsrc
    have hd := propagationSource_some_lt nx ny nz d a b e n hsrc
    have hlt := cellIndex_lt nx ny nz n.1 n.2.1 n.2.2 hn.1 hn.2.1 hn.2.2
    rw [hsrc, if_pos hc]
    simp only
    by_cases hv : visited (faceOffset nx ny n.1 n.2.1 n.2.2) = true
    · rw [if_pos ⟨hv, by omega⟩]
      simp [List.filter, hv]
    · rw [if_neg (fun h => hv h.1)]
      simp [List.filter, hv]
  · rw [if_neg hc] at hsrc
    rw [hsrc, if_neg hc]
    simp

/-- After the last step the six contributions are those of the visited neighbours. -/
theorem neighbourSum_final (visited : ℕ → Bool) (nx ny nz : ℕ) (val : ℕ → ℕ → ℕ → ℚ)
    (a b e : ℕ) (ha : a < nx) (hb : b < ny) (he : e < nz) :
    neighbourSum visited nx ny nz val (6 * (nx * ny * nz)) a b e
      = ((visitedNeighbours visited nx ny nz a b e).map
          (fun m => val m.1 m.2.1 m.2.2)).sum := by
  unfold neighbourSum visitedNeighbours axisNeighbours
  rw [neighbourTerm_final visited nx ny nz val 0 a b e ha hb he (a + 1 < nx) (a + 1, b, e) rfl,
    neighbourTerm_final visited nx ny nz val 1 a b e ha hb he (b + 1 < ny) (a, b + 1, e) rfl,
    neighbourTerm_final visited nx ny nz val 2 a b e ha hb he (e + 1 < nz) (a, b, e + 1) rfl,
    neighbourTerm_final visited nx ny nz val 3 a b e ha hb he (1 ≤ a) (a - 1, b, e) rfl,
    neighbourTerm_final visited nx ny nz val 4 a b e ha hb he (1 ≤ b) (a, b - 1, e) rfl,
    neighbourTerm_final visited nx ny nz val 5 a b e ha hb he (1 ≤ e) (a, b, e - 1) rfl]
  simp only [List.filter_append, List.map_append, List.sum_append]

/-- What the invariant says after the last step: an unvisited face with a visited
neighbour holds the mean of its visited neighbours, one without keeps its value. -/
theorem extrapolationInv_final (visited : ℕ → Bool) (nx ny nz : ℕ) (f0 : ℕ → ℕ → ℕ → ℚ)
    (f : ℕ → ℕ → ℕ → ℚ) (counter : ℕ → ℕ)
    (hInv : ExtrapolationInv visited nx ny nz f0 (6 * (nx * ny * nz)) f counter)
    (a b e : ℕ) (ha : a < nx) (hb : b < ny) (he : e < nz)
    (hu : visited (faceOffset nx ny a b e) = false) :
    (visitedNeighbours visited nx ny nz a b e ≠ [] →
      f a b e = faceMean f0 (visitedNeighbours visited nx ny nz a b e))
    ∧ (visitedNeighbours visited nx ny nz a b e = [] → f a b e = f0 a b e) := by
  have hone : neighbourSum visited nx ny nz (fun _ _ _ => 1) (6 * (nx * ny * nz)) a b e
      = ((visitedNeighbours visited nx ny nz a b e).length : ℚ) := by
    rw [neighbourSum_final visited nx ny nz _ a b e ha hb he]
    simp
  have htot := hInv.total a b e ha hb he hu
  rw [hone, neighbourSum_final visited nx ny nz f0 a b e ha hb he] at htot
  constructor
  · intro hne
    have hlen : ((visitedNeighbours visited nx ny nz a b e).length : ℚ) ≠ 0 := by
      have : (visitedNeighbours visited nx ny nz a b e).length ≠ 0 := by
        intro h0
        exact hne (List.length_eq_zero.1 h0)
      exact_mod_cast this
    unfold faceMean
    rw [← htot]
    field_simp
  · intro hnil
    apply hInv.fresh a b e ha hb he hu
    rw [hone, hnil]
    simp

/-- One guarded statement of an extrapolation, for any state from which the field and the
counters can be read: if the statement `step` makes the propagation whenever its target
is in the shape, the guarded statement completes and moves the invariant one step. -/
theorem propagation_statement {σ : Type} (fld : σ → ℕ → ℕ → ℕ → ℚ) (cnt : σ → ℕ → ℕ)
    (D : σ → Prop) (visited : ℕ → Bool) (nx ny nz : ℕ) (f0 : ℕ → ℕ → ℕ → ℚ)
    (i j k d p : ℕ) (hi : i < nx) (hj : j < ny) (hk : k < nz) (hd : d < 6)
    (hp : p = 6 * cellIndex nx ny i j k + d)
    (hv : visited (faceOffset nx ny i j k) = true)
    (c : Prop) [Decidable c] (i' j' k' idx : ℕ)
    (htarget : propagationTarget nx ny nz d i j k = if c then some (i', j', k') else none)
    (hidx : idx = faceOffset nx ny i' j' k')
    (step : σ → Option σ)
    (hstep : ∀ s, D s → i' < nx → j' < ny → k' < nz →
      ∃ s', step s = some s' ∧ D s'
        ∧ fld s' = write3 (fld s) i' j' k'
            ((fld s i' j' k' * (cnt s idx : ℚ) + fld s i j k) / ((cnt s idx : ℚ) + 1))
        ∧ cnt s' = Function.update (cnt s) idx (cnt s idx + 1))
    (s : σ) (hD : D s)
    (hInv : ExtrapolationInv visited nx ny nz f0 p (fld s) (cnt s)) :
    ∃ s', (if c ∧ (!visited idx) = true then step s else some s) = some s' ∧ D s'
      ∧ ExtrapolationInv visited nx ny nz f0 (p + 1) (fld s') (cnt s') := by
  subst hp
  by_cases hc : c ∧ (!visited idx) = true
  · rw [if_pos hc]
    have ht : propagationTarget nx ny nz d i j k = some (i', j', k') := by
      rw [htarget, if_pos hc.1]
    have hin := propagationTarget_lt nx ny nz d i j k hi hj hk _ ht
    simp only at hin
    have hu0 : visited (faceOffset nx ny i' j' k') = false := by
      rw [← hidx]
      simpa using hc.2
    obtain ⟨s', e1, e2, e3, e4⟩ := hstep s hD hin.1 hin.2.1 hin.2.2
    refine ⟨s', e1, e2, ?_⟩
    rw [e3, e4, hidx]
    exact extrapolationInv_fire visited nx ny nz f0 i j k d hi hj hk hd i' j' k' _ _ hInv hv
      ht hu0
  · rw [if_neg hc]
    refine ⟨s, rfl, hD, extrapolationInv_skip visited nx ny nz f0 i j k d hi hj hk hd _ _
      hInv (fun a b e _ h2 => ?_)⟩
    rw [htarget] at h2
    by_cases hc' : c
    · rw [if_pos hc'] at h2
      simp only [Option.some.injEq, Prod.mk.injEq] at h2
      obtain ⟨e1, e2, e3⟩ := h2
      subst e1 e2 e3
      rw [← hidx]
      by_contra hneg
      exact hc ⟨hc', by simpa using hneg⟩
    · rw [if_neg hc'] at h2
      exact absurd h2 (by simp)

/-- An unvisited face propagates nothing: its six steps keep the invariant. -/
theorem extrapolationInv_unvisited (visited : ℕ → Bool) (nx ny nz : ℕ) (f0 : ℕ → ℕ → ℕ → ℚ)
    (i j k : ℕ) (hi : i < nx) (hj : j < ny) (hk : k < nz)
    (f : ℕ → ℕ → ℕ → ℚ) (counter : ℕ → ℕ)
    (hInv : ExtrapolationInv visited nx ny nz f0 (6 * cellIndex nx ny i j k) f counter)
    (hv : ¬ visited (faceOffset nx ny i j k) = true) :
    ExtrapolationInv visited nx ny nz f0 (6 * (cellIndex nx ny i j k + 1)) f counter := by
  have h0 := extrapolationInv_skip visited nx ny nz f0 i j k 0 hi hj hk (by omega) f counter
    hInv (fun _ _ _ h _ => absurd h hv)
  have h1 := extrapolationInv_skip visited nx ny nz f0 i j k 1 hi hj hk (by omega) f counter
    h0 (fun _ _ _ h _ => absurd h hv)
  have h2 := extrapolationInv_skip visited nx ny nz f0 i j k 2 hi hj hk (by omega) f counter
    h1 (fun _ _ _ h _ => absurd h hv)
  have h3 := extrapolationInv_skip visited nx ny nz f0 i j k 3 hi hj hk (by omega) f counter
    h2 (fun _ _ _ h _ => absurd h hv)
  have h4 := extrapolationInv_skip visited nx ny nz f0 i j k 4 hi hj hk (by omega) f counter
    h3 (fun _ _ _ h _ => absurd h hv)
  have h5 := extrapolationInv_skip visited nx ny nz f0 i j k 5 hi hj hk (by omega) f counter
    h4 (fun _ _ _ h _ => absurd h hv)
  have e : 6 * cellIndex nx ny i j k + 5 + 1 = 6 * (cellIndex nx ny i j k + 1) := by omega
  rw [← e]
  exact h5

/-- A guarded statement followed by the rest of the body. -/
theorem guarded_then {σ : Type} (Q R : σ → Prop) (first rest : σ → Option σ) (s : σ)
    (hfirst : ∃ s', first s = some s' ∧ Q s')
    (hrest : ∀ s1, Q s1 → ∃ s', rest s1 = some s' ∧ R s') :
    ∃ s', (first s).bind rest = some s' ∧ R s' := by
  obtain ⟨s1, e1, q1⟩ := hfirst
  rw [e1, Option.some_bind]
  exact hrest s1 q1

theorem extrapolate_u_step_effect (N M L i j k i' j' k' idx : ℕ) (s : Mac3d × (ℕ → ℕ))
    (hD : HasDims N M L s) (h : i < N + 1 ∧ j < M ∧ k < L)
    (h' : i' < N + 1 ∧ j' < M ∧ k' < L) :
    ∃ s', FLIP.extrapolate_u_step i j k i' j' k' idx s = some s' ∧ HasDims N M L s'
      ∧ s'.1.pu_ = write3 s.1.pu_ i' j' k'
          ((s.1.pu_ i' j' k' * (s.2 idx : ℚ) + s.1.pu_ i j k) / ((s.2 idx : ℚ) + 1))
      ∧ s'.2 = Function.update s.2 idx (s.2 idx + 1) := by
  obtain ⟨d1, d2, d3⟩ := hD
  have hb : i < s.1.N_ + 1 ∧ j < s.1.M_ ∧ k < s.1.L_ := by rw [d1, d2, d3]; exact h
  have hb' : i' < s.1.N_ + 1 ∧ j' < s.1.M_ ∧ k' < s.1.L_ := by
    rw [d1, d2, d3]; exact h'
  unfold FLIP.extrapolate_u_step
  simp only [Mac3d.get_u, Mac3d.set_u, if_pos hb, if_pos hb', Option.some_bind,
    Option.map_some']
  refine ⟨_, rfl, ⟨d1, d2, d3⟩, ?_, rfl⟩
  simp only [Function.update_same]
  push_cast
  rfl

theorem extrapolate_u_face_inv (visited : ℕ → Bool) (N M L : ℕ) (f0 : ℕ → ℕ → ℕ → ℚ)
    (i j k : ℕ) (hi : i < N + 1) (hj : j < M) (hk : k < L) (s : Mac3d × (ℕ → ℕ))
    (hs : HasDims N M L s ∧ ExtrapolationInv visited (N + 1) M L f0
      (6 * cellIndex (N + 1) M i j k) s.1.pu_ s.2) :
    ∃ s', FLIP.extrapolate_u_face visited N M L i j k s = some s' ∧
      (HasDims N M L s' ∧ ExtrapolationInv visited (N + 1) M L f0
        (6 * (cellIndex (N + 1) M i j k + 1)) s'.1.pu_ s'.2) := by
  unfold FLIP.extrapolate_u_face
  by_cases hv : visited ((N + 1) * j + i + (N + 1) * M * k) = true
  · rw [if_pos hv]
    have hv' : visited (faceOffset (N + 1) M i j k) = true := hv
    obtain ⟨s1, e1, d1, r1⟩ :=
      propagation_statement (fun t => t.1.pu_) (fun t => t.2) (HasDims N M L) visited
        (N + 1) M L f0 i j k 0 (6 * cellIndex (N + 1) M i j k) hi hj hk (by omega) (by omega) hv'
        (i ≠ 0) (i - 1) j k ((N + 1) * j + (i - 1) + (N + 1) * M * k) (by simp [propagationTarget]) rfl
        (FLIP.extrapolate_u_step i j k (i - 1) j k ((N + 1) * j + (i - 1) + (N + 1) * M * k))
        (fun t hD h1 h2 h3 => extrapolate_u_step_effect N M L i j k (i - 1) j k _ t hD
          ⟨hi, hj, hk⟩ ⟨h1, h2, h3⟩) s hs.1 hs.2
    obtain ⟨s2, e2, d2, r2⟩ :=
      propagation_statement (fun t => t.1.pu_) (fun t => t.2) (HasDims N M L) visited
        (N + 1) M L f0 i j k 1 (6 * cellIndex (N + 1) M i j k + 1) hi hj hk (by omega) (by omega) hv'
        (j ≠ 0) i (j - 1) k ((N + 1) * (j - 1) + i + (N + 1) * M * k) (by simp [propagationTarget]) rfl
        (FLIP.extrapolate_u_step i j k i (j - 1) k ((N + 1) * (j - 1) + i + (N + 1) * M * k))
        (fun t hD h1 h2 h3 => extrapolate_u_step_effect N M L i j k i (j - 1) k _ t hD
          ⟨hi, hj, hk⟩ ⟨h1, h2, h3⟩) s1 d1 r1
    obtain ⟨s3, e3, d3, r3⟩ :=
      propagation_statement (fun t => t.1.pu_) (fun t => t.2) (HasDims N M L) visited
        (N + 1) M L f0 i j k 2 (6 * cellIndex (N + 1) M i j k + 1 + 1) hi hj hk (by omega) (by omega) hv'
        (k ≠ 0) i j (k - 1) ((N + 1) * j + i + (N + 1) * M * (k - 1)) (by simp [propagationTarget]) rfl
        (FLIP.extrapolate_u_step i j k i j (k - 1) ((N + 1) * j + i + (N + 1) * M * (k - 1)))
        (fun t hD h1 h2 h3 => extrapolate_u_step_effect N M L i j k i j (k - 1) _ t hD
          ⟨hi, hj, hk⟩ ⟨h1, h2, h3⟩) s2 d2 r2
    obtain ⟨s4, e4, d4, r4⟩ :=
      propagation_statement (fun t => t.1.pu_) (fun t => t.2) (HasDims N M L) visited
        (N + 1) M L f0 i j k 3 (6 * cellIndex (N + 1) M i j k + 1 + 1 + 1) hi hj hk (by omega) (by omega) hv'
        (i ≠ N) (i + 1) j k ((N + 1) * j + (i + 1) + (N + 1) * M * k) (by simp [propagationTarget]) rfl
        (FLIP.extrapolate_u_step i j k (i + 1) j k ((N + 1) * j + (i + 1) + (N + 1) * M * k))
        (fun t hD h1 h2 h3 => extrapolate_u_step_effect N M L i j k (i + 1) j k _ t hD
          ⟨hi, hj, hk⟩ ⟨h1, h2, h3⟩) s3 d3 r3
    obtain ⟨s5, e5, d5, r5⟩ :=
      propagation_statement (fun t => t.1.pu_) (fun t => t.2) (HasDims N M L) visited
        (N + 1) M L f0 i j k 4 (6 * cellIndex (N + 1) M i j k + 1 + 1 + 1 + 1) hi hj hk (by omega) (by omega) hv'
        (j ≠ M - 1) i (j + 1) k ((N + 1) * (j + 1) + i + (N + 1) * M * k) (by simp [propagationTarget]) rfl
        (FLIP.extrapolate_u_step i j k i (j + 1) k ((N + 1) * (j + 1) + i + (N + 1) * M * k))
        (fun t hD h1 h2 h3 => extrapolate_u_step_effect N M L i j k i (j + 1) k _ t hD
          ⟨hi, hj, hk⟩ ⟨h1, h2, h3⟩) s4 d4 r4
    obtain ⟨s6, e6, d6, r6⟩ :=
      propagation_statement (fun t => t.1.pu_) (fun t => t.2) (HasDims N M L) visited
        (N + 1) M L f0 i j k 5 (6 * cellIndex (N + 1) M i j k + 1 + 1 + 1 + 1 + 1) hi hj hk (by omega) (by omega) hv'
        (k ≠ L - 1) i j (k + 1) ((N + 1) * j + i + (N + 1) * M * (k + 1)) (by simp [propagationTarget]) rfl
        (FLIP.extrapolate_u_step i j k i j (k + 1) ((N + 1) * j + i + (N + 1) * M * (k + 1)))
        (fun t hD h1 h2 h3 => extrapolate_u_step_effect N M L i j k i j (k + 1) _ t hD
          ⟨hi, hj, hk⟩ ⟨h1, h2, h3⟩) s5 d5 r5
    refine ⟨s6, ?_, d6, ?_⟩
    · exact Option.bind_eq_some.2 ⟨s1, e1, Option.bind_eq_some.2 ⟨s2, e2,
        Option.bind_eq_some.2 ⟨s3, e3, Option.bind_eq_some.2 ⟨s4, e4,
          Option.bind_eq_some.2 ⟨s5, e5, e6⟩⟩⟩⟩⟩
    · have e : 6 * cellIndex (N + 1) M i j k + 1 + 1 + 1 + 1 + 1 + 1
          = 6 * (cellIndex (N + 1) M i j k + 1) := by omega
      rw [← e]
      exact r6
  · rw [if_neg hv]
    exact ⟨s, rfl, hs.1,
      extrapolationInv_unvisited visited (N + 1) M L f0 i j k hi hj hk _ _ hs.2 hv⟩

/-- The loop nest of `extrapolate_u` completes, and the field it leaves satisfies the
invariant after the last step. -/
theorem extrapolate_u_result (visited : ℕ → Bool) (g : Mac3d) :
    ∃ g', FLIP.extrapolate_u visited g = some g' ∧ ∃ counter : ℕ → ℕ,
      ExtrapolationInv visited (g.N_ + 1) g.M_ g.L_ g.pu_
        (6 * ((g.N_ + 1) * g.M_ * g.L_)) g'.pu_ counter := by
  obtain ⟨s', h1, _, h2⟩ := forLoop3_progress (g.N_ + 1) g.M_ g.L_
    (FLIP.extrapolate_u_face visited g.N_ g.M_ g.L_)
    (fun c (s : Mac3d × (ℕ → ℕ)) => HasDims g.N_ g.M_ g.L_ s ∧
      ExtrapolationInv visited (g.N_ + 1) g.M_ g.L_ g.pu_ (6 * c) s.1.pu_ s.2)
    (fun i j k hi hj hk s hs =>
      extrapolate_u_face_inv visited g.N_ g.M_ g.L_ g.pu_ i j k hi hj hk s hs)
    (g, fun _ => 0)
    ⟨⟨rfl, rfl, rfl⟩, extrapolationInv_init visited (g.N_ + 1) g.M_ g.L_ g.pu_⟩
  refine ⟨s'.1, ?_, s'.2, h2⟩
  unfold FLIP.extrapolate_u
  show (forLoop3 (g.N_ + 1) g.M_ g.L_ (FLIP.extrapolate_u_face visited g.N_ g.M_ g.L_)
    (g, fun _ => 0)).map (fun s => s.1) = some s'.1
  rw [h1]
  rfl

theorem extrapolate_v_step_effect (N M L i j k i' j' k' idx : ℕ) (s : Mac3d × (ℕ → ℕ))
    (hD : HasDims N M L s) (h : i < N ∧ j < M + 1 ∧ k < L)
    (h' : i' < N ∧ j' < M + 1 ∧ k' < L) :
    ∃ s', FLIP.extrapolate_v_step i j k i' j' k' idx s = some s' ∧ HasDims N M L s'
      ∧ s'.1.pv_ = write3 s.1.pv_ i' j' k'
          ((s.1.pv_ i' j' k' * (s.2 idx : ℚ) + s.1.pv_ i j k) / ((s.2 idx : ℚ) + 1))
      ∧ s'.2 = Function.update s.2 idx (s.2 idx + 1) := by
  obtain ⟨d1, d2, d3⟩ := hD
  have hb : i < s.1.N_ ∧ j < s.1.M_ + 1 ∧ k < s.1.L_ := by rw [d1, d2, d3]; exact h
  have hb' : i' < s.1.N_ ∧ j' < s.1.M_ + 1 ∧ k' < s.1.L_ := by
    rw [d1, d2, d3]; exact h'
  unfold FLIP.extrapolate_v_step
  simp only [Mac3d.get_v, Mac3d.set_v, if_pos hb, if_pos hb', Option.some_bind,
    Option.map_some']
  refine ⟨_, rfl, ⟨d1, d2, d3⟩, ?_, rfl⟩
  simp only [Function.update_same]
  push_cast
  rfl

theorem extrapolate_v_face_inv (visited : ℕ → Bool) (N M L : ℕ) (f0 : ℕ → ℕ → ℕ → ℚ)
    (i j k : ℕ) (hi : i < N) (hj : j < M + 1) (hk : k < L) (s : Mac3d × (ℕ → ℕ))
    (hs : HasDims N M L s ∧ ExtrapolationInv visited N (M + 1) L f0
      (6 * cellIndex N (M + 1) i j k) s.1.pv_ s.2) :
    ∃ s', FLIP.extrapolate_v_face visited N M L i j k s = some s' ∧
      (HasDims N M L s' ∧ ExtrapolationInv visited N (M + 1) L f0
        (6 * (cellIndex N (M + 1) i j k + 1)) s'.1.pv_ s'.2) := by
  unfold FLIP.extrapolate_v_face
  by_cases hv : visited (N * j + i + N * (M + 1) * k) = true
  · rw [if_pos hv]
    have hv' : visited (faceOffset N (M + 1) i j k) = true := hv
    obtain ⟨s1, e1, d1, r1⟩ :=
      propagation_statement (fun t => t.1.pv_) (fun t => t.2) (HasDims N M L) visited
        N (M + 1) L f0 i j k 0 (6 * cellIndex N (M + 1) i j k) hi hj hk (by omega) (by omega) hv'
        (i ≠ 0) (i - 1) j k (N * j + (i - 1) + N * (M + 1) * k) (by simp [propagationTarget]) rfl
        (FLIP.extrapolate_v_step i j k (i - 1) j k (N * j + (i - 1) + N * (M + 1) * k))
        (fun t hD h1 h2 h3 => extrapolate_v_step_effect N M L i j k (i - 1) j k _ t hD
          ⟨hi, hj, hk⟩ ⟨h1, h2, h3⟩) s hs.1 hs.2
    obtain ⟨s2, e2, d2, r2⟩ :=
      propagation_statement (fun t => t.1.pv_) (fun t => t.2) (HasDims N M L) visited
        N (M + 1) L f0 i j k 1 (6 * cellIndex N (M + 1) i j k + 1) hi hj hk (by omega) (by omega) hv'
        (j ≠ 0) i (j - 1) k (N * (j - 1) + i + N * (M + 1) * k) (by simp [propagationTarget]) rfl
        (FLIP.extrapolate_v_step i j k i (j - 1) k (N * (j - 1) + i + N * (M + 1) * k))
        (fun t hD h1 h2 h3 => extrapolate_v_step_effect N M L i j k i (j - 1) k _ t hD
          ⟨hi, hj, hk⟩ ⟨h1, h2, h3⟩) s1 d1 r1
    obtain ⟨s3, e3, d3, r3⟩ :=
      propagation_statement (fun t => t.1.pv_) (fun t => t.2) (HasDims N M L) visited
        N (M + 1) L f0 i j k 2 (6 * cellIndex N (M + 1) i j k + 1 + 1) hi hj hk (by omega) (by omega) hv'
        (k ≠ 0) i j (k - 1) (N * j + i + N * (M + 1) * (k - 1)) (by simp [propagationTarget]) rfl
        (FLIP.extrapolate_v_step i j k i j (k - 1) (N * j + i + N * (M + 1) * (k - 1)))
        (fun t hD h1 h2 h3 => extrapolate_v_step_effect N M L i j k i j (k - 1) _ t hD
          ⟨hi, hj, hk⟩ ⟨h1, h2, h3⟩) s2 d2 r2
    obtain ⟨s4, e4, d4, r4⟩ :=
      propagation_statement (fun t => t.1.pv_) (fun t => t.2) (HasDims N M L) visited
        N (M + 1) L f0 i j k 3 (6 * cellIndex N (M + 1) i j k + 1 + 1 + 1) hi hj hk (by omega) (by omega) hv'
        (i ≠ N - 1) (i + 1) j k (N * j + (i + 1) + N * (M + 1) * k) (by simp [propagationTarget]) rfl
        (FLIP.extrapolate_v_step i j k (i + 1) j k (N * j + (i + 1) + N * (M + 1) * k))
        (fun t hD h1 h2 h3 => extrapolate_v_step_effect N M L i j k (i + 1) j k _ t hD
          ⟨hi, hj, hk⟩ ⟨h1, h2, h3⟩) s3 d3 r3
    obtain ⟨s5, e5, d5, r5⟩ :=
      propagation_statement (fun t => t.1.pv_) (fun t => t.2) (HasDims N M L) visited
        N (M + 1) L f0 i j k 4 (6 * cellIndex N (M + 1) i j k + 1 + 1 + 1 + 1) hi hj hk (by omega) (by omega) hv'
        (j ≠ M) i (j + 1) k (N * (j + 1) + i + N * (M + 1) * k) (by simp [propagationTarget]) rfl
        (FLIP.extrapolate_v_step i j k i (j + 1) k (N * (j + 1) + i + N * (M + 1) * k))
        (fun t hD h1 h2 h3 => extrapolate_v_step_effect N M L i j k i (j + 1) k _ t hD
          ⟨hi, hj, hk⟩ ⟨h1, h2, h3⟩) s4 d4 r4
    obtain ⟨s6, e6, d6, r6⟩ :=
      propagation_statement (fun t => t.1.pv_) (fun t => t.2) (HasDims N M L) visited
        N (M + 1) L f0 i j k 5 (6 * cellIndex N (M + 1) i j k + 1 + 1 + 1 + 1 + 1) hi hj hk (by omega) (by omega) hv'
        (k ≠ L - 1) i j (k + 1) (N * j + i + N * (M + 1) * (k + 1)) (by simp [propagationTarget]) rfl
        (FLIP.extrapolate_v_step i j k i j (k + 1) (N * j + i + N * (M + 1) * (k + 1)))
        (fun t hD h1 h2 h3 => extrapolate_v_step_effect N M L i j k i j (k + 1) _ t hD
          ⟨hi, hj, hk⟩ ⟨h1, h2, h3⟩) s5 d5 r5
    refine ⟨s6, ?_, d6, ?_⟩
    · exact Option.bind_eq_some.2 ⟨s1, e1, Option.bind_eq_some.2 ⟨s2, e2,
        Option.bind_eq_some.2 ⟨s3, e3, Option.bind_eq_some.2 ⟨s4, e4,
          Option.bind_eq_some.2 ⟨s5, e5, e6⟩⟩⟩⟩⟩
    · have e : 6 * cellIndex N (M + 1) i j k + 1 + 1 + 1 + 1 + 1 + 1
          = 6 * (cellIndex N (M + 1) i j k + 1) := by omega
      rw [← e]
      exact r6
  · rw [if_neg hv]
    exact ⟨s, rfl, hs.1,
      extrapolationInv_unvisited visited N (M + 1) L f0 i j k hi hj hk _ _ hs.2 hv⟩

/-- The loop nest of `extrapolate_v` completes, and the field it leaves satisfies the
invariant after the last step. -/
theorem extrapolate_v_result (visited : ℕ → Bool) (g : Mac3d) :
    ∃ g', FLIP.extrapolate_v visited g = some g' ∧ ∃ counter : ℕ → ℕ,
      ExtrapolationInv visited g.N_ (g.M_ + 1) g.L_ g.pv_
        (6 * (g.N_ * (g.M_ + 1) * g.L_)) g'.pv_ counter := by
  obtain ⟨s', h1, _, h2⟩ := forLoop3_progress g.N_ (g.M_ + 1) g.L_
    (FLIP.extrapolate_v_face visited g.N_ g.M_ g.L_)
    (fun c (s : Mac3d × (ℕ → ℕ)) => HasDims g.N_ g.M_ g.L_ s ∧
      ExtrapolationInv visited g.N_ (g.M_ + 1) g.L_ g.pv_ (6 * c) s.1.pv_ s.2)
    (fun i j k hi hj hk s hs =>
      extrapolate_v_face_inv visited g.N_ g.M_ g.L_ g.pv_ i j k hi hj hk s hs)
    (g, fun _ => 0)
    ⟨⟨rfl, rfl, rfl⟩, extrapolationInv_init visited g.N_ (g.M_ + 1) g.L_ g.pv_⟩
  refine ⟨s'.1, ?_, s'.2, h2⟩
  unfold FLIP.extrapolate_v
  show (forLoop3 g.N_ (g.M_ + 1) g.L_ (FLIP.extrapolate_v_face visited g.N_ g.M_ g.L_)
    (g, fun _ => 0)).map (fun s => s.1) = some s'.1
  rw [h1]
  rfl

theorem extrapolate_w_step_effect (N M L i j k i' j' k' idx : ℕ) (s : Mac3d × (ℕ → ℕ))
    (hD : HasDims N M L s) (h : i < N ∧ j < M ∧ k < L + 1)
    (h' : i' < N ∧ j' < M ∧ k' < L + 1) :
    ∃ s', FLIP.extrapolate_w_step i j k i' j' k' idx s = some s' ∧ HasDims N M L s'
      ∧ s'.1.pw_ = write3 s.1.pw_ i' j' k'
          ((s.1.pw_ i' j' k' * (s.2 idx : ℚ) + s.1.pw_ i j k) / ((s.2 idx : ℚ) + 1))
      ∧ s'.2 = Function.update s.2 idx (s.2 idx + 1) := by
  obtain ⟨d1, d2, d3⟩ := hD
  have hb : i < s.1.N_ ∧ j < s.1.M_ ∧ k < s.1.L_ + 1 := by rw [d1, d2, d3]; exact h
  have hb' : i' < s.1.N_ ∧ j' < s.1.M_ ∧ k' < s.1.L_ + 1 := by
    rw [d1, d2, d3]; exact h'
  unfold FLIP.extrapolate_w_step
  simp only [Mac3d.get_w, Mac3d.set_w, if_pos hb, if_pos hb', Option.some_bind,
    Option.map_some']
  refine ⟨_, rfl, ⟨d1, d2, d3⟩, ?_, rfl⟩
  simp only [Function.update_same]
  push_cast
  rfl

theorem extrapolate_w_face_inv (visited : ℕ → Bool) (N M L : ℕ) (f0 : ℕ → ℕ → ℕ → ℚ)
    (i j k : ℕ) (hi : i < N) (hj : j < M) (hk : k < L + 1) (s : Mac3d × (ℕ → ℕ))
    (hs : HasDims N M L s ∧ ExtrapolationInv visited N M (L + 1) f0
      (6 * cellIndex N M i j k) s.1.pw_ s.2) :
    ∃ s', FLIP.extrapolate_w_face visited N M L i j k s = some s' ∧
      (HasDims N M L s' ∧ ExtrapolationInv visited N M (L + 1) f0
        (6 * (cellIndex N M i j k + 1)) s'.1.pw_ s'.2) := by
  unfold FLIP.extrapolate_w_face
  by_cases hv : visited (N * j + i + N * M * k) = true
  · rw [if_pos hv]
    have hv' : visited (faceOffset N M i j k) = true := hv
    obtain ⟨s1, e1, d1, r1⟩ :=
      propagation_statement (fun t => t.1.pw_) (fun t => t.2) (HasDims N M L) visited
        N M (L + 1) f0 i j k 0 (6 * cellIndex N M i j k) hi hj hk (by omega) (by omega) hv'
        (i ≠ 0) (i - 1) j k (N * j + (i - 1) + N * M * k) (by simp [propagationTarget]) rfl
        (FLIP.extrapolate_w_step i j k (i - 1) j k (N * j + (i - 1) + N * M * k))
        (fun t hD h1 h2 h3 => extrapolate_w_step_effect N M L i j k (i - 1) j k _ t hD
          ⟨hi, hj, hk⟩ ⟨h1, h2, h3⟩) s hs.1 hs.2
    obtain ⟨s2, e2, d2, r2⟩ :=
      propagation_statement (fun t => t.1.pw_) (fun t => t.2) (HasDims N M L) visited
        N M (L + 1) f0 i j k 1 (6 * cellIndex N M i j k + 1) hi hj hk (by omega) (by omega) hv'
        (j ≠ 0) i (j - 1) k (N * (j - 1) + i + N * M * k) (by simp [propagationTarget]) rfl
        (FLIP.extrapolate_w_step i j k i (j - 1) k (N * (j - 1) + i + N * M * k))
        (fun t hD h1 h2 h3 => extrapolate_w_step_effect N M L i j k i (j - 1) k _ t hD
          ⟨hi, hj, hk⟩ ⟨h1, h2, h3⟩) s1 d1 r1
    obtain ⟨s3, e3, d3, r3⟩ :=
      propagation_statement (fun t => t.1.pw_) (fun t => t.2) (HasDims N M L) visited
        N M (L + 1) f0 i j k 2 (6 * cellIndex N M i j k + 1 + 1) hi hj hk (by omega) (by omega) hv'
        (k ≠ 0) i j (k - 1) (N * j + i + N * M * (k - 1)) (by simp [propagationTarget]) rfl
        (FLIP.extrapolate_w_step i j k i j (k - 1) (N * j + i + N * M * (k - 1)))
        (fun t hD h1 h2 h3 => extrapolate_w_step_effect N M L i j k i j (k - 1) _ t hD
          ⟨hi, hj, hk⟩ ⟨h1, h2, h3⟩) s2 d2 r2
    obtain ⟨s4, e4, d4, r4⟩ :=
      propagation_statement (fun t => t.1.pw_) (fun t => t.2) (HasDims N M L) visited
        N M (L + 1) f0 i j k 3 (6 * cellIndex N M i j k + 1 + 1 + 1) hi hj hk (by omega) (by omega) hv'
        (i ≠ N - 1) (i + 1) j k (N * j + (i + 1) + N * M * k) (by simp [propagationTarget]) rfl
        (FLIP.extrapolate_w_step i j k (i + 1) j k (N * j + (i + 1) + N * M * k))
        (fun t hD h1 h2 h3 => extrapolate_w_step_effect N M L i j k (i + 1) j k _ t hD
          ⟨hi, hj, hk⟩ ⟨h1, h2, h3⟩) s3 d3 r3
    obtain ⟨s5, e5, d5, r5⟩ :=
      propagation_statement (fun t => t.1.pw_) (fun t => t.2) (HasDims N M L) visited
        N M (L + 1) f0 i j k 4 (6 * cellIndex N M i j k + 1 + 1 + 1 + 1) hi hj hk (by omega) (by omega) hv'
        (j ≠ M - 1) i (j + 1) k (N * (j + 1) + i + N * M * k) (by simp [propagationTarget]) rfl
        (FLIP.extrapolate_w_step i j k i (j + 1) k (N * (j + 1) + i + N * M * k))
        (fun t hD h1 h2 h3 => extrapolate_w_step_effect N M L i j k i (j + 1) k _ t hD
          ⟨hi, hj, hk⟩ ⟨h1, h2, h3⟩) s4 d4 r4
    obtain ⟨s6, e6, d6, r6⟩ :=
      propagation_statement (fun t => t.1.pw_) (fun t => t.2) (HasDims N M L) visited
        N M (L + 1) f0 i j k 5 (6 * cellIndex N M i j k + 1 + 1 + 1 + 1 + 1) hi hj hk (by omega) (by omega) hv'
        (k ≠ L) i j (k + 1) (N * j + i + N * M * (k + 1)) (by simp [propagationTarget]) rfl
        (FLIP.extrapolate_w_step i j k i j (k + 1) (N * j + i + N * M * (k + 1)))
        (fun t hD h1 h2 h3 => extrapolate_w_step_effect N M L i j k i j (k + 1) _ t hD
          ⟨hi, hj, hk⟩ ⟨h1, h2, h3⟩) s5 d5 r5
    refine ⟨s6, ?_, d6, ?_⟩
    · exact Option.bind_eq_some.2 ⟨s1, e1, Option.bind_eq_some.2 ⟨s2, e2,
        Option.bind_eq_some.2 ⟨s3, e3, Option.bind_eq_some.2 ⟨s4, e4,
          Option.bind_eq_some.2 ⟨s5, e5, e6⟩⟩⟩⟩⟩
    · have e : 6 * cellIndex N M i j k + 1 + 1 + 1 + 1 + 1 + 1
          = 6 * (cellIndex N M i j k + 1) := by omega
      rw [← e]
      exact r6
  · rw [if_neg hv]
    exact ⟨s, rfl, hs.1,
      extrapolationInv_unvisited visited N M (L + 1) f0 i j k hi hj hk _ _ hs.2 hv⟩

/-- The loop nest of `extrapolate_w` completes, and the field it leaves satisfies the
invariant after the last step. -/
theorem extrapolate_w_result (visited : ℕ → Bool) (g : Mac3d) :
    ∃ g', FLIP.extrapolate_w visited g = some g' ∧ ∃ counter : ℕ → ℕ,
      ExtrapolationInv visited g.N_ g.M_ (g.L_ + 1) g.pw_
        (6 * (g.N_ * g.M_ * (g.L_ + 1))) g'.pw_ counter := by
  obtain ⟨s', h1, _, h2⟩ := forLoop3_progress g.N_ g.M_ (g.L_ + 1)
    (FLIP.extrapolate_w_face visited g.N_ g.M_ g.L_)
    (fun c (s : Mac3d × (ℕ → ℕ)) => HasDims g.N_ g.M_ g.L_ s ∧
      ExtrapolationInv visited g.N_ g.M_ (g.L_ + 1) g.pw_ (6 * c) s.1.pw_ s.2)
    (fun i j k hi hj hk s hs =>
      extrapolate_w_face_inv visited g.N_ g.M_ g.L_ g.pw_ i j k hi hj hk s hs)
    (g, fun _ => 0)
    ⟨⟨rfl, rfl, rfl⟩, extrapolationInv_init visited g.N_ g.M_ (g.L_ + 1) g.pw_⟩
  refine ⟨s'.1, ?_, s'.2, h2⟩
  unfold FLIP.extrapolate_w
  show (forLoop3 g.N_ g.M_ (g.L_ + 1) (FLIP.extrapolate_w_face visited g.N_ g.M_ g.L_)
    (g, fun _ => 0)).map (fun s => s.1) = some s'.1
  rw [h1]
  rfl

theorem visitedNeighbours_mem (visited : ℕ → Bool) (nx ny nz a b e : ℕ) (ha : a < nx)
    (hb : b < ny) (he : e < nz) (n : ℕ × ℕ × ℕ)
    (h : n ∈ visitedNeighbours visited nx ny nz a b e) :
    (n.1 < nx ∧ n.2.1 < ny ∧ n.2.2 < nz) ∧ visited (faceOffset nx ny n.1 n.2.1 n.2.2) = true := by
  unfold visitedNeighbours at h
  rw [List.mem_filter] at h
  refine ⟨?_, h.2⟩
  have h1 := h.1
  unfold axisNeighbours at h1
  simp only [List.mem_append] at h1
  rcases h1 with ((((h1 | h1) | h1) | h1) | h1) | h1 <;>
    (split at h1
     · rw [List.mem_singleton] at h1
       subst h1
       simp only
       omega
     · exact absurd h1 (List.not_mem_nil _))

theorem faceMean_congr (val val' : ℕ → ℕ → ℕ → ℚ) (faces : List (ℕ × ℕ × ℕ))
    (h : ∀ n ∈ faces, val n.1 n.2.1 n.2.2 = val' n.1 n.2.1 n.2.2) :
    faceMean val faces = faceMean val' faces := by
  unfold faceMean
  rw [List.map_congr_left h]

/-- What the invariant after the last step gives for the field `f` left by an
extrapolation of `f0`. -/
theorem extrapolationInv_outcome (visited : ℕ → Bool) (nx ny nz : ℕ) (f0 f : ℕ → ℕ → ℕ → ℚ)
    (counter : ℕ → ℕ)
    (hInv : ExtrapolationInv visited nx ny nz f0 (6 * (nx * ny * nz)) f counter)
    (a b e : ℕ) (ha : a < nx) (hb : b < ny) (he : e < nz)
    (hu : visited (faceOffset nx ny a b e) = false) :
    (visitedNeighbours visited nx ny nz a b e ≠ [] →
      f a b e = faceMean f0 (visitedNeighbours visited nx ny nz a b e)
      ∧ f a b e = faceMean f (visitedNeighbours visited nx ny nz a b e))
    ∧ (visitedNeighbours visited nx ny nz a b e = [] → f a b e = f0 a b e) := by
  obtain ⟨h1, h2⟩ := extrapolationInv_final visited nx ny nz f0 f counter hInv a b e ha hb he hu
  refine ⟨fun hne => ⟨h1 hne, ?_⟩, h2⟩
  rw [h1 hne]
  refine (faceMean_congr f f0 _ (fun n hn => ?_)).symm
  obtain ⟨hin, hvis⟩ := visitedNeighbours_mem visited nx ny nz a b e ha hb he n hn
  exact hInv.kept n.1 n.2.1 n.2.2 hin.1 hin.2.1 hin.2.2 hvis

/-- Claim C28, the extrapolation never overwrites a directly accumulated value: each of
`extrapolate_u`, `extrapolate_v`, `extrapolate_w` completes, and every face of its field
whose flag in `visited` is set (the flag of the face `(i, j, k)` sits at the offset
`nx*j + i + nx*ny*k` of the field's shape) has the same value after the call as before. -/
theorem extrapolate_keeps_visited (visited_u visited_v visited_w : ℕ → Bool) (g : Mac3d) :
    (∃ g', FLIP.extrapolate_u visited_u g = some g' ∧
      ∀ i j k, i < g.N_ + 1 → j < g.M_ → k < g.L_ →
        visited_u (faceOffset (g.N_ + 1) g.M_ i j k) = true → g'.pu_ i j k = g.pu_ i j k)
    ∧ (∃ g', FLIP.extrapolate_v visited_v g = some g' ∧
      ∀ i j k, i < g.N_ → j < g.M_ + 1 → k < g.L_ →
        visited_v (faceOffset g.N_ (g.M_ + 1) i j k) = true → g'.pv_ i j k = g.pv_ i j k)
    ∧ (∃ g', FLIP.extrapolate_w visited_w g = some g' ∧
      ∀ i j k, i < g.N_ → j < g.M_ → k < g.L_ + 1 →
        visited_w (faceOffset g.N_ g.M_ i j k) = true → g'.pw_ i j k = g.pw_ i j k) := by
  refine ⟨?_, ?_, ?_⟩
  · obtain ⟨g', e, counter, hInv⟩ := extrapolate_u_result visited_u g
    exact ⟨g', e, hInv.kept⟩
  · obtain ⟨g', e, counter, hInv⟩ := extrapolate_v_result visited_v g
    exact ⟨g', e, hInv.kept⟩
  · obtain ⟨g', e, counter, hInv⟩ := extrapolate_w_result visited_w g
    exact ⟨g', e, hInv.kept⟩

/-- Claim C28 on the 2×1×1 grid with only the first face visited: the three calls
complete and leave `u(0,0,0) = 6`, `v(0,0,0) = 3`, `w(0,0,0) = 7` as they were. -/
theorem extrapolate_keeps_visited_witness :
    (∃ g', FLIP.extrapolate_u firstFaceVisited stripGrid = some g' ∧ g'.pu_ 0 0 0 = 6)
    ∧ (∃ g', FLIP.extrapolate_v firstFaceVisited stripGrid = some g' ∧ g'.pv_ 0 0 0 = 3)
    ∧ (∃ g', FLIP.extrapolate_w firstFaceVisited stripGrid = some g' ∧ g'.pw_ 0 0 0 = 7) := by
  obtain ⟨⟨gu, eu, hu⟩, ⟨gv, ev, hv⟩, ⟨gw, ew, hw⟩⟩ :=
    extrapolate_keeps_visited firstFaceVisited firstFaceVisited firstFaceVisited stripGrid
  refine ⟨⟨gu, eu, ?_⟩, ⟨gv, ev, ?_⟩, ⟨gw, ew, ?_⟩⟩
  · rw [hu 0 0 0 (by decide) (by decide) (by decide) (by decide)]
    simp [stripGrid]
  · rw [hv 0 0 0 (by decide) (by decide) (by decide) (by decide)]
    simp [stripGrid]
  · rw [hw 0 0 0 (by decide) (by decide) (by decide) (by decide)]
    simp [stripGrid]

/-- Claim C29, the result of the extrapolation in exact arithmetic: each of
`extrapolate_u` (on the shape `(N+1)×M×L`), `extrapolate_v` (`N×(M+1)×L`) and
`extrapolate_w` (`N×M×(L+1)`) completes; an unvisited face with at least one visited
axis-aligned neighbour within the shape ends with the arithmetic mean of the values of
those neighbours (their values before the call, which are their values after it),
whatever it held before; an unvisited face without a visited neighbour keeps its value. -/
theorem extrapolate_mean (visited_u visited_v visited_w : ℕ → Bool) (g : Mac3d) :
    (∃ g', FLIP.extrapolate_u visited_u g = some g' ∧
      ∀ i j k, i < g.N_ + 1 → j < g.M_ → k < g.L_ →
        visited_u (faceOffset (g.N_ + 1) g.M_ i j k) = false →
        (visitedNeighbours visited_u (g.N_ + 1) g.M_ g.L_ i j k ≠ [] →
          g'.pu_ i j k = faceMean g.pu_ (visitedNeighbours visited_u (g.N_ + 1) g.M_ g.L_ i j k)
          ∧ g'.pu_ i j k
            = faceMean g'.pu_ (visitedNeighbours visited_u (g.N_ + 1) g.M_ g.L_ i j k))
        ∧ (visitedNeighbours visited_u (g.N_ + 1) g.M_ g.L_ i j k = [] →
          g'.pu_ i j k = g.pu_ i j k))
    ∧ (∃ g', FLIP.extrapolate_v visited_v g = some g' ∧
      ∀ i j k, i < g.N_ → j < g.M_ + 1 → k < g.L_ →
        visited_v (faceOffset g.N_ (g.M_ + 1) i j k) = false →
        (visitedNeighbours visited_v g.N_ (g.M_ + 1) g.L_ i j k ≠ [] →
          g'.pv_ i j k = faceMean g.pv_ (visitedNeighbours visited_v g.N_ (g.M_ + 1) g.L_ i j k)
          ∧ g'.pv_ i j k
            = faceMean g'.pv_ (visitedNeighbours visited_v g.N_ (g.M_ + 1) g.L_ i j k))
        ∧ (visitedNeighbours visited_v g.N_ (g.M_ + 1) g.L_ i j k = [] →
          g'.pv_ i j k = g.pv_ i j k))
    ∧ (∃ g', FLIP.extrapolate_w visited_w g = some g' ∧
      ∀ i j k, i < g.N_ → j < g.M_ → k < g.L_ + 1 →
        visited_w (faceOffset g.N_ g.M_ i j k) = false →
        (visitedNeighbours visited_w g.N_ g.M_ (g.L_ + 1) i j k ≠ [] →
          g'.pw_ i j k = faceMean g.pw_ (visitedNeighbours visited_w g.N_ g.M_ (g.L_ + 1) i j k)
          ∧ g'.pw_ i j k
            = faceMean g'.pw_ (visitedNeighbours visited_w g.N_ g.M_ (g.L_ + 1) i j k))
        ∧ (visitedNeighbours visited_w g.N_ g.M_ (g.L_ + 1) i j k = [] →
          g'.pw_ i j k = g.pw_ i j k)) := by
  refine ⟨?_, ?_, ?_⟩
  · obtain ⟨g', e, counter, hInv⟩ := extrapolate_u_result visited_u g
    exact ⟨g', e, fun i j k hi hj hk hu =>
      extrapolationInv_outcome visited_u _ _ _ _ _ counter hInv i j k hi hj hk hu⟩
  · obtain ⟨g', e, counter, hInv⟩ := extrapolate_v_result visited_v g
    exact ⟨g', e, fun i j k hi hj hk hu =>
      extrapolationInv_outcome visited_v _ _ _ _ _ counter hInv i j k hi hj hk hu⟩
  · obtain ⟨g', e, counter, hInv⟩ := extrapolate_w_result visited_w g
    exact ⟨g', e, fun i j k hi hj hk hu =>
      extrapolationInv_outcome visited_w _ _ _ _ _ counter hInv i j k hi hj hk hu⟩

theorem stripGrid_neighbours :
    visitedNeighbours firstFaceVisited 3 1 1 1 0 0 = [(0, 0, 0)]
    ∧ visitedNeighbours firstFaceVisited 3 1 1 2 0 0 = []
    ∧ visitedNeighbours firstFaceVisited 2 2 1 0 1 0 = [(0, 0, 0)]
    ∧ visitedNeighbours firstFaceVisited 2 2 1 1 1 0 = []
    ∧ visitedNeighbours firstFaceVisited 2 1 2 0 0 1 = [(0, 0, 0)]
    ∧ visitedNeighbours firstFaceVisited 2 1 2 1 0 1 = [] := by
  decide

/-- Claim C29 on the 2×1×1 grid with only the first face visited: `u(1,0,0)` (which held
100) becomes `u(0,0,0) = 6`, the mean of its one visited neighbour, and `u(2,0,0)`, whose
only neighbour `u(1,0,0)` is not visited, keeps 2; likewise `v(0,1,0)` becomes 3 and
`v(1,1,0)` keeps 6, `w(0,0,1)` becomes 7 and `w(1,0,1)` keeps 10. -/
theorem extrapolate_mean_witness :
    (∃ g', FLIP.extrapolate_u firstFaceVisited stripGrid = some g'
      ∧ g'.pu_ 1 0 0 = 6 ∧ g'.pu_ 2 0 0 = 2)
    ∧ (∃ g', FLIP.extrapolate_v firstFaceVisited stripGrid = some g'
      ∧ g'.pv_ 0 1 0 = 3 ∧ g'.pv_ 1 1 0 = 6)
    ∧ (∃ g', FLIP.extrapolate_w firstFaceVisited stripGrid = some g'
      ∧ g'.pw_ 0 0 1 = 7 ∧ g'.pw_ 1 0 1 = 10) := by
  obtain ⟨⟨gu, eu, hu⟩, ⟨gv, ev, hv⟩, ⟨gw, ew, hw⟩⟩ :=
    extrapolate_mean firstFaceVisited firstFaceVisited firstFaceVisited stripGrid
  obtain ⟨n1, n2, n3, n4, n5, n6⟩ := stripGrid_neighbours
  refine ⟨⟨gu, eu, ?_, ?_⟩, ⟨gv, ev, ?_, ?_⟩, ⟨gw, ew, ?_, ?_⟩⟩
  · have h := ((hu 1 0 0 (by decide) (by decide) (by decide) (by decide)).1
      (by rw [show stripGrid.N_ + 1 = 3 from rfl, show stripGrid.M_ = 1 from rfl,
        show stripGrid.L_ = 1 from rfl, n1]; simp)).1
    rw [h, show stripGrid.N_ + 1 = 3 from rfl, show stripGrid.M_ = 1 from rfl,
      show stripGrid.L_ = 1 from rfl, n1]
    simp [faceMean, stripGrid]
  · have h := (hu 2 0 0 (by decide) (by decide) (by decide) (by decide)).2 n2
    rw [h]
    simp [stripGrid]
  · have h := ((hv 0 1 0 (by decide) (by decide) (by decide) (by decide)).1
      (by rw [show stripGrid.N_ = 2 from rfl, show stripGrid.M_ + 1 = 2 from rfl,
        show stripGrid.L_ = 1 from rfl, n3]; simp)).1
    rw [h, show stripGrid.N_ = 2 from rfl, show stripGrid.M_ + 1 = 2 from rfl,
      show stripGrid.L_ = 1 from rfl, n3]
    simp [faceMean, stripGrid]
  · have h := (hv 1 1 0 (by decide) (by decide) (by decide) (by decide)).2 n4
    rw [h]
    simp [stripGrid]
    norm_num
  · have h := ((hw 0 0 1 (by decide) (by decide) (by decide) (by decide)).1
      (by rw [show stripGrid.N_ = 2 from rfl, show stripGrid.M_ = 1 from rfl,
        show stripGrid.L_ + 1 = 2 from rfl, n5]; simp)).1
    rw [h, show stripGrid.N_ = 2 from rfl, show stripGrid.M_ = 1 from rfl,
      show stripGrid.L_ + 1 = 2 from rfl, n5]
    simp [faceMean, stripGrid]
  · have h := (hw 1 0 1 (by decide) (by decide) (by decide) (by decide)).2 n6
    rw [h]
    simp [stripGrid]
    norm_num

/-! ## Right-hand side on the states the program reaches, FLIP consistency in double: claims C10, C38 -/

theorem roundHalfEven_of (m : ℚ) (f : ℤ) (h1 : (f : ℚ) ≤ m) (h2 : m < f + 1 / 2) :
    roundHalfEven m = f := by
  have hf : ⌊m⌋ = f := by
    rw [Int.floor_eq_iff]
    exact ⟨h1, by linarith⟩
  unfold roundHalfEven
  simp only [hf]
  rw [if_pos (by linarith)]

theorem binary64_zero : binary64 0 = 0 := by
  unfold binary64
  rw [if_pos rfl]

theorem binary64_of_log (x : ℚ) (e f : ℤ) (hx : x ≠ 0) (he : Int.log 2 |x| = e)
    (h1 : (f : ℚ) ≤ x / 2 ^ (e - 52)) (h2 : x / 2 ^ (e - 52) < f + 1 / 2) :
    binary64 x = f * 2 ^ (e - 52) := by
  unfold binary64
  rw [if_neg hx]
  simp only [he]
  rw [roundHalfEven_of _ f h1 h2]

theorem binary64_one : binary64 1 = 1 := by
  rw [binary64_of_log 1 0 (2 ^ 52) (by norm_num) (by rw [abs_one]; exact Int.log_one_right 2)
    (by norm_num) (by norm_num)]
  norm_num

theorem binary64_tiny : binary64 (1 / 2 ^ 60) = 1 / 2 ^ 60 := by
  have hl : Int.log 2 |(1 / 2 ^ 60 : ℚ)| = -60 := by
    rw [abs_of_pos (by positivity)]
    have e : (1 / 2 ^ 60 : ℚ) = ((2 : ℕ) : ℚ) ^ (-60 : ℤ) := by norm_num
    rw [e]
    exact Int.log_zpow (by norm_num) (-60)
  rw [binary64_of_log (1 / 2 ^ 60) (-60) (2 ^ 52) (by positivity) hl (by norm_num)
    (by norm_num)]
  norm_num

theorem binary64_absorbs : binary64 (1 / 2 ^ 60 + 1) = 1 := by
  have hl : Int.log 2 |(1 / 2 ^ 60 + 1 : ℚ)| = 0 := by
    rw [abs_of_pos (by positivity), Int.log_of_one_le_right _ (by norm_num)]
    have hfl : ⌊(1 / 2 ^ 60 + 1 : ℚ)⌋₊ = 1 := by
      rw [Nat.floor_eq_iff (by positivity)]
      norm_num
    rw [hfl]
    simp
  rw [binary64_of_log (1 / 2 ^ 60 + 1) 0 (2 ^ 52) (by positivity) hl (by norm_num)
    (by norm_num)]
  norm_num

theorem update_binary64_alpha_zero (v s : ℚ) (hv : binary64 v = v) (hs : binary64 s = s) :
    FLIP.update_binary64 1 v s s = FLIP.round_trip v s := by
  unfold FLIP.update_binary64 FLIP.round_trip
  rw [mul_one, mul_one, hv, hs]

theorem round_trip_exact (v n : ℚ) (hv : binary64 v = v) (h : binary64 (v + n) = v + n) :
    FLIP.round_trip v n = v := by
  unfold FLIP.round_trip
  rw [h, add_sub_cancel_right, hv]

theorem blend_scale_zero (b : Bool) :
    (if b = true then binary64 (1 - min 1 (binary64 (2 * 0))) else binary64 (1 - 0))
      = (1 : ℚ) := by
  have h0 : binary64 (2 * 0) = 0 := by rw [mul_zero]; exact binary64_zero
  have hmin : min (1 : ℚ) 0 = 0 := by norm_num
  rw [h0, hmin, sub_zero, binary64_one]
  split <;> rfl

/-- What the body in `double` does to one particle when `α = 0`. -/
theorem grid_to_particle_body_binary64_spec (I : Interpolation) (g : Mac3d)
    (p p' : Particle) (h : FLIP.grid_to_particle_body_binary64 I g 0 p = some p') :
    ∃ s n, I.velocity g p.position true = some s ∧ I.velocity g p.position false = some n ∧
      p' = { p with velocity :=
        ⟨FLIP.update_binary64 1 p.velocity.x s.x n.x, FLIP.update_binary64 1 p.velocity.y s.y n.y,
          FLIP.update_binary64 1 p.velocity.z s.z n.z⟩ } := by
  simp only [FLIP.grid_to_particle_body_binary64, Particle.get_position, Particle.get_velocity,
    Option.bind_eq_some] at h
  obtain ⟨idx, hidx, su, hsu, nu, hnu, sv, hsv, nv, hnv, sw, hsw, nw, hnw, hp'⟩ := h
  refine ⟨⟨su, sv, sw⟩, ⟨nu, nv, nw⟩, ?_, ?_, ?_⟩
  · simp only [Interpolation.velocity, hsu, hsv, hsw, Option.some_bind, Option.map_some']
  · simp only [Interpolation.velocity, hnu, hnv, hnw, Option.some_bind, Option.map_some']
  · simp only [Option.some.injEq] at hp'
    rw [← hp', blend_scale_zero]
    rfl

/-- The body in `double` changes the velocity only. -/
theorem grid_to_particle_body_binary64_position (I : Interpolation) (g : Mac3d) (alpha : ℚ)
    (p p' : Particle) (h : FLIP.grid_to_particle_body_binary64 I g alpha p = some p') :
    p'.position = p.position ∧ p'.prev_position = p.prev_position := by
  simp only [FLIP.grid_to_particle_body_binary64, Particle.get_position, Particle.get_velocity,
    Option.bind_eq_some] at h
  obtain ⟨idx, hidx, su, hsu, nu, hnu, sv, hsv, nv, hnv, sw, hsw, nw, hnw, hp'⟩ := h
  simp only [Option.some.injEq] at hp'
  rw [← hp']
  exact ⟨rfl, rfl⟩

theorem grid_to_particle_body_binary64_isSome (I : Interpolation) (g : Mac3d) (alpha : ℚ)
    (p : Particle)
    (h1 : (g.index_from_coord p.position.x p.position.y p.position.z).isSome = true)
    (h2 : (I.velocity g p.position true).isSome = true)
    (h3 : (I.velocity g p.position false).isSome = true) :
    ∃ p', FLIP.grid_to_particle_body_binary64 I g alpha p = some p' := by
  obtain ⟨idx, hidx⟩ := Option.isSome_iff_exists.mp h1
  obtain ⟨su, sv, sw, hsu, hsv, hsw⟩ := interp_velocity_isSome I g _ _ h2
  obtain ⟨nu, nv, nw, hnu, hnv, hnw⟩ := interp_velocity_isSome I g _ _ h3
  simp only [FLIP.grid_to_particle_body_binary64, Particle.get_position, hidx,
    Option.some_bind, hsu, hnu, hsv, hnv, hsw, hnw]
  exact ⟨_, rfl⟩

theorem int_log_two (x : ℚ) (e : ℤ) (hx : 0 < x) (h1 : (2 : ℚ) ^ e ≤ x)
    (h2 : x < (2 : ℚ) ^ (e + 1)) : Int.log 2 |x| = e := by
  rw [abs_of_pos hx]
  have a1 : e ≤ Int.log 2 x := by
    rw [← Int.zpow_le_iff_le_log (by norm_num) hx]
    exact_mod_cast h1
  have a2 : Int.log 2 x < e + 1 := by
    rw [← Int.lt_zpow_iff_log_lt (by norm_num) hx]
    exact_mod_cast h2
  omega

theorem binary64_three : binary64 3 = 3 := by
  rw [binary64_of_log 3 1 (3 * 2 ^ 51) (by norm_num)
    (int_log_two 3 1 (by norm_num) (by norm_num) (by norm_num)) (by norm_num) (by norm_num)]
  norm_num

theorem binary64_four : binary64 4 = 4 := by
  rw [binary64_of_log 4 2 (2 ^ 52) (by norm_num)
    (int_log_two 4 2 (by norm_num) (by norm_num) (by norm_num)) (by norm_num) (by norm_num)]
  norm_num

theorem binary64_seven : binary64 7 = 7 := by
  rw [binary64_of_log 7 2 (7 * 2 ^ 50) (by norm_num)
    (int_log_two 7 2 (by norm_num) (by norm_num) (by norm_num)) (by norm_num) (by norm_num)]
  norm_num

theorem grid_to_particle_binary64_completes (I : Interpolation) (f : FLIP)
    (h : ∀ p, p ∈ f.particles_ →
      (f.MACGrid_.index_from_coord p.position.x p.position.y p.position.z).isSome = true ∧
      (I.velocity f.MACGrid_ p.position true).isSome = true ∧
      (I.velocity f.MACGrid_ p.position false).isSome = true) :
    ∃ f', f.grid_to_particle_binary64 I = some f' := by
  obtain ⟨ps', hps'⟩ := forParticles_isSome
    (FLIP.grid_to_particle_body_binary64 I f.MACGrid_ f.alpha_) f.particles_
    (fun p hp => grid_to_particle_body_binary64_isSome I f.MACGrid_ f.alpha_ p (h p hp).1
      (h p hp).2.1 (h p hp).2.2)
  exact ⟨{ f with particles_ := ps' },
    by simp only [FLIP.grid_to_particle_binary64, hps', Option.map_some']⟩

/-- C38 (amended). FLIP consistency of `grid_to_particle`, in exact arithmetic and in
`double`. The call completes when `index_from_coord` and the interpolations succeed at
every particle, and it never changes a position.
In exact arithmetic: with `α = 0`, if at every particle the interpolated current velocity
equals the interpolated star velocity, every particle is left exactly as it was, in
boundary and interior cells alike.
In `double`, as the code computes: with `α = 0`, for a particle at which both
interpolations give `s`, each component `v` of the velocity becomes
`fl(fl(v + s) - s)`; the particle is left as it was when the three sums `v + s` are
doubles, and not in general. -/
theorem grid_to_particle_flip_consistency (I : Interpolation) (f : FLIP) :
    (((∀ p, p ∈ f.particles_ →
        (f.MACGrid_.index_from_coord p.position.x p.position.y p.position.z).isSome = true ∧
        (I.velocity f.MACGrid_ p.position true).isSome = true ∧
        (I.velocity f.MACGrid_ p.position false).isSome = true) →
      ∃ f', f.grid_to_particle I = some f') ∧
    ∀ f', f.grid_to_particle I = some f' →
      (∀ (n : ℕ) (p : Particle), f.particles_[n]? = some p →
        ∃ p', f'.particles_[n]? = some p' ∧ p'.position = p.position) ∧
      (f.alpha_ = 0 →
        (∀ p, p ∈ f.particles_ →
          I.velocity f.MACGrid_ p.position false = I.velocity f.MACGrid_ p.position true) →
        ∀ (n : ℕ) (p : Particle), f.particles_[n]? = some p → f'.particles_[n]? = some p))
    ∧ (((∀ p, p ∈ f.particles_ →
        (f.MACGrid_.index_from_coord p.position.x p.position.y p.position.z).isSome = true ∧
        (I.velocity f.MACGrid_ p.position true).isSome = true ∧
        (I.velocity f.MACGrid_ p.position false).isSome = true) →
      ∃ f', f.grid_to_particle_binary64 I = some f') ∧
    ∀ f', f.grid_to_particle_binary64 I = some f' →
      ∀ (n : ℕ) (p : Particle), f.particles_[n]? = some p →
        ∃ p', f'.particles_[n]? = some p' ∧ p'.position = p.position ∧
          (f.alpha_ = 0 → ∀ s : Vector3d,
            I.velocity f.MACGrid_ p.position true = some s →
            I.velocity f.MACGrid_ p.position false = some s →
            p.velocity.isBinary64 → s.isBinary64 →
            p'.velocity = ⟨FLIP.round_trip p.velocity.x s.x, FLIP.round_trip p.velocity.y s.y,
              FLIP.round_trip p.velocity.z s.z⟩ ∧
            (binary64 (p.velocity.x + s.x) = p.velocity.x + s.x ∧
              binary64 (p.velocity.y + s.y) = p.velocity.y + s.y ∧
              binary64 (p.velocity.z + s.z) = p.velocity.z + s.z → p' = p))) := by
  refine ⟨grid_to_particle_exact_consistency I f,
    grid_to_particle_binary64_completes I f, fun f' h n p hp => ?_⟩
  simp only [FLIP.grid_to_particle_binary64, Option.map_eq_some'] at h
  obtain ⟨ps', hps', rfl⟩ := h
  obtain ⟨p', h1, h2⟩ := forParticles_get _ _ _ hps' n p hp
  obtain ⟨hpos, hprev⟩ := grid_to_particle_body_binary64_position I _ _ p p' h2
  refine ⟨p', h1, hpos, fun hα s hs hn hv hsb => ?_⟩
  rw [hα] at h2
  obtain ⟨s', n', hs', hn', hp'⟩ := grid_to_particle_body_binary64_spec I _ p p' h2
  rw [hs] at hs'
  rw [hn] at hn'
  have e1 : s' = s := (Option.some.inj hs').symm
  have e2 : n' = s := (Option.some.inj hn').symm
  rw [e1, e2] at hp'
  have hvel : p'.velocity = ⟨FLIP.round_trip p.velocity.x s.x,
      FLIP.round_trip p.velocity.y s.y, FLIP.round_trip p.velocity.z s.z⟩ := by
    rw [hp']
    show (⟨_, _, _⟩ : Vector3d) = _
    rw [update_binary64_alpha_zero _ _ hv.1 hsb.1, update_binary64_alpha_zero _ _ hv.2.1 hsb.2.1,
      update_binary64_alpha_zero _ _ hv.2.2 hsb.2.2]
  refine ⟨hvel, fun hex => ?_⟩
  rw [hp', update_binary64_alpha_zero _ _ hv.1 hsb.1,
    update_binary64_alpha_zero _ _ hv.2.1 hsb.2.1,
    update_binary64_alpha_zero _ _ hv.2.2 hsb.2.2, round_trip_exact _ _ hv.1 hex.1,
    round_trip_exact _ _ hv.2.1 hex.2.1, round_trip_exact _ _ hv.2.2 hex.2.2]

/-- On `pureFLIP` (`α = 0`) with star and current field both interpolating to 3: in exact
arithmetic the call completes and both particles (interior cell and corner cell, velocity
`(4, 0, 0)`) are left as they were; in `double` the call completes and the first particle
is left as it was too, the sums `4 + 3` and `0 + 3` being doubles. -/
theorem grid_to_particle_flip_consistency_witness :
    (∃ f', pureFLIP.grid_to_particle (constInterpolation 3 3) = some f' ∧
      f'.particles_[0]? = some ⟨⟨1, 1, 1⟩, ⟨1, 1, 1⟩, ⟨4, 0, 0⟩⟩ ∧
      f'.particles_[1]? = some ⟨⟨0, 0, 0⟩, ⟨0, 0, 0⟩, ⟨4, 0, 0⟩⟩)
    ∧ (∃ f', pureFLIP.grid_to_particle_binary64 (constInterpolation 3 3) = some f' ∧
      f'.particles_[0]? = some ⟨⟨1, 1, 1⟩, ⟨1, 1, 1⟩, ⟨4, 0, 0⟩⟩) := by
  have hprem : ∀ p, p ∈ pureFLIP.particles_ →
      (pureFLIP.MACGrid_.index_from_coord p.position.x p.position.y p.position.z).isSome = true ∧
      ((constInterpolation 3 3).velocity pureFLIP.MACGrid_ p.position true).isSome = true ∧
      ((constInterpolation 3 3).velocity pureFLIP.MACGrid_ p.position false).isSome = true := by
    intro p hp
    have hp' : p = ⟨⟨1, 1, 1⟩, ⟨1, 1, 1⟩, ⟨4, 0, 0⟩⟩ ∨ p = ⟨⟨0, 0, 0⟩, ⟨0, 0, 0⟩, ⟨4, 0, 0⟩⟩ := by
      simpa [pureFLIP, blendFLIP] using hp
    have hg : pureFLIP.MACGrid_ = crossGrid := rfl
    rw [hg]
    rcases hp' with e | e <;> subst e
    · exact ⟨by rw [crossGrid_index_centre]; rfl, rfl, rfl⟩
    · exact ⟨by rw [crossGrid_index_corner]; rfl, rfl, rfl⟩
  obtain ⟨hexact, hdouble⟩ := grid_to_particle_flip_consistency (constInterpolation 3 3) pureFLIP
  constructor
  · obtain ⟨f', hf'⟩ := hexact.1 hprem
    have h := (hexact.2 f' hf').2 rfl (fun _ _ => rfl)
    exact ⟨f', hf', h 0 _ rfl, h 1 _ rfl⟩
  · obtain ⟨f', hf'⟩ := hdouble.1 hprem
    obtain ⟨p', h1, _, h3⟩ := hdouble.2 f' hf' 0 ⟨⟨1, 1, 1⟩, ⟨1, 1, 1⟩, ⟨4, 0, 0⟩⟩ rfl
    have h4 := (h3 rfl ⟨3, 3, 3⟩ rfl rfl ⟨binary64_four, binary64_zero, binary64_zero⟩
      ⟨binary64_three, binary64_three, binary64_three⟩).2
      ⟨by norm_num [binary64_seven], by norm_num [binary64_three],
        by norm_num [binary64_three]⟩
    rw [h4] at h1
    exact ⟨f', hf', h1⟩

/-- C38 (counterexample to the claim as worded, in the arithmetic of the code). With
`α = 0`, star and current field both interpolating to 1 and a particle in the interior cell
`(1, 1, 1)` whose velocity is `(2^-60, 0, 0)` (a double, as 1 is): in `double` the sum
`2^-60 + 1` rounds to 1, so the call leaves the velocity `(0, 0, 0)`, not `(2^-60, 0, 0)`;
in exact arithmetic the same call leaves the particle as it was. -/
theorem grid_to_particle_flip_consistency_counterexample :
    binary64 (1 / 2 ^ 60) = 1 / 2 ^ 60 ∧ binary64 1 = 1 ∧ binary64 (1 / 2 ^ 60 + 1) = 1 ∧
    tinyFLIP.alpha_ = 0 ∧
    tinyFLIP.particles_ = [⟨⟨1, 1, 1⟩, ⟨1, 1, 1⟩, ⟨1 / 2 ^ 60, 0, 0⟩⟩] ∧
    (∃ f', tinyFLIP.grid_to_particle_binary64 (constInterpolation 1 1) = some f' ∧
      f'.particles_ = [⟨⟨1, 1, 1⟩, ⟨1, 1, 1⟩, ⟨0, 0, 0⟩⟩]) ∧
    (∃ f', tinyFLIP.grid_to_particle (constInterpolation 1 1) = some f' ∧
      f'.particles_ = [⟨⟨1, 1, 1⟩, ⟨1, 1, 1⟩, ⟨1 / 2 ^ 60, 0, 0⟩⟩]) ∧
    (1 / 2 ^ 60 : ℚ) ≠ 0 := by
  have hb : FLIP.on_boundary crossGrid.get_num_cells_x crossGrid.get_num_cells_y
      crossGrid.get_num_cells_z (1, 1, 1) = false := by decide
  have hbody : FLIP.grid_to_particle_body_binary64 (constInterpolation 1 1) crossGrid 0
      ⟨⟨1, 1, 1⟩, ⟨1, 1, 1⟩, ⟨1 / 2 ^ 60, 0, 0⟩⟩ = some ⟨⟨1, 1, 1⟩, ⟨1, 1, 1⟩, ⟨0, 0, 0⟩⟩ := by
    simp only [FLIP.grid_to_particle_body_binary64, Particle.get_position,
      Particle.get_velocity, crossGrid_index_centre, constInterpolation, Option.some_bind, hb,
      Bool.false_eq_true, if_false, if_true, sub_zero, binary64_one, FLIP.update_binary64,
      mul_one, binary64_tiny, binary64_absorbs, sub_self, binary64_zero, zero_add,
      Particle.set_velocity]
  have hbody' : FLIP.grid_to_particle_body (constInterpolation 1 1) crossGrid 0
      ⟨⟨1, 1, 1⟩, ⟨1, 1, 1⟩, ⟨1 / 2 ^ 60, 0, 0⟩⟩
        = some ⟨⟨1, 1, 1⟩, ⟨1, 1, 1⟩, ⟨1 / 2 ^ 60, 0, 0⟩⟩ := by
    simp only [FLIP.grid_to_particle_body, Particle.get_position,
      Particle.get_velocity, crossGrid_index_centre, constInterpolation, Option.some_bind, hb,
      Bool.false_eq_true, if_false, if_true, sub_zero, Vector3d.scale, Vector3d.add,
      Vector3d.sub, mul_one, Particle.set_velocity]
    norm_num
  refine ⟨binary64_tiny, binary64_one, binary64_absorbs, rfl, rfl,
    ⟨{ tinyFLIP with particles_ := [⟨⟨1, 1, 1⟩, ⟨1, 1, 1⟩, ⟨0, 0, 0⟩⟩] }, ?_, rfl⟩,
    ⟨{ tinyFLIP with particles_ := [⟨⟨1, 1, 1⟩, ⟨1, 1, 1⟩, ⟨1 / 2 ^ 60, 0, 0⟩⟩] }, ?_, rfl⟩,
    by positivity⟩
  · show (forParticles (FLIP.grid_to_particle_body_binary64 (constInterpolation 1 1) crossGrid 0)
      [⟨⟨1, 1, 1⟩, ⟨1, 1, 1⟩, ⟨1 / 2 ^ 60, 0, 0⟩⟩]).map _ = _
    simp only [forParticles, hbody, Option.some_bind, Option.map_some']
  · show (forParticles (FLIP.grid_to_particle_body (constInterpolation 1 1) crossGrid 0)
      [⟨⟨1, 1, 1⟩, ⟨1, 1, 1⟩, ⟨1 / 2 ^ 60, 0, 0⟩⟩]).map _ = _
    simp only [forParticles, hbody', Option.some_bind, Option.map_some']

end WaterSim
